import Mathlib

/-!
# Lambert W, principal branch: a verification development of `lambert.go`

The program computes with `float64`.  Its three functions are embedded once,
generically over an interpretation `Arith F` of the floating-point operations
they use (literals, `+ - * /`, unary minus, `math.Abs`, `math.Max`,
`math.Sqrt`, `math.Exp`, `math.Log`, `<`, `==`).  A theorem stated for every
`Arith F` therefore holds for IEEE-754 binary64 with Go's `math` package as
well as for exact arithmetic; a fact about the arithmetic that a theorem needs
is an explicit hypothesis of it.  Four interpretations are given for
concrete evaluation: exact real arithmetic (`realArith`), any arithmetic with
a NaN adjoined (`withNaN`), the reals extended by NaN and the two infinities
(`extArith`), and binary64 itself, `extArith` with every result rounded
(`f64ArithWith`, and `f64Arith` with correctly rounded `math.Exp` and
`math.Log`).
-/

namespace Lambert

/-- The floating-point operations used by `lambert.go`, each taken singly as
the source writes it (no fused multiply-add).  `lit` converts a decimal
literal or constant expression of the source (a rational number) to a value;
`lt a b` is `a < b` (the source's `a > b` is `lt b a`) and `eq a b` is
`a == b`. -/
structure Arith (F : Type) where
  lit : ℚ → F
  add : F → F → F
  sub : F → F → F
  mul : F → F → F
  div : F → F → F
  neg : F → F
  abs : F → F
  max : F → F → F
  sqrt : F → F
  exp : F → F
  log : F → F
  lt : F → F → Bool
  eq : F → F → Bool

/-- The constant `math.E` of Go's standard library (`math/const.go`). -/
def mathE : ℚ := 2.71828182845904523536028747135266249775724709369995957496696763

/-- Source line 7: `var gslDblEpsilon = 2.2204460492503131e-16`. -/
def gslDblEpsilon {F : Type} (A : Arith F) : F := A.lit 2.2204460492503131e-16

/-- Source line 8: `var oneOverE = 1 / math.E`; the quotient is a constant
expression, evaluated exactly and then converted. -/
def oneOverE {F : Type} (A : Arith F) : F := A.lit (1 / mathE)

/-- Source lines 10-15: the record returned by both entry points. -/
structure result (F : Type) where
  Val : F
  err : F
  iters : Int
  success : Bool

/-- The three values one pass through the loop body of `halleyInteration`
leaves behind: the correction `t`, the updated iterate `w` and the tolerance
`tol`. -/
structure Step (F : Type) where
  t : F
  w : F
  tol : F

/-- Source lines 28-42: one pass through the loop body, from the iterate `w`. -/
def halleyStep {F : Type} (A : Arith F) (x w : F) : Step F :=
  let e := A.exp w
  let p := A.add w (A.lit 1)
  let t := A.sub (A.mul w e) x
  let t :=
    if A.lt (A.lit 0) w then
      A.div (A.div t p) e
    else
      A.div t (A.sub (A.mul e p) (A.div (A.mul (A.mul (A.lit 0.5) (A.add p (A.lit 1))) t) p))
  let w := A.sub w t
  let tol := A.mul (gslDblEpsilon A) (A.max (A.abs w) (A.div (A.lit 1) (A.mul (A.abs p) e)))
  { t := t, w := w, tol := tol }

/-- Source lines 24-58: the loop `for i = 1; i <= maxIters; i++` with `n`
passes still to run, loop counter `i` and iterate `w`.  With no pass left the
code after the loop runs (lines 53-58), which stores the loop counter as it
stands. -/
def halleyLoop {F : Type} (A : Arith F) (x : F) : Nat → Int → F → result F
  | 0, i, w => { Val := w, err := A.abs w, iters := i, success := true }
  | n + 1, i, w =>
    let s := halleyStep A x w
    if A.lt (A.abs s.t) s.tol then
      { Val := s.w, err := A.mul (A.lit 2) s.tol, iters := i, success := true }
    else
      halleyLoop A x n (i + 1) s.w

/-- Source lines 17-59.  The loop starts at `i = 1` and makes at most
`maxIters` passes (none when `maxIters < 1`); the counter stays far below the
range of a 64-bit `int` for the only caller, which passes 100. -/
def halleyInteration {F : Type} (A : Arith F) (x wInitial : F) (maxIters : Int) : result F :=
  halleyLoop A x maxIters.toNat 1 wInitial

/-- Source lines 61-80: the series in `r = sqrt(q)` near the branch point. -/
def seriesEval {F : Type} (A : Arith F) (r : F) : F :=
  let c0 := A.lit (-1)
  let c1 := A.lit 2.331643981597124203363536062168
  let c2 := A.lit (-1.812187885639363490240191647568)
  let c3 := A.lit 1.936631114492359755363277457668
  let c4 := A.lit (-2.353551201881614516821543561516)
  let c5 := A.lit 3.066858901050631912893148922704
  let c6 := A.lit (-4.175335600258177138854984177460)
  let c7 := A.lit 5.858023729874774148815053846119
  let c8 := A.lit (-8.401032217523977370984161688514)
  let c9 := A.lit 12.250753501314460424
  let c10 := A.lit (-18.100697012472442755)
  let c11 := A.lit 27.029044799010561650
  let t8 := A.add c8 (A.mul r (A.add c9 (A.mul r (A.add c10 (A.mul r c11)))))
  let t5 := A.add c5 (A.mul r (A.add c6 (A.mul r (A.add c7 (A.mul r t8)))))
  let t1 := A.add c1 (A.mul r (A.add c2 (A.mul r (A.add c3 (A.mul r (A.add c4 (A.mul r t5)))))))
  A.add c0 (A.mul r t1)

/-- Source lines 118-131: the initial approximation handed to the refiner. -/
def initialGuess {F : Type} (A : Arith F) (x q : F) : F :=
  if A.lt x (A.lit 1) then
    let p := A.sqrt (A.mul (A.lit (2 * mathE)) q)
    A.add (A.lit (-1))
      (A.mul p (A.add (A.lit 1)
        (A.mul p (A.add (A.lit (-1 / 3)) (A.div (A.mul p (A.lit 11)) (A.lit 72))))))
  else
    let w := A.log x
    if A.lt (A.lit 3) x then A.sub w (A.log w) else w

/-- Source lines 84-133.  The record `r := result{}` starts as all zeros, so
the three direct exits leave `iters` at 0. -/
def GslSfLambertW0E {F : Type} (A : Arith F) (x : F) : result F :=
  let q := A.add x (oneOverE A)
  if A.eq x (A.lit 0) then
    { Val := A.lit 0, err := A.lit 0, iters := 0, success := true }
  else if A.lt q (A.lit 0) then
    { Val := A.lit (-1), err := A.sqrt (A.neg q), iters := 0, success := false }
  else if A.lt q (A.lit 1.0e-03) then
    let root := A.sqrt q
    let v := seriesEval A root
    { Val := v, err := A.mul (A.mul (A.lit 2) (gslDblEpsilon A)) (A.abs v),
      iters := 0, success := true }
  else
    halleyInteration A x (initialGuess A x q) 100

/-- Exact real arithmetic: every operation is the mathematical one, without
rounding, overflow or NaN. -/
noncomputable def realArith : Arith ℝ where
  lit q := (q : ℝ)
  add a b := a + b
  sub a b := a - b
  mul a b := a * b
  div a b := a / b
  neg a := -a
  abs a := |a|
  max a b := Max.max a b
  sqrt := Real.sqrt
  exp := Real.exp
  log := Real.log
  lt a b := decide (a < b)
  eq a b := decide (a = b)

/-- An arithmetic with a NaN adjoined (`none`): as in IEEE-754, an operation
with a NaN operand yields NaN and a comparison with a NaN operand is false. -/
def withNaN {F : Type} (A : Arith F) : Arith (Option F) where
  lit q := some (A.lit q)
  add a b := a.bind fun u => b.map fun v => A.add u v
  sub a b := a.bind fun u => b.map fun v => A.sub u v
  mul a b := a.bind fun u => b.map fun v => A.mul u v
  div a b := a.bind fun u => b.map fun v => A.div u v
  neg a := a.map A.neg
  abs a := a.map A.abs
  max a b := a.bind fun u => b.map fun v => A.max u v
  sqrt a := a.map A.sqrt
  exp a := a.map A.exp
  log a := a.map A.log
  lt a b := match a, b with
    | some u, some v => A.lt u v
    | _, _ => false
  eq a b := match a, b with
    | some u, some v => A.eq u v
    | _, _ => false

/-- The iterate after `k` passes through the loop body, from `w`. -/
def halleyIterate {F : Type} (A : Arith F) (x : F) : Nat → F → F
  | 0, w => w
  | k + 1, w => halleyIterate A x k (halleyStep A x w).w

/-- The test `a >= 0`, from the two comparisons of the arithmetic: `0 < a` or
`a == 0`. -/
def Arith.nonneg {F : Type} (A : Arith F) (a : F) : Bool :=
  A.lt (A.lit 0) a || A.eq a (A.lit 0)

/-- Sign laws of an arithmetic, each valid for IEEE-754 binary64 (NaN and the
infinities included) and for exact arithmetic: an absolute value is never
below zero, nor is a product of two values that are not below zero, nor a
literal that is not negative, nor a value above one that is not below zero. -/
structure Arith.SignLaws {F : Type} (A : Arith F) : Prop where
  abs_not_neg : ∀ a, A.lt (A.abs a) (A.lit 0) = false
  mul_not_neg : ∀ a b, A.lt a (A.lit 0) = false → A.lt b (A.lit 0) = false →
    A.lt (A.mul a b) (A.lit 0) = false
  lit_not_neg : ∀ c : ℚ, 0 ≤ c → A.lt (A.lit c) (A.lit 0) = false
  lt_not_neg : ∀ a b, A.lt a b = true → A.lt a (A.lit 0) = false →
    A.lt b (A.lit 0) = false

/-- The test `a >= b`, from the two comparisons of the arithmetic: `b < a` or
`a == b`. -/
def Arith.ge {F : Type} (A : Arith F) (a b : F) : Bool :=
  A.lt b a || A.eq a b

/-- Source lines 62-74: the coefficient table `c[0] .. c[11]` of `seriesEval`. -/
def seriesCoeff : Nat → ℚ
  | 0 => -1.0
  | 1 => 2.331643981597124203363536062168
  | 2 => -1.812187885639363490240191647568
  | 3 => 1.936631114492359755363277457668
  | 4 => -2.353551201881614516821543561516
  | 5 => 3.066858901050631912893148922704
  | 6 => -4.175335600258177138854984177460
  | 7 => 5.858023729874774148815053846119
  | 8 => -8.401032217523977370984161688514
  | 9 => 12.250753501314460424
  | 10 => -18.100697012472442755
  | 11 => 27.029044799010561650
  | _ => 0

/-- The polynomial of degree 11 as the specification words it: the sum of
`c[k] * r^k` over `k = 0 .. 11`, over the reals. -/
noncomputable def seriesPoly (r : ℝ) : ℝ :=
  ∑ k in Finset.range 12, (seriesCoeff k : ℝ) * r ^ k

/-- The correction `t` of one refinement step as the specification words it,
over the reals: the Newton form when `w > 0`, the Halley form otherwise. -/
noncomputable def specCorrection (x w : ℝ) : ℝ :=
  if 0 < w then
    ((w * Real.exp w - x) / (w + 1)) / Real.exp w
  else
    (w * Real.exp w - x) /
      (Real.exp w * (w + 1) - 0.5 * (w + 2) * (w * Real.exp w - x) / (w + 1))

/-- The reals extended by the special values of IEEE-754: NaN and the two
infinities. -/
inductive Ext : Type
  | nan : Ext
  | ninf : Ext
  | fin (r : ℝ) : Ext
  | pinf : Ext

/-- The infinity an operation yields by the sign of a real operand `a`:
`pos` when `a > 0`, `neg` when `a < 0`, NaN when `a = 0`. -/
noncomputable def Ext.bySign (a : ℝ) (pos neg : Ext) : Ext :=
  if a = 0 then Ext.nan else if 0 < a then pos else neg

/-- Addition on the extended reals: NaN is absorbing, opposite infinities
give NaN, an infinity absorbs a finite value. -/
noncomputable def Ext.add : Ext → Ext → Ext
  | .nan, _ => .nan
  | _, .nan => .nan
  | .pinf, .ninf => .nan
  | .ninf, .pinf => .nan
  | .pinf, _ => .pinf
  | _, .pinf => .pinf
  | .ninf, _ => .ninf
  | _, .ninf => .ninf
  | .fin a, .fin b => .fin (a + b)

/-- Negation on the extended reals. -/
noncomputable def Ext.neg : Ext → Ext
  | .nan => .nan
  | .ninf => .pinf
  | .pinf => .ninf
  | .fin a => .fin (-a)

/-- Multiplication on the extended reals: zero times an infinity is NaN. -/
noncomputable def Ext.mul : Ext → Ext → Ext
  | .nan, _ => .nan
  | _, .nan => .nan
  | .fin a, .fin b => .fin (a * b)
  | .fin a, .pinf => Ext.bySign a .pinf .ninf
  | .fin a, .ninf => Ext.bySign a .ninf .pinf
  | .pinf, .fin b => Ext.bySign b .pinf .ninf
  | .ninf, .fin b => Ext.bySign b .ninf .pinf
  | .pinf, .pinf => .pinf
  | .ninf, .ninf => .pinf
  | .pinf, .ninf => .ninf
  | .ninf, .pinf => .ninf

/-- Division on the extended reals: a finite value over an infinity is zero,
an infinity over an infinity and zero over zero are NaN, a nonzero value over
zero is an infinity (zero counted as positive). -/
noncomputable def Ext.div : Ext → Ext → Ext
  | .nan, _ => .nan
  | _, .nan => .nan
  | .fin a, .fin b => if b = 0 then Ext.bySign a .pinf .ninf else .fin (a / b)
  | .fin _, .pinf => .fin 0
  | .fin _, .ninf => .fin 0
  | .pinf, .fin b => if 0 ≤ b then .pinf else .ninf
  | .ninf, .fin b => if 0 ≤ b then .ninf else .pinf
  | .pinf, .pinf => .nan
  | .pinf, .ninf => .nan
  | .ninf, .pinf => .nan
  | .ninf, .ninf => .nan

/-- The function `math.Abs` on the extended reals. -/
noncomputable def Ext.abs : Ext → Ext
  | .nan => .nan
  | .ninf => .pinf
  | .pinf => .pinf
  | .fin a => .fin |a|

/-- The function `math.Max` on the extended reals: `+Inf` wins over
everything, then NaN over the rest. -/
noncomputable def Ext.max : Ext → Ext → Ext
  | .pinf, _ => .pinf
  | _, .pinf => .pinf
  | .nan, _ => .nan
  | _, .nan => .nan
  | .ninf, b => b
  | a, .ninf => a
  | .fin a, .fin b => .fin (Max.max a b)

/-- The function `math.Sqrt` on the extended reals: NaN below zero. -/
noncomputable def Ext.sqrt : Ext → Ext
  | .nan => .nan
  | .ninf => .nan
  | .pinf => .pinf
  | .fin a => if a < 0 then .nan else .fin (Real.sqrt a)

/-- The function `math.Exp` on the extended reals. -/
noncomputable def Ext.exp : Ext → Ext
  | .nan => .nan
  | .ninf => .fin 0
  | .pinf => .pinf
  | .fin a => .fin (Real.exp a)

/-- The function `math.Log` on the extended reals: NaN below zero, `-Inf` at
zero, `+Inf` at `+Inf`. -/
noncomputable def Ext.log : Ext → Ext
  | .nan => .nan
  | .ninf => .nan
  | .pinf => .pinf
  | .fin a => if a < 0 then .nan else if a = 0 then .ninf else .fin (Real.log a)

/-- The comparison `a < b` on the extended reals: false with a NaN operand. -/
noncomputable def Ext.lt : Ext → Ext → Bool
  | .nan, _ => false
  | _, .nan => false
  | .ninf, .ninf => false
  | .ninf, _ => true
  | .fin _, .ninf => false
  | .fin a, .fin b => decide (a < b)
  | .fin _, .pinf => true
  | .pinf, _ => false

/-- The comparison `a == b` on the extended reals: false with a NaN operand. -/
noncomputable def Ext.eq : Ext → Ext → Bool
  | .ninf, .ninf => true
  | .pinf, .pinf => true
  | .fin a, .fin b => decide (a = b)
  | _, _ => false

/-- Exact real arithmetic extended by the special values of IEEE-754, with
the rules of IEEE-754 and of Go's `math` package for them; finite values do
not round or overflow and zero has no sign. -/
noncomputable def extArith : Arith Ext where
  lit q := Ext.fin (q : ℝ)
  add := Ext.add
  sub a b := Ext.add a (Ext.neg b)
  mul := Ext.mul
  div := Ext.div
  neg := Ext.neg
  abs := Ext.abs
  max := Ext.max
  sqrt := Ext.sqrt
  exp := Ext.exp
  log := Ext.log
  lt := Ext.lt
  eq := Ext.eq

/-- Rounding of a real to the nearest integer, a tie going to the even one. -/
noncomputable def roundEven (t : ℝ) : ℤ :=
  if t - ⌊t⌋ < 1 / 2 then ⌊t⌋
  else if 1 / 2 < t - ⌊t⌋ then ⌊t⌋ + 1
  else if Even ⌊t⌋ then ⌊t⌋ else ⌊t⌋ + 1

/-- The exponent of the binade of a real in binary64: `floor(log2 |y|)`, and
`-1022` for every value below the normal range. -/
noncomputable def binade (y : ℝ) : ℤ := Max.max (Int.log 2 |y|) (-1022)

/-- Rounding of a real to binary64 as IEEE-754 does it by default: to the
nearest multiple of `2^(binade - 52)`, a tie going to the even multiple
(`roundEven`), and to an infinity when that multiple reaches `2^1024`. -/
noncomputable def round64 (y : ℝ) : Ext :=
  if (2 : ℝ) ^ (1024 : ℤ) ≤
      |(roundEven (y / (2 : ℝ) ^ (binade y - 52)) : ℝ) * (2 : ℝ) ^ (binade y - 52)| then
    (if 0 < y then Ext.pinf else Ext.ninf)
  else
    Ext.fin ((roundEven (y / (2 : ℝ) ^ (binade y - 52)) : ℝ) * (2 : ℝ) ^ (binade y - 52))

/-- Rounding of an extended real: a finite value is rounded to binary64, a
special value stays. -/
noncomputable def Ext.round : Ext → Ext
  | .fin r => round64 r
  | a => a

/-- The function `math.Exp` on the extended reals, for an implementation that
computes the real function `fexp` on finite arguments. -/
noncomputable def Ext.expWith (fexp : ℝ → ℝ) : Ext → Ext
  | .nan => .nan
  | .ninf => .fin 0
  | .pinf => .pinf
  | .fin a => .fin (fexp a)

/-- The function `math.Log` on the extended reals, for an implementation that
computes the real function `flog` on finite arguments above zero. -/
noncomputable def Ext.logWith (flog : ℝ → ℝ) : Ext → Ext
  | .nan => .nan
  | .ninf => .nan
  | .pinf => .pinf
  | .fin a => if a < 0 then .nan else if a = 0 then .ninf else .fin (flog a)

/-- The arithmetic of binary64: every operation is the exact one of `extArith`
followed by the rounding `round64` (negation, `math.Abs` and `math.Max` need
none), each operation rounded singly.  Zero has no sign.  `math.Sqrt` is
correctly rounded, as IEEE-754 requires; `math.Exp` and `math.Log` are the
functions `fexp` and `flog` followed by the rounding, so that a theorem for
every accurate `fexp` and `flog` covers an implementation that is not
correctly rounded. -/
noncomputable def f64ArithWith (fexp flog : ℝ → ℝ) : Arith Ext where
  lit q := round64 (q : ℝ)
  add a b := (Ext.add a b).round
  sub a b := (Ext.add a (Ext.neg b)).round
  mul a b := (Ext.mul a b).round
  div a b := (Ext.div a b).round
  neg := Ext.neg
  abs := Ext.abs
  max := Ext.max
  sqrt a := (Ext.sqrt a).round
  exp a := (Ext.expWith fexp a).round
  log a := (Ext.logWith flog a).round
  lt := Ext.lt
  eq := Ext.eq

/-- The arithmetic of binary64 with `math.Exp` and `math.Log` correctly
rounded. -/
noncomputable def f64Arith : Arith Ext := f64ArithWith Real.exp Real.log

/-- Accuracy of an implementation of the logarithm: on arguments from 1 up,
the real function it computes is within the fraction `2^(-50)` of the
logarithm (four units in the last place of binary64). -/
def LogAccurate (flog : ℝ → ℝ) : Prop :=
  ∀ y : ℝ, 1 ≤ y → |flog y - Real.log y| ≤ Real.log y / 2 ^ 50

/-- Accuracy of an implementation of the exponential: on arguments from -1
up, the real function it computes is within the fraction `2^(-50)` of the
exponential (four units in the last place of binary64). -/
def ExpAccurate (fexp : ℝ → ℝ) : Prop :=
  ∀ a : ℝ, -1 ≤ a → |fexp a - Real.exp a| ≤ Real.exp a / 2 ^ 50

/-! ## The refiner always reports success and counts from 1 -/

/-- Both exits of the loop set `success`. -/
theorem halleyLoop_success {F : Type} (A : Arith F) (x : F) (n : Nat) (i : Int) (w : F) :
    (halleyLoop A x n i w).success = true := by
  induction n generalizing i w with
  | zero => rfl
  | succ n ih =>
    simp only [halleyLoop]
    split
    · rfl
    · exact ih _ _

/-- The counter returned by the loop is at least the counter it starts from. -/
theorem halleyLoop_iters_ge {F : Type} (A : Arith F) (x : F) (n : Nat) (i : Int) (w : F) :
    i ≤ (halleyLoop A x n i w).iters := by
  induction n generalizing i w with
  | zero => exact le_refl i
  | succ n ih =>
    simp only [halleyLoop]
    split
    · exact le_refl i
    · exact le_trans (by omega) (ih (i + 1) _)

/-- The refiner reports success on every run. -/
theorem halleyInteration_success {F : Type} (A : Arith F) (x w : F) (maxIters : Int) :
    (halleyInteration A x w maxIters).success = true :=
  halleyLoop_success A x _ _ _

/-- The refiner returns a counter of at least 1. -/
theorem halleyInteration_iters_pos {F : Type} (A : Arith F) (x w : F) (maxIters : Int) :
    1 ≤ (halleyInteration A x w maxIters).iters :=
  halleyLoop_iters_ge A x _ _ _

/-- In exact real arithmetic an input equal to zero has `q = 1/e`, which is
not below zero. -/
theorem realArith_zero_not_neg (x : ℝ) (hx : realArith.eq x (realArith.lit 0) = true) :
    realArith.lt (realArith.add x (oneOverE realArith)) (realArith.lit 0) = false := by
  simp only [realArith, oneOverE, mathE, decide_eq_true_eq, decide_eq_false_iff_not] at hx ⊢
  subst hx
  norm_num

/-- In exact real arithmetic an input equal to zero has `q = 1/e`, which is
not below the series threshold. -/
theorem realArith_zero_not_small (x : ℝ) (hx : realArith.eq x (realArith.lit 0) = true) :
    realArith.lt (realArith.add x (oneOverE realArith)) (realArith.lit 1.0e-03) = false := by
  simp only [realArith, oneOverE, mathE, decide_eq_true_eq, decide_eq_false_iff_not] at hx ⊢
  subst hx
  norm_num

/-- Dispatch to the refiner: an input that is not zero and whose `q` passes
neither test `q < 0` nor `q < 1.0e-03` is handed to `halleyInteration` with
the initial guess and the cap of 100. -/
theorem GslSfLambertW0E_refine {F : Type} (A : Arith F) (x : F)
    (hx : A.eq x (A.lit 0) = false)
    (hq : A.lt (A.add x (oneOverE A)) (A.lit 0) = false)
    (hs : A.lt (A.add x (oneOverE A)) (A.lit 1.0e-03) = false) :
    GslSfLambertW0E A x =
      halleyInteration A x (initialGuess A x (A.add x (oneOverE A))) 100 := by
  simp [GslSfLambertW0E, hx, hq, hs]

/-- In exact real arithmetic `q = -0.3 + 1/e` lies strictly between 0.0678 and
0.0679. -/
theorem realArith_q_neg_three_tenths :
    (0.0678 : ℝ) < realArith.add (realArith.lit (-0.3)) (oneOverE realArith) ∧
    realArith.add (realArith.lit (-0.3)) (oneOverE realArith) < (0.0679 : ℝ) := by
  simp only [realArith, oneOverE, mathE]
  constructor <;> norm_num

/-- In exact real arithmetic the input `-0.3` fails all three tests of the
dispatcher: `x == 0`, `q < 0` and `q < 1.0e-03`. -/
theorem realArith_neg_three_tenths_dispatch :
    realArith.eq (realArith.lit (-0.3)) (realArith.lit 0) = false ∧
    realArith.lt (realArith.add (realArith.lit (-0.3)) (oneOverE realArith))
      (realArith.lit 0) = false ∧
    realArith.lt (realArith.add (realArith.lit (-0.3)) (oneOverE realArith))
      (realArith.lit 1.0e-03) = false := by
  simp only [realArith, oneOverE, mathE, decide_eq_false_iff_not]
  refine ⟨?_, ?_, ?_⟩ <;> norm_num

/-- The loop after `n` passes none of which met the convergence test: the
last iterate, its absolute value, the counter advanced `n` times. -/
theorem halleyLoop_exhausted {F : Type} (A : Arith F) (x : F) (n : Nat) (i : Int) (w : F)
    (h : ∀ k, k < n →
      A.lt (A.abs (halleyStep A x (halleyIterate A x k w)).t)
        (halleyStep A x (halleyIterate A x k w)).tol = false) :
    halleyLoop A x n i w =
      { Val := halleyIterate A x n w, err := A.abs (halleyIterate A x n w),
        iters := i + n, success := true } := by
  induction n generalizing i w with
  | zero => simp [halleyLoop, halleyIterate]
  | succ n ih =>
    have h0 := h 0 (Nat.succ_pos n)
    simp only [halleyIterate] at h0
    have hrest : ∀ k, k < n →
        A.lt (A.abs (halleyStep A x (halleyIterate A x k (halleyStep A x w).w)).t)
          (halleyStep A x (halleyIterate A x k (halleyStep A x w).w)).tol = false :=
      fun k hk => h (k + 1) (Nat.succ_lt_succ hk)
    simp only [halleyLoop, h0, Bool.false_eq_true, if_false, ih (i + 1) _ hrest, halleyIterate]
    simp only [Nat.cast_succ, add_assoc, add_comm (1 : Int)]

/-- One pass from a NaN iterate leaves NaN in all three places. -/
theorem halleyStep_nan {F : Type} (A : Arith F) (x : Option F) :
    halleyStep (withNaN A) x none = { t := none, w := none, tol := none } := by
  simp [halleyStep, withNaN]

/-- Every iterate from NaN is NaN. -/
theorem halleyIterate_nan {F : Type} (A : Arith F) (x : Option F) (k : Nat) :
    halleyIterate (withNaN A) x k none = none := by
  induction k with
  | zero => rfl
  | succ k ih => simp only [halleyIterate, halleyStep_nan, ih]

/-- From a NaN iterate the convergence test never passes. -/
theorem halleyStep_nan_not_converged {F : Type} (A : Arith F) (x : Option F) (k : Nat) :
    (withNaN A).lt
      ((withNaN A).abs (halleyStep (withNaN A) x (halleyIterate (withNaN A) x k none)).t)
      (halleyStep (withNaN A) x (halleyIterate (withNaN A) x k none)).tol = false := by
  rw [halleyIterate_nan, halleyStep_nan]
  simp [withNaN]

/-- The whole evaluation at a NaN input: no test of the dispatcher passes, the
initial guess is NaN, the refiner makes its 100 passes and falls through. -/
theorem GslSfLambertW0E_nan {F : Type} (A : Arith F) :
    GslSfLambertW0E (withNaN A) none =
      { Val := none, err := none, iters := 101, success := true } := by
  have hg : initialGuess (withNaN A) none ((withNaN A).add none (oneOverE (withNaN A)))
      = none := by
    simp [initialGuess, withNaN]
  rw [GslSfLambertW0E_refine (withNaN A) none (by simp [withNaN]) (by simp [withNaN])
    (by simp [withNaN]), hg]
  have h := halleyLoop_exhausted (withNaN A) none 100 1 none
    (fun k _ => halleyStep_nan_not_converged A none k)
  rw [halleyIterate_nan] at h
  simpa [halleyInteration, withNaN] using h

/-- The refiner never returns an error estimate below zero. -/
theorem halleyLoop_err_not_neg {F : Type} (A : Arith F) (hA : A.SignLaws) (x : F)
    (n : Nat) (i : Int) (w : F) :
    A.lt (halleyLoop A x n i w).err (A.lit 0) = false := by
  induction n generalizing i w with
  | zero => exact hA.abs_not_neg w
  | succ n ih =>
    simp only [halleyLoop]
    split
    · next hc =>
      exact hA.mul_not_neg _ _ (hA.lit_not_neg 2 (by norm_num))
        (hA.lt_not_neg _ _ hc (hA.abs_not_neg _))
    · exact ih _ _

/-- Exact real arithmetic satisfies the sign laws. -/
theorem realArith_signLaws : realArith.SignLaws where
  abs_not_neg a := by
    simp only [realArith, decide_eq_false_iff_not, not_lt]
    exact_mod_cast abs_nonneg a
  mul_not_neg a b := by
    simp only [realArith, decide_eq_false_iff_not, not_lt, Rat.cast_zero]
    exact mul_nonneg
  lit_not_neg c hc := by
    simp only [realArith, decide_eq_false_iff_not, not_lt]
    exact_mod_cast hc
  lt_not_neg a b := by
    simp only [realArith, decide_eq_false_iff_not, decide_eq_true_eq, not_lt, Rat.cast_zero]
    intro hab ha
    linarith

/-- Adjoining a NaN keeps the sign laws. -/
theorem withNaN_signLaws {F : Type} (A : Arith F) (hA : A.SignLaws) :
    (withNaN A).SignLaws where
  abs_not_neg a := by
    cases a with
    | none => rfl
    | some u => exact hA.abs_not_neg u
  mul_not_neg a b := by
    cases a with
    | none => exact fun _ _ => rfl
    | some u =>
      cases b with
      | none => exact fun _ _ => rfl
      | some v => exact hA.mul_not_neg u v
  lit_not_neg c hc := hA.lit_not_neg c hc
  lt_not_neg a b := by
    cases a with
    | none => exact fun h _ => absurd h Bool.false_ne_true
    | some u =>
      cases b with
      | none => exact fun _ _ => rfl
      | some v => exact hA.lt_not_neg u v

/-- In exact real arithmetic the input `1` fails all three tests of the
dispatcher: `x == 0`, `q < 0` and `q < 1.0e-03`. -/
theorem realArith_one_dispatch :
    realArith.eq 1 (realArith.lit 0) = false ∧
    realArith.lt (realArith.add 1 (oneOverE realArith)) (realArith.lit 0) = false ∧
    realArith.lt (realArith.add 1 (oneOverE realArith)) (realArith.lit 1.0e-03) = false := by
  simp only [realArith, oneOverE, mathE, decide_eq_false_iff_not]
  refine ⟨?_, ?_, ?_⟩ <;> norm_num

/-- In exact real arithmetic a value below zero is below `1.0e-03`. -/
theorem realArith_neg_lt_small (y : ℝ) (hy : realArith.lt y (realArith.lit 0) = true) :
    realArith.lt y (realArith.lit 1.0e-03) = true := by
  simp only [realArith, decide_eq_true_eq] at hy ⊢
  have h : (0 : ℝ) < ((1.0e-03 : ℚ) : ℝ) := by norm_num
  have hy0 : y < 0 := by simpa using hy
  linarith

/-- In exact real arithmetic a value above 3 is not below 1. -/
theorem realArith_three_lt_not_lt_one (y : ℝ)
    (hy : realArith.lt (realArith.lit 3) y = true) :
    realArith.lt y (realArith.lit 1) = false := by
  simp only [realArith, decide_eq_true_eq, decide_eq_false_iff_not, not_lt] at hy ⊢
  have hy3 : (3 : ℝ) < y := by simpa using hy
  have : ((1 : ℚ) : ℝ) = 1 := by norm_num
  linarith

/-- In exact real arithmetic a rational input `c` with `c ≠ 0` and
`1.0e-03 ≤ c + 1/e` fails the tests `x == 0` and `q < 1.0e-03`. -/
theorem realArith_lit_dispatch (c : ℚ) (hc : c ≠ 0) (hq : 1.0e-03 ≤ c + 1 / mathE) :
    realArith.eq (realArith.lit c) (realArith.lit 0) = false ∧
    realArith.lt (realArith.add (realArith.lit c) (oneOverE realArith))
      (realArith.lit 1.0e-03) = false := by
  simp only [realArith, oneOverE, decide_eq_false_iff_not, not_lt]
  refine ⟨?_, ?_⟩
  · exact_mod_cast hc
  · exact_mod_cast hq

/-- The last iterate is one pass on from the iterate before it. -/
theorem halleyIterate_succ_last {F : Type} (A : Arith F) (x : F) (m : Nat) (w : F) :
    halleyIterate A x (m + 1) w = (halleyStep A x (halleyIterate A x m w)).w := by
  induction m generalizing w with
  | zero => rfl
  | succ m ih =>
    show halleyIterate A x (m + 1) (halleyStep A x w).w = _
    rw [ih]
    rfl

/-- A loop whose first pass meets the convergence test returns after it. -/
theorem halleyLoop_first_pass {F : Type} (A : Arith F) (x : F) (n : Nat) (i : Int) (w : F)
    (h : A.lt (A.abs (halleyStep A x w).t) (halleyStep A x w).tol = true) :
    halleyLoop A x (n + 1) i w =
      { Val := (halleyStep A x w).w, err := A.mul (A.lit 2) (halleyStep A x w).tol,
        iters := i, success := true } := by
  simp [halleyLoop, h]

/-- The two ways the loop ends: at the first pass `m + 1` whose test passes,
with the counter advanced `m` times, or after all `n` passes failed. -/
theorem halleyLoop_cases {F : Type} (A : Arith F) (x : F) (n : Nat) (i : Int) (w : F) :
    (∃ m, m < n ∧
      (∀ j, j < m →
        A.lt (A.abs (halleyStep A x (halleyIterate A x j w)).t)
          (halleyStep A x (halleyIterate A x j w)).tol = false) ∧
      A.lt (A.abs (halleyStep A x (halleyIterate A x m w)).t)
        (halleyStep A x (halleyIterate A x m w)).tol = true ∧
      halleyLoop A x n i w =
        { Val := halleyIterate A x (m + 1) w,
          err := A.mul (A.lit 2) (halleyStep A x (halleyIterate A x m w)).tol,
          iters := i + m, success := true }) ∨
    ((∀ j, j < n →
        A.lt (A.abs (halleyStep A x (halleyIterate A x j w)).t)
          (halleyStep A x (halleyIterate A x j w)).tol = false) ∧
      halleyLoop A x n i w =
        { Val := halleyIterate A x n w, err := A.abs (halleyIterate A x n w),
          iters := i + n, success := true }) := by
  induction n generalizing i w with
  | zero =>
    right
    exact ⟨fun j hj => absurd hj (Nat.not_lt_zero j), by simp [halleyLoop, halleyIterate]⟩
  | succ n ih =>
    cases h0 : A.lt (A.abs (halleyStep A x w).t) (halleyStep A x w).tol with
    | true =>
      left
      refine ⟨0, Nat.succ_pos n, fun j hj => absurd hj (Nat.not_lt_zero j), h0, ?_⟩
      rw [halleyLoop_first_pass A x n i w h0]
      simp [halleyIterate]
    | false =>
      have hstep : halleyLoop A x (n + 1) i w = halleyLoop A x n (i + 1) (halleyStep A x w).w := by
        simp [halleyLoop, h0]
      rcases ih (i + 1) (halleyStep A x w).w with ⟨m, hm, hfail, hpass, hres⟩ | ⟨hfail, hres⟩
      · left
        refine ⟨m + 1, Nat.succ_lt_succ hm, ?_, hpass, ?_⟩
        · intro j hj
          cases j with
          | zero => exact h0
          | succ j => exact hfail j (Nat.lt_of_succ_lt_succ hj)
        · rw [hstep, hres]
          simp only [halleyIterate, Nat.cast_succ, add_assoc, add_comm (1 : Int)]
      · right
        refine ⟨?_, ?_⟩
        · intro j hj
          cases j with
          | zero => exact h0
          | succ j => exact hfail j (Nat.lt_of_succ_lt_succ hj)
        · rw [hstep, hres]
          simp only [halleyIterate, Nat.cast_succ, add_assoc, add_comm (1 : Int)]

/-- In exact real arithmetic the step of the source is the step the
specification words: correction `specCorrection`, update `w - t`, tolerance
`EPS * max(|w_new|, 1/(|w_old + 1| * e^w_old))`. -/
theorem halleyStep_realArith (x w : ℝ) :
    halleyStep realArith x w =
      { t := specCorrection x w,
        w := w - specCorrection x w,
        tol := gslDblEpsilon realArith *
          Max.max |w - specCorrection x w| (1 / (|w + 1| * Real.exp w)) } := by
  have h2 : w + 1 + 1 = w + 2 := by ring
  by_cases hw : 0 < w
  · simp [halleyStep, realArith, specCorrection, hw]
  · simp only [halleyStep, realArith, specCorrection, hw, Rat.cast_zero, decide_False,
      Bool.false_eq_true, if_false, Rat.cast_one, h2]
    norm_num

/-- At the input `+Inf` of the extended reals the initial guess is
`ln(+Inf) - ln(ln(+Inf)) = +Inf - +Inf`, which is NaN. -/
theorem initialGuess_pinf :
    initialGuess extArith Ext.pinf (extArith.add Ext.pinf (oneOverE extArith)) = Ext.nan := by
  simp [initialGuess, extArith, Ext.lt, Ext.log, Ext.add, Ext.neg]

/-- A difference of equal powers is at most the degree times the bound of the
interval to the degree less one, times the difference of the bases. -/
theorem pow_succ_sub_le (R r s : ℝ) (hr : 0 ≤ r) (hrs : r ≤ s) (hs : s ≤ R) (k : ℕ) :
    s ^ (k + 1) - r ^ (k + 1) ≤ (k + 1) * R ^ k * (s - r) := by
  induction k with
  | zero => simp
  | succ k ih =>
    have hR : 0 ≤ R := le_trans (le_trans hr hrs) hs
    have hs0 : 0 ≤ s := le_trans hr hrs
    have hd : 0 ≤ s - r := sub_nonneg.mpr hrs
    have hpk : 0 ≤ s ^ (k + 1) - r ^ (k + 1) := sub_nonneg.mpr (pow_le_pow_left₀ hr hrs _)
    have hrk : r ^ (k + 1) ≤ R ^ (k + 1) := pow_le_pow_left₀ hr (le_trans hrs hs) _
    have hRk : 0 ≤ R ^ k := pow_nonneg hR k
    have e1 : s ^ (k + 1 + 1) - r ^ (k + 1 + 1)
        = s * (s ^ (k + 1) - r ^ (k + 1)) + r ^ (k + 1) * (s - r) := by ring
    have b1 : s * (s ^ (k + 1) - r ^ (k + 1)) ≤ R * ((k + 1) * R ^ k * (s - r)) :=
      mul_le_mul hs ih hpk hR
    have b2 : r ^ (k + 1) * (s - r) ≤ R ^ (k + 1) * (s - r) :=
      mul_le_mul_of_nonneg_right hrk hd
    rw [e1]
    push_cast
    calc s * (s ^ (k + 1) - r ^ (k + 1)) + r ^ (k + 1) * (s - r)
        ≤ R * ((k + 1) * R ^ k * (s - r)) + R ^ (k + 1) * (s - r) := add_le_add b1 b2
      _ = (k + 1 + 1) * R ^ (k + 1) * (s - r) := by ring

/-- The polynomial of the series is strictly increasing on `[0, 0.032]`. -/
theorem seriesPoly_lt (r s : ℝ) (hr : 0 ≤ r) (hrs : r < s) (hs : s ≤ 0.032) :
    seriesPoly r < seriesPoly s := by
  have hle := hrs.le
  have n3 : 0 ≤ s ^ 3 - r ^ 3 := sub_nonneg.mpr (pow_le_pow_left₀ hr hle 3)
  have n5 : 0 ≤ s ^ 5 - r ^ 5 := sub_nonneg.mpr (pow_le_pow_left₀ hr hle 5)
  have n7 : 0 ≤ s ^ 7 - r ^ 7 := sub_nonneg.mpr (pow_le_pow_left₀ hr hle 7)
  have n9 : 0 ≤ s ^ 9 - r ^ 9 := sub_nonneg.mpr (pow_le_pow_left₀ hr hle 9)
  have n11 : 0 ≤ s ^ 11 - r ^ 11 := sub_nonneg.mpr (pow_le_pow_left₀ hr hle 11)
  have u2 := pow_succ_sub_le 0.032 r s hr hle hs 1
  have u4 := pow_succ_sub_le 0.032 r s hr hle hs 3
  have u6 := pow_succ_sub_le 0.032 r s hr hle hs 5
  have u8 := pow_succ_sub_le 0.032 r s hr hle hs 7
  have u10 := pow_succ_sub_le 0.032 r s hr hle hs 9
  norm_num at u2 u4 u6 u8 u10
  simp only [seriesPoly, Finset.sum_range_succ, Finset.sum_range_zero, seriesCoeff]
  push_cast
  norm_num
  nlinarith [n3, n5, n7, n9, n11, u2, u4, u6, u8, u10, hrs]

/-- The square root of `1.0e-03` is below `0.032`. -/
theorem sqrt_small_le : Real.sqrt 1.0e-03 ≤ 0.032 := by
  rw [Real.sqrt_le_left (by norm_num)]
  norm_num

/-- On the series exit `Val` is `seriesEval(sqrt(q))`. -/
theorem series_exit_val {F : Type} (A : Arith F) (x : F)
    (hx : A.eq x (A.lit 0) = false)
    (hq0 : A.lt (A.add x (oneOverE A)) (A.lit 0) = false)
    (hq1 : A.lt (A.add x (oneOverE A)) (A.lit 1.0e-03) = true) :
    (GslSfLambertW0E A x).Val = seriesEval A (A.sqrt (A.add x (oneOverE A))) := by
  simp [GslSfLambertW0E, hx, hq0, hq1]

/-- Over the reals the nested evaluation is the polynomial of the series. -/
theorem seriesEval_poly (r : ℝ) : seriesEval realArith r = seriesPoly r := by
  simp only [seriesEval, realArith, seriesPoly, Finset.sum_range_succ, Finset.sum_range_zero,
    seriesCoeff]
  push_cast
  ring

/-- A real within half a unit of an integer rounds to it. -/
theorem roundEven_eq (t : ℝ) (n : ℤ) (h : |t - n| < 1 / 2) : roundEven t = n := by
  rw [abs_lt] at h
  unfold roundEven
  by_cases hge : (n : ℝ) ≤ t
  · have hf : ⌊t⌋ = n := by
      rw [Int.floor_eq_iff]
      exact ⟨hge, by linarith [h.2]⟩
    rw [hf, if_pos (by linarith [h.2])]
  · have hf : ⌊t⌋ = n - 1 := by
      rw [Int.floor_eq_iff]
      push_cast
      exact ⟨by linarith [h.1], by linarith⟩
    rw [hf]
    push_cast
    rw [if_neg (by linarith [h.1]), if_pos (by linarith [h.1])]
    ring

/-- The binade of a real with `2^e ≤ |y| < 2^(e+1)` in the normal range. -/
theorem binade_eq (y : ℝ) (e : ℤ) (he : -1022 ≤ e) (hlo : (2 : ℝ) ^ e ≤ |y|)
    (hhi : |y| < (2 : ℝ) ^ (e + 1)) : binade y = e := by
  have hpos : 0 < |y| := lt_of_lt_of_le (by positivity) hlo
  have h1 : e ≤ Int.log 2 |y| := by
    rw [← Int.zpow_le_iff_le_log (by norm_num) hpos]
    exact_mod_cast hlo
  have h2 : Int.log 2 |y| < e + 1 := by
    rw [← Int.lt_zpow_iff_log_lt (by norm_num) hpos]
    exact_mod_cast hhi
  unfold binade
  rw [max_eq_left (by omega)]
  omega

/-- How a real rounds to binary64: when `y` lies in the binade of exponent `e`
and within half a unit `2^(e-52)` of the multiple `n * 2^(e-52)`, it rounds to
that multiple. -/
theorem round64_eq (y c : ℝ) (e n : ℤ) (he : -1022 ≤ e) (hlo : (2 : ℝ) ^ e ≤ |y|)
    (hhi : |y| < (2 : ℝ) ^ (e + 1))
    (hn : |y - n * (2 : ℝ) ^ (e - 52)| < (2 : ℝ) ^ (e - 53))
    (hfin : |(n : ℝ) * (2 : ℝ) ^ (e - 52)| < (2 : ℝ) ^ (1024 : ℤ))
    (hc : c = n * (2 : ℝ) ^ (e - 52)) :
    round64 y = Ext.fin c := by
  have hb := binade_eq y e he hlo hhi
  have hu : (0 : ℝ) < (2 : ℝ) ^ (e - 52) := by positivity
  have hhalf : (2 : ℝ) ^ (e - 53) = (2 : ℝ) ^ (e - 52) / 2 := by
    rw [show e - 53 = e - 52 - 1 by ring, zpow_sub_one₀ (by norm_num)]
    ring
  have hr : roundEven (y / (2 : ℝ) ^ (e - 52)) = n := by
    apply roundEven_eq
    have : y / (2 : ℝ) ^ (e - 52) - n = (y - n * (2 : ℝ) ^ (e - 52)) / (2 : ℝ) ^ (e - 52) := by
      field_simp
      ring
    rw [this, abs_div, abs_of_pos hu, div_lt_iff₀ hu]
    rw [hhalf] at hn
    linarith
  unfold round64
  rw [hb, hr, if_neg (not_le.mpr hfin), hc]

/-! ## Rounding to binary64 at given inputs -/

/-- How a positive real rounds to binary64, with the conditions free of
absolute values. -/
theorem round64_of_pos (y c : ℝ) (e n : ℤ) (he : -1022 ≤ e) (hlo : (2 : ℝ) ^ e ≤ y)
    (hhi : y < (2 : ℝ) ^ (e + 1)) (h1 : c - (2 : ℝ) ^ (e - 53) < y)
    (h2 : y < c + (2 : ℝ) ^ (e - 53)) (hc : c = n * (2 : ℝ) ^ (e - 52))
    (hfin : c < (2 : ℝ) ^ (1024 : ℤ)) :
    round64 y = Ext.fin c := by
  have hy : 0 < y := lt_of_lt_of_le (by positivity) hlo
  have hh : (2 : ℝ) ^ (e - 53) < (2 : ℝ) ^ e :=
    zpow_lt_zpow_right₀ (by norm_num) (by omega)
  have hc0 : 0 < c := by linarith
  refine round64_eq y c e n he (by rwa [abs_of_pos hy]) (by rwa [abs_of_pos hy]) ?_ ?_ hc
  · rw [← hc, abs_lt]
    constructor <;> linarith
  · rw [← hc, abs_of_pos hc0]
    exact hfin

/-- How a negative real rounds to binary64, with the conditions free of
absolute values. -/
theorem round64_of_neg (y c : ℝ) (e n : ℤ) (he : -1022 ≤ e) (hlo : y ≤ -(2 : ℝ) ^ e)
    (hhi : -(2 : ℝ) ^ (e + 1) < y) (h1 : c - (2 : ℝ) ^ (e - 53) < y)
    (h2 : y < c + (2 : ℝ) ^ (e - 53)) (hc : c = n * (2 : ℝ) ^ (e - 52))
    (hfin : -(2 : ℝ) ^ (1024 : ℤ) < c) :
    round64 y = Ext.fin c := by
  have hy : y < 0 := lt_of_le_of_lt hlo (by simp; positivity)
  have hh : (2 : ℝ) ^ (e - 53) < (2 : ℝ) ^ e :=
    zpow_lt_zpow_right₀ (by norm_num) (by omega)
  have hc0 : c < 0 := by linarith
  refine round64_eq y c e n he (by rw [abs_of_neg hy]; linarith)
    (by rw [abs_of_neg hy]; linarith) ?_ ?_ hc
  · rw [← hc, abs_lt]
    constructor <;> linarith
  · rw [← hc, abs_of_neg hc0]
    linarith

/-- A real half a unit from an even integer rounds to it. -/
theorem roundEven_tie (t : ℝ) (n : ℤ) (h : t = n + 1 / 2 ∨ t = n - 1 / 2) (hn : Even n) :
    roundEven t = n := by
  unfold roundEven
  rcases h with h | h
  · have hf : ⌊t⌋ = n := by
      rw [Int.floor_eq_iff]
      constructor <;> linarith
    rw [hf, if_neg (by linarith), if_neg (by linarith), if_pos hn]
  · have hf : ⌊t⌋ = n - 1 := by
      rw [Int.floor_eq_iff]
      push_cast
      constructor <;> linarith
    have hodd : ¬ Even (n - 1) := by
      rw [Int.even_sub_one]
      exact not_not.mpr hn
    rw [hf]
    push_cast
    rw [if_neg (by linarith), if_neg (by linarith), if_neg hodd]
    ring

/-- How a real rounds to binary64 at a tie: when `y` lies in the binade of
exponent `e` and exactly half a unit `2^(e-52)` from the even multiple
`n * 2^(e-52)`, it rounds to that multiple. -/
theorem round64_tie (y c : ℝ) (e n : ℤ) (he : -1022 ≤ e) (hlo : (2 : ℝ) ^ e ≤ |y|)
    (hhi : |y| < (2 : ℝ) ^ (e + 1))
    (hn : y = c + (2 : ℝ) ^ (e - 53) ∨ y = c - (2 : ℝ) ^ (e - 53)) (hev : Even n)
    (hfin : |c| < (2 : ℝ) ^ (1024 : ℤ))
    (hc : c = n * (2 : ℝ) ^ (e - 52)) :
    round64 y = Ext.fin c := by
  have hb := binade_eq y e he hlo hhi
  have hu : (0 : ℝ) < (2 : ℝ) ^ (e - 52) := by positivity
  have hhalf : (2 : ℝ) ^ (e - 53) = (2 : ℝ) ^ (e - 52) / 2 := by
    rw [show e - 53 = e - 52 - 1 by ring, zpow_sub_one₀ (by norm_num)]
    ring
  have hr : roundEven (y / (2 : ℝ) ^ (e - 52)) = n := by
    apply roundEven_tie _ _ _ hev
    rcases hn with hn | hn
    · left
      rw [hn, hc, hhalf]
      field_simp
      ring
    · right
      rw [hn, hc, hhalf]
      field_simp
      ring
  unfold round64
  rw [hb, hr, ← hc, if_neg (not_le.mpr hfin)]

/-- A positive real at a tie, with the conditions free of absolute values. -/
theorem round64_tie_pos (y c : ℝ) (e n : ℤ) (he : -1022 ≤ e) (hlo : (2 : ℝ) ^ e ≤ y)
    (hhi : y < (2 : ℝ) ^ (e + 1))
    (hn : y = c + (2 : ℝ) ^ (e - 53) ∨ y = c - (2 : ℝ) ^ (e - 53)) (hev : Even n)
    (hc : c = n * (2 : ℝ) ^ (e - 52)) (hc0 : 0 ≤ c) (hfin : c < (2 : ℝ) ^ (1024 : ℤ)) :
    round64 y = Ext.fin c := by
  have hy : 0 < y := lt_of_lt_of_le (by positivity) hlo
  exact round64_tie y c e n he (by rwa [abs_of_pos hy]) (by rwa [abs_of_pos hy]) hn hev
    (by rwa [abs_of_nonneg hc0]) hc

/-- A negative real at a tie, with the conditions free of absolute values. -/
theorem round64_tie_neg (y c : ℝ) (e n : ℤ) (he : -1022 ≤ e) (hlo : y ≤ -(2 : ℝ) ^ e)
    (hhi : -(2 : ℝ) ^ (e + 1) < y)
    (hn : y = c + (2 : ℝ) ^ (e - 53) ∨ y = c - (2 : ℝ) ^ (e - 53)) (hev : Even n)
    (hc : c = n * (2 : ℝ) ^ (e - 52)) (hc0 : c ≤ 0) (hfin : -(2 : ℝ) ^ (1024 : ℤ) < c) :
    round64 y = Ext.fin c := by
  have hy : y < 0 := lt_of_le_of_lt hlo (by simp; positivity)
  exact round64_tie y c e n he (by rw [abs_of_neg hy]; linarith)
    (by rw [abs_of_neg hy]; linarith) hn hev
    (by rw [abs_of_nonpos hc0]; linarith) hc

/-- The literal `c[0]` of `seriesEval` as binary64. -/
theorem f64_coeff_0 (fexp flog : ℝ → ℝ) :
    (f64ArithWith fexp flog).lit (-1) =
      Ext.fin (-1 : ℝ) :=
  round64_of_neg _ _ 0 (-4503599627370496) (by norm_num) (by norm_num) (by norm_num)
      (by norm_num) (by norm_num) (by norm_num) (by norm_num)

/-- The literal `c[1]` of `seriesEval` as binary64. -/
theorem f64_coeff_1 (fexp flog : ℝ → ℝ) :
    (f64ArithWith fexp flog).lit 2.331643981597124203363536062168 =
      Ext.fin (2625197741670367 / 1125899906842624 : ℝ) :=
  round64_of_pos _ _ 1 5250395483340734 (by norm_num) (by norm_num) (by norm_num)
      (by norm_num) (by norm_num) (by norm_num) (by norm_num)

/-- The literal `c[2]` of `seriesEval` as binary64. -/
theorem f64_coeff_2 (fexp flog : ℝ → ℝ) :
    (f64ArithWith fexp flog).lit (-1.812187885639363490240191647568) =
      Ext.fin (-2040342171622691 / 1125899906842624 : ℝ) :=
  round64_of_neg _ _ 0 (-8161368686490764) (by norm_num) (by norm_num) (by norm_num)
      (by norm_num) (by norm_num) (by norm_num) (by norm_num)

/-- The literal `c[3]` of `seriesEval` as binary64. -/
theorem f64_coeff_3 (fexp flog : ℝ → ℝ) :
    (f64ArithWith fexp flog).lit 1.936631114492359755363277457668 =
      Ext.fin (2180452791395475 / 1125899906842624 : ℝ) :=
  round64_of_pos _ _ 0 8721811165581900 (by norm_num) (by norm_num) (by norm_num)
      (by norm_num) (by norm_num) (by norm_num) (by norm_num)

/-- The literal `c[4]` of `seriesEval` as binary64. -/
theorem f64_coeff_4 (fexp flog : ℝ → ℝ) :
    (f64ArithWith fexp flog).lit (-2.353551201881614516821543561516) =
      Ext.fin (-5299726157895711 / 2251799813685248 : ℝ) :=
  round64_of_neg _ _ 1 (-5299726157895711) (by norm_num) (by norm_num) (by norm_num)
      (by norm_num) (by norm_num) (by norm_num) (by norm_num)

/-- The literal `c[5]` of `seriesEval` as binary64. -/
theorem f64_coeff_5 (fexp flog : ℝ → ℝ) :
    (f64ArithWith fexp flog).lit 3.066858901050631912893148922704 =
      Ext.fin (6905952301984757 / 2251799813685248 : ℝ) :=
  round64_of_pos _ _ 1 6905952301984757 (by norm_num) (by norm_num) (by norm_num)
      (by norm_num) (by norm_num) (by norm_num) (by norm_num)

/-- The literal `c[6]` of `seriesEval` as binary64. -/
theorem f64_coeff_6 (fexp flog : ℝ → ℝ) :
    (f64ArithWith fexp flog).lit (-4.175335600258177138854984177460) =
      Ext.fin (-4701009963367373 / 1125899906842624 : ℝ) :=
  round64_of_neg _ _ 2 (-4701009963367373) (by norm_num) (by norm_num) (by norm_num)
      (by norm_num) (by norm_num) (by norm_num) (by norm_num)

/-- The literal `c[7]` of `seriesEval` as binary64. -/
theorem f64_coeff_7 (fexp flog : ℝ → ℝ) :
    (f64ArithWith fexp flog).lit 5.858023729874774148815053846119 =
      Ext.fin (6595548371747889 / 1125899906842624 : ℝ) :=
  round64_of_pos _ _ 2 6595548371747889 (by norm_num) (by norm_num) (by norm_num)
      (by norm_num) (by norm_num) (by norm_num) (by norm_num)

/-- The literal `c[8]` of `seriesEval` as binary64. -/
theorem f64_coeff_8 (fexp flog : ℝ → ℝ) :
    (f64ArithWith fexp flog).lit (-8.401032217523977370984161688514) =
      Ext.fin (-4729360695546065 / 562949953421312 : ℝ) :=
  round64_of_neg _ _ 3 (-4729360695546065) (by norm_num) (by norm_num) (by norm_num)
      (by norm_num) (by norm_num) (by norm_num) (by norm_num)

/-- The literal `c[9]` of `seriesEval` as binary64. -/
theorem f64_coeff_9 (fexp flog : ℝ → ℝ) :
    (f64ArithWith fexp flog).lit 12.250753501314460424 =
      Ext.fin (3448280556470475 / 281474976710656 : ℝ) :=
  round64_of_pos _ _ 3 6896561112940950 (by norm_num) (by norm_num) (by norm_num)
      (by norm_num) (by norm_num) (by norm_num) (by norm_num)

/-- The literal `c[10]` of `seriesEval` as binary64. -/
theorem f64_coeff_10 (fexp flog : ℝ → ℝ) :
    (f64ArithWith fexp flog).lit (-18.100697012472442755) =
      Ext.fin (-5094893270032321 / 281474976710656 : ℝ) :=
  round64_of_neg _ _ 4 (-5094893270032321) (by norm_num) (by norm_num) (by norm_num)
      (by norm_num) (by norm_num) (by norm_num) (by norm_num)

/-- The literal `c[11]` of `seriesEval` as binary64. -/
theorem f64_coeff_11 (fexp flog : ℝ → ℝ) :
    (f64ArithWith fexp flog).lit 27.029044799010561650 =
      Ext.fin (950999969414097 / 35184372088832 : ℝ) :=
  round64_of_pos _ _ 4 7607999755312776 (by norm_num) (by norm_num) (by norm_num)
      (by norm_num) (by norm_num) (by norm_num) (by norm_num)

/-- The series at `r = 0.030000000000007084` (`0x1.eb851eb8526b2p-6`) in binary64. -/
theorem seriesEval_f64_lower (fexp flog : ℝ → ℝ) :
    seriesEval (f64ArithWith fexp flog) (Ext.fin (4323455642276697 / 144115188075855872 : ℝ)) =
      Ext.fin (-8391387808736791 / 9007199254740992 : ℝ) := by
  have hm10 : (f64ArithWith fexp flog).mul (Ext.fin (4323455642276697 / 144115188075855872 : ℝ))
      (Ext.fin (950999969414097 / 35184372088832 : ℝ)) =
      Ext.fin (7303679765101989 / 9007199254740992 : ℝ) :=
    round64_of_pos _ _ (-1) 7303679765101989 (by norm_num) (by norm_num) (by norm_num)
      (by norm_num) (by norm_num) (by norm_num) (by norm_num)
  have ha10 : (f64ArithWith fexp flog).add (Ext.fin (-5094893270032321 / 281474976710656 : ℝ))
      (Ext.fin (7303679765101989 / 9007199254740992 : ℝ)) =
      Ext.fin (-1216663319343221 / 70368744177664 : ℝ) :=
    round64_of_neg _ _ 4 (-4866653277372884) (by norm_num) (by norm_num) (by norm_num)
      (by norm_num) (by norm_num) (by norm_num) (by norm_num)
  have hm9 : (f64ArithWith fexp flog).mul (Ext.fin (4323455642276697 / 144115188075855872 : ℝ))
      (Ext.fin (-1216663319343221 / 70368744177664 : ℝ)) =
      Ext.fin (-145999598321221 / 281474976710656 : ℝ) :=
    round64_of_neg _ _ (-1) (-4671987146279072) (by norm_num) (by norm_num) (by norm_num)
      (by norm_num) (by norm_num) (by norm_num) (by norm_num)
  have ha9 : (f64ArithWith fexp flog).add (Ext.fin (3448280556470475 / 281474976710656 : ℝ))
      (Ext.fin (-145999598321221 / 281474976710656 : ℝ)) =
      Ext.fin (1651140479074627 / 140737488355328 : ℝ) :=
    round64_of_pos _ _ 3 6604561916298508 (by norm_num) (by norm_num) (by norm_num)
      (by norm_num) (by norm_num) (by norm_num) (by norm_num)
  have hm8 : (f64ArithWith fexp flog).mul (Ext.fin (4323455642276697 / 144115188075855872 : ℝ))
      (Ext.fin (1651140479074627 / 140737488355328 : ℝ)) =
      Ext.fin (6340379439648065 / 18014398509481984 : ℝ) :=
    round64_of_pos _ _ (-2) 6340379439648065 (by norm_num) (by norm_num) (by norm_num)
      (by norm_num) (by norm_num) (by norm_num) (by norm_num)
  have ha8 : (f64ArithWith fexp flog).add (Ext.fin (-4729360695546065 / 562949953421312 : ℝ))
      (Ext.fin (6340379439648065 / 18014398509481984 : ℝ)) =
      Ext.fin (-4531223838057063 / 562949953421312 : ℝ) :=
    round64_of_neg _ _ 3 (-4531223838057063) (by norm_num) (by norm_num) (by norm_num)
      (by norm_num) (by norm_num) (by norm_num) (by norm_num)
  have hm7 : (f64ArithWith fexp flog).mul (Ext.fin (4323455642276697 / 144115188075855872 : ℝ))
      (Ext.fin (-4531223838057063 / 562949953421312 : ℝ)) =
      Ext.fin (-8699949769071615 / 36028797018963968 : ℝ) :=
    round64_of_neg _ _ (-3) (-8699949769071615) (by norm_num) (by norm_num) (by norm_num)
      (by norm_num) (by norm_num) (by norm_num) (by norm_num)
  have ha7 : (f64ArithWith fexp flog).add (Ext.fin (6595548371747889 / 1125899906842624 : ℝ))
      (Ext.fin (-8699949769071615 / 36028797018963968 : ℝ)) =
      Ext.fin (6323674941464401 / 1125899906842624 : ℝ) :=
    round64_of_pos _ _ 2 6323674941464401 (by norm_num) (by norm_num) (by norm_num)
      (by norm_num) (by norm_num) (by norm_num) (by norm_num)
  have hm6 : (f64ArithWith fexp flog).mul (Ext.fin (4323455642276697 / 144115188075855872 : ℝ))
      (Ext.fin (6323674941464401 / 1125899906842624 : ℝ)) =
      Ext.fin (3035363971903629 / 18014398509481984 : ℝ) :=
    round64_of_pos _ _ (-3) 6070727943807258 (by norm_num) (by norm_num) (by norm_num)
      (by norm_num) (by norm_num) (by norm_num) (by norm_num)
  have ha6 : (f64ArithWith fexp flog).add (Ext.fin (-4701009963367373 / 1125899906842624 : ℝ))
      (Ext.fin (3035363971903629 / 18014398509481984 : ℝ)) =
      Ext.fin (-1127824928780849 / 281474976710656 : ℝ) :=
    round64_of_neg _ _ 2 (-4511299715123396) (by norm_num) (by norm_num) (by norm_num)
      (by norm_num) (by norm_num) (by norm_num) (by norm_num)
  have hm5 : (f64ArithWith fexp flog).mul (Ext.fin (4323455642276697 / 144115188075855872 : ℝ))
      (Ext.fin (-1127824928780849 / 281474976710656 : ℝ)) =
      Ext.fin (-8661695453038965 / 72057594037927936 : ℝ) :=
    round64_of_neg _ _ (-4) (-8661695453038965) (by norm_num) (by norm_num) (by norm_num)
      (by norm_num) (by norm_num) (by norm_num) (by norm_num)
  have ha5 : (f64ArithWith fexp flog).add (Ext.fin (6905952301984757 / 2251799813685248 : ℝ))
      (Ext.fin (-8661695453038965 / 72057594037927936 : ℝ)) =
      Ext.fin (6635274319077289 / 2251799813685248 : ℝ) :=
    round64_of_pos _ _ 1 6635274319077289 (by norm_num) (by norm_num) (by norm_num)
      (by norm_num) (by norm_num) (by norm_num) (by norm_num)
  have hm4 : (f64ArithWith fexp flog).mul (Ext.fin (4323455642276697 / 144115188075855872 : ℝ))
      (Ext.fin (6635274319077289 / 2251799813685248 : ℝ)) =
      Ext.fin (6369863346315701 / 72057594037927936 : ℝ) :=
    round64_of_pos _ _ (-4) 6369863346315701 (by norm_num) (by norm_num) (by norm_num)
      (by norm_num) (by norm_num) (by norm_num) (by norm_num)
  have ha4 : (f64ArithWith fexp flog).add (Ext.fin (-5299726157895711 / 2251799813685248 : ℝ))
      (Ext.fin (6369863346315701 / 72057594037927936 : ℝ)) =
      Ext.fin (-5100667928323345 / 2251799813685248 : ℝ) :=
    round64_of_neg _ _ 1 (-5100667928323345) (by norm_num) (by norm_num) (by norm_num)
      (by norm_num) (by norm_num) (by norm_num) (by norm_num)
  have hm3 : (f64ArithWith fexp flog).mul (Ext.fin (4323455642276697 / 144115188075855872 : ℝ))
      (Ext.fin (-5100667928323345 / 2251799813685248 : ℝ)) =
      Ext.fin (-4896641211191567 / 72057594037927936 : ℝ) :=
    round64_of_neg _ _ (-4) (-4896641211191567) (by norm_num) (by norm_num) (by norm_num)
      (by norm_num) (by norm_num) (by norm_num) (by norm_num)
  have ha3 : (f64ArithWith fexp flog).add (Ext.fin (2180452791395475 / 1125899906842624 : ℝ))
      (Ext.fin (-4896641211191567 / 72057594037927936 : ℝ)) =
      Ext.fin (8415771089882427 / 4503599627370496 : ℝ) :=
    round64_of_pos _ _ 0 8415771089882427 (by norm_num) (by norm_num) (by norm_num)
      (by norm_num) (by norm_num) (by norm_num) (by norm_num)
  have hm2 : (f64ArithWith fexp flog).mul (Ext.fin (4323455642276697 / 144115188075855872 : ℝ))
      (Ext.fin (8415771089882427 / 4503599627370496 : ℝ)) =
      Ext.fin (4039570123144519 / 72057594037927936 : ℝ) :=
    round64_of_pos _ _ (-5) 8079140246289038 (by norm_num) (by norm_num) (by norm_num)
      (by norm_num) (by norm_num) (by norm_num) (by norm_num)
  have ha2 : (f64ArithWith fexp flog).add (Ext.fin (-2040342171622691 / 1125899906842624 : ℝ))
      (Ext.fin (4039570123144519 / 72057594037927936 : ℝ)) =
      Ext.fin (-988611944224279 / 562949953421312 : ℝ) :=
    round64_of_neg _ _ 0 (-7908895553794232) (by norm_num) (by norm_num) (by norm_num)
      (by norm_num) (by norm_num) (by norm_num) (by norm_num)
  have hm1 : (f64ArithWith fexp flog).mul (Ext.fin (4323455642276697 / 144115188075855872 : ℝ))
      (Ext.fin (-988611944224279 / 562949953421312 : ℝ)) =
      Ext.fin (-7592539731644255 / 144115188075855872 : ℝ) :=
    round64_of_neg _ _ (-5) (-7592539731644255) (by norm_num) (by norm_num) (by norm_num)
      (by norm_num) (by norm_num) (by norm_num) (by norm_num)
  have ha1 : (f64ArithWith fexp flog).add (Ext.fin (2625197741670367 / 1125899906842624 : ℝ))
      (Ext.fin (-7592539731644255 / 144115188075855872 : ℝ)) =
      Ext.fin (5131762050033793 / 2251799813685248 : ℝ) :=
    round64_of_pos _ _ 1 5131762050033793 (by norm_num) (by norm_num) (by norm_num)
      (by norm_num) (by norm_num) (by norm_num) (by norm_num)
  have hm0 : (f64ArithWith fexp flog).mul (Ext.fin (4323455642276697 / 144115188075855872 : ℝ))
      (Ext.fin (5131762050033793 / 2251799813685248 : ℝ)) =
      Ext.fin (4926491568033605 / 72057594037927936 : ℝ) :=
    round64_of_pos _ _ (-4) 4926491568033605 (by norm_num) (by norm_num) (by norm_num)
      (by norm_num) (by norm_num) (by norm_num) (by norm_num)
  have ha0 : (f64ArithWith fexp flog).add (Ext.fin (-1 : ℝ))
      (Ext.fin (4926491568033605 / 72057594037927936 : ℝ)) =
      Ext.fin (-8391387808736791 / 9007199254740992 : ℝ) :=
    round64_of_neg _ _ (-1) (-8391387808736791) (by norm_num) (by norm_num) (by norm_num)
      (by norm_num) (by norm_num) (by norm_num) (by norm_num)
  simp only [seriesEval]
  rw [f64_coeff_0, f64_coeff_1, f64_coeff_2, f64_coeff_3, f64_coeff_4, f64_coeff_5, f64_coeff_6,
    f64_coeff_7, f64_coeff_8, f64_coeff_9, f64_coeff_10, f64_coeff_11, hm10, ha10, hm9, ha9, hm8,
    ha8, hm7, ha7, hm6, ha6, hm5, ha5, hm4, ha4, hm3, ha3, hm2, ha2, hm1, ha1, hm0, ha0]

/-- The series at `r = 0.030000000000007087` (`0x1.eb851eb8526b3p-6`) in binary64. -/
theorem seriesEval_f64_upper (fexp flog : ℝ → ℝ) :
    seriesEval (f64ArithWith fexp flog) (Ext.fin (8646911284553395 / 288230376151711744 : ℝ)) =
      Ext.fin (-1048923476092099 / 1125899906842624 : ℝ) := by
  have hm10 : (f64ArithWith fexp flog).mul (Ext.fin (8646911284553395 / 288230376151711744 : ℝ))
      (Ext.fin (950999969414097 / 35184372088832 : ℝ)) =
      Ext.fin (3651839882550995 / 4503599627370496 : ℝ) :=
    round64_of_pos _ _ (-1) 7303679765101990 (by norm_num) (by norm_num) (by norm_num)
      (by norm_num) (by norm_num) (by norm_num) (by norm_num)
  have ha10 : (f64ArithWith fexp flog).add (Ext.fin (-5094893270032321 / 281474976710656 : ℝ))
      (Ext.fin (3651839882550995 / 4503599627370496 : ℝ)) =
      Ext.fin (-1216663319343221 / 70368744177664 : ℝ) :=
    round64_of_neg _ _ 4 (-4866653277372884) (by norm_num) (by norm_num) (by norm_num)
      (by norm_num) (by norm_num) (by norm_num) (by norm_num)
  have hm9 : (f64ArithWith fexp flog).mul (Ext.fin (8646911284553395 / 288230376151711744 : ℝ))
      (Ext.fin (-1216663319343221 / 70368744177664 : ℝ)) =
      Ext.fin (-145999598321221 / 281474976710656 : ℝ) :=
    round64_of_neg _ _ (-1) (-4671987146279072) (by norm_num) (by norm_num) (by norm_num)
      (by norm_num) (by norm_num) (by norm_num) (by norm_num)
  have ha9 : (f64ArithWith fexp flog).add (Ext.fin (3448280556470475 / 281474976710656 : ℝ))
      (Ext.fin (-145999598321221 / 281474976710656 : ℝ)) =
      Ext.fin (1651140479074627 / 140737488355328 : ℝ) :=
    round64_of_pos _ _ 3 6604561916298508 (by norm_num) (by norm_num) (by norm_num)
      (by norm_num) (by norm_num) (by norm_num) (by norm_num)
  have hm8 : (f64ArithWith fexp flog).mul (Ext.fin (8646911284553395 / 288230376151711744 : ℝ))
      (Ext.fin (1651140479074627 / 140737488355328 : ℝ)) =
      Ext.fin (6340379439648065 / 18014398509481984 : ℝ) :=
    round64_of_pos _ _ (-2) 6340379439648065 (by norm_num) (by norm_num) (by norm_num)
      (by norm_num) (by norm_num) (by norm_num) (by norm_num)
  have ha8 : (f64ArithWith fexp flog).add (Ext.fin (-4729360695546065 / 562949953421312 : ℝ))
      (Ext.fin (6340379439648065 / 18014398509481984 : ℝ)) =
      Ext.fin (-4531223838057063 / 562949953421312 : ℝ) :=
    round64_of_neg _ _ 3 (-4531223838057063) (by norm_num) (by norm_num) (by norm_num)
      (by norm_num) (by norm_num) (by norm_num) (by norm_num)
  have hm7 : (f64ArithWith fexp flog).mul (Ext.fin (8646911284553395 / 288230376151711744 : ℝ))
      (Ext.fin (-4531223838057063 / 562949953421312 : ℝ)) =
      Ext.fin (-8496044696359 / 35184372088832 : ℝ) :=
    round64_of_neg _ _ (-3) (-8699949769071616) (by norm_num) (by norm_num) (by norm_num)
      (by norm_num) (by norm_num) (by norm_num) (by norm_num)
  have ha7 : (f64ArithWith fexp flog).add (Ext.fin (6595548371747889 / 1125899906842624 : ℝ))
      (Ext.fin (-8496044696359 / 35184372088832 : ℝ)) =
      Ext.fin (6323674941464401 / 1125899906842624 : ℝ) :=
    round64_of_pos _ _ 2 6323674941464401 (by norm_num) (by norm_num) (by norm_num)
      (by norm_num) (by norm_num) (by norm_num) (by norm_num)
  have hm6 : (f64ArithWith fexp flog).mul (Ext.fin (8646911284553395 / 288230376151711744 : ℝ))
      (Ext.fin (6323674941464401 / 1125899906842624 : ℝ)) =
      Ext.fin (6070727943807259 / 36028797018963968 : ℝ) :=
    round64_of_pos _ _ (-3) 6070727943807259 (by norm_num) (by norm_num) (by norm_num)
      (by norm_num) (by norm_num) (by norm_num) (by norm_num)
  have ha6 : (f64ArithWith fexp flog).add (Ext.fin (-4701009963367373 / 1125899906842624 : ℝ))
      (Ext.fin (6070727943807259 / 36028797018963968 : ℝ)) =
      Ext.fin (-1127824928780849 / 281474976710656 : ℝ) :=
    round64_of_neg _ _ 2 (-4511299715123396) (by norm_num) (by norm_num) (by norm_num)
      (by norm_num) (by norm_num) (by norm_num) (by norm_num)
  have hm5 : (f64ArithWith fexp flog).mul (Ext.fin (8646911284553395 / 288230376151711744 : ℝ))
      (Ext.fin (-1127824928780849 / 281474976710656 : ℝ)) =
      Ext.fin (-4330847726519483 / 36028797018963968 : ℝ) :=
    round64_of_neg _ _ (-4) (-8661695453038966) (by norm_num) (by norm_num) (by norm_num)
      (by norm_num) (by norm_num) (by norm_num) (by norm_num)
  have ha5 : (f64ArithWith fexp flog).add (Ext.fin (6905952301984757 / 2251799813685248 : ℝ))
      (Ext.fin (-4330847726519483 / 36028797018963968 : ℝ)) =
      Ext.fin (6635274319077289 / 2251799813685248 : ℝ) :=
    round64_of_pos _ _ 1 6635274319077289 (by norm_num) (by norm_num) (by norm_num)
      (by norm_num) (by norm_num) (by norm_num) (by norm_num)
  have hm4 : (f64ArithWith fexp flog).mul (Ext.fin (8646911284553395 / 288230376151711744 : ℝ))
      (Ext.fin (6635274319077289 / 2251799813685248 : ℝ)) =
      Ext.fin (3184931673157851 / 36028797018963968 : ℝ) :=
    round64_of_pos _ _ (-4) 6369863346315702 (by norm_num) (by norm_num) (by norm_num)
      (by norm_num) (by norm_num) (by norm_num) (by norm_num)
  have ha4 : (f64ArithWith fexp flog).add (Ext.fin (-5299726157895711 / 2251799813685248 : ℝ))
      (Ext.fin (3184931673157851 / 36028797018963968 : ℝ)) =
      Ext.fin (-5100667928323345 / 2251799813685248 : ℝ) :=
    round64_of_neg _ _ 1 (-5100667928323345) (by norm_num) (by norm_num) (by norm_num)
      (by norm_num) (by norm_num) (by norm_num) (by norm_num)
  have hm3 : (f64ArithWith fexp flog).mul (Ext.fin (8646911284553395 / 288230376151711744 : ℝ))
      (Ext.fin (-5100667928323345 / 2251799813685248 : ℝ)) =
      Ext.fin (-306040075699473 / 4503599627370496 : ℝ) :=
    round64_of_neg _ _ (-4) (-4896641211191568) (by norm_num) (by norm_num) (by norm_num)
      (by norm_num) (by norm_num) (by norm_num) (by norm_num)
  have ha3 : (f64ArithWith fexp flog).add (Ext.fin (2180452791395475 / 1125899906842624 : ℝ))
      (Ext.fin (-306040075699473 / 4503599627370496 : ℝ)) =
      Ext.fin (8415771089882427 / 4503599627370496 : ℝ) :=
    round64_of_pos _ _ 0 8415771089882427 (by norm_num) (by norm_num) (by norm_num)
      (by norm_num) (by norm_num) (by norm_num) (by norm_num)
  have hm2 : (f64ArithWith fexp flog).mul (Ext.fin (8646911284553395 / 288230376151711744 : ℝ))
      (Ext.fin (8415771089882427 / 4503599627370496 : ℝ)) =
      Ext.fin (4039570123144519 / 72057594037927936 : ℝ) :=
    round64_of_pos _ _ (-5) 8079140246289038 (by norm_num) (by norm_num) (by norm_num)
      (by norm_num) (by norm_num) (by norm_num) (by norm_num)
  have ha2 : (f64ArithWith fexp flog).add (Ext.fin (-2040342171622691 / 1125899906842624 : ℝ))
      (Ext.fin (4039570123144519 / 72057594037927936 : ℝ)) =
      Ext.fin (-988611944224279 / 562949953421312 : ℝ) :=
    round64_of_neg _ _ 0 (-7908895553794232) (by norm_num) (by norm_num) (by norm_num)
      (by norm_num) (by norm_num) (by norm_num) (by norm_num)
  have hm1 : (f64ArithWith fexp flog).mul (Ext.fin (8646911284553395 / 288230376151711744 : ℝ))
      (Ext.fin (-988611944224279 / 562949953421312 : ℝ)) =
      Ext.fin (-237266866613883 / 4503599627370496 : ℝ) :=
    round64_of_neg _ _ (-5) (-7592539731644256) (by norm_num) (by norm_num) (by norm_num)
      (by norm_num) (by norm_num) (by norm_num) (by norm_num)
  have ha1 : (f64ArithWith fexp flog).add (Ext.fin (2625197741670367 / 1125899906842624 : ℝ))
      (Ext.fin (-237266866613883 / 4503599627370496 : ℝ)) =
      Ext.fin (40091891015889 / 17592186044416 : ℝ) :=
    round64_tie_pos _ _ 1 5131762050033792 (by norm_num) (by norm_num) (by norm_num)
      (Or.inl (by norm_num)) ⟨2565881025016896, by norm_num⟩ (by norm_num) (by norm_num)
      (by norm_num)
  have hm0 : (f64ArithWith fexp flog).mul (Ext.fin (8646911284553395 / 288230376151711744 : ℝ))
      (Ext.fin (40091891015889 / 17592186044416 : ℝ)) =
      Ext.fin (1231622892008401 / 18014398509481984 : ℝ) :=
    round64_of_pos _ _ (-4) 4926491568033604 (by norm_num) (by norm_num) (by norm_num)
      (by norm_num) (by norm_num) (by norm_num) (by norm_num)
  have ha0 : (f64ArithWith fexp flog).add (Ext.fin (-1 : ℝ))
      (Ext.fin (1231622892008401 / 18014398509481984 : ℝ)) =
      Ext.fin (-1048923476092099 / 1125899906842624 : ℝ) :=
    round64_tie_neg _ _ (-1) (-8391387808736792) (by norm_num) (by norm_num) (by norm_num)
      (Or.inl (by norm_num)) ⟨(-4195693904368396), by norm_num⟩ (by norm_num) (by norm_num)
      (by norm_num)
  simp only [seriesEval]
  rw [f64_coeff_0, f64_coeff_1, f64_coeff_2, f64_coeff_3, f64_coeff_4, f64_coeff_5, f64_coeff_6,
    f64_coeff_7, f64_coeff_8, f64_coeff_9, f64_coeff_10, f64_coeff_11, hm10, ha10, hm9, ha9, hm8,
    ha8, hm7, ha7, hm6, ha6, hm5, ha5, hm4, ha4, hm3, ha3, hm2, ha2, hm1, ha1, hm0, ha0]

/-! ## Rounding to binary64 never crosses a number of the grid -/

/-- Rounding to the nearest integer stays at or below an integer above. -/
theorem roundEven_le (t : ℝ) (n : ℤ) (h : t ≤ n) : roundEven t ≤ n := by
  unfold roundEven
  have hf : ⌊t⌋ ≤ n := by
    have := Int.floor_le t
    exact_mod_cast le_trans this h
  by_cases hlt : t - ⌊t⌋ < 1 / 2
  · rw [if_pos hlt]
    exact hf
  · have hne : ⌊t⌋ < n := by
      rcases lt_or_eq_of_le hf with h1 | h1
      · exact h1
      · exfalso
        apply hlt
        rw [h1]
        linarith
    split_ifs <;> omega

/-- Rounding to the nearest integer stays at or above an integer below. -/
theorem le_roundEven (t : ℝ) (n : ℤ) (h : (n : ℝ) ≤ t) : n ≤ roundEven t := by
  unfold roundEven
  have hf : n ≤ ⌊t⌋ := Int.le_floor.mpr h
  split_ifs <;> omega

/-- Zero rounds to zero. -/
theorem round64_zero : round64 0 = Ext.fin 0 := by
  have h0 : roundEven (0 : ℝ) = 0 := roundEven_eq 0 0 (by norm_num)
  unfold round64
  rw [zero_div, h0]
  simp
  positivity

/-- The binade of a nonzero real below `2^(E+1)` in absolute value is at most
`E`, for `E` in the normal range. -/
theorem binade_le (y : ℝ) (E : ℤ) (hE : -1022 ≤ E) (hy0 : y ≠ 0)
    (h : |y| < (2 : ℝ) ^ (E + 1)) : binade y ≤ E := by
  have hpos : 0 < |y| := abs_pos.mpr hy0
  have hl : Int.log 2 |y| < E + 1 := by
    rw [← Int.lt_zpow_iff_log_lt (by norm_num) hpos]
    exact_mod_cast h
  unfold binade
  exact max_le (by omega) hE

/-- A multiple of `2^j` is an integer multiple of every finer unit `2^k`. -/
theorem grid_refine (n j k : ℤ) (hk : k ≤ j) :
    ∃ m : ℤ, (n : ℝ) * (2 : ℝ) ^ j = m * (2 : ℝ) ^ k := by
  refine ⟨n * 2 ^ (j - k).toNat, ?_⟩
  have h2 : (2 : ℝ) ^ j = (2 : ℝ) ^ (j - k).toNat * (2 : ℝ) ^ k := by
    rw [← zpow_natCast, ← zpow_add₀ (by norm_num)]
    congr 1
    omega
  rw [h2]
  push_cast
  ring

/-- Rounding to binary64 never crosses a number of a grid that is at least as
coarse as the unit of the rounded real: for `lo ≤ y ≤ hi` with `lo` and `hi`
multiples of `2^j` below `2^(j+53)` in absolute value, `y` rounds to a finite
number between `lo` and `hi`. -/
theorem round64_mem (y lo hi : ℝ) (j nlo nhi : ℤ) (hj1 : -1074 ≤ j) (hj2 : j ≤ 971)
    (hlo : lo = nlo * (2 : ℝ) ^ j) (hhi : hi = nhi * (2 : ℝ) ^ j)
    (hb1 : -(2 : ℝ) ^ (j + 53) < lo) (hb2 : hi < (2 : ℝ) ^ (j + 53))
    (h1 : lo ≤ y) (h2 : y ≤ hi) :
    ∃ c, round64 y = Ext.fin c ∧ lo ≤ c ∧ c ≤ hi := by
  by_cases hy0 : y = 0
  · exact ⟨0, by rw [hy0, round64_zero], by linarith, by linarith⟩
  · have habs : |y| < (2 : ℝ) ^ (j + 52 + 1) := by
      rw [show j + 52 + 1 = j + 53 by ring, abs_lt]
      exact ⟨by linarith, by linarith⟩
    have hbin := binade_le y (j + 52) (by omega) hy0 habs
    have hu : (0 : ℝ) < (2 : ℝ) ^ (binade y - 52) := by positivity
    obtain ⟨mlo, hmlo⟩ := grid_refine nlo j (binade y - 52) (by omega)
    obtain ⟨mhi, hmhi⟩ := grid_refine nhi j (binade y - 52) (by omega)
    have hN1 : mlo ≤ roundEven (y / (2 : ℝ) ^ (binade y - 52)) := by
      apply le_roundEven
      rw [le_div_iff₀ hu, ← hmlo, ← hlo]
      exact h1
    have hN2 : roundEven (y / (2 : ℝ) ^ (binade y - 52)) ≤ mhi := by
      apply roundEven_le
      rw [div_le_iff₀ hu, ← hmhi, ← hhi]
      exact h2
    have hc1 : lo ≤ (roundEven (y / (2 : ℝ) ^ (binade y - 52)) : ℝ) * (2 : ℝ) ^ (binade y - 52) := by
      rw [hlo, hmlo]
      exact mul_le_mul_of_nonneg_right (by exact_mod_cast hN1) hu.le
    have hc2 : (roundEven (y / (2 : ℝ) ^ (binade y - 52)) : ℝ) * (2 : ℝ) ^ (binade y - 52) ≤ hi := by
      rw [hhi, hmhi]
      exact mul_le_mul_of_nonneg_right (by exact_mod_cast hN2) hu.le
    have hpow : (2 : ℝ) ^ (j + 53) ≤ (2 : ℝ) ^ (1024 : ℤ) :=
      zpow_le_zpow_right₀ (by norm_num) (by omega)
    refine ⟨_, ?_, hc1, hc2⟩
    unfold round64
    rw [if_neg]
    rw [not_le, abs_lt]
    exact ⟨by linarith, by linarith⟩

/-- A real that is not above zero does not round to a number above zero. -/
theorem round64_fin_nonpos (y c : ℝ) (hy : y ≤ 0) (h : round64 y = Ext.fin c) : c ≤ 0 := by
  have hu : (0 : ℝ) < (2 : ℝ) ^ (binade y - 52) := by positivity
  have hN : roundEven (y / (2 : ℝ) ^ (binade y - 52)) ≤ 0 := by
    apply roundEven_le
    rw [div_le_iff₀ hu]
    simpa using hy
  unfold round64 at h
  split_ifs at h
  injection h with h
  rw [← h]
  exact mul_nonpos_of_nonpos_of_nonneg (by exact_mod_cast hN) hu.le

/-- A real that is not below zero does not round to a number below zero. -/
theorem round64_fin_nonneg (y c : ℝ) (hy : 0 ≤ y) (h : round64 y = Ext.fin c) : 0 ≤ c := by
  have hu : (0 : ℝ) < (2 : ℝ) ^ (binade y - 52) := by positivity
  have hN : 0 ≤ roundEven (y / (2 : ℝ) ^ (binade y - 52)) := by
    apply le_roundEven
    rw [le_div_iff₀ hu]
    simpa using hy
  unfold round64 at h
  split_ifs at h
  injection h with h
  rw [← h]
  exact mul_nonneg (by exact_mod_cast hN) hu.le

/-! ## The operations of binary64 on finite operands -/

/-- Addition of finite operands in binary64. -/
theorem f64_add_fin (fexp flog : ℝ → ℝ) (a b : ℝ) :
    (f64ArithWith fexp flog).add (Ext.fin a) (Ext.fin b) = round64 (a + b) := rfl

/-- Subtraction of finite operands in binary64. -/
theorem f64_sub_fin (fexp flog : ℝ → ℝ) (a b : ℝ) :
    (f64ArithWith fexp flog).sub (Ext.fin a) (Ext.fin b) = round64 (a + -b) := rfl

/-- Multiplication of finite operands in binary64. -/
theorem f64_mul_fin (fexp flog : ℝ → ℝ) (a b : ℝ) :
    (f64ArithWith fexp flog).mul (Ext.fin a) (Ext.fin b) = round64 (a * b) := rfl

/-- Division of finite operands in binary64, the divisor not zero. -/
theorem f64_div_fin (fexp flog : ℝ → ℝ) (a b : ℝ) (hb : b ≠ 0) :
    (f64ArithWith fexp flog).div (Ext.fin a) (Ext.fin b) = round64 (a / b) := by
  simp [f64ArithWith, Ext.div, Ext.round, hb]

/-- The function `math.Sqrt` of binary64 on a finite operand not below zero. -/
theorem f64_sqrt_fin (fexp flog : ℝ → ℝ) (a : ℝ) (ha : 0 ≤ a) :
    (f64ArithWith fexp flog).sqrt (Ext.fin a) = round64 (Real.sqrt a) := by
  simp [f64ArithWith, Ext.sqrt, Ext.round, not_lt.mpr ha]

/-- The function `math.Log` of binary64 on a finite operand above zero. -/
theorem f64_log_fin (fexp flog : ℝ → ℝ) (a : ℝ) (ha : 0 < a) :
    (f64ArithWith fexp flog).log (Ext.fin a) = round64 (flog a) := by
  simp [f64ArithWith, Ext.logWith, Ext.round, not_lt.mpr ha.le, ha.ne.symm]

/-- The function `math.Exp` of binary64 on a finite operand. -/
theorem f64_exp_fin (fexp flog : ℝ → ℝ) (a : ℝ) :
    (f64ArithWith fexp flog).exp (Ext.fin a) = round64 (fexp a) := rfl

/-- The comparison `<` of binary64 on finite operands. -/
theorem f64_lt_fin (fexp flog : ℝ → ℝ) (a b : ℝ) :
    (f64ArithWith fexp flog).lt (Ext.fin a) (Ext.fin b) = decide (a < b) := rfl

/-- The comparison `==` of binary64 on finite operands. -/
theorem f64_eq_fin (fexp flog : ℝ → ℝ) (a b : ℝ) :
    (f64ArithWith fexp flog).eq (Ext.fin a) (Ext.fin b) = decide (a = b) := rfl

/-- A literal of binary64 is the rounded rational. -/
theorem f64_lit (fexp flog : ℝ → ℝ) (q : ℚ) :
    (f64ArithWith fexp flog).lit q = round64 (q : ℝ) := rfl

/-- The literal `0.0` in binary64. -/
theorem f64_lit_zero (fexp flog : ℝ → ℝ) : (f64ArithWith fexp flog).lit 0 = Ext.fin 0 := by
  rw [f64_lit, Rat.cast_zero, round64_zero]

/-- The literal `1.0` in binary64. -/
theorem f64_lit_one (fexp flog : ℝ → ℝ) : (f64ArithWith fexp flog).lit 1 = Ext.fin 1 :=
  round64_of_pos _ _ 0 4503599627370496 (by norm_num) (by norm_num) (by norm_num) (by norm_num)
    (by norm_num) (by norm_num) (by norm_num)

/-- The literal `-1.0` in binary64. -/
theorem f64_lit_neg_one (fexp flog : ℝ → ℝ) :
    (f64ArithWith fexp flog).lit (-1) = Ext.fin (-1) :=
  round64_of_neg _ _ 0 (-4503599627370496) (by norm_num) (by norm_num) (by norm_num)
    (by norm_num) (by norm_num) (by norm_num) (by norm_num)

/-- The literal `2.0` in binary64. -/
theorem f64_lit_two (fexp flog : ℝ → ℝ) : (f64ArithWith fexp flog).lit 2 = Ext.fin 2 :=
  round64_of_pos _ _ 1 4503599627370496 (by norm_num) (by norm_num) (by norm_num) (by norm_num)
    (by norm_num) (by norm_num) (by norm_num)

/-- The literal `3.0` in binary64. -/
theorem f64_lit_three (fexp flog : ℝ → ℝ) : (f64ArithWith fexp flog).lit 3 = Ext.fin 3 :=
  round64_of_pos _ _ 1 6755399441055744 (by norm_num) (by norm_num) (by norm_num) (by norm_num)
    (by norm_num) (by norm_num) (by norm_num)

/-- The literal `11.0` in binary64. -/
theorem f64_lit_eleven (fexp flog : ℝ → ℝ) : (f64ArithWith fexp flog).lit 11 = Ext.fin 11 :=
  round64_of_pos _ _ 3 6192449487634432 (by norm_num) (by norm_num) (by norm_num) (by norm_num)
    (by norm_num) (by norm_num) (by norm_num)

/-- The literal `72.0` in binary64. -/
theorem f64_lit_seventy_two (fexp flog : ℝ → ℝ) :
    (f64ArithWith fexp flog).lit 72 = Ext.fin 72 :=
  round64_of_pos _ _ 6 5066549580791808 (by norm_num) (by norm_num) (by norm_num) (by norm_num)
    (by norm_num) (by norm_num) (by norm_num)

/-- The literal `0.5` in binary64. -/
theorem f64_lit_half (fexp flog : ℝ → ℝ) : (f64ArithWith fexp flog).lit 0.5 = Ext.fin (1 / 2) :=
  round64_of_pos _ _ (-1) 4503599627370496 (by norm_num) (by norm_num) (by norm_num)
    (by norm_num) (by norm_num) (by norm_num) (by norm_num)

/-- The constant `gslDblEpsilon` in binary64 is `2^(-52)`. -/
theorem f64_epsilon (fexp flog : ℝ → ℝ) :
    gslDblEpsilon (f64ArithWith fexp flog) = Ext.fin (1 / 4503599627370496) :=
  round64_of_pos _ _ (-52) 4503599627370496 (by norm_num) (by norm_num) (by norm_num)
    (by norm_num) (by norm_num) (by norm_num) (by norm_num)

/-- The constant `oneOverE` in binary64. -/
theorem f64_oneOverE (fexp flog : ℝ → ℝ) :
    oneOverE (f64ArithWith fexp flog) = Ext.fin (828390857088487 / 2251799813685248) :=
  round64_of_pos _ _ (-2) 6627126856707896 (by norm_num [mathE]) (by norm_num [mathE])
    (by norm_num [mathE]) (by norm_num [mathE]) (by norm_num [mathE]) (by norm_num)
    (by norm_num)

/-! ## The initial guess in binary64 -/

/-- The literal `2.0 * math.E` in binary64. -/
theorem f64_two_e (fexp flog : ℝ → ℝ) :
    (f64ArithWith fexp flog).lit (2 * mathE) =
      Ext.fin (6121026514868073 / 1125899906842624) :=
  round64_of_pos _ _ 2 6121026514868073 (by norm_num [mathE]) (by norm_num [mathE])
    (by norm_num [mathE]) (by norm_num [mathE]) (by norm_num [mathE]) (by norm_num)
    (by norm_num)

/-- The literal `-1.0 / 3.0` in binary64. -/
theorem f64_neg_third (fexp flog : ℝ → ℝ) :
    (f64ArithWith fexp flog).lit (-1 / 3) =
      Ext.fin (-6004799503160661 / 18014398509481984) :=
  round64_of_neg _ _ (-2) (-6004799503160661) (by norm_num) (by norm_num)
    (by norm_num) (by norm_num) (by norm_num) (by norm_num)
    (by norm_num)

/-- The literal `1.0e-03` in binary64. -/
theorem f64_milli (fexp flog : ℝ → ℝ) :
    (f64ArithWith fexp flog).lit 1.0e-03 =
      Ext.fin (1152921504606847 / 1152921504606846976) :=
  round64_of_pos _ _ (-10) 4611686018427388 (by norm_num) (by norm_num)
    (by norm_num) (by norm_num) (by norm_num) (by norm_num)
    (by norm_num)

/-- The cubic seed in binary64: for `q` between `2^(-10)` and `11/8` the seed
of the branch `x < 1` is a finite number between `-127/128` and `3`. -/
theorem cubic_seed_f64 (fexp flog : ℝ → ℝ) (qv : ℝ) (hq1 : 1 / 1024 ≤ qv) (hq2 : qv ≤ 11 / 8) :
    ∃ g, (∀ r : ℝ, r < 1 →
        initialGuess (f64ArithWith fexp flog) (Ext.fin r) (Ext.fin qv) = Ext.fin g) ∧
      -127 / 128 ≤ g ∧ g ≤ 3 := by
  obtain ⟨m1, hm1, hm1l, hm1u⟩ := round64_mem ((6121026514868073 / 1125899906842624 : ℝ) * qv)
    (5567 / 1048576 : ℝ) (3919197 / 524288 : ℝ) (-20) 5567 7838394
    (by norm_num) (by norm_num) (by norm_num) (by norm_num) (by norm_num) (by norm_num)
    (by linarith only [hq1, hq2])
    (by linarith only [hq1, hq2])
  have em1 : (f64ArithWith fexp flog).mul (Ext.fin (6121026514868073 / 1125899906842624 : ℝ))
      (Ext.fin qv) = Ext.fin m1 := hm1
  obtain ⟨p, hp, hpl, hpu⟩ := round64_mem (Real.sqrt m1)
    (76403 / 1048576 : ℝ) (2866907 / 1048576 : ℝ) (-20) 76403 2866907
    (by norm_num) (by norm_num) (by norm_num) (by norm_num) (by norm_num) (by norm_num)
    (Real.le_sqrt_of_sq_le (by norm_num; linarith only [hm1l, hm1u]))
    ((Real.sqrt_le_left (by norm_num)).mpr (by norm_num; linarith only [hm1l, hm1u]))
  obtain ⟨m2, hm2, hm2l, hm2u⟩ := round64_mem (p * (11 : ℝ))
    (840433 / 1048576 : ℝ) (31535977 / 1048576 : ℝ) (-20) 840433 31535977
    (by norm_num) (by norm_num) (by norm_num) (by norm_num) (by norm_num) (by norm_num)
    (by linarith only [hpl, hpu])
    (by linarith only [hpl, hpu])
  have em2 : (f64ArithWith fexp flog).mul (Ext.fin p) (Ext.fin (11 : ℝ)) = Ext.fin m2 := hm2
  obtain ⟨d, hd, hdl, hdu⟩ := round64_mem (m2 / (72 : ℝ))
    (1459 / 131072 : ℝ) (27375 / 65536 : ℝ) (-20) 11672 438000
    (by norm_num) (by norm_num) (by norm_num) (by norm_num) (by norm_num) (by norm_num)
    (by linarith only [hm2l, hm2u])
    (by linarith only [hm2l, hm2u])
  obtain ⟨s, hs, hsl, hsu⟩ := round64_mem ((-6004799503160661 / 18014398509481984 : ℝ) + d)
    (-168927 / 524288 : ℝ) (88475 / 1048576 : ℝ) (-20) (-337854) 88475
    (by norm_num) (by norm_num) (by norm_num) (by norm_num) (by norm_num) (by norm_num)
    (by linarith only [hdl, hdu])
    (by linarith only [hdl, hdu])
  have es : (f64ArithWith fexp flog).add (Ext.fin (-6004799503160661 / 18014398509481984 : ℝ))
      (Ext.fin d) = Ext.fin s := hs
  obtain ⟨m3, hm3, hm3l, hm3u⟩ := round64_mem (p * s)
    (-461863 / 524288 : ℝ) (60475 / 262144 : ℝ) (-20) (-923726) 241900
    (by norm_num) (by norm_num) (by norm_num) (by norm_num) (by norm_num) (by norm_num)
    (by
      nlinarith only [mul_nonneg (sub_nonneg.2 hpl) (sub_nonneg.2 hsl),
        mul_nonneg (sub_nonneg.2 hpl) (sub_nonneg.2 hsu),
        mul_nonneg (sub_nonneg.2 hpu) (sub_nonneg.2 hsl),
        mul_nonneg (sub_nonneg.2 hpu) (sub_nonneg.2 hsu)])
    (by
      nlinarith only [mul_nonneg (sub_nonneg.2 hpl) (sub_nonneg.2 hsl),
        mul_nonneg (sub_nonneg.2 hpl) (sub_nonneg.2 hsu),
        mul_nonneg (sub_nonneg.2 hpu) (sub_nonneg.2 hsl),
        mul_nonneg (sub_nonneg.2 hpu) (sub_nonneg.2 hsu)])
  have em3 : (f64ArithWith fexp flog).mul (Ext.fin p) (Ext.fin s) = Ext.fin m3 := hm3
  obtain ⟨a2, ha2, ha2l, ha2u⟩ := round64_mem ((1 : ℝ) + m3)
    (62425 / 524288 : ℝ) (322619 / 262144 : ℝ) (-20) 124850 1290476
    (by norm_num) (by norm_num) (by norm_num) (by norm_num) (by norm_num) (by norm_num)
    (by linarith only [hm3l, hm3u])
    (by linarith only [hm3l, hm3u])
  have ea2 : (f64ArithWith fexp flog).add (Ext.fin (1 : ℝ)) (Ext.fin m3) = Ext.fin a2 := ha2
  obtain ⟨m4, hm4, hm4l, hm4u⟩ := round64_mem (p * a2)
    (9097 / 1048576 : ℝ) (3528285 / 1048576 : ℝ) (-20) 9097 3528285
    (by norm_num) (by norm_num) (by norm_num) (by norm_num) (by norm_num) (by norm_num)
    (by
      nlinarith only [mul_nonneg (sub_nonneg.2 hpl) (sub_nonneg.2 ha2l),
        mul_nonneg (sub_nonneg.2 hpl) (sub_nonneg.2 ha2u),
        mul_nonneg (sub_nonneg.2 hpu) (sub_nonneg.2 ha2l),
        mul_nonneg (sub_nonneg.2 hpu) (sub_nonneg.2 ha2u)])
    (by
      nlinarith only [mul_nonneg (sub_nonneg.2 hpl) (sub_nonneg.2 ha2l),
        mul_nonneg (sub_nonneg.2 hpl) (sub_nonneg.2 ha2u),
        mul_nonneg (sub_nonneg.2 hpu) (sub_nonneg.2 ha2l),
        mul_nonneg (sub_nonneg.2 hpu) (sub_nonneg.2 ha2u)])
  have em4 : (f64ArithWith fexp flog).mul (Ext.fin p) (Ext.fin a2) = Ext.fin m4 := hm4
  obtain ⟨g, hg, hgl, hgu⟩ := round64_mem ((-1 : ℝ) + m4)
    (-1039479 / 1048576 : ℝ) (2479709 / 1048576 : ℝ) (-20) (-1039479) 2479709
    (by norm_num) (by norm_num) (by norm_num) (by norm_num) (by norm_num) (by norm_num)
    (by linarith only [hm4l, hm4u])
    (by linarith only [hm4l, hm4u])
  have eg : (f64ArithWith fexp flog).add (Ext.fin (-1 : ℝ)) (Ext.fin m4) = Ext.fin g := hg
  refine ⟨g, fun r hr => ?_, by linarith, by linarith⟩
  have hm1pos : (0 : ℝ) ≤ m1 := by linarith
  simp only [initialGuess]
  rw [f64_lit_one, f64_lt_fin, if_pos (by simpa using hr), f64_two_e, f64_mul_fin, hm1,
    f64_sqrt_fin _ _ _ hm1pos, hp, f64_lit_eleven, f64_mul_fin, hm2, f64_lit_seventy_two,
    f64_div_fin _ _ _ _ (by norm_num), hd, f64_neg_third, f64_add_fin, hs, f64_mul_fin, hm3,
    f64_add_fin, ha2, f64_mul_fin, hm4, f64_lit_neg_one, f64_add_fin, hg]

/-- A lower bound on `ln 3`. -/
theorem log_three_gt : (109 / 100 : ℝ) < Real.log 3 := by
  rw [Real.lt_log_iff_exp_lt (by norm_num)]
  have h1 : Real.exp (109 / 100) = Real.exp 1 * Real.exp (9 / 100) := by
    rw [← Real.exp_add]
    norm_num
  have h2 := Real.exp_one_lt_d9
  have h3 : Real.exp (9 / 100) ≤ 1 / (1 - 9 / 100) :=
    Real.exp_bound_div_one_sub_of_interval (by norm_num) (by norm_num)
  have h4 : (0 : ℝ) < Real.exp (9 / 100) := Real.exp_pos _
  have h5 : (0 : ℝ) < Real.exp 1 := Real.exp_pos _
  rw [h1]
  calc Real.exp 1 * Real.exp (9 / 100) ≤ Real.exp 1 * (1 / (1 - 9 / 100)) :=
        mul_le_mul_of_nonneg_left h3 h5.le
    _ < 2.7182818286 * (1 / (1 - 9 / 100)) := by
        apply mul_lt_mul_of_pos_right h2
        norm_num
    _ < 3 := by norm_num

/-- The logarithm stays a margin below `w - 1` once `w` is a little above 1. -/
theorem log_le_sub_margin (w : ℝ) (hw : 1115 / 1024 ≤ w) : Real.log w ≤ w - 1 - 7 / 2000 := by
  rw [Real.log_le_iff_le_exp (by linarith)]
  have hs : (0 : ℝ) ≤ w - 1 - 7 / 2000 := by linarith
  have h := Real.quadratic_le_exp_of_nonneg hs
  nlinarith

/-- The logarithm of a number below `2^1024` is below 710. -/
theorem log_lt_of_lt_two_pow (r : ℝ) (hr0 : 0 < r) (hr : r < (2 : ℝ) ^ (1024 : ℤ)) :
    Real.log r < 710 := by
  have h1 := Real.log_lt_log hr0 hr
  rw [Real.log_zpow] at h1
  have h2 := Real.log_two_lt_d9
  push_cast at h1
  linarith

/-- A number that a real in `[1, 1024)` rounds to lies on the grid of that
real, on which `1` lies too: a real from zero up to the rounded number less one
does not round above it. -/
theorem round64_le_sub_one (y w z : ℝ) (hy1 : 1 ≤ y) (hy2 : y < 1024)
    (hw : round64 y = Ext.fin w) (hz0 : 0 ≤ z) (hz : z ≤ w - 1) :
    ∃ c, round64 z = Ext.fin c ∧ 0 ≤ c ∧ c ≤ w - 1 := by
  have hy0 : y ≠ 0 := by linarith
  have hyabs : |y| = y := abs_of_pos (by linarith)
  have hb1 : 0 ≤ binade y := by
    unfold binade
    apply le_max_of_le_left
    rw [← Int.zpow_le_iff_le_log (by norm_num) (by rw [hyabs]; linarith)]
    rw [hyabs]
    simpa using hy1
  have hb2 : binade y ≤ 9 := binade_le y 9 (by norm_num) hy0 (by rw [hyabs]; norm_num; linarith)
  have hu : (0 : ℝ) < (2 : ℝ) ^ (binade y - 52) := by positivity
  have hlt : |y| < (2 : ℝ) ^ (binade y + 1) := by
    have hmax : Int.log 2 |y| ≤ binade y := le_max_left _ _
    have h1 : |y| < ((2 : ℕ) : ℝ) ^ (Int.log 2 |y| + 1) := Int.lt_zpow_succ_log_self (by norm_num) _
    have h2 : ((2 : ℕ) : ℝ) ^ (Int.log 2 |y| + 1) ≤ ((2 : ℕ) : ℝ) ^ (binade y + 1) :=
      zpow_le_zpow_right₀ (by norm_num) (by omega)
    exact_mod_cast lt_of_lt_of_le h1 h2
  have hN : roundEven (y / (2 : ℝ) ^ (binade y - 52)) ≤ 2 ^ 53 := by
    apply roundEven_le
    rw [div_le_iff₀ hu]
    have h3 : (2 : ℝ) ^ (binade y + 1) = (2 : ℝ) ^ (53 : ℕ) * (2 : ℝ) ^ (binade y - 52) := by
      rw [← zpow_natCast, ← zpow_add₀ (by norm_num)]
      congr 1
      omega
    rw [hyabs] at hlt
    push_cast
    linarith
  have hwv : w = (roundEven (y / (2 : ℝ) ^ (binade y - 52)) : ℝ) * (2 : ℝ) ^ (binade y - 52) := by
    unfold round64 at hw
    split_ifs at hw
    injection hw with hw
    exact hw.symm
  have hone : (1 : ℝ) = ((2 : ℤ) ^ (52 - binade y).toNat : ℤ) * (2 : ℝ) ^ (binade y - 52) := by
    push_cast
    rw [← zpow_natCast, ← zpow_add₀ (by norm_num)]
    have : ((52 - binade y).toNat : ℤ) + (binade y - 52) = 0 := by omega
    rw [this, zpow_zero]
  have hwle : w ≤ (2 : ℝ) ^ (binade y - 52 + 53) := by
    rw [hwv, zpow_add₀ (by norm_num), mul_comm ((2 : ℝ) ^ (binade y - 52))]
    apply mul_le_mul_of_nonneg_right _ hu.le
    exact_mod_cast hN
  have hpos : (0 : ℝ) < (2 : ℝ) ^ (binade y - 52 + 53) := by positivity
  exact round64_mem z 0 (w - 1) (binade y - 52) 0
    (roundEven (y / (2 : ℝ) ^ (binade y - 52)) - 2 ^ (52 - binade y).toNat)
    (by omega) (by omega) (by simp)
    (by
      push_cast
      rw [sub_mul, ← hwv]
      push_cast at hone
      rw [← hone])
    (by linarith) (by linarith) hz0 hz

/-- A real that rounds to `+Inf` is at least `2^1023`. -/
theorem round64_pinf (y : ℝ) (h : round64 y = Ext.pinf) : (2 : ℝ) ^ (1023 : ℤ) ≤ y := by
  by_contra hlt
  rw [not_le] at hlt
  have hpos : 0 < y := by
    unfold round64 at h
    split_ifs at h with h1 h2
    exact h2
  obtain ⟨c, hc, _, _⟩ := round64_mem y 0 ((2 : ℝ) ^ (1023 : ℤ)) 971 0 (2 ^ 52)
    (by norm_num) (by norm_num) (by simp) (by norm_num) (by norm_num) (by norm_num)
    hpos.le hlt.le
  rw [hc] at h
  exact Ext.noConfusion h

/-- The logarithmic seed in binary64, for an accurate logarithm: for a finite
`x ≥ 1` the first logarithm is a finite number from 0 to 711, and for `x > 3`
the second logarithm is at most the first less one, so that the seed is a
finite number from 1 to 711. -/
theorem log_seed_f64 (fexp flog : ℝ → ℝ) (hlog : LogAccurate flog) (r : ℝ) (hr1 : 1 ≤ r)
    (hr2 : r < (2 : ℝ) ^ (1024 : ℤ)) :
    ∃ w, (f64ArithWith fexp flog).log (Ext.fin r) = Ext.fin w ∧ 0 ≤ w ∧ w ≤ 711 ∧
      (3 < r → 1115 / 1024 ≤ w ∧
        ∃ g, (f64ArithWith fexp flog).sub (Ext.fin w)
            ((f64ArithWith fexp flog).log (Ext.fin w)) = Ext.fin g ∧ 1 ≤ g ∧ g ≤ 711) := by
  have hr0 : 0 < r := by linarith
  have hl0 : 0 ≤ Real.log r := Real.log_nonneg hr1
  have hl1 := log_lt_of_lt_two_pow r hr0 hr2
  have hacc := abs_le.mp (hlog r hr1)
  have hsmall : Real.log r / 2 ^ 50 ≤ Real.log r := div_le_self hl0 (by norm_num)
  have hsmall2 : Real.log r / 2 ^ 50 ≤ 1 / 2 := by
    rw [div_le_iff₀ (by norm_num)]
    norm_num
    linarith
  obtain ⟨w, hw, hwl, hwu⟩ := round64_mem (flog r) 0 711 (-20) 0 745537536
    (by norm_num) (by norm_num) (by norm_num) (by norm_num) (by norm_num) (by norm_num)
    (by linarith [hacc.1]) (by linarith [hacc.2])
  refine ⟨w, by rw [f64_log_fin _ _ _ hr0, hw], hwl, hwu, fun h3 => ?_⟩
  have hl3 : (109 / 100 : ℝ) < Real.log r :=
    lt_trans log_three_gt (Real.log_lt_log (by norm_num) h3)
  have hsmall3 : Real.log r / 2 ^ 50 ≤ 1 / 1000000 := by
    rw [div_le_iff₀ (by norm_num)]
    norm_num
    linarith
  obtain ⟨w2, hw2, hw2l, _⟩ := round64_mem (flog r) (1115 / 1024) 711 (-20) 1141760 745537536
    (by norm_num) (by norm_num) (by norm_num) (by norm_num) (by norm_num) (by norm_num)
    (by linarith [hacc.1]) (by linarith [hacc.2])
  rw [hw] at hw2
  injection hw2 with hw2
  rw [← hw2] at hw2l
  have hw0 : 0 < w := by linarith
  have hw1 : 1 ≤ w := by linarith
  have hlw0 : 0 ≤ Real.log w := Real.log_nonneg hw1
  have hlw1 := log_le_sub_margin w hw2l
  have hacc2 := abs_le.mp (hlog w hw1)
  have hsmall4 : Real.log w / 2 ^ 50 ≤ Real.log w := div_le_self hlw0 (by norm_num)
  have hsmall5 : Real.log w / 2 ^ 50 ≤ 7 / 2000 := by
    rw [div_le_iff₀ (by norm_num)]
    norm_num
    linarith
  obtain ⟨lw, hlw, hlwl, hlwu⟩ := round64_le_sub_one (flog r) w (flog w)
    (by linarith [hacc.1]) (by linarith [hacc.2]) hw (by linarith [hacc2.1])
    (by linarith [hacc2.2])
  obtain ⟨g, hg, hgl, hgu⟩ := round64_mem (w + -lw) 1 711 (-20) 1048576 745537536
    (by norm_num) (by norm_num) (by norm_num) (by norm_num) (by norm_num) (by norm_num)
    (by linarith) (by linarith)
  exact ⟨hw2l, g, by rw [f64_log_fin _ _ _ hw0, hlw, f64_sub_fin, hg], hgl, hgu⟩

/-- The comparison `q >= 1.0e-03` in binary64 excludes both direct exits of the
dispatch. -/
theorem f64_dispatch_of_ge (fexp flog : ℝ → ℝ) (q : Ext)
    (hq : (f64ArithWith fexp flog).ge q ((f64ArithWith fexp flog).lit 1.0e-03) = true) :
    (f64ArithWith fexp flog).lt q ((f64ArithWith fexp flog).lit 0) = false ∧
    (f64ArithWith fexp flog).lt q ((f64ArithWith fexp flog).lit 1.0e-03) = false := by
  rw [f64_milli] at hq ⊢
  rw [f64_lit_zero]
  cases q with
  | nan => simp [Arith.ge, f64ArithWith, Ext.lt, Ext.eq] at hq
  | ninf => simp [Arith.ge, f64ArithWith, Ext.lt, Ext.eq] at hq
  | pinf => simp [f64ArithWith, Ext.lt]
  | fin qv =>
    have h : (1152921504606847 / 1152921504606846976 : ℝ) ≤ qv := by
      simp only [Arith.ge, f64ArithWith, Ext.lt, Ext.eq, Bool.or_eq_true, decide_eq_true_eq] at hq
      rcases hq with h | h
      · exact h.le
      · exact h.symm.le
    simp only [f64ArithWith, Ext.lt, decide_eq_false_iff_not, not_lt]
    exact ⟨by linarith, h⟩

/-- The test `a >= b` of binary64 on finite operands. -/
theorem f64_ge_fin (fexp flog : ℝ → ℝ) (a b : ℝ) :
    (f64ArithWith fexp flog).ge (Ext.fin a) (Ext.fin b) = decide (b ≤ a) := by
  simp only [Arith.ge, f64ArithWith, Ext.lt, Ext.eq]
  by_cases h : b ≤ a
  · rcases lt_or_eq_of_le h with h1 | h1
    · simp [h1, h]
    · simp [h1]
  · have h1 : ¬ b < a := fun h2 => h h2.le
    have h2 : ¬ a = b := fun h2 => h h2.symm.le
    simp [h, h1, h2]

/-- The seed in binary64: for every finite `x` that is not zero and has
`q >= 1.0e-03`, the initial guess is a finite number, at least `-127/128`, at
least 0 when `x < 1` fails and at least 1 when `x > 3`; the first logarithm is
then a finite number, above zero when `x > 3`. -/
theorem seed_f64 (fexp flog : ℝ → ℝ) (hlog : LogAccurate flog) (r : ℝ)
    (hr : |r| < (2 : ℝ) ^ (1024 : ℤ))
    (hq : (f64ArithWith fexp flog).ge
      ((f64ArithWith fexp flog).add (Ext.fin r) (oneOverE (f64ArithWith fexp flog)))
      ((f64ArithWith fexp flog).lit 1.0e-03) = true) :
    ∃ g, initialGuess (f64ArithWith fexp flog) (Ext.fin r)
        ((f64ArithWith fexp flog).add (Ext.fin r) (oneOverE (f64ArithWith fexp flog))) =
          Ext.fin g ∧
      -127 / 128 ≤ g ∧ g ≤ 711 ∧ (¬ r < 1 → 0 ≤ g) ∧ (3 < r → 1 ≤ g) ∧
      (¬ r < 1 → ∃ w, (f64ArithWith fexp flog).log (Ext.fin r) = Ext.fin w ∧
        (3 < r → 0 < w)) := by
  by_cases h1 : r < 1
  · rw [f64_oneOverE, f64_add_fin, f64_milli] at hq
    rw [f64_oneOverE, f64_add_fin]
    cases hqv : round64 (r + 828390857088487 / 2251799813685248) with
    | nan =>
      rw [hqv] at hq
      simp [Arith.ge, f64ArithWith, Ext.lt, Ext.eq] at hq
    | ninf =>
      rw [hqv] at hq
      simp [Arith.ge, f64ArithWith, Ext.lt, Ext.eq] at hq
    | pinf =>
      have h2 := round64_pinf _ hqv
      have h3 : (2 : ℝ) < (2 : ℝ) ^ (1023 : ℤ) := by norm_num
      linarith
    | fin qv =>
      rw [hqv, f64_ge_fin, decide_eq_true_eq] at hq
      have hy0 : 0 < r + 828390857088487 / 2251799813685248 := by
        by_contra hneg
        have := round64_fin_nonpos _ _ (not_lt.mp hneg) hqv
        linarith
      obtain ⟨c, hc, _, hcu⟩ := round64_mem (r + 828390857088487 / 2251799813685248) 0 (11 / 8)
        (-20) 0 1441792 (by norm_num) (by norm_num) (by norm_num) (by norm_num) (by norm_num)
        (by norm_num) hy0.le (by linarith)
      rw [hqv] at hc
      injection hc with hc
      rw [← hc] at hcu
      obtain ⟨g, hg, hgl, hgu⟩ := cubic_seed_f64 fexp flog qv (by linarith) hcu
      exact ⟨g, hg r h1, hgl, by linarith, fun h => absurd h1 h, fun h => by linarith,
        fun h => absurd h1 h⟩
  · have hr1 : 1 ≤ r := not_lt.mp h1
    have hr2 : r < (2 : ℝ) ^ (1024 : ℤ) := (abs_lt.mp hr).2
    obtain ⟨w, hw, hw0, hw1, hw3⟩ := log_seed_f64 fexp flog hlog r hr1 hr2
    have hlt1 : (f64ArithWith fexp flog).lt (Ext.fin r) ((f64ArithWith fexp flog).lit 1) =
        false := by
      rw [f64_lit_one, f64_lt_fin]
      simpa using hr1
    by_cases h3 : 3 < r
    · obtain ⟨hw2, g, hg, hgl, hgu⟩ := hw3 h3
      have hlt3 : (f64ArithWith fexp flog).lt ((f64ArithWith fexp flog).lit 3) (Ext.fin r) =
          true := by
        rw [f64_lit_three, f64_lt_fin]
        simpa using h3
      refine ⟨g, ?_, by linarith, hgu, fun _ => by linarith, fun _ => hgl,
        fun _ => ⟨w, hw, fun _ => by linarith⟩⟩
      simp only [initialGuess]
      rw [hlt1, hlt3, hw]
      simpa using hg
    · have hlt3 : (f64ArithWith fexp flog).lt ((f64ArithWith fexp flog).lit 3) (Ext.fin r) =
          false := by
        rw [f64_lit_three, f64_lt_fin]
        simpa using h3
      refine ⟨w, ?_, by linarith, hw1, fun _ => hw0, fun h => absurd h h3,
        fun _ => ⟨w, hw, fun h => absurd h h3⟩⟩
      simp only [initialGuess]
      rw [hlt1, hlt3, hw]
      simp

/-- The correctly rounded logarithm is accurate. -/
theorem logAccurate_log : LogAccurate Real.log := by
  intro y hy
  rw [sub_self, abs_zero]
  exact div_nonneg (Real.log_nonneg hy) (by norm_num)

/-- A real of absolute value below `2^(binade + 1)`. -/
theorem abs_lt_binade (y : ℝ) : |y| < (2 : ℝ) ^ (binade y + 1) := by
  have hmax : Int.log 2 |y| ≤ binade y := le_max_left _ _
  have h1 : |y| < ((2 : ℕ) : ℝ) ^ (Int.log 2 |y| + 1) := Int.lt_zpow_succ_log_self (by norm_num) _
  have h2 : ((2 : ℕ) : ℝ) ^ (Int.log 2 |y| + 1) ≤ ((2 : ℕ) : ℝ) ^ (binade y + 1) :=
    zpow_le_zpow_right₀ (by norm_num) (by omega)
  exact_mod_cast lt_of_lt_of_le h1 h2

/-- The binade of a real of absolute value at least `2^E`. -/
theorem le_binade (y : ℝ) (E : ℤ) (h : (2 : ℝ) ^ E ≤ |y|) : E ≤ binade y := by
  have hpos : 0 < |y| := lt_of_lt_of_le (by positivity) h
  unfold binade
  apply le_max_of_le_left
  rw [← Int.zpow_le_iff_le_log (by norm_num) hpos]
  exact_mod_cast h

/-- A real outside the subnormal binade is at least `2^binade` in absolute
value. -/
theorem binade_pow_le (y : ℝ) (hy0 : y ≠ 0) (hb : -1022 < binade y) :
    (2 : ℝ) ^ binade y ≤ |y| := by
  have hpos : 0 < |y| := abs_pos.mpr hy0
  have hlog : binade y = Int.log 2 |y| := by
    unfold binade at hb ⊢
    rcases le_total (Int.log 2 |y|) (-1022) with h | h
    · rw [max_eq_right h] at hb
      omega
    · exact max_eq_left h
  rw [hlog]
  exact_mod_cast Int.zpow_log_le_self (by norm_num : 1 < 2) hpos

/-- The value a real rounds to, when finite, is the rounded multiple of the
unit of its binade. -/
theorem round64_fin_val (y c : ℝ) (h : round64 y = Ext.fin c) :
    c = (roundEven (y / (2 : ℝ) ^ (binade y - 52)) : ℝ) * (2 : ℝ) ^ (binade y - 52) := by
  unfold round64 at h
  split_ifs at h
  injection h with h
  exact h.symm

/-- A real at least a power of two does not round below it. -/
theorem round64_fin_ge_pow (y c : ℝ) (E : ℤ) (hE : -1074 ≤ E) (hy : (2 : ℝ) ^ E ≤ y)
    (h : round64 y = Ext.fin c) : (2 : ℝ) ^ E ≤ c := by
  have hy0 : 0 < y := lt_of_lt_of_le (by positivity) hy
  have hb := le_binade y E (by rwa [abs_of_pos hy0])
  have hu : (0 : ℝ) < (2 : ℝ) ^ (binade y - 52) := by positivity
  rw [round64_fin_val y c h]
  by_cases hE2 : binade y ≤ E + 52
  · obtain ⟨m, hm⟩ := grid_refine 1 E (binade y - 52) (by omega)
    rw [Int.cast_one, one_mul] at hm
    rw [hm]
    apply mul_le_mul_of_nonneg_right _ hu.le
    have : m ≤ roundEven (y / (2 : ℝ) ^ (binade y - 52)) := by
      apply le_roundEven
      rw [le_div_iff₀ hu, ← hm]
      exact hy
    exact_mod_cast this
  · have h1 : (1 : ℤ) ≤ roundEven (y / (2 : ℝ) ^ (binade y - 52)) := by
      apply le_roundEven
      rw [le_div_iff₀ hu, Int.cast_one, one_mul]
      have h4 := binade_pow_le y hy0.ne.symm (by omega)
      rw [abs_of_pos hy0] at h4
      exact le_trans (zpow_le_zpow_right₀ (by norm_num) (by omega)) h4
    have h2 : (2 : ℝ) ^ E ≤ (2 : ℝ) ^ (binade y - 52) :=
      zpow_le_zpow_right₀ (by norm_num) (by omega)
    have h3 : (1 : ℝ) ≤ (roundEven (y / (2 : ℝ) ^ (binade y - 52)) : ℝ) := by exact_mod_cast h1
    nlinarith

/-- A real at most the negative of a power of two does not round above it. -/
theorem round64_fin_le_neg_pow (y c : ℝ) (E : ℤ) (hE : -1074 ≤ E) (hy : y ≤ -(2 : ℝ) ^ E)
    (h : round64 y = Ext.fin c) : c ≤ -(2 : ℝ) ^ E := by
  have hp : (0 : ℝ) < (2 : ℝ) ^ E := by positivity
  have hy0 : y < 0 := by linarith
  have hb := le_binade y E (by rw [abs_of_neg hy0]; linarith)
  have hu : (0 : ℝ) < (2 : ℝ) ^ (binade y - 52) := by positivity
  rw [round64_fin_val y c h]
  by_cases hE2 : binade y ≤ E + 52
  · obtain ⟨m, hm⟩ := grid_refine (-1) E (binade y - 52) (by omega)
    have hm2 : -(2 : ℝ) ^ E = m * (2 : ℝ) ^ (binade y - 52) := by
      rw [← hm]
      push_cast
      ring
    rw [hm2]
    apply mul_le_mul_of_nonneg_right _ hu.le
    have : roundEven (y / (2 : ℝ) ^ (binade y - 52)) ≤ m := by
      apply roundEven_le
      rw [div_le_iff₀ hu, ← hm2]
      exact hy
    exact_mod_cast this
  · have h1 : roundEven (y / (2 : ℝ) ^ (binade y - 52)) ≤ (-1 : ℤ) := by
      apply roundEven_le
      rw [div_le_iff₀ hu]
      push_cast
      have h4 := binade_pow_le y hy0.ne (by omega)
      rw [abs_of_neg hy0] at h4
      have := zpow_le_zpow_right₀ (show (1 : ℝ) ≤ 2 by norm_num)
        (show binade y - 52 ≤ binade y by omega)
      linarith
    have h2 : (2 : ℝ) ^ E ≤ (2 : ℝ) ^ (binade y - 52) :=
      zpow_le_zpow_right₀ (by norm_num) (by omega)
    have h3 : (roundEven (y / (2 : ℝ) ^ (binade y - 52)) : ℝ) ≤ -1 := by exact_mod_cast h1
    nlinarith

/-- A binary64 number in the binade of exponent `E` is a multiple of
`2^(E-52)`. -/
theorem round64_grid (r : ℝ) (h : round64 r = Ext.fin r) (E : ℤ) (hE : -1022 ≤ E)
    (hlo : (2 : ℝ) ^ E ≤ |r|) (hhi : |r| < (2 : ℝ) ^ (E + 1)) :
    ∃ N : ℤ, r = N * (2 : ℝ) ^ (E - 52) := by
  have hb := binade_eq r E hE hlo hhi
  have := round64_fin_val r r h
  rw [hb] at this
  exact ⟨_, this⟩

/-- A multiple of `2^j` below `2^(j+53)` in absolute value is a binary64
number: it rounds to itself. -/
theorem round64_exact (y : ℝ) (j M : ℤ) (hj1 : -1074 ≤ j) (hj2 : j ≤ 971)
    (hy : y = M * (2 : ℝ) ^ j) (hb : |y| < (2 : ℝ) ^ (j + 53)) : round64 y = Ext.fin y := by
  obtain ⟨c, hc, h1, h2⟩ := round64_mem y y y j M M hj1 hj2 hy hy
    (by linarith [(abs_lt.mp hb).1]) (abs_lt.mp hb).2 (le_refl y) (le_refl y)
  rw [hc, le_antisymm h2 h1]

/-! ## The series exit in binary64 -/

set_option maxHeartbeats 400000 in
/-- The series in binary64 for `r` from 0 to `33/1024`: the inner Horner sum
`t1` is a finite number between `9/4` and `19/8`, and the value is
`-1 + r * t1`, product and sum rounded. -/
theorem series_f64_t1 (fexp flog : ℝ → ℝ) (rs : ℝ) (h0 : 0 ≤ rs) (h1 : rs ≤ 33 / 1024) :
    ∃ t, 9 / 4 ≤ t ∧ t ≤ 19 / 8 ∧
      seriesEval (f64ArithWith fexp flog) (Ext.fin rs) =
        (f64ArithWith fexp flog).add (Ext.fin (-1))
          ((f64ArithWith fexp flog).mul (Ext.fin rs) (Ext.fin t)) := by
  obtain ⟨m10, hm10, hm10l, hm10u⟩ := round64_mem (rs * (950999969414097 / 35184372088832 : ℝ))
    (0 : ℝ) (456683 / 524288 : ℝ) (-20) 0 913366
    (by norm_num) (by norm_num) (by norm_num) (by norm_num) (by norm_num) (by norm_num)
    (by linarith only [h0, h1])
    (by linarith only [h0, h1])
  have em10 : (f64ArithWith fexp flog).mul (Ext.fin rs)
      (Ext.fin (950999969414097 / 35184372088832 : ℝ)) = Ext.fin m10 := hm10
  obtain ⟨a10, ha10, ha10l, ha10u⟩ := round64_mem
    ((-5094893270032321 / 281474976710656 : ℝ) + m10)
    (-18979957 / 1048576 : ℝ) (-9033295 / 524288 : ℝ) (-20) (-18979957) (-18066590)
    (by norm_num) (by norm_num) (by norm_num) (by norm_num) (by norm_num) (by norm_num)
    (by linarith only [hm10l, hm10u])
    (by linarith only [hm10l, hm10u])
  have ea10 : (f64ArithWith fexp flog).add (Ext.fin (-5094893270032321 / 281474976710656 : ℝ))
      (Ext.fin m10) = Ext.fin a10 := ha10
  obtain ⟨m9, hm9, hm9l, hm9u⟩ := round64_mem (rs * a10)
    (-611659 / 1048576 : ℝ) (0 : ℝ) (-20) (-611659) 0
    (by norm_num) (by norm_num) (by norm_num) (by norm_num) (by norm_num) (by norm_num)
    (by
      nlinarith only [mul_nonneg (sub_nonneg.2 h0) (sub_nonneg.2 ha10l),
        mul_nonneg (sub_nonneg.2 h0) (sub_nonneg.2 ha10u),
        mul_nonneg (sub_nonneg.2 h1) (sub_nonneg.2 ha10l),
        mul_nonneg (sub_nonneg.2 h1) (sub_nonneg.2 ha10u)])
    (by
      nlinarith only [mul_nonneg (sub_nonneg.2 h0) (sub_nonneg.2 ha10l),
        mul_nonneg (sub_nonneg.2 h0) (sub_nonneg.2 ha10u),
        mul_nonneg (sub_nonneg.2 h1) (sub_nonneg.2 ha10l),
        mul_nonneg (sub_nonneg.2 h1) (sub_nonneg.2 ha10u)])
  have em9 : (f64ArithWith fexp flog).mul (Ext.fin rs) (Ext.fin a10) = Ext.fin m9 := hm9
  obtain ⟨a9, ha9, ha9l, ha9u⟩ := round64_mem ((3448280556470475 / 281474976710656 : ℝ) + m9)
    (12234187 / 1048576 : ℝ) (12845847 / 1048576 : ℝ) (-20) 12234187 12845847
    (by norm_num) (by norm_num) (by norm_num) (by norm_num) (by norm_num) (by norm_num)
    (by linarith only [hm9l, hm9u])
    (by linarith only [hm9l, hm9u])
  have ea9 : (f64ArithWith fexp flog).add (Ext.fin (3448280556470475 / 281474976710656 : ℝ))
      (Ext.fin m9) = Ext.fin a9 := ha9
  obtain ⟨m8, hm8, hm8l, hm8u⟩ := round64_mem (rs * a9)
    (0 : ℝ) (206989 / 524288 : ℝ) (-20) 0 413978
    (by norm_num) (by norm_num) (by norm_num) (by norm_num) (by norm_num) (by norm_num)
    (by
      nlinarith only [mul_nonneg (sub_nonneg.2 h0) (sub_nonneg.2 ha9l),
        mul_nonneg (sub_nonneg.2 h0) (sub_nonneg.2 ha9u),
        mul_nonneg (sub_nonneg.2 h1) (sub_nonneg.2 ha9l),
        mul_nonneg (sub_nonneg.2 h1) (sub_nonneg.2 ha9u)])
    (by
      nlinarith only [mul_nonneg (sub_nonneg.2 h0) (sub_nonneg.2 ha9l),
        mul_nonneg (sub_nonneg.2 h0) (sub_nonneg.2 ha9u),
        mul_nonneg (sub_nonneg.2 h1) (sub_nonneg.2 ha9l),
        mul_nonneg (sub_nonneg.2 h1) (sub_nonneg.2 ha9u)])
  have em8 : (f64ArithWith fexp flog).mul (Ext.fin rs) (Ext.fin a9) = Ext.fin m8 := hm8
  obtain ⟨a8, ha8, ha8l, ha8u⟩ := round64_mem ((-4729360695546065 / 562949953421312 : ℝ) + m8)
    (-8809121 / 1048576 : ℝ) (-4197571 / 524288 : ℝ) (-20) (-8809121) (-8395142)
    (by norm_num) (by norm_num) (by norm_num) (by norm_num) (by norm_num) (by norm_num)
    (by linarith only [hm8l, hm8u])
    (by linarith only [hm8l, hm8u])
  have ea8 : (f64ArithWith fexp flog).add (Ext.fin (-4729360695546065 / 562949953421312 : ℝ))
      (Ext.fin m8) = Ext.fin a8 := ha8
  obtain ⟨m7, hm7, hm7l, hm7u⟩ := round64_mem (rs * a8)
    (-17743 / 65536 : ℝ) (0 : ℝ) (-20) (-283888) 0
    (by norm_num) (by norm_num) (by norm_num) (by norm_num) (by norm_num) (by norm_num)
    (by
      nlinarith only [mul_nonneg (sub_nonneg.2 h0) (sub_nonneg.2 ha8l),
        mul_nonneg (sub_nonneg.2 h0) (sub_nonneg.2 ha8u),
        mul_nonneg (sub_nonneg.2 h1) (sub_nonneg.2 ha8l),
        mul_nonneg (sub_nonneg.2 h1) (sub_nonneg.2 ha8u)])
    (by
      nlinarith only [mul_nonneg (sub_nonneg.2 h0) (sub_nonneg.2 ha8l),
        mul_nonneg (sub_nonneg.2 h0) (sub_nonneg.2 ha8u),
        mul_nonneg (sub_nonneg.2 h1) (sub_nonneg.2 ha8l),
        mul_nonneg (sub_nonneg.2 h1) (sub_nonneg.2 ha8u)])
  have em7 : (f64ArithWith fexp flog).mul (Ext.fin rs) (Ext.fin a8) = Ext.fin m7 := hm7
  obtain ⟨a7, ha7, ha7l, ha7u⟩ := round64_mem ((6595548371747889 / 1125899906842624 : ℝ) + m7)
    (5858695 / 1048576 : ℝ) (767823 / 131072 : ℝ) (-20) 5858695 6142584
    (by norm_num) (by norm_num) (by norm_num) (by norm_num) (by norm_num) (by norm_num)
    (by linarith only [hm7l, hm7u])
    (by linarith only [hm7l, hm7u])
  have ea7 : (f64ArithWith fexp flog).add (Ext.fin (6595548371747889 / 1125899906842624 : ℝ))
      (Ext.fin m7) = Ext.fin a7 := ha7
  obtain ⟨m6, hm6, hm6l, hm6u⟩ := round64_mem (rs * a7)
    (0 : ℝ) (197955 / 1048576 : ℝ) (-20) 0 197955
    (by norm_num) (by norm_num) (by norm_num) (by norm_num) (by norm_num) (by norm_num)
    (by
      nlinarith only [mul_nonneg (sub_nonneg.2 h0) (sub_nonneg.2 ha7l),
        mul_nonneg (sub_nonneg.2 h0) (sub_nonneg.2 ha7u),
        mul_nonneg (sub_nonneg.2 h1) (sub_nonneg.2 ha7l),
        mul_nonneg (sub_nonneg.2 h1) (sub_nonneg.2 ha7u)])
    (by
      nlinarith only [mul_nonneg (sub_nonneg.2 h0) (sub_nonneg.2 ha7l),
        mul_nonneg (sub_nonneg.2 h0) (sub_nonneg.2 ha7u),
        mul_nonneg (sub_nonneg.2 h1) (sub_nonneg.2 ha7l),
        mul_nonneg (sub_nonneg.2 h1) (sub_nonneg.2 ha7u)])
  have em6 : (f64ArithWith fexp flog).mul (Ext.fin rs) (Ext.fin a7) = Ext.fin m6 := hm6
  obtain ⟨a6, ha6, ha6l, ha6u⟩ := round64_mem ((-4701009963367373 / 1125899906842624 : ℝ) + m6)
    (-4378157 / 1048576 : ℝ) (-4180201 / 1048576 : ℝ) (-20) (-4378157) (-4180201)
    (by norm_num) (by norm_num) (by norm_num) (by norm_num) (by norm_num) (by norm_num)
    (by linarith only [hm6l, hm6u])
    (by linarith only [hm6l, hm6u])
  have ea6 : (f64ArithWith fexp flog).add (Ext.fin (-4701009963367373 / 1125899906842624 : ℝ))
      (Ext.fin m6) = Ext.fin a6 := ha6
  obtain ⟨m5, hm5, hm5l, hm5u⟩ := round64_mem (rs * a6)
    (-141093 / 1048576 : ℝ) (0 : ℝ) (-20) (-141093) 0
    (by norm_num) (by norm_num) (by norm_num) (by norm_num) (by norm_num) (by norm_num)
    (by
      nlinarith only [mul_nonneg (sub_nonneg.2 h0) (sub_nonneg.2 ha6l),
        mul_nonneg (sub_nonneg.2 h0) (sub_nonneg.2 ha6u),
        mul_nonneg (sub_nonneg.2 h1) (sub_nonneg.2 ha6l),
        mul_nonneg (sub_nonneg.2 h1) (sub_nonneg.2 ha6u)])
    (by
      nlinarith only [mul_nonneg (sub_nonneg.2 h0) (sub_nonneg.2 ha6l),
        mul_nonneg (sub_nonneg.2 h0) (sub_nonneg.2 ha6u),
        mul_nonneg (sub_nonneg.2 h1) (sub_nonneg.2 ha6l),
        mul_nonneg (sub_nonneg.2 h1) (sub_nonneg.2 ha6u)])
  have em5 : (f64ArithWith fexp flog).mul (Ext.fin rs) (Ext.fin a6) = Ext.fin m5 := hm5
  obtain ⟨a5, ha5, ha5l, ha5u⟩ := round64_mem ((6905952301984757 / 2251799813685248 : ℝ) + m5)
    (3074741 / 1048576 : ℝ) (3215835 / 1048576 : ℝ) (-20) 3074741 3215835
    (by norm_num) (by norm_num) (by norm_num) (by norm_num) (by norm_num) (by norm_num)
    (by linarith only [hm5l, hm5u])
    (by linarith only [hm5l, hm5u])
  have ea5 : (f64ArithWith fexp flog).add (Ext.fin (6905952301984757 / 2251799813685248 : ℝ))
      (Ext.fin m5) = Ext.fin a5 := ha5
  obtain ⟨m4, hm4, hm4l, hm4u⟩ := round64_mem (rs * a5)
    (0 : ℝ) (25909 / 262144 : ℝ) (-20) 0 103636
    (by norm_num) (by norm_num) (by norm_num) (by norm_num) (by norm_num) (by norm_num)
    (by
      nlinarith only [mul_nonneg (sub_nonneg.2 h0) (sub_nonneg.2 ha5l),
        mul_nonneg (sub_nonneg.2 h0) (sub_nonneg.2 ha5u),
        mul_nonneg (sub_nonneg.2 h1) (sub_nonneg.2 ha5l),
        mul_nonneg (sub_nonneg.2 h1) (sub_nonneg.2 ha5u)])
    (by
      nlinarith only [mul_nonneg (sub_nonneg.2 h0) (sub_nonneg.2 ha5l),
        mul_nonneg (sub_nonneg.2 h0) (sub_nonneg.2 ha5u),
        mul_nonneg (sub_nonneg.2 h1) (sub_nonneg.2 ha5l),
        mul_nonneg (sub_nonneg.2 h1) (sub_nonneg.2 ha5u)])
  have em4 : (f64ArithWith fexp flog).mul (Ext.fin rs) (Ext.fin a5) = Ext.fin m4 := hm4
  obtain ⟨a4, ha4, ha4l, ha4u⟩ := round64_mem ((-5299726157895711 / 2251799813685248 : ℝ) + m4)
    (-1233939 / 524288 : ℝ) (-2364241 / 1048576 : ℝ) (-20) (-2467878) (-2364241)
    (by norm_num) (by norm_num) (by norm_num) (by norm_num) (by norm_num) (by norm_num)
    (by linarith only [hm4l, hm4u])
    (by linarith only [hm4l, hm4u])
  have ea4 : (f64ArithWith fexp flog).add (Ext.fin (-5299726157895711 / 2251799813685248 : ℝ))
      (Ext.fin m4) = Ext.fin a4 := ha4
  obtain ⟨m3, hm3, hm3l, hm3u⟩ := round64_mem (rs * a4)
    (-19883 / 262144 : ℝ) (0 : ℝ) (-20) (-79532) 0
    (by norm_num) (by norm_num) (by norm_num) (by norm_num) (by norm_num) (by norm_num)
    (by
      nlinarith only [mul_nonneg (sub_nonneg.2 h0) (sub_nonneg.2 ha4l),
        mul_nonneg (sub_nonneg.2 h0) (sub_nonneg.2 ha4u),
        mul_nonneg (sub_nonneg.2 h1) (sub_nonneg.2 ha4l),
        mul_nonneg (sub_nonneg.2 h1) (sub_nonneg.2 ha4u)])
    (by
      nlinarith only [mul_nonneg (sub_nonneg.2 h0) (sub_nonneg.2 ha4l),
        mul_nonneg (sub_nonneg.2 h0) (sub_nonneg.2 ha4u),
        mul_nonneg (sub_nonneg.2 h1) (sub_nonneg.2 ha4l),
        mul_nonneg (sub_nonneg.2 h1) (sub_nonneg.2 ha4u)])
  have em3 : (f64ArithWith fexp flog).mul (Ext.fin rs) (Ext.fin a4) = Ext.fin m3 := hm3
  obtain ⟨a3, ha3, ha3l, ha3u⟩ := round64_mem ((2180452791395475 / 1125899906842624 : ℝ) + m3)
    (487793 / 262144 : ℝ) (2030705 / 1048576 : ℝ) (-20) 1951172 2030705
    (by norm_num) (by norm_num) (by norm_num) (by norm_num) (by norm_num) (by norm_num)
    (by linarith only [hm3l, hm3u])
    (by linarith only [hm3l, hm3u])
  have ea3 : (f64ArithWith fexp flog).add (Ext.fin (2180452791395475 / 1125899906842624 : ℝ))
      (Ext.fin m3) = Ext.fin a3 := ha3
  obtain ⟨m2, hm2, hm2l, hm2u⟩ := round64_mem (rs * a3)
    (0 : ℝ) (65443 / 1048576 : ℝ) (-20) 0 65443
    (by norm_num) (by norm_num) (by norm_num) (by norm_num) (by norm_num) (by norm_num)
    (by
      nlinarith only [mul_nonneg (sub_nonneg.2 h0) (sub_nonneg.2 ha3l),
        mul_nonneg (sub_nonneg.2 h0) (sub_nonneg.2 ha3u),
        mul_nonneg (sub_nonneg.2 h1) (sub_nonneg.2 ha3l),
        mul_nonneg (sub_nonneg.2 h1) (sub_nonneg.2 ha3u)])
    (by
      nlinarith only [mul_nonneg (sub_nonneg.2 h0) (sub_nonneg.2 ha3l),
        mul_nonneg (sub_nonneg.2 h0) (sub_nonneg.2 ha3u),
        mul_nonneg (sub_nonneg.2 h1) (sub_nonneg.2 ha3l),
        mul_nonneg (sub_nonneg.2 h1) (sub_nonneg.2 ha3u)])
  have em2 : (f64ArithWith fexp flog).mul (Ext.fin rs) (Ext.fin a3) = Ext.fin m2 := hm2
  obtain ⟨a2, ha2, ha2l, ha2u⟩ := round64_mem ((-2040342171622691 / 1125899906842624 : ℝ) + m2)
    (-1900217 / 1048576 : ℝ) (-1834773 / 1048576 : ℝ) (-20) (-1900217) (-1834773)
    (by norm_num) (by norm_num) (by norm_num) (by norm_num) (by norm_num) (by norm_num)
    (by linarith only [hm2l, hm2u])
    (by linarith only [hm2l, hm2u])
  have ea2 : (f64ArithWith fexp flog).add (Ext.fin (-2040342171622691 / 1125899906842624 : ℝ))
      (Ext.fin m2) = Ext.fin a2 := ha2
  obtain ⟨m1, hm1, hm1l, hm1u⟩ := round64_mem (rs * a2)
    (-30619 / 524288 : ℝ) (0 : ℝ) (-20) (-61238) 0
    (by norm_num) (by norm_num) (by norm_num) (by norm_num) (by norm_num) (by norm_num)
    (by
      nlinarith only [mul_nonneg (sub_nonneg.2 h0) (sub_nonneg.2 ha2l),
        mul_nonneg (sub_nonneg.2 h0) (sub_nonneg.2 ha2u),
        mul_nonneg (sub_nonneg.2 h1) (sub_nonneg.2 ha2l),
        mul_nonneg (sub_nonneg.2 h1) (sub_nonneg.2 ha2u)])
    (by
      nlinarith only [mul_nonneg (sub_nonneg.2 h0) (sub_nonneg.2 ha2l),
        mul_nonneg (sub_nonneg.2 h0) (sub_nonneg.2 ha2u),
        mul_nonneg (sub_nonneg.2 h1) (sub_nonneg.2 ha2l),
        mul_nonneg (sub_nonneg.2 h1) (sub_nonneg.2 ha2u)])
  have em1 : (f64ArithWith fexp flog).mul (Ext.fin rs) (Ext.fin a2) = Ext.fin m1 := hm1
  obtain ⟨a1, ha1, ha1l, ha1u⟩ := round64_mem ((2625197741670367 / 1125899906842624 : ℝ) + m1)
    (2383667 / 1048576 : ℝ) (1222453 / 524288 : ℝ) (-20) 2383667 2444906
    (by norm_num) (by norm_num) (by norm_num) (by norm_num) (by norm_num) (by norm_num)
    (by linarith only [hm1l, hm1u])
    (by linarith only [hm1l, hm1u])
  have ea1 : (f64ArithWith fexp flog).add (Ext.fin (2625197741670367 / 1125899906842624 : ℝ))
      (Ext.fin m1) = Ext.fin a1 := ha1
  refine ⟨a1, by linarith, by linarith, ?_⟩
  simp only [seriesEval]
  rw [f64_coeff_0, f64_coeff_1, f64_coeff_2, f64_coeff_3, f64_coeff_4, f64_coeff_5, f64_coeff_6,
    f64_coeff_7, f64_coeff_8, f64_coeff_9, f64_coeff_10, f64_coeff_11, em10, ea10, em9, ea9, em8,
    ea8, em7, ea7, em6, ea6, em5, ea5, em4, ea4, em3, ea3, em2, ea2, em1, ea1]

/-- The series exit in binary64: for every binary64 number `x` with
`0 <= q < 1.0e-03`, where `q = x + oneOverE` is exact, the value returned is a
finite number, at least `-1`, and `-1` only when `x = -oneOverE`. -/
theorem series_exit_f64 (fexp flog : ℝ → ℝ) (r : ℝ) (hrep : round64 r = Ext.fin r)
    (hq0 : (f64ArithWith fexp flog).lt
      ((f64ArithWith fexp flog).add (Ext.fin r) (oneOverE (f64ArithWith fexp flog)))
      ((f64ArithWith fexp flog).lit 0) = false)
    (hq1 : (f64ArithWith fexp flog).lt
      ((f64ArithWith fexp flog).add (Ext.fin r) (oneOverE (f64ArithWith fexp flog)))
      ((f64ArithWith fexp flog).lit 1.0e-03) = true) :
    ∃ v, (GslSfLambertW0E (f64ArithWith fexp flog) (Ext.fin r)).Val = Ext.fin v ∧ -1 ≤ v ∧
      (v = -1 ↔ r = -(828390857088487 / 2251799813685248)) := by
  have hq0' := hq0
  have hq1' := hq1
  rw [f64_oneOverE, f64_add_fin, f64_lit_zero] at hq0
  rw [f64_oneOverE, f64_add_fin, f64_milli] at hq1
  cases hqv : round64 (r + 828390857088487 / 2251799813685248) with
  | nan =>
    rw [hqv] at hq1
    simp [f64ArithWith, Ext.lt] at hq1
  | pinf =>
    rw [hqv] at hq1
    simp [f64ArithWith, Ext.lt] at hq1
  | ninf =>
    rw [hqv] at hq0
    simp [f64ArithWith, Ext.lt] at hq0
  | fin qv =>
    rw [hqv, f64_lt_fin, decide_eq_false_iff_not, not_lt] at hq0
    rw [hqv, f64_lt_fin, decide_eq_true_eq] at hq1
    -- the sum is below `2^(-9)` in absolute value
    have hy1 : r + 828390857088487 / 2251799813685248 < (2 : ℝ) ^ (-9 : ℤ) := by
      by_contra hge
      have := round64_fin_ge_pow _ _ (-9) (by norm_num) (not_lt.mp hge) hqv
      norm_num at this
      linarith
    have hy2 : -(2 : ℝ) ^ (-9 : ℤ) < r + 828390857088487 / 2251799813685248 := by
      by_contra hge
      have := round64_fin_le_neg_pow _ _ (-9) (by norm_num) (not_lt.mp hge) hqv
      norm_num at this
      linarith
    norm_num at hy1 hy2
    -- so `x` lies in the binade of `-oneOverE` and the sum is exact
    have hrneg : r < 0 := by linarith
    obtain ⟨N, hN⟩ := round64_grid r hrep (-2) (by norm_num)
      (by rw [abs_of_neg hrneg]; norm_num; linarith)
      (by rw [abs_of_neg hrneg]; norm_num; linarith)
    have hgrid : r + 828390857088487 / 2251799813685248 =
        ((N + 6627126856707896 : ℤ) : ℝ) * (2 : ℝ) ^ (-54 : ℤ) := by
      rw [hN]
      push_cast
      norm_num
      ring
    have hexact := round64_exact _ (-54) _ (by norm_num) (by norm_num) hgrid
      (by rw [abs_lt]; norm_num; constructor <;> linarith)
    rw [hqv] at hexact
    injection hexact with hexact
    have hx : (f64ArithWith fexp flog).eq (Ext.fin r) ((f64ArithWith fexp flog).lit 0) =
        false := by
      rw [f64_lit_zero, f64_eq_fin, decide_eq_false_iff_not]
      linarith
    rw [series_exit_val _ _ hx hq0' hq1', f64_oneOverE, f64_add_fin, hqv,
      f64_sqrt_fin _ _ _ hq0]
    rcases eq_or_lt_of_le hq0 with hz | hpos
    · -- `q = 0`: the value is `-1`
      rw [← hz, Real.sqrt_zero, round64_zero]
      obtain ⟨t, _, _, ht⟩ := series_f64_t1 fexp flog 0 (le_refl 0) (by norm_num)
      rw [ht, f64_mul_fin, zero_mul, round64_zero, f64_add_fin, add_zero]
      refine ⟨-1, ?_, le_refl _, fun _ => by linarith, fun _ => rfl⟩
      exact round64_of_neg _ _ 0 (-4503599627370496) (by norm_num) (by norm_num) (by norm_num)
        (by norm_num) (by norm_num) (by norm_num) (by norm_num)
    · -- `q > 0`: then `q >= 2^(-54)` and the value is above `-1`
      have hNpos : (1 : ℤ) ≤ N + 6627126856707896 := by
        have h1 : (0 : ℝ) < ((N + 6627126856707896 : ℤ) : ℝ) * (2 : ℝ) ^ (-54 : ℤ) := by
          rw [← hgrid, ← hexact]
          exact hpos
        have h2 : (0 : ℝ) < ((N + 6627126856707896 : ℤ) : ℝ) := by
          by_contra hn
          have := mul_nonpos_of_nonpos_of_nonneg (not_lt.mp hn)
            (show (0 : ℝ) ≤ (2 : ℝ) ^ (-54 : ℤ) by positivity)
          linarith
        exact_mod_cast h2
      have hqlo : (2 : ℝ) ^ (-54 : ℤ) ≤ qv := by
        rw [hexact, hgrid]
        have h1 : (1 : ℝ) ≤ ((N + 6627126856707896 : ℤ) : ℝ) := by exact_mod_cast hNpos
        have h2 : (0 : ℝ) < (2 : ℝ) ^ (-54 : ℤ) := by positivity
        nlinarith
      norm_num at hqlo
      obtain ⟨rs, hrs, hrsl, hrsu⟩ := round64_mem (Real.sqrt qv) (1 / 134217728) (33 / 1024)
        (-57) 1073741824 4644337115725824 (by norm_num) (by norm_num) (by norm_num)
        (by norm_num) (by norm_num) (by norm_num)
        (Real.le_sqrt_of_sq_le (by norm_num; linarith))
        ((Real.sqrt_le_left (by norm_num)).mpr (by norm_num; linarith))
      obtain ⟨t, htl, htu, ht⟩ := series_f64_t1 fexp flog rs (by linarith) hrsu
      obtain ⟨m, hm, hml, hmu⟩ := round64_mem (rs * t) (1 / 67108864) (5 / 64)
        (-56) 1073741824 5629499534213120 (by norm_num) (by norm_num) (by norm_num)
        (by norm_num) (by norm_num) (by norm_num)
        (by nlinarith) (by nlinarith)
      obtain ⟨v, hv, hvl, hvu⟩ := round64_mem (-1 + m) (-67108863 / 67108864) (-59 / 64)
        (-52) (-4503599560261632) (-4151755906482176) (by norm_num) (by norm_num) (by norm_num)
        (by norm_num) (by norm_num) (by norm_num)
        (by linarith) (by linarith)
      rw [hrs, ht, f64_mul_fin, hm, f64_add_fin, hv]
      refine ⟨v, rfl, by linarith, fun h => ?_, fun h => ?_⟩
      · linarith
      · rw [h] at hexact
        norm_num at hexact
        linarith

/-! ## Rounding to binary64 is monotone and exact on doubling -/

/-- Rounding to the nearest integer is monotone. -/
theorem roundEven_mono (s t : ℝ) (h : s ≤ t) : roundEven s ≤ roundEven t := by
  have hfl : ⌊s⌋ ≤ ⌊t⌋ := Int.floor_mono h
  rcases lt_or_eq_of_le hfl with hlt | heq
  · have h1 : roundEven s ≤ ⌊s⌋ + 1 := by
      unfold roundEven
      split_ifs <;> omega
    have h2 : ⌊t⌋ ≤ roundEven t := by
      unfold roundEven
      split_ifs <;> omega
    omega
  · unfold roundEven
    rw [heq]
    have hfrac : s - ⌊t⌋ ≤ t - ⌊t⌋ := by linarith
    split_ifs <;> first | omega | (exfalso; linarith)

/-- Rounding to the nearest integer of a real that is not below zero gives at
most twice the real. -/
theorem roundEven_le_two_mul (t : ℝ) (h : 0 ≤ t) : (roundEven t : ℝ) ≤ 2 * t := by
  by_cases hh : t < 1 / 2
  · rw [roundEven_eq t 0 (by rw [Int.cast_zero, sub_zero, abs_of_nonneg h]; exact hh)]
    simpa using h
  · have h1 : (roundEven t : ℝ) ≤ ⌊t⌋ + 1 := by
      have : roundEven t ≤ ⌊t⌋ + 1 := by
        unfold roundEven
        split_ifs <;> omega
      exact_mod_cast this
    have h2 := Int.floor_le t
    by_cases h3 : t < 1
    · have hf : ⌊t⌋ = 0 := by
        rw [Int.floor_eq_iff]
        exact ⟨by simpa using h, by simpa using h3⟩
      rw [hf] at h1
      push_cast at h1
      linarith [not_lt.mp hh]
    · linarith [not_lt.mp h3]

/-- A real in the normal range lies in its binade. -/
theorem binade_spec (y : ℝ) (h : (2 : ℝ) ^ (-1022 : ℤ) ≤ |y|) :
    (2 : ℝ) ^ binade y ≤ |y| ∧ |y| < (2 : ℝ) ^ (binade y + 1) := by
  refine ⟨?_, abs_lt_binade y⟩
  have hy0 : y ≠ 0 := by
    intro h0
    rw [h0, abs_zero] at h
    have : (0 : ℝ) < (2 : ℝ) ^ (-1022 : ℤ) := by positivity
    linarith
  have hb := le_binade y (-1022) h
  rcases lt_or_eq_of_le hb with h1 | h1
  · exact binade_pow_le y hy0 h1
  · rw [← h1]
    exact h

/-- A finite value of the rounding is below `2^1024` in absolute value. -/
theorem round64_fin_lt (y c : ℝ) (h : round64 y = Ext.fin c) : |c| < (2 : ℝ) ^ (1024 : ℤ) := by
  unfold round64 at h
  split_ifs at h with h1
  injection h with h
  rw [← h]
  exact not_le.mp h1

/-- The rounding never yields NaN. -/
theorem round64_ne_nan (y : ℝ) : round64 y ≠ Ext.nan := by
  unfold round64
  split_ifs <;> exact fun h => Ext.noConfusion h

/-- A real that is not below zero does not round to `-Inf`. -/
theorem round64_ne_ninf (y : ℝ) (hy : 0 ≤ y) : round64 y ≠ Ext.ninf := by
  unfold round64
  have hu : (0 : ℝ) < (2 : ℝ) ^ (binade y - 52) := by positivity
  have hN : 0 ≤ roundEven (y / (2 : ℝ) ^ (binade y - 52)) := by
    apply le_roundEven
    rw [le_div_iff₀ hu]
    simpa using hy
  split_ifs with h1 h2
  · exact fun h => Ext.noConfusion h
  · intro _
    have hy0 : y = 0 := le_antisymm (not_lt.mp h2) hy
    rw [hy0, zero_div, roundEven_eq 0 0 (by norm_num)] at h1
    simp at h1
    have : (0 : ℝ) < (2 : ℝ) ^ (1024 : ℤ) := by positivity
    linarith
  · exact fun h => Ext.noConfusion h

/-- A real that is not below zero rounds to at most twice itself. -/
theorem round64_le_two_mul (y c : ℝ) (hy : 0 ≤ y) (h : round64 y = Ext.fin c) : c ≤ 2 * y := by
  have hu : (0 : ℝ) < (2 : ℝ) ^ (binade y - 52) := by positivity
  rw [round64_fin_val y c h]
  have h1 := roundEven_le_two_mul (y / (2 : ℝ) ^ (binade y - 52)) (div_nonneg hy hu.le)
  calc (roundEven (y / (2 : ℝ) ^ (binade y - 52)) : ℝ) * (2 : ℝ) ^ (binade y - 52)
      ≤ 2 * (y / (2 : ℝ) ^ (binade y - 52)) * (2 : ℝ) ^ (binade y - 52) :=
        mul_le_mul_of_nonneg_right h1 hu.le
    _ = 2 * y := by
        field_simp

/-- The rounding is monotone on the reals from `2^(-1022)` up. -/
theorem round64_mono (y1 y2 c1 c2 : ℝ) (h0 : (2 : ℝ) ^ (-1022 : ℤ) ≤ y1) (h : y1 ≤ y2)
    (h1 : round64 y1 = Ext.fin c1) (h2 : round64 y2 = Ext.fin c2) : c1 ≤ c2 := by
  have hp : (0 : ℝ) < (2 : ℝ) ^ (-1022 : ℤ) := by positivity
  have hy1 : 0 < y1 := by linarith
  have hy2 : 0 < y2 := by linarith
  obtain ⟨ha1, hb1⟩ := binade_spec y1 (by rwa [abs_of_pos hy1])
  obtain ⟨ha2, hb2⟩ := binade_spec y2 (by rw [abs_of_pos hy2]; linarith)
  rw [abs_of_pos hy1] at ha1 hb1
  rw [abs_of_pos hy2] at ha2 hb2
  have hu1 : (0 : ℝ) < (2 : ℝ) ^ (binade y1 - 52) := by positivity
  have hu2 : (0 : ℝ) < (2 : ℝ) ^ (binade y2 - 52) := by positivity
  have hble : binade y1 ≤ binade y2 := by
    by_contra hlt
    rw [not_le] at hlt
    have : (2 : ℝ) ^ (binade y2 + 1) ≤ (2 : ℝ) ^ binade y1 :=
      zpow_le_zpow_right₀ (by norm_num) (by omega)
    linarith
  rw [round64_fin_val y1 c1 h1, round64_fin_val y2 c2 h2]
  rcases lt_or_eq_of_le hble with hlt | heq
  · -- different binades: the power of two between them separates the values
    have hN1 : roundEven (y1 / (2 : ℝ) ^ (binade y1 - 52)) ≤ 2 ^ 53 := by
      apply roundEven_le
      rw [div_le_iff₀ hu1]
      have h3 : (2 : ℝ) ^ (binade y1 + 1) = (2 : ℝ) ^ (53 : ℕ) * (2 : ℝ) ^ (binade y1 - 52) := by
        rw [← zpow_natCast, ← zpow_add₀ (by norm_num)]
        congr 1
        omega
      push_cast
      linarith
    have hN2 : 2 ^ 52 ≤ roundEven (y2 / (2 : ℝ) ^ (binade y2 - 52)) := by
      apply le_roundEven
      rw [le_div_iff₀ hu2]
      have h3 : (2 : ℝ) ^ binade y2 = (2 : ℝ) ^ (52 : ℕ) * (2 : ℝ) ^ (binade y2 - 52) := by
        rw [← zpow_natCast, ← zpow_add₀ (by norm_num)]
        congr 1
        omega
      push_cast
      linarith
    have hmid : (2 : ℝ) ^ (binade y1 + 1) ≤ (2 : ℝ) ^ binade y2 :=
      zpow_le_zpow_right₀ (by norm_num) (by omega)
    have e1 : (2 : ℝ) ^ (binade y1 + 1) = (2 : ℝ) ^ (53 : ℕ) * (2 : ℝ) ^ (binade y1 - 52) := by
      rw [← zpow_natCast, ← zpow_add₀ (by norm_num)]
      congr 1
      omega
    have e2 : (2 : ℝ) ^ binade y2 = (2 : ℝ) ^ (52 : ℕ) * (2 : ℝ) ^ (binade y2 - 52) := by
      rw [← zpow_natCast, ← zpow_add₀ (by norm_num)]
      congr 1
      omega
    have g1 : (roundEven (y1 / (2 : ℝ) ^ (binade y1 - 52)) : ℝ) * (2 : ℝ) ^ (binade y1 - 52) ≤
        (2 : ℝ) ^ (53 : ℕ) * (2 : ℝ) ^ (binade y1 - 52) :=
      mul_le_mul_of_nonneg_right (by exact_mod_cast hN1) hu1.le
    have g2 : (2 : ℝ) ^ (52 : ℕ) * (2 : ℝ) ^ (binade y2 - 52) ≤
        (roundEven (y2 / (2 : ℝ) ^ (binade y2 - 52)) : ℝ) * (2 : ℝ) ^ (binade y2 - 52) :=
      mul_le_mul_of_nonneg_right (by exact_mod_cast hN2) hu2.le
    linarith
  · rw [← heq]
    apply mul_le_mul_of_nonneg_right _ hu1.le
    have := roundEven_mono (y1 / (2 : ℝ) ^ (binade y1 - 52)) (y2 / (2 : ℝ) ^ (binade y1 - 52))
      (div_le_div_of_nonneg_right h hu1.le)
    exact_mod_cast this

/-- Doubling commutes with the rounding in the normal range. -/
theorem round64_double (y c : ℝ) (h0 : (2 : ℝ) ^ (-1022 : ℤ) ≤ |y|)
    (h : round64 y = Ext.fin c) (hfin : |2 * c| < (2 : ℝ) ^ (1024 : ℤ)) :
    round64 (2 * y) = Ext.fin (2 * c) := by
  obtain ⟨ha, hb⟩ := binade_spec y h0
  have hbin : binade (2 * y) = binade y + 1 := by
    apply binade_eq
    · have := le_binade y (-1022) h0
      omega
    · rw [abs_mul, abs_of_pos (by norm_num : (0 : ℝ) < 2), zpow_add_one₀ (by norm_num)]
      linarith
    · rw [abs_mul, abs_of_pos (by norm_num : (0 : ℝ) < 2), zpow_add_one₀ (by norm_num)]
      linarith
  have hu : (0 : ℝ) < (2 : ℝ) ^ (binade y - 52) := by positivity
  have hunit : (2 : ℝ) ^ (binade y + 1 - 52) = 2 * (2 : ℝ) ^ (binade y - 52) := by
    rw [show binade y + 1 - 52 = binade y - 52 + 1 by ring, zpow_add_one₀ (by norm_num)]
    ring
  have hdiv : 2 * y / (2 * (2 : ℝ) ^ (binade y - 52)) = y / (2 : ℝ) ^ (binade y - 52) := by
    field_simp
    ring
  have hc := round64_fin_val y c h
  unfold round64
  rw [hbin, hunit, hdiv]
  have hval : (roundEven (y / (2 : ℝ) ^ (binade y - 52)) : ℝ) * (2 * (2 : ℝ) ^ (binade y - 52)) =
      2 * c := by
    rw [hc]
    ring
  rw [hval, if_neg (not_le.mpr hfin)]

/-- A finite value of the rounding is a binary64 number: it rounds to itself. -/
theorem round64_idem (y c : ℝ) (h : round64 y = Ext.fin c) : round64 c = Ext.fin c := by
  have hc := round64_fin_val y c h
  have hfin := round64_fin_lt y c h
  have hu : (0 : ℝ) < (2 : ℝ) ^ (binade y - 52) := by positivity
  have hylt := abs_lt_binade y
  have hb0 : -1022 ≤ binade y := le_max_right _ _
  have e1 : (2 : ℝ) ^ (binade y + 1) = (2 : ℝ) ^ (53 : ℕ) * (2 : ℝ) ^ (binade y - 52) := by
    rw [← zpow_natCast, ← zpow_add₀ (by norm_num)]
    congr 1
    omega
  have hN1 : roundEven (y / (2 : ℝ) ^ (binade y - 52)) ≤ 2 ^ 53 := by
    apply roundEven_le
    rw [div_le_iff₀ hu]
    push_cast
    linarith [(abs_lt.mp hylt).2]
  have hN2 : -(2 ^ 53) ≤ roundEven (y / (2 : ℝ) ^ (binade y - 52)) := by
    apply le_roundEven
    rw [le_div_iff₀ hu]
    push_cast
    linarith [(abs_lt.mp hylt).1]
  have hcabs : |c| = |(roundEven (y / (2 : ℝ) ^ (binade y - 52)) : ℝ)| *
      (2 : ℝ) ^ (binade y - 52) := by
    rw [hc, abs_mul, abs_of_pos hu]
  by_cases hmax : |roundEven (y / (2 : ℝ) ^ (binade y - 52))| = 2 ^ 53
  · -- the value is a power of two, in the next binade
    have hcpow : |c| = (2 : ℝ) ^ (binade y + 1) := by
      rw [hcabs, e1]
      congr 1
      have : |(roundEven (y / (2 : ℝ) ^ (binade y - 52)) : ℝ)| =
          ((|roundEven (y / (2 : ℝ) ^ (binade y - 52))| : ℤ) : ℝ) := by
        push_cast
        rfl
      rw [this, hmax]
      norm_num
    have hb1 : binade y ≤ 1022 := by
      by_contra hgt
      have : (2 : ℝ) ^ (1024 : ℤ) ≤ (2 : ℝ) ^ (binade y + 1) :=
        zpow_le_zpow_right₀ (by norm_num) (by omega)
      linarith
    have e2 : (2 : ℝ) ^ (binade y - 52) = 2⁻¹ * (2 : ℝ) ^ (binade y - 51) := by
      rw [show binade y - 51 = binade y - 52 + 1 by ring, zpow_add_one₀ (by norm_num)]
      field_simp
    obtain ⟨m, hm⟩ : ∃ m : ℤ, roundEven (y / (2 : ℝ) ^ (binade y - 52)) = 2 * m := by
      rcases abs_eq (by norm_num : (0 : ℤ) ≤ 2 ^ 53) |>.mp hmax with h1 | h1
      · exact ⟨2 ^ 52, by rw [h1]; norm_num⟩
      · exact ⟨-(2 ^ 52), by rw [h1]; norm_num⟩
    apply round64_exact c (binade y - 51) m (by omega) (by omega)
    · rw [hc, hm, e2]
      push_cast
      ring
    · rw [hcpow]
      exact zpow_lt_zpow_right₀ (by norm_num) (by omega)
  · have hlt : |roundEven (y / (2 : ℝ) ^ (binade y - 52))| < 2 ^ 53 := by
      have : |roundEven (y / (2 : ℝ) ^ (binade y - 52))| ≤ 2 ^ 53 := abs_le.mpr ⟨hN2, hN1⟩
      omega
    have hclt : |c| < (2 : ℝ) ^ (binade y - 52 + 53) := by
      rw [show binade y - 52 + 53 = binade y + 1 by ring, hcabs, e1]
      apply mul_lt_mul_of_pos_right _ hu
      have : |(roundEven (y / (2 : ℝ) ^ (binade y - 52)) : ℝ)| =
          ((|roundEven (y / (2 : ℝ) ^ (binade y - 52))| : ℤ) : ℝ) := by
        push_cast
        rfl
      rw [this]
      exact_mod_cast hlt
    have hb1 : binade y ≤ 1023 := by
      by_contra hgt
      rw [not_le] at hgt
      by_cases hy0 : y = 0
      · have : binade y = 0 := by
          rw [hy0]
          unfold binade
          rw [abs_zero, Int.log_zero_right]
          norm_num
        omega
      · have h1 := binade_pow_le y hy0 (by omega)
        by_cases hyp : 0 < y
        · rw [abs_of_pos hyp] at h1
          have := round64_fin_ge_pow y c 1024 (by norm_num)
            (le_trans (zpow_le_zpow_right₀ (by norm_num) (by omega)) h1) h
          linarith [le_abs_self c]
        · have hyn : y < 0 := lt_of_le_of_ne (not_lt.mp hyp) hy0
          rw [abs_of_neg hyn] at h1
          have h2 : y ≤ -(2 : ℝ) ^ (1024 : ℤ) := by
            have := zpow_le_zpow_right₀ (show (1 : ℝ) ≤ 2 by norm_num)
              (show (1024 : ℤ) ≤ binade y by omega)
            linarith
          have := round64_fin_le_neg_pow y c 1024 (by norm_num) h2 h
          linarith [neg_abs_le c]
    exact round64_exact c (binade y - 52) _ (by omega) (by omega) hc hclt

/-! ## The error estimate in binary64 -/

/-- The product `2.0 * gslDblEpsilon` in binary64 is `2^(-51)`. -/
theorem f64_two_epsilon (fexp flog : ℝ → ℝ) :
    (f64ArithWith fexp flog).mul ((f64ArithWith fexp flog).lit 2)
      (gslDblEpsilon (f64ArithWith fexp flog)) = Ext.fin (1 / 2251799813685248) := by
  rw [f64_lit_two, f64_epsilon, f64_mul_fin]
  exact round64_of_pos _ _ (-51) 4503599627370496 (by norm_num) (by norm_num) (by norm_num)
    (by norm_num) (by norm_num) (by norm_num) (by norm_num)

/-- An accurate exponential is between 0 and 3 on arguments from -1 to 1. -/
theorem expAccurate_bounds (fexp : ℝ → ℝ) (hexp : ExpAccurate fexp) (a : ℝ) (h1 : -1 ≤ a)
    (h2 : a ≤ 1) : 0 ≤ fexp a ∧ fexp a ≤ 3 := by
  have h := abs_le.mp (hexp a h1)
  have hpos : 0 < Real.exp a := Real.exp_pos a
  have hle : Real.exp a ≤ Real.exp 1 := Real.exp_le_exp.mpr h2
  have he := Real.exp_one_lt_d9
  have hsmall : Real.exp a / 2 ^ 50 ≤ Real.exp a := div_le_self hpos.le (by norm_num)
  have hsmall2 : Real.exp a / 2 ^ 50 ≤ 1 / 10 := by
    rw [div_le_iff₀ (by norm_num)]
    norm_num at he ⊢
    linarith
  constructor
  · linarith [h.1]
  · norm_num at he
    linarith [h.2]

/-- The scale of the tolerance is not tiny when the pass converges: with the
new iterate `a = w - t`, the scale `mu = max(|a|, 1/(|w+1|*exp(w)))` and the
tolerance `tau = EPS * mu` above `|t|`, the scale is at least `2^(-969)`. -/
theorem tol_scale_ge (fexp flog : ℝ → ℝ) (hexp : ExpAccurate fexp) (ω a t τ μ : ℝ)
    (ha : round64 (ω + -t) = Ext.fin a)
    (hM : Ext.max (Ext.fin |a|)
      ((f64ArithWith fexp flog).div ((f64ArithWith fexp flog).lit 1)
        ((f64ArithWith fexp flog).mul
          ((f64ArithWith fexp flog).abs
            ((f64ArithWith fexp flog).add (Ext.fin ω) ((f64ArithWith fexp flog).lit 1)))
          ((f64ArithWith fexp flog).exp (Ext.fin ω)))) = Ext.fin μ)
    (hτ : round64 (1 / 4503599627370496 * μ) = Ext.fin τ) (hlt : |t| < τ) :
    (2 : ℝ) ^ (-969 : ℤ) ≤ μ := by
  by_contra hμ
  rw [not_le] at hμ
  have habs0 : 0 ≤ |a| := abs_nonneg a
  -- the scale is at least `|a|`
  have hμa : |a| ≤ μ := by
    revert hM
    generalize (f64ArithWith fexp flog).div ((f64ArithWith fexp flog).lit 1)
        ((f64ArithWith fexp flog).mul
          ((f64ArithWith fexp flog).abs
            ((f64ArithWith fexp flog).add (Ext.fin ω) ((f64ArithWith fexp flog).lit 1)))
          ((f64ArithWith fexp flog).exp (Ext.fin ω))) = D
    intro hM
    cases D with
    | nan => simp [Ext.max] at hM
    | pinf => simp [Ext.max] at hM
    | ninf =>
      simp only [Ext.max] at hM
      injection hM with hM
      exact hM.le
    | fin δ =>
      simp only [Ext.max] at hM
      injection hM with hM
      rw [← hM]
      exact le_max_left _ _
  -- the tolerance and so the correction are tiny
  have hp969 : (2 : ℝ) ^ (-969 : ℤ) = 1 / 2 ^ 969 := by
    rw [zpow_neg, one_div]
    norm_cast
  have hτle : τ ≤ (2 : ℝ) ^ (-1021 : ℤ) := by
    obtain ⟨c, hc, _, hcu⟩ := round64_mem (1 / 4503599627370496 * μ) 0 ((2 : ℝ) ^ (-1021 : ℤ))
      (-1073) 0 (2 ^ 52) (by norm_num) (by norm_num) (by simp)
      (by
        push_cast
        rw [show (4503599627370496 : ℝ) = (2 : ℝ) ^ (52 : ℤ) by norm_num,
          ← zpow_add₀ (by norm_num)]
        norm_num)
      (by
        have : (0 : ℝ) < (2 : ℝ) ^ (-1073 + 53 : ℤ) := by positivity
        linarith)
      (zpow_lt_zpow_right₀ (by norm_num) (by norm_num))
      (mul_nonneg (by norm_num) (le_trans habs0 hμa))
      (by
        have h1 : (2 : ℝ) ^ (-1021 : ℤ) = 1 / 4503599627370496 * (2 : ℝ) ^ (-969 : ℤ) := by
          rw [show (1 / 4503599627370496 : ℝ) = (2 : ℝ) ^ (-52 : ℤ) by norm_num,
            ← zpow_add₀ (by norm_num)]
          norm_num
        rw [h1]
        exact mul_le_mul_of_nonneg_left hμ.le (by norm_num))
    rw [hτ] at hc
    injection hc with hc
    rw [hc]
    exact hcu
  have htl : |t| < (2 : ℝ) ^ (-1021 : ℤ) := lt_of_lt_of_le hlt hτle
  have hsmall : (2 : ℝ) ^ (-1021 : ℤ) ≤ 1 / 2 :=
    le_trans (zpow_le_zpow_right₀ (by norm_num) (show (-1021 : ℤ) ≤ -1 by norm_num))
      (by norm_num)
  have hμhalf : μ < 1 / 16 :=
    lt_of_lt_of_le hμ (le_trans (zpow_le_zpow_right₀ (by norm_num)
      (show (-969 : ℤ) ≤ -4 by norm_num)) (by norm_num))
  have htabs : |t| < 1 / 2 := lt_of_lt_of_le htl hsmall
  have ht1 := (abs_lt.mp htabs).1
  have ht2 := (abs_lt.mp htabs).2
  -- so the old iterate is below 1 in absolute value
  have hω1 : ω < 1 := by
    by_contra hge
    have := round64_fin_ge_pow _ _ (-1) (by norm_num)
      (show (2 : ℝ) ^ (-1 : ℤ) ≤ ω + -t by
        norm_num
        linarith only [not_lt.mp hge, ht1, ht2]) ha
    norm_num at this
    linarith only [le_abs_self a, this, hμa, hμhalf]
  have hω2 : -1 < ω := by
    by_contra hge
    have := round64_fin_le_neg_pow _ _ (-1) (by norm_num)
      (show ω + -t ≤ -(2 : ℝ) ^ (-1 : ℤ) by
        norm_num
        linarith only [not_lt.mp hge, ht1, ht2]) ha
    norm_num at this
    linarith only [neg_abs_le a, this, hμa, hμhalf]
  -- and the second operand of the maximum is at least `1/8`
  obtain ⟨p, hp, hpl, hpu⟩ := round64_mem (ω + 1) 0 2 (-20) 0 2097152
    (by norm_num) (by norm_num) (by norm_num) (by norm_num) (by norm_num) (by norm_num)
    (by linarith) (by linarith)
  obtain ⟨he0, he3⟩ := expAccurate_bounds fexp hexp ω hω2.le hω1.le
  obtain ⟨ev, hev, hevl, hevu⟩ := round64_mem (fexp ω) 0 3 (-20) 0 3145728
    (by norm_num) (by norm_num) (by norm_num) (by norm_num) (by norm_num) (by norm_num)
    he0 he3
  obtain ⟨b, hb, hbl, hbu⟩ := round64_mem (|p| * ev) 0 6 (-20) 0 6291456
    (by norm_num) (by norm_num) (by norm_num) (by norm_num) (by norm_num) (by norm_num)
    (by rw [abs_of_nonneg hpl]; nlinarith) (by rw [abs_of_nonneg hpl]; nlinarith)
  have hX : (f64ArithWith fexp flog).mul
      ((f64ArithWith fexp flog).abs
        ((f64ArithWith fexp flog).add (Ext.fin ω) ((f64ArithWith fexp flog).lit 1)))
      ((f64ArithWith fexp flog).exp (Ext.fin ω)) = Ext.fin b := by
    rw [f64_lit_one, f64_add_fin, hp, f64_exp_fin, hev]
    exact hb
  rw [hX, f64_lit_one] at hM
  rcases eq_or_lt_of_le hbl with hb0 | hbpos
  · rw [← hb0] at hM
    simp [f64ArithWith, Ext.div, Ext.bySign, Ext.round, Ext.max] at hM
  · rw [f64_div_fin _ _ _ _ hbpos.ne.symm] at hM
    have hinv : (2 : ℝ) ^ (-3 : ℤ) ≤ 1 / b := by
      rw [le_div_iff₀ hbpos]
      norm_num
      linarith
    cases hD : round64 (1 / b) with
    | nan => exact round64_ne_nan _ hD
    | ninf => exact round64_ne_ninf _ (by positivity) hD
    | pinf =>
      rw [hD] at hM
      simp [Ext.max] at hM
    | fin δ =>
      rw [hD] at hM
      simp only [Ext.max] at hM
      injection hM with hM
      have := round64_fin_ge_pow _ _ (-3) (by norm_num) hinv hD
      norm_num at this
      have h2 : δ ≤ μ := by
        rw [← hM]
        exact le_max_right _ _
      linarith only [this, h2, hμhalf]

/-- The comparison `<` of binary64 is false with `+Inf` on the left. -/
theorem f64_lt_pinf_left (fexp flog : ℝ → ℝ) (b : Ext) :
    (f64ArithWith fexp flog).lt Ext.pinf b = false := by
  cases b <;> rfl

/-- The comparison `<` of binary64 is false with NaN on the right. -/
theorem f64_lt_nan_right (fexp flog : ℝ → ℝ) (a : Ext) :
    (f64ArithWith fexp flog).lt a Ext.nan = false := by
  cases a <;> rfl

/-- The comparison `<` of binary64 is false with NaN on the left. -/
theorem f64_lt_nan_left (fexp flog : ℝ → ℝ) (b : Ext) :
    (f64ArithWith fexp flog).lt Ext.nan b = false := by
  cases b <;> rfl

/-- A number above zero times `+Inf` is `+Inf` in binary64. -/
theorem f64_mul_pos_pinf (fexp flog : ℝ → ℝ) (c : ℝ) (hc : 0 < c) :
    (f64ArithWith fexp flog).mul (Ext.fin c) Ext.pinf = Ext.pinf := by
  simp [f64ArithWith, Ext.mul, Ext.bySign, Ext.round, hc, hc.ne']

/-- A finite result of a rounded operation is below `2^1024` in absolute
value. -/
theorem round_fin_lt (e : Ext) (a : ℝ) (h : e.round = Ext.fin a) :
    |a| < (2 : ℝ) ^ (1024 : ℤ) := by
  cases e with
  | fin r => exact round64_fin_lt r a h
  | nan => exact Ext.noConfusion h
  | ninf => exact Ext.noConfusion h
  | pinf => exact Ext.noConfusion h

/-- A maximum that is finite is at least its finite first operand. -/
theorem max_fin_ge (u μ : ℝ) (D : Ext) (h : Ext.max (Ext.fin u) D = Ext.fin μ) : u ≤ μ := by
  cases D with
  | nan => simp [Ext.max] at h
  | pinf => simp [Ext.max] at h
  | ninf =>
    simp only [Ext.max] at h
    injection h with h
    exact h.le
  | fin δ =>
    simp only [Ext.max] at h
    injection h with h
    rw [← h]
    exact le_max_left _ _

/-- The fallback exit in binary64: `|w|` is not below `2 * EPS * |w|`, for
every iterate of binary64. -/
theorem fallback_err_f64 (fexp flog : ℝ → ℝ) (w : Ext)
    (hw : ∀ a, w = Ext.fin a → |a| < (2 : ℝ) ^ (1024 : ℤ)) :
    (f64ArithWith fexp flog).lt ((f64ArithWith fexp flog).abs w)
      ((f64ArithWith fexp flog).mul
        ((f64ArithWith fexp flog).mul ((f64ArithWith fexp flog).lit 2)
          (gslDblEpsilon (f64ArithWith fexp flog)))
        ((f64ArithWith fexp flog).abs w)) = false := by
  rw [f64_two_epsilon]
  cases w with
  | nan => exact f64_lt_nan_left fexp flog _
  | pinf => exact f64_lt_pinf_left fexp flog _
  | ninf => exact f64_lt_pinf_left fexp flog _
  | fin a =>
    have ha := hw a rfl
    show (f64ArithWith fexp flog).lt (Ext.fin |a|)
      ((f64ArithWith fexp flog).mul (Ext.fin (1 / 2251799813685248)) (Ext.fin |a|)) = false
    rw [f64_mul_fin]
    have hy0 : (0 : ℝ) ≤ 1 / 2251799813685248 * |a| := by positivity
    cases hT : round64 (1 / 2251799813685248 * |a|) with
    | nan => exact absurd hT (round64_ne_nan _)
    | ninf => rfl
    | pinf =>
      have h1 := round64_pinf _ hT
      have h2 : (2 : ℝ) ^ (1024 : ℤ) ≤ (2 : ℝ) ^ (1023 : ℤ) * 2251799813685248 := by norm_num
      have h3 : (2 : ℝ) ^ (1023 : ℤ) * 2251799813685248 ≤ |a| := by
        have : (2 : ℝ) ^ (1023 : ℤ) * 2251799813685248 ≤
            1 / 2251799813685248 * |a| * 2251799813685248 :=
          mul_le_mul_of_nonneg_right h1 (by norm_num)
        linarith
      linarith
    | fin c =>
      have h1 := round64_le_two_mul _ c hy0 hT
      rw [f64_lt_fin, decide_eq_false_iff_not, not_lt]
      have habs : (0 : ℝ) ≤ |a| := abs_nonneg a
      linarith

/-- The convergence exit in binary64: `2 * tol` is not below
`2 * EPS * |w|` for the new iterate `w`. -/
theorem conv_err_f64 (fexp flog : ℝ → ℝ) (hexp : ExpAccurate fexp) (x w : Ext)
    (hconv : (f64ArithWith fexp flog).lt
      ((f64ArithWith fexp flog).abs (halleyStep (f64ArithWith fexp flog) x w).t)
      (halleyStep (f64ArithWith fexp flog) x w).tol = true) :
    (f64ArithWith fexp flog).lt
      ((f64ArithWith fexp flog).mul ((f64ArithWith fexp flog).lit 2)
        (halleyStep (f64ArithWith fexp flog) x w).tol)
      ((f64ArithWith fexp flog).mul
        ((f64ArithWith fexp flog).mul ((f64ArithWith fexp flog).lit 2)
          (gslDblEpsilon (f64ArithWith fexp flog)))
        ((f64ArithWith fexp flog).abs (halleyStep (f64ArithWith fexp flog) x w).w)) = false := by
  have hwdef : (halleyStep (f64ArithWith fexp flog) x w).w =
      (f64ArithWith fexp flog).sub w (halleyStep (f64ArithWith fexp flog) x w).t := rfl
  have htol : (halleyStep (f64ArithWith fexp flog) x w).tol =
      (f64ArithWith fexp flog).mul (gslDblEpsilon (f64ArithWith fexp flog))
        (Ext.max (Ext.abs (halleyStep (f64ArithWith fexp flog) x w).w)
          ((f64ArithWith fexp flog).div ((f64ArithWith fexp flog).lit 1)
            ((f64ArithWith fexp flog).mul
              ((f64ArithWith fexp flog).abs
                ((f64ArithWith fexp flog).add w ((f64ArithWith fexp flog).lit 1)))
              ((f64ArithWith fexp flog).exp w)))) := rfl
  rw [htol, hwdef] at hconv
  rw [htol, hwdef, f64_two_epsilon, f64_lit_two, f64_epsilon]
  rw [f64_epsilon] at hconv
  generalize (halleyStep (f64ArithWith fexp flog) x w).t = T at hconv ⊢
  have hpinf : ∀ D : Ext, (f64ArithWith fexp flog).lt
      ((f64ArithWith fexp flog).mul (Ext.fin 2)
        ((f64ArithWith fexp flog).mul (Ext.fin (1 / 4503599627370496))
          (Ext.max Ext.pinf D)))
      ((f64ArithWith fexp flog).mul (Ext.fin (1 / 2251799813685248)) Ext.pinf) = false := by
    intro D
    have : Ext.max Ext.pinf D = Ext.pinf := by cases D <;> rfl
    rw [this, f64_mul_pos_pinf _ _ _ (by norm_num), f64_mul_pos_pinf _ _ _ (by norm_num)]
    exact f64_lt_pinf_left fexp flog _
  cases T with
  | nan => rw [show (f64ArithWith fexp flog).abs Ext.nan = Ext.nan from rfl,
      f64_lt_nan_left] at hconv; exact absurd hconv (by simp)
  | pinf => rw [show (f64ArithWith fexp flog).abs Ext.pinf = Ext.pinf from rfl,
      f64_lt_pinf_left] at hconv; exact absurd hconv (by simp)
  | ninf => rw [show (f64ArithWith fexp flog).abs Ext.ninf = Ext.pinf from rfl,
      f64_lt_pinf_left] at hconv; exact absurd hconv (by simp)
  | fin t =>
    cases w with
    | nan =>
      have h1 : (f64ArithWith fexp flog).sub Ext.nan (Ext.fin t) = Ext.nan := rfl
      rw [h1, show (f64ArithWith fexp flog).abs Ext.nan = Ext.nan from rfl]
      have : (f64ArithWith fexp flog).mul (Ext.fin (1 / 2251799813685248)) Ext.nan = Ext.nan := rfl
      rw [this]
      exact f64_lt_nan_right fexp flog _
    | pinf =>
      have h1 : (f64ArithWith fexp flog).sub Ext.pinf (Ext.fin t) = Ext.pinf := rfl
      rw [h1]
      exact hpinf _
    | ninf =>
      have h1 : (f64ArithWith fexp flog).sub Ext.ninf (Ext.fin t) = Ext.ninf := rfl
      rw [h1]
      exact hpinf _
    | fin ω =>
      rw [f64_sub_fin] at hconv ⊢
      cases hW : round64 (ω + -t) with
      | nan => exact absurd hW (round64_ne_nan _)
      | pinf => exact hpinf _
      | ninf => exact hpinf _
      | fin a =>
        rw [hW] at hconv
        have hAbs : (f64ArithWith fexp flog).abs (Ext.fin a) = Ext.fin |a| := rfl
        have hAbs2 : Ext.abs (Ext.fin a) = Ext.fin |a| := rfl
        have hAbsT : (f64ArithWith fexp flog).abs (Ext.fin t) = Ext.fin |t| := rfl
        rw [hAbs2, hAbsT] at hconv
        rw [hAbs, hAbs2]
        cases hM : Ext.max (Ext.fin |a|)
            ((f64ArithWith fexp flog).div ((f64ArithWith fexp flog).lit 1)
              ((f64ArithWith fexp flog).mul
                ((f64ArithWith fexp flog).abs
                  ((f64ArithWith fexp flog).add (Ext.fin ω) ((f64ArithWith fexp flog).lit 1)))
                ((f64ArithWith fexp flog).exp (Ext.fin ω)))) with
        | nan =>
          rw [hM] at hconv
          exact absurd hconv (by simp [f64ArithWith, Ext.mul, Ext.round, Ext.lt])
        | ninf =>
          rw [hM] at hconv
          exact absurd hconv (by simp [f64ArithWith, Ext.mul, Ext.bySign, Ext.round, Ext.lt])
        | pinf =>
          rw [f64_mul_pos_pinf _ _ _ (by norm_num), f64_mul_pos_pinf _ _ _ (by norm_num)]
          exact f64_lt_pinf_left fexp flog _
        | fin μ =>
          rw [hM, f64_mul_fin] at hconv
          rw [f64_mul_fin, f64_mul_fin]
          have hμa := max_fin_ge _ _ _ hM
          have hμ0 : 0 ≤ μ := le_trans (abs_nonneg a) hμa
          cases hτ : round64 (1 / 4503599627370496 * μ) with
          | nan => exact absurd hτ (round64_ne_nan _)
          | ninf => exact absurd hτ (round64_ne_ninf _ (by positivity))
          | pinf =>
            rw [f64_mul_pos_pinf _ _ _ (by norm_num)]
            exact f64_lt_pinf_left fexp flog _
          | fin τ =>
            rw [hτ, f64_lt_fin, decide_eq_true_eq] at hconv
            rw [f64_mul_fin]
            have hscale := tol_scale_ge fexp flog hexp ω a t τ μ hW hM hτ hconv
            -- the scaled tolerance is in the normal range
            have hz : (2 : ℝ) ^ (-1021 : ℤ) ≤ 1 / 4503599627370496 * μ := by
              have h1 : (2 : ℝ) ^ (-1021 : ℤ) =
                  1 / 4503599627370496 * (2 : ℝ) ^ (-969 : ℤ) := by
                rw [show (1 / 4503599627370496 : ℝ) = (2 : ℝ) ^ (-52 : ℤ) by norm_num,
                  ← zpow_add₀ (by norm_num)]
                norm_num
              rw [h1]
              exact mul_le_mul_of_nonneg_left hscale (by norm_num)
            have hτge := round64_fin_ge_pow _ _ (-1021) (by norm_num) hz hτ
            have hτpos : 0 < τ := lt_of_lt_of_le (by positivity) hτge
            have hp1 : (2 : ℝ) ^ (-1022 : ℤ) ≤ (2 : ℝ) ^ (-1021 : ℤ) :=
              zpow_le_zpow_right₀ (by norm_num) (by norm_num)
            cases herr : round64 (2 * τ) with
            | nan => exact absurd herr (round64_ne_nan _)
            | ninf => exact absurd herr (round64_ne_ninf _ (by positivity))
            | pinf => exact f64_lt_pinf_left fexp flog _
            | fin e2 =>
              have he2lt := round64_fin_lt _ _ herr
              have h2τ : |2 * τ| < (2 : ℝ) ^ (1024 : ℤ) := by
                by_contra hge
                rw [not_lt, abs_of_pos (by positivity)] at hge
                have := round64_fin_ge_pow _ _ 1024 (by norm_num) hge herr
                linarith [le_abs_self e2]
              have hidem := round64_idem _ _ hτ
              have hdouble := round64_double τ τ
                (by rw [abs_of_pos hτpos]; linarith) hidem h2τ
              rw [herr] at hdouble
              injection hdouble with hdouble
              have hzdouble := round64_double (1 / 4503599627370496 * μ) τ
                (by rw [abs_of_nonneg (by positivity)]; linarith) hτ h2τ
              have hya0 : (0 : ℝ) ≤ 1 / 2251799813685248 * |a| := by positivity
              cases hT : round64 (1 / 2251799813685248 * |a|) with
              | nan => exact absurd hT (round64_ne_nan _)
              | ninf => rfl
              | pinf =>
                exfalso
                have h1 := round64_pinf _ hT
                have ha := round64_fin_lt _ _ hW
                have h2 : (2 : ℝ) ^ (1024 : ℤ) ≤ (2 : ℝ) ^ (1023 : ℤ) * 2251799813685248 := by
                  norm_num
                have : (2 : ℝ) ^ (1023 : ℤ) * 2251799813685248 ≤
                    1 / 2251799813685248 * |a| * 2251799813685248 :=
                  mul_le_mul_of_nonneg_right h1 (by norm_num)
                linarith
              | fin c =>
                rw [f64_lt_fin, decide_eq_false_iff_not, not_lt, hdouble]
                by_cases hnorm : (2 : ℝ) ^ (-1022 : ℤ) ≤ 1 / 2251799813685248 * |a|
                · exact round64_mono _ _ c (2 * τ) hnorm
                    (by linarith) hT hzdouble
                · rw [not_le] at hnorm
                  obtain ⟨c2, hc2, _, hc2u⟩ := round64_mem (1 / 2251799813685248 * |a|) 0
                    ((2 : ℝ) ^ (-1022 : ℤ)) (-1074) 0 (2 ^ 52) (by norm_num) (by norm_num)
                    (by simp)
                    (by
                      push_cast
                      rw [show (4503599627370496 : ℝ) = (2 : ℝ) ^ (52 : ℤ) by norm_num,
                        ← zpow_add₀ (by norm_num)]
                      norm_num)
                    (by
                      have : (0 : ℝ) < (2 : ℝ) ^ (-1074 + 53 : ℤ) := by positivity
                      linarith)
                    (zpow_lt_zpow_right₀ (by norm_num) (by norm_num)) hya0 hnorm.le
                  rw [hT] at hc2
                  injection hc2 with hc2
                  rw [hc2]
                  linarith

/-- Every exit of the refiner in binary64 returns an error estimate that is
not below `2 * EPS * |Val|`, from every iterate of binary64. -/
theorem halleyLoop_err_f64 (fexp flog : ℝ → ℝ) (hexp : ExpAccurate fexp) (x : Ext) (n : Nat) :
    ∀ (i : Int) (w : Ext), (∀ a, w = Ext.fin a → |a| < (2 : ℝ) ^ (1024 : ℤ)) →
      (f64ArithWith fexp flog).lt (halleyLoop (f64ArithWith fexp flog) x n i w).err
        ((f64ArithWith fexp flog).mul
          ((f64ArithWith fexp flog).mul ((f64ArithWith fexp flog).lit 2)
            (gslDblEpsilon (f64ArithWith fexp flog)))
          ((f64ArithWith fexp flog).abs
            (halleyLoop (f64ArithWith fexp flog) x n i w).Val)) = false := by
  induction n with
  | zero =>
    intro i w hw
    exact fallback_err_f64 fexp flog w hw
  | succ n ih =>
    intro i w _
    unfold halleyLoop
    by_cases hconv : (f64ArithWith fexp flog).lt
        ((f64ArithWith fexp flog).abs (halleyStep (f64ArithWith fexp flog) x w).t)
        (halleyStep (f64ArithWith fexp flog) x w).tol = true
    · simp only [hconv, if_true]
      exact conv_err_f64 fexp flog hexp x w hconv
    · simp only [hconv, if_false]
      apply ih
      intro a ha
      exact round_fin_lt _ a ha

/-- The initial guess in binary64, when finite, is below `2^1024` in absolute
value. -/
theorem initialGuess_fin_lt (fexp flog : ℝ → ℝ) (x q : Ext) (a : ℝ)
    (h : initialGuess (f64ArithWith fexp flog) x q = Ext.fin a) :
    |a| < (2 : ℝ) ^ (1024 : ℤ) := by
  unfold initialGuess at h
  split_ifs at h
  · exact round_fin_lt _ a h
  · exact round_fin_lt _ a h
  · exact round_fin_lt _ a h

/-- The series in binary64 for `q` with `0 <= q < 1.0e-03`: the value is a
finite number between `-1` and `-59/64`. -/
theorem series_f64_fin (fexp flog : ℝ → ℝ) (q : Ext)
    (hq0 : (f64ArithWith fexp flog).lt q ((f64ArithWith fexp flog).lit 0) = false)
    (hq1 : (f64ArithWith fexp flog).lt q ((f64ArithWith fexp flog).lit 1.0e-03) = true) :
    ∃ v, seriesEval (f64ArithWith fexp flog) ((f64ArithWith fexp flog).sqrt q) = Ext.fin v ∧
      -1 ≤ v ∧ v ≤ -59 / 64 := by
  rw [f64_lit_zero] at hq0
  rw [f64_milli] at hq1
  cases q with
  | nan => exact absurd hq1 (by simp [f64ArithWith, Ext.lt])
  | pinf => exact absurd hq1 (by simp [f64ArithWith, Ext.lt])
  | ninf => exact absurd hq0 (by simp [f64ArithWith, Ext.lt])
  | fin qv =>
    rw [f64_lt_fin, decide_eq_false_iff_not, not_lt] at hq0
    rw [f64_lt_fin, decide_eq_true_eq] at hq1
    obtain ⟨rs, hrs, hrsl, hrsu⟩ := round64_mem (Real.sqrt qv) 0 (33 / 1024)
      (-57) 0 4644337115725824 (by norm_num) (by norm_num) (by norm_num)
      (by norm_num) (by norm_num) (by norm_num) (Real.sqrt_nonneg _)
      ((Real.sqrt_le_left (by norm_num)).mpr (by norm_num; linarith))
    obtain ⟨t, htl, htu, ht⟩ := series_f64_t1 fexp flog rs hrsl hrsu
    obtain ⟨m, hm, hml, hmu⟩ := round64_mem (rs * t) 0 (5 / 64)
      (-56) 0 5629499534213120 (by norm_num) (by norm_num) (by norm_num)
      (by norm_num) (by norm_num) (by norm_num)
      (by nlinarith) (by nlinarith)
    obtain ⟨v, hv, hvl, hvu⟩ := round64_mem (-1 + m) (-1) (-59 / 64)
      (-52) (-4503599627370496) (-4151755906482176) (by norm_num) (by norm_num) (by norm_num)
      (by norm_num) (by norm_num) (by norm_num)
      (by linarith) (by linarith)
    exact ⟨v, by rw [f64_sqrt_fin _ _ _ hq0, hrs, ht, f64_mul_fin, hm, f64_add_fin, hv],
      hvl, hvu⟩

/-- The comparison `<` of binary64 is irreflexive. -/
theorem f64_lt_irrefl (fexp flog : ℝ → ℝ) (e : Ext) :
    (f64ArithWith fexp flog).lt e e = false := by
  cases e with
  | fin a => simp [f64ArithWith, Ext.lt]
  | nan => rfl
  | ninf => rfl
  | pinf => rfl

/-- A value of binary64 other than NaN is equal to itself. -/
theorem f64_eq_self (fexp flog : ℝ → ℝ) (e : Ext) (h : e ≠ Ext.nan) :
    (f64ArithWith fexp flog).eq e e = true := by
  cases e with
  | fin a => simp [f64ArithWith, Ext.eq]
  | nan => exact absurd rfl h
  | ninf => rfl
  | pinf => rfl

/-- The correctly rounded exponential is accurate. -/
theorem expAccurate_exp : ExpAccurate Real.exp := by
  intro a _
  rw [sub_self, abs_zero]
  exact div_nonneg (Real.exp_pos a).le (by norm_num)

/-! ## Fixed points of the refiner in binary64 -/

/-- A binary64 number above `-1` is at least `-1 + 2^(-53)`. -/
theorem rep_add_one_ge (ω : ℝ) (hrep : round64 ω = Ext.fin ω) (hω : -1 < ω) :
    (1 / 9007199254740992 : ℝ) ≤ ω + 1 := by
  by_cases h : ω < -(1 / 2)
  · obtain ⟨N, hN⟩ := round64_grid ω hrep (-1) (by norm_num)
      (by rw [abs_of_neg (by linarith)]; norm_num; linarith)
      (by rw [abs_of_neg (by linarith)]; norm_num; linarith)
    norm_num at hN
    have h1 : (-9007199254740992 : ℝ) < N := by
      rw [hN] at hω
      linarith
    have h2 : (-9007199254740992 : ℤ) < N := by exact_mod_cast h1
    have h3 : (-9007199254740991 : ℝ) ≤ N := by exact_mod_cast (show -9007199254740991 ≤ N by omega)
    rw [hN]
    linarith
  · linarith [not_lt.mp h]

/-- The exponential is above `1/4 * (1 + 2^(-40))` on arguments from -1 up. -/
theorem exp_ge_of_ge_neg_one (a : ℝ) (h : -1 ≤ a) : (9 / 25 : ℝ) ≤ Real.exp a := by
  have h1 : Real.exp (-1) ≤ Real.exp a := Real.exp_le_exp.mpr h
  have h2 : Real.exp (-1) = (Real.exp 1)⁻¹ := Real.exp_neg 1
  have h3 := Real.exp_one_lt_d9
  have h4 : (0 : ℝ) < Real.exp 1 := Real.exp_pos 1
  have h5 : (9 / 25 : ℝ) ≤ (Real.exp 1)⁻¹ := by
    rw [le_inv_comm₀ (by norm_num) h4]
    norm_num at h3 ⊢
    linarith
  linarith

/-- An accurate exponential whose rounded value is finite: the value is at
least `1/4` and the argument is below 2048. -/
theorem exp_fin_bounds (fexp : ℝ → ℝ) (hexp : ExpAccurate fexp) (ω ev : ℝ) (hω : -1 ≤ ω)
    (hE : round64 (fexp ω) = Ext.fin ev) : 1 / 4 ≤ ev ∧ ω < 2048 := by
  have hacc := abs_le.mp (hexp ω hω)
  have hpos : 0 < Real.exp ω := Real.exp_pos ω
  have hge := exp_ge_of_ge_neg_one ω hω
  have hsmall : Real.exp ω / 2 ^ 50 ≤ Real.exp ω / 4 := by
    apply div_le_div_of_nonneg_left hpos.le (by norm_num) (by norm_num)
  constructor
  · have h1 : (2 : ℝ) ^ (-2 : ℤ) ≤ fexp ω := by
      norm_num
      linarith [hacc.1]
    have := round64_fin_ge_pow _ _ (-2) (by norm_num) h1 hE
    norm_num at this
    linarith
  · by_contra hge2
    rw [not_lt] at hge2
    have h1 : Real.exp 2048 ≤ Real.exp ω := Real.exp_le_exp.mpr hge2
    have h2 : (2 : ℝ) ≤ Real.exp 1 := by
      have := Real.add_one_le_exp (1 : ℝ)
      linarith
    have h3 : (2 : ℝ) ^ (2048 : ℕ) ≤ Real.exp 1 ^ (2048 : ℕ) :=
      pow_le_pow_left₀ (by norm_num) h2 _
    rw [Real.exp_one_pow] at h3
    push_cast at h3
    have h4 : (2 : ℝ) ^ (1025 : ℤ) ≤ (2 : ℝ) ^ (2048 : ℕ) := by
      rw [← zpow_natCast]
      exact zpow_le_zpow_right₀ (by norm_num) (by norm_num)
    have h5 : (2 : ℝ) ^ (1024 : ℤ) ≤ fexp ω := by
      have h6 : (2 : ℝ) ^ (1025 : ℤ) = 2 * (2 : ℝ) ^ (1024 : ℤ) := by
        rw [show (1025 : ℤ) = 1024 + 1 by norm_num, zpow_add_one₀ (by norm_num)]
        ring
      have h7 : Real.exp ω / 2 ^ 50 ≤ Real.exp ω / 2 := by
        apply div_le_div_of_nonneg_left hpos.le (by norm_num) (by norm_num)
      linarith [hacc.1]
    have := round64_fin_ge_pow _ _ 1024 (by norm_num) h5 hE
    linarith [round64_fin_lt _ _ hE, le_abs_self ev]

/-- Zero over a number that is not zero is zero in binary64. -/
theorem f64_zero_div (fexp flog : ℝ → ℝ) (b : ℝ) (hb : b ≠ 0) :
    (f64ArithWith fexp flog).div (Ext.fin 0) (Ext.fin b) = Ext.fin 0 := by
  rw [f64_div_fin _ _ _ _ hb, zero_div, round64_zero]

/-- A binary64 number less zero is the number. -/
theorem f64_sub_zero (fexp flog : ℝ → ℝ) (c : ℝ) (hrep : round64 c = Ext.fin c) :
    (f64ArithWith fexp flog).sub (Ext.fin c) (Ext.fin 0) = Ext.fin c := by
  rw [f64_sub_fin, neg_zero, add_zero, hrep]

/-- A number times zero is zero in binary64. -/
theorem f64_mul_zero (fexp flog : ℝ → ℝ) (h : ℝ) :
    (f64ArithWith fexp flog).mul (Ext.fin h) (Ext.fin 0) = Ext.fin 0 := by
  rw [f64_mul_fin, mul_zero, round64_zero]

/-- A number less itself is zero in binary64. -/
theorem f64_sub_self (fexp flog : ℝ → ℝ) (r : ℝ) :
    (f64ArithWith fexp flog).sub (Ext.fin r) (Ext.fin r) = Ext.fin 0 := by
  rw [f64_sub_fin, add_neg_cancel, round64_zero]

/-- The tolerance is above zero for a scale of at least `1/8`. -/
theorem f64_tol_pos (fexp flog : ℝ → ℝ) (μ : ℝ) (h : 1 / 8 ≤ μ) :
    (f64ArithWith fexp flog).lt (Ext.fin 0)
      ((f64ArithWith fexp flog).mul (Ext.fin (1 / 4503599627370496)) (Ext.fin μ)) = true := by
  rw [f64_mul_fin]
  have hy : (2 : ℝ) ^ (-55 : ℤ) ≤ 1 / 4503599627370496 * μ := by
    norm_num
    linarith
  cases hτ : round64 (1 / 4503599627370496 * μ) with
  | nan => exact absurd hτ (round64_ne_nan _)
  | ninf => exact absurd hτ (round64_ne_ninf _ (by positivity))
  | pinf => rfl
  | fin τ =>
    have := round64_fin_ge_pow _ _ (-55) (by norm_num) hy hτ
    rw [f64_lt_fin, decide_eq_true_eq]
    exact lt_of_lt_of_le (by positivity) this

/-- The tolerance of a pass from a binary64 iterate above `-1` is above zero,
whatever the new iterate, when the new iterate is the old one. -/
theorem f64_tol_pos_of_gt (fexp flog : ℝ → ℝ) (hexp : ExpAccurate fexp) (ω p ev : ℝ)
    (hω : -1 < ω) (hp0 : 0 < p) (hp : round64 (ω + 1) = Ext.fin p)
    (hev : round64 (fexp ω) = Ext.fin ev) (hev0 : 0 < ev) :
    (f64ArithWith fexp flog).lt (Ext.fin 0)
      ((f64ArithWith fexp flog).mul (Ext.fin (1 / 4503599627370496))
        (Ext.max (Ext.fin |ω|)
          ((f64ArithWith fexp flog).div (Ext.fin 1)
            ((f64ArithWith fexp flog).mul ((f64ArithWith fexp flog).abs (Ext.fin p))
              (Ext.fin ev))))) = true := by
  have hpinf : (f64ArithWith fexp flog).lt (Ext.fin 0)
      ((f64ArithWith fexp flog).mul (Ext.fin (1 / 4503599627370496)) Ext.pinf) = true := by
    rw [f64_mul_pos_pinf _ _ _ (by norm_num)]
    rfl
  -- for a small iterate the divisor `|p| * e` is at most 6
  have hprod6 : |ω| < 1 / 8 → |p| * ev ≤ 6 := by
    intro hω8
    have h1 := (abs_lt.mp hω8).1
    have h2 := (abs_lt.mp hω8).2
    obtain ⟨p2, hp2, _, hp2u⟩ := round64_mem (ω + 1) 0 2 (-20) 0 2097152
      (by norm_num) (by norm_num) (by norm_num) (by norm_num) (by norm_num) (by norm_num)
      (by linarith) (by linarith)
    rw [hp] at hp2
    injection hp2 with hp2
    obtain ⟨he0, he3⟩ := expAccurate_bounds fexp hexp ω (by linarith) (by linarith)
    obtain ⟨ev2, hev2, _, hev2u⟩ := round64_mem (fexp ω) 0 3 (-20) 0 3145728
      (by norm_num) (by norm_num) (by norm_num) (by norm_num) (by norm_num) (by norm_num)
      he0 he3
    rw [hev] at hev2
    injection hev2 with hev2
    rw [abs_of_pos hp0]
    have : p ≤ 2 := by rw [hp2]; exact hp2u
    have : ev ≤ 3 := by rw [hev2]; exact hev2u
    nlinarith
  have hsmall : |ω| < 1 / 8 → ∃ b, round64 (|p| * ev) = Ext.fin b ∧ b ≤ 6 := by
    intro hω8
    obtain ⟨b2, hb2, _, hb2u⟩ := round64_mem (|p| * ev) 0 6 (-20) 0 6291456
      (by norm_num) (by norm_num) (by norm_num) (by norm_num) (by norm_num) (by norm_num)
      (by positivity) (hprod6 hω8)
    exact ⟨b2, hb2, hb2u⟩
  have hAbs : (f64ArithWith fexp flog).abs (Ext.fin p) = Ext.fin |p| := rfl
  rw [hAbs, f64_mul_fin]
  have hprod : 0 < |p| * ev := mul_pos (abs_pos.mpr hp0.ne') hev0
  cases hX : round64 (|p| * ev) with
  | nan => exact absurd hX (round64_ne_nan _)
  | ninf => exact absurd hX (round64_ne_ninf _ hprod.le)
  | pinf =>
    have hD : (f64ArithWith fexp flog).div (Ext.fin 1) Ext.pinf = Ext.fin 0 := by
      show round64 0 = Ext.fin 0
      exact round64_zero
    rw [hD]
    have hM : Ext.max (Ext.fin |ω|) (Ext.fin 0) = Ext.fin (Max.max |ω| 0) := rfl
    rw [hM]
    apply f64_tol_pos
    by_contra hlt
    rw [not_le] at hlt
    have hω8 : |ω| < 1 / 8 := lt_of_le_of_lt (le_max_left _ _) hlt
    obtain ⟨b2, hb2, _⟩ := hsmall hω8
    rw [hX] at hb2
    exact Ext.noConfusion hb2
  | fin b =>
    have hb0 : 0 ≤ b := round64_fin_nonneg _ _ hprod.le hX
    rcases eq_or_lt_of_le hb0 with hbz | hbpos
    · have hD : (f64ArithWith fexp flog).div (Ext.fin 1) (Ext.fin b) = Ext.pinf := by
        rw [← hbz]
        simp [f64ArithWith, Ext.div, Ext.bySign, Ext.round]
      rw [hD]
      exact hpinf
    · rw [f64_div_fin _ _ _ _ hbpos.ne']
      have hinv : (0 : ℝ) < 1 / b := by positivity
      cases hD : round64 (1 / b) with
      | nan => exact absurd hD (round64_ne_nan _)
      | ninf => exact absurd hD (round64_ne_ninf _ hinv.le)
      | pinf => exact hpinf
      | fin δ =>
        have hM : Ext.max (Ext.fin |ω|) (Ext.fin δ) = Ext.fin (Max.max |ω| δ) := rfl
        rw [hM]
        apply f64_tol_pos
        by_contra hlt
        rw [not_le] at hlt
        have hω8 : |ω| < 1 / 8 := lt_of_le_of_lt (le_max_left _ _) hlt
        have hδ8 : δ < 1 / 8 := lt_of_le_of_lt (le_max_right _ _) hlt
        have hb6 : b ≤ 6 := by
          obtain ⟨b2, hb2, hb2u⟩ := hsmall hω8
          rw [hX] at hb2
          injection hb2 with hb2
          rw [hb2]
          exact hb2u
        have h1 : (2 : ℝ) ^ (-3 : ℤ) ≤ 1 / b := by
          rw [le_div_iff₀ hbpos]
          norm_num
          linarith
        have := round64_fin_ge_pow _ _ (-3) (by norm_num) h1 hD
        norm_num at this
        linarith

/-- A pass of the refiner in binary64 from a binary64 iterate `w > -1` with
`w * exp(w) == x` for a finite `x`: the correction is zero, the new iterate is
the old one and the tolerance is above zero. -/
theorem halleyStep_f64_fixed (fexp flog : ℝ → ℝ) (hexp : ExpAccurate fexp) (r ω : ℝ)
    (hrep : round64 ω = Ext.fin ω) (hω : -1 < ω)
    (hx : (f64ArithWith fexp flog).eq
      ((f64ArithWith fexp flog).mul (Ext.fin ω) ((f64ArithWith fexp flog).exp (Ext.fin ω)))
      (Ext.fin r) = true) :
    (halleyStep (f64ArithWith fexp flog) (Ext.fin r) (Ext.fin ω)).t = Ext.fin 0 ∧
    (halleyStep (f64ArithWith fexp flog) (Ext.fin r) (Ext.fin ω)).w = Ext.fin ω ∧
    (f64ArithWith fexp flog).lt (Ext.fin 0)
      (halleyStep (f64ArithWith fexp flog) (Ext.fin r) (Ext.fin ω)).tol = true := by
  have hacc := abs_le.mp (hexp ω hω.le)
  have hexppos : 0 < Real.exp ω := Real.exp_pos ω
  have hfexp0 : 0 ≤ fexp ω := by
    have : Real.exp ω / 2 ^ 50 ≤ Real.exp ω := div_le_self hexppos.le (by norm_num)
    linarith [hacc.1]
  rw [f64_exp_fin] at hx
  cases hE : round64 (fexp ω) with
  | nan => exact absurd hE (round64_ne_nan _)
  | ninf => exact absurd hE (round64_ne_ninf _ hfexp0)
  | pinf =>
    rw [hE] at hx
    exfalso
    by_cases h0 : ω = 0
    · simp [f64ArithWith, Ext.mul, Ext.bySign, Ext.round, Ext.eq, h0] at hx
    · by_cases h1 : 0 < ω
      · simp [f64ArithWith, Ext.mul, Ext.bySign, Ext.round, Ext.eq, h0, h1] at hx
      · simp [f64ArithWith, Ext.mul, Ext.bySign, Ext.round, Ext.eq, h0, h1] at hx
  | fin ev =>
    obtain ⟨hev4, hω2048⟩ := exp_fin_bounds fexp hexp ω ev hω.le hE
    have hev0 : 0 < ev := by linarith
    rw [hE, f64_mul_fin] at hx
    have hY : round64 (ω * ev) = Ext.fin r := by
      cases hY : round64 (ω * ev) with
      | nan => exact absurd hY (round64_ne_nan _)
      | ninf =>
        rw [hY] at hx
        simp [f64ArithWith, Ext.eq] at hx
      | pinf =>
        rw [hY] at hx
        simp [f64ArithWith, Ext.eq] at hx
      | fin y =>
        rw [hY, f64_eq_fin, decide_eq_true_eq] at hx
        rw [hx]
    obtain ⟨p, hp, _, hpu⟩ := round64_mem (ω + 1) 0 2049 (-20) 0 2148532224
      (by norm_num) (by norm_num) (by norm_num) (by norm_num) (by norm_num) (by norm_num)
      (by linarith) (by linarith)
    have hp53 : (2 : ℝ) ^ (-53 : ℤ) ≤ p :=
      round64_fin_ge_pow _ _ (-53) (by norm_num)
        (by
          have := rep_add_one_ge ω hrep hω
          norm_num
          linarith) hp
    have hp0 : 0 < p := lt_of_lt_of_le (by positivity) hp53
    have ht : (halleyStep (f64ArithWith fexp flog) (Ext.fin r) (Ext.fin ω)).t = Ext.fin 0 := by
      simp only [halleyStep]
      rw [f64_exp_fin, hE, f64_lit_one, f64_add_fin, hp, f64_mul_fin, hY, f64_sub_self,
        f64_lit_zero, f64_lt_fin]
      by_cases h0 : 0 < ω
      · rw [decide_eq_true h0, if_pos rfl, f64_zero_div _ _ _ hp0.ne', f64_zero_div _ _ _ hev0.ne']
      · rw [decide_eq_false h0, if_neg (by simp)]
        -- the divisor of the Halley step is `e * p`, above zero
        have hωle : ω ≤ 0 := not_lt.mp h0
        obtain ⟨_, he3⟩ := expAccurate_bounds fexp hexp ω hω.le (by linarith)
        obtain ⟨ev2, hev2, _, hev2u⟩ := round64_mem (fexp ω) 0 3 (-20) 0 3145728
          (by norm_num) (by norm_num) (by norm_num) (by norm_num) (by norm_num) (by norm_num)
          hfexp0 he3
        rw [hE] at hev2
        injection hev2 with hev2
        obtain ⟨p2, hp2, _, hp2u⟩ := round64_mem (ω + 1) 0 1 (-20) 0 1048576
          (by norm_num) (by norm_num) (by norm_num) (by norm_num) (by norm_num) (by norm_num)
          (by linarith) (by linarith)
        rw [hp] at hp2
        injection hp2 with hp2
        have hp1 : p ≤ 1 := by rw [hp2]; exact hp2u
        have hev3 : ev ≤ 3 := by rw [hev2]; exact hev2u
        obtain ⟨ep, hep, _, _⟩ := round64_mem (ev * p) 0 3 (-20) 0 3145728
          (by norm_num) (by norm_num) (by norm_num) (by norm_num) (by norm_num) (by norm_num)
          (by positivity) (by nlinarith)
        have hep55 : (2 : ℝ) ^ (-55 : ℤ) ≤ ep :=
          round64_fin_ge_pow _ _ (-55) (by norm_num)
            (by
              have h1 : (2 : ℝ) ^ (-55 : ℤ) = 1 / 4 * (2 : ℝ) ^ (-53 : ℤ) := by norm_num
              rw [h1]
              exact mul_le_mul hev4 hp53 (by positivity) hev0.le) hep
        have hep0 : 0 < ep := lt_of_lt_of_le (by positivity) hep55
        obtain ⟨p1, hp1v, hp1l, hp1u⟩ := round64_mem (p + 1) 0 2 (-20) 0 2097152
          (by norm_num) (by norm_num) (by norm_num) (by norm_num) (by norm_num) (by norm_num)
          (by linarith) (by linarith)
        obtain ⟨h1, hh1, _, _⟩ := round64_mem (1 / 2 * p1) 0 2 (-20) 0 2097152
          (by norm_num) (by norm_num) (by norm_num) (by norm_num) (by norm_num) (by norm_num)
          (by linarith) (by linarith)
        rw [f64_add_fin, hp1v, f64_lit_half, f64_mul_fin fexp flog (1 / 2) p1, hh1, f64_mul_zero,
          f64_zero_div _ _ _ hp0.ne', f64_mul_fin, hep,
          f64_sub_zero _ _ _ (round64_idem _ _ hep), f64_zero_div _ _ _ hep0.ne']
    have hwv : (halleyStep (f64ArithWith fexp flog) (Ext.fin r) (Ext.fin ω)).w = Ext.fin ω := by
      have : (halleyStep (f64ArithWith fexp flog) (Ext.fin r) (Ext.fin ω)).w =
          (f64ArithWith fexp flog).sub (Ext.fin ω)
            (halleyStep (f64ArithWith fexp flog) (Ext.fin r) (Ext.fin ω)).t := rfl
      rw [this, ht, f64_sub_zero _ _ _ hrep]
    refine ⟨ht, hwv, ?_⟩
    have htol : (halleyStep (f64ArithWith fexp flog) (Ext.fin r) (Ext.fin ω)).tol =
        (f64ArithWith fexp flog).mul (gslDblEpsilon (f64ArithWith fexp flog))
          (Ext.max (Ext.abs (halleyStep (f64ArithWith fexp flog) (Ext.fin r) (Ext.fin ω)).w)
            ((f64ArithWith fexp flog).div ((f64ArithWith fexp flog).lit 1)
              ((f64ArithWith fexp flog).mul
                ((f64ArithWith fexp flog).abs
                  ((f64ArithWith fexp flog).add (Ext.fin ω) ((f64ArithWith fexp flog).lit 1)))
                ((f64ArithWith fexp flog).exp (Ext.fin ω))))) := rfl
    rw [htol, hwv, f64_epsilon, f64_lit_one, f64_add_fin, hp, f64_exp_fin, hE]
    exact f64_tol_pos_of_gt fexp flog hexp ω p ev hω hp0 hp hE hev0

/-- A sum of binary64 with NaN on the left is NaN. -/
theorem f64_add_nan_left (fexp flog : ℝ → ℝ) (b : Ext) :
    (f64ArithWith fexp flog).add Ext.nan b = Ext.nan := by
  cases b <;> rfl

/-- A difference of binary64 with NaN on the left is NaN. -/
theorem f64_sub_nan_left (fexp flog : ℝ → ℝ) (b : Ext) :
    (f64ArithWith fexp flog).sub Ext.nan b = Ext.nan := by
  cases b <;> rfl

/-- A product of binary64 with NaN on the left is NaN. -/
theorem f64_mul_nan_left (fexp flog : ℝ → ℝ) (b : Ext) :
    (f64ArithWith fexp flog).mul Ext.nan b = Ext.nan := by
  cases b <;> rfl

/-- A quotient of binary64 with NaN on the left is NaN. -/
theorem f64_div_nan_left (fexp flog : ℝ → ℝ) (b : Ext) :
    (f64ArithWith fexp flog).div Ext.nan b = Ext.nan := by
  cases b <;> rfl

/-- A pass of the refiner in binary64 from NaN: correction, new iterate and
tolerance are NaN. -/
theorem halleyStep_f64_nan (fexp flog : ℝ → ℝ) (x : Ext) :
    halleyStep (f64ArithWith fexp flog) x Ext.nan =
      { t := Ext.nan, w := Ext.nan, tol := Ext.nan } := by
  have hexp : (f64ArithWith fexp flog).exp Ext.nan = Ext.nan := rfl
  have hlt : (f64ArithWith fexp flog).lt (Ext.fin 0) Ext.nan = false := rfl
  have habs : (f64ArithWith fexp flog).abs Ext.nan = Ext.nan := rfl
  have hdiv : (f64ArithWith fexp flog).div (Ext.fin 1) Ext.nan = Ext.nan := rfl
  have hmax : (f64ArithWith fexp flog).max Ext.nan Ext.nan = Ext.nan := rfl
  have hmul : (f64ArithWith fexp flog).mul (Ext.fin (1 / 4503599627370496)) Ext.nan =
      Ext.nan := rfl
  simp only [halleyStep]
  rw [f64_lit_zero, f64_lit_one, f64_epsilon, hexp, hlt, f64_add_nan_left, f64_mul_nan_left,
    f64_sub_nan_left, if_neg (by simp), f64_div_nan_left, f64_sub_nan_left, habs,
    f64_mul_nan_left, hdiv, hmax, hmul]

/-- The iterates of the refiner in binary64 from NaN are NaN. -/
theorem halleyIterate_f64_nan (fexp flog : ℝ → ℝ) (x : Ext) (k : Nat) :
    halleyIterate (f64ArithWith fexp flog) x k Ext.nan = Ext.nan := by
  induction k with
  | zero => rfl
  | succ k ih => rw [halleyIterate, halleyStep_f64_nan, ih]

/-- The exponential of 710 is beyond the range of binary64. -/
theorem round64_exp_710 : round64 (Real.exp 710) = Ext.pinf := by
  have h2 : (1359 / 500 : ℝ) ≤ Real.exp 1 := by
    have := Real.exp_one_gt_d9
    norm_num at this ⊢
    linarith
  have h3 : (1359 / 500 : ℝ) ^ (710 : ℕ) ≤ Real.exp 1 ^ (710 : ℕ) :=
    pow_le_pow_left₀ (by norm_num) h2 _
  rw [Real.exp_one_pow] at h3
  push_cast at h3
  have h4 : (2 : ℝ) ^ (1024 : ℤ) ≤ (1359 / 500 : ℝ) ^ (710 : ℕ) := by norm_num
  have h5 : (2 : ℝ) ^ (1024 : ℤ) ≤ Real.exp 710 := le_trans h4 h3
  cases h : round64 (Real.exp 710) with
  | nan => exact absurd h (round64_ne_nan _)
  | ninf => exact absurd h (round64_ne_ninf _ (Real.exp_pos _).le)
  | pinf => rfl
  | fin c =>
    have := round64_fin_ge_pow _ _ 1024 (by norm_num) h5 h
    linarith [round64_fin_lt _ _ h, le_abs_self c]

/-- The exponential of 1 in binary64. -/
theorem round64_exp_one :
    round64 (Real.exp 1) = Ext.fin (6121026514868073 / 2251799813685248) := by
  have h := abs_sub_le_iff.1 Real.exp_one_near_20
  have h1 := h.1
  have h2 := h.2
  exact round64_of_pos _ _ 1 6121026514868073 (by norm_num)
    (by norm_num; linarith) (by norm_num; linarith) (by norm_num at h1 h2 ⊢; linarith)
    (by norm_num at h1 h2 ⊢; linarith) (by norm_num) (by norm_num)

/-! ## The error of the rounding to binary64 -/

/-- Rounding to the nearest integer moves a real by at most one half. -/
theorem roundEven_err (t : ℝ) : |(roundEven t : ℝ) - t| ≤ 1 / 2 := by
  have h1 := Int.floor_le t
  have h2 := Int.lt_floor_add_one t
  unfold roundEven
  rw [abs_le]
  split_ifs with ha hb hc
  · constructor <;> linarith
  · push_cast
    constructor <;> linarith
  · constructor <;> linarith
  · push_cast
    constructor <;> linarith

/-- Rounding to the nearest integer commutes with negation. -/
theorem roundEven_neg (t : ℝ) : roundEven (-t) = -roundEven t := by
  have h1 := Int.floor_le t
  have h2 := Int.lt_floor_add_one t
  by_cases ha : t - ⌊t⌋ < 1 / 2
  · have e : roundEven t = ⌊t⌋ := by
      unfold roundEven
      rw [if_pos ha]
    rw [e]
    apply roundEven_eq
    push_cast
    rw [abs_lt]
    constructor <;> linarith
  · by_cases hb : 1 / 2 < t - ⌊t⌋
    · have e : roundEven t = ⌊t⌋ + 1 := by
        unfold roundEven
        rw [if_neg ha, if_pos hb]
      rw [e]
      apply roundEven_eq
      push_cast
      rw [abs_lt]
      constructor <;> linarith
    · have ht : t = ⌊t⌋ + 1 / 2 := by linarith [not_lt.mp ha, not_lt.mp hb]
      by_cases hc : Even ⌊t⌋
      · have e : roundEven t = ⌊t⌋ := by
          unfold roundEven
          rw [if_neg ha, if_neg hb, if_pos hc]
        rw [e]
        apply roundEven_tie _ _ _ hc.neg
        right
        push_cast
        linarith
      · have e : roundEven t = ⌊t⌋ + 1 := by
          unfold roundEven
          rw [if_neg ha, if_neg hb, if_neg hc]
        rw [e]
        have hev : Even (-(⌊t⌋ + 1)) := by
          rw [even_neg, Int.even_add_one]
          exact hc
        apply roundEven_tie _ _ _ hev
        left
        push_cast
        linarith

/-- The binade of a real is that of its negative. -/
theorem binade_neg (y : ℝ) : binade (-y) = binade y := by
  unfold binade
  rw [abs_neg]

/-- Rounding to binary64 commutes with negation. -/
theorem round64_neg (y : ℝ) : round64 (-y) = (round64 y).neg := by
  unfold round64
  rw [binade_neg, neg_div, roundEven_neg]
  push_cast
  rw [neg_mul, abs_neg]
  split_ifs with h1 h2 h3 h3
  · exfalso
    linarith [neg_pos.mp h2]
  · rfl
  · rfl
  · exfalso
    have h0 : y = 0 := le_antisymm (not_lt.mp h3) (by linarith [not_lt.mp h2])
    rw [h0, zero_div] at h1
    have hz : roundEven (0 : ℝ) = 0 := roundEven_eq 0 0 (by norm_num)
    rw [hz] at h1
    simp at h1
    have : (0 : ℝ) < (2 : ℝ) ^ (1024 : ℤ) := by positivity
    linarith
  · rfl

/-- The rounding is monotone on the reals from `-2^(-1022)` down. -/
theorem round64_mono_neg (y1 y2 c1 c2 : ℝ) (h0 : y2 ≤ -(2 : ℝ) ^ (-1022 : ℤ)) (h : y1 ≤ y2)
    (h1 : round64 y1 = Ext.fin c1) (h2 : round64 y2 = Ext.fin c2) : c1 ≤ c2 := by
  have e1 : round64 (-y1) = Ext.fin (-c1) := by rw [round64_neg, h1]; rfl
  have e2 : round64 (-y2) = Ext.fin (-c2) := by rw [round64_neg, h2]; rfl
  have := round64_mono (-y2) (-y1) (-c2) (-c1) (by linarith) (by linarith) e2 e1
  linarith

/-- The error of the rounding: a real below `2^(E+1)` in absolute value, `E`
in the normal range, rounds to a finite number within half a unit `2^(E-52)`
of it. -/
theorem round64_err (y δ : ℝ) (E : ℤ) (hE1 : -1022 ≤ E) (hE2 : E ≤ 1022)
    (hy : |y| < (2 : ℝ) ^ (E + 1)) (hδ : δ = (2 : ℝ) ^ (E - 53)) :
    ∃ c, round64 y = Ext.fin c ∧ |c - y| ≤ δ := by
  by_cases hy0 : y = 0
  · refine ⟨0, by rw [hy0, round64_zero], ?_⟩
    rw [hy0, sub_zero, abs_zero, hδ]
    positivity
  have hb := binade_le y E hE1 hy0 hy
  have hu : (0 : ℝ) < (2 : ℝ) ^ (binade y - 52) := by positivity
  have herr := roundEven_err (y / (2 : ℝ) ^ (binade y - 52))
  have hhalf : (2 : ℝ) ^ (binade y - 52) / 2 = (2 : ℝ) ^ (binade y - 53) := by
    rw [show binade y - 53 = binade y - 52 - 1 by ring, zpow_sub_one₀ (by norm_num)]
    ring
  have hle : (2 : ℝ) ^ (binade y - 53) ≤ (2 : ℝ) ^ (E - 53) :=
    zpow_le_zpow_right₀ (by norm_num) (by omega)
  have hdist : |(roundEven (y / (2 : ℝ) ^ (binade y - 52)) : ℝ) * (2 : ℝ) ^ (binade y - 52) - y|
      ≤ (2 : ℝ) ^ (E - 53) := by
    have e : (roundEven (y / (2 : ℝ) ^ (binade y - 52)) : ℝ) * (2 : ℝ) ^ (binade y - 52) - y =
        ((roundEven (y / (2 : ℝ) ^ (binade y - 52)) : ℝ) - y / (2 : ℝ) ^ (binade y - 52)) *
          (2 : ℝ) ^ (binade y - 52) := by
      field_simp
    rw [e, abs_mul, abs_of_pos hu]
    calc |(roundEven (y / (2 : ℝ) ^ (binade y - 52)) : ℝ) - y / (2 : ℝ) ^ (binade y - 52)| *
          (2 : ℝ) ^ (binade y - 52)
        ≤ 1 / 2 * (2 : ℝ) ^ (binade y - 52) := mul_le_mul_of_nonneg_right herr hu.le
      _ = (2 : ℝ) ^ (binade y - 53) := by rw [← hhalf]; ring
      _ ≤ (2 : ℝ) ^ (E - 53) := hle
  have hfin : ¬ (2 : ℝ) ^ (1024 : ℤ) ≤
      |(roundEven (y / (2 : ℝ) ^ (binade y - 52)) : ℝ) * (2 : ℝ) ^ (binade y - 52)| := by
    rw [not_le]
    have h3 : |(roundEven (y / (2 : ℝ) ^ (binade y - 52)) : ℝ) * (2 : ℝ) ^ (binade y - 52)| ≤
        |y| + (2 : ℝ) ^ (E - 53) := by
      have := abs_sub_abs_le_abs_sub
        ((roundEven (y / (2 : ℝ) ^ (binade y - 52)) : ℝ) * (2 : ℝ) ^ (binade y - 52)) y
      linarith
    have h4 : (2 : ℝ) ^ (E + 1) ≤ (2 : ℝ) ^ (1023 : ℤ) :=
      zpow_le_zpow_right₀ (by norm_num) (by omega)
    have h5 : (2 : ℝ) ^ (E - 53) ≤ (2 : ℝ) ^ (1023 : ℤ) :=
      zpow_le_zpow_right₀ (by norm_num) (by omega)
    have h6 : (2 : ℝ) ^ (1024 : ℤ) = 2 * (2 : ℝ) ^ (1023 : ℤ) := by
      rw [show (1024 : ℤ) = 1023 + 1 by norm_num, zpow_add_one₀ (by norm_num)]
      ring
    rw [h6]
    linarith
  refine ⟨(roundEven (y / (2 : ℝ) ^ (binade y - 52)) : ℝ) * (2 : ℝ) ^ (binade y - 52), ?_, ?_⟩
  · unfold round64
    rw [if_neg hfin]
  · rw [hδ]
    exact hdist

/-- The relative error of the rounding: a real in the normal range rounds to
a finite number within the fraction `2^(-53)` of it. -/
theorem round64_rel (y : ℝ) (h1 : (2 : ℝ) ^ (-1022 : ℤ) ≤ |y|) (h2 : |y| < (2 : ℝ) ^ (1023 : ℤ)) :
    ∃ c, round64 y = Ext.fin c ∧ |c - y| ≤ |y| / 2 ^ 53 := by
  have hy0 : y ≠ 0 := by
    intro h0
    rw [h0, abs_zero] at h1
    have : (0 : ℝ) < (2 : ℝ) ^ (-1022 : ℤ) := by positivity
    linarith
  obtain ⟨hs1, hs2⟩ := binade_spec y h1
  have hb1 : -1022 ≤ binade y := le_max_right _ _
  have hb2 : binade y ≤ 1022 := binade_le y 1022 (by norm_num) hy0
    (by rw [show (1022 : ℤ) + 1 = 1023 by norm_num]; exact h2)
  obtain ⟨c, hc, herr⟩ := round64_err y _ (binade y) hb1 hb2 hs2 rfl
  refine ⟨c, hc, le_trans herr ?_⟩
  rw [show binade y - 53 = binade y + (-53) by ring, zpow_add₀ (by norm_num), le_div_iff₀ (by
      positivity)]
  have : (2 : ℝ) ^ (-53 : ℤ) * 2 ^ 53 = 1 := by norm_num
  calc (2 : ℝ) ^ binade y * (2 : ℝ) ^ (-53 : ℤ) * 2 ^ 53
      = (2 : ℝ) ^ binade y * ((2 : ℝ) ^ (-53 : ℤ) * 2 ^ 53) := by ring
    _ = (2 : ℝ) ^ binade y := by rw [this, mul_one]
    _ ≤ |y| := hs1

/-! ## The rounding error of the series in binary64 -/

/-- One step of the Horner scheme in binary64: the rounded product and the
rounded sum stay within the stated distance of the exact step. -/
theorem horner_err_step (fexp flog : ℝ → ℝ) (r t T c cd R Mt ε δc δm δa Ma ε2 : ℝ) (Em Ea : ℤ)
    (h0 : 0 ≤ r) (h1 : r ≤ R) (ht : |t| ≤ Mt) (hε : |t - T| ≤ ε) (hc : |c - cd| ≤ δc)
    (hEm1 : -1022 ≤ Em) (hEm2 : Em ≤ 1022) (hpm : R * Mt < (2 : ℝ) ^ (Em + 1))
    (hδm : δm = (2 : ℝ) ^ (Em - 53))
    (hEa1 : -1022 ≤ Ea) (hEa2 : Ea ≤ 1022) (hpa : |c| + R * Mt + δm < (2 : ℝ) ^ (Ea + 1))
    (hδa : δa = (2 : ℝ) ^ (Ea - 53))
    (hMa : |c| + R * Mt + δm + δa ≤ Ma) (hε2 : δc + R * ε + δm + δa ≤ ε2) :
    ∃ a, (f64ArithWith fexp flog).add (Ext.fin c)
        ((f64ArithWith fexp flog).mul (Ext.fin r) (Ext.fin t)) = Ext.fin a ∧
      |a| ≤ Ma ∧ |a - (cd + r * T)| ≤ ε2 := by
  have hR : 0 ≤ R := le_trans h0 h1
  have hp : |r * t| ≤ R * Mt := by
    rw [abs_mul, abs_of_nonneg h0]
    exact mul_le_mul h1 ht (abs_nonneg _) hR
  obtain ⟨m, hm, hme⟩ := round64_err (r * t) δm Em hEm1 hEm2 (lt_of_le_of_lt hp hpm) hδm
  have hmabs : |m| ≤ R * Mt + δm := by
    have := abs_sub_abs_le_abs_sub m (r * t)
    linarith
  have hcm : |c + m| ≤ |c| + R * Mt + δm := by
    have := abs_add c m
    linarith
  obtain ⟨a, ha, hae⟩ := round64_err (c + m) δa Ea hEa1 hEa2 (lt_of_le_of_lt hcm hpa) hδa
  have haabs : |a| ≤ |c| + R * Mt + δm + δa := by
    have := abs_sub_abs_le_abs_sub a (c + m)
    linarith
  have hrt : |r * (t - T)| ≤ R * ε := by
    rw [abs_mul, abs_of_nonneg h0]
    exact mul_le_mul h1 hε (abs_nonneg _) hR
  refine ⟨a, ?_, le_trans haabs hMa, ?_⟩
  · rw [f64_mul_fin, hm, f64_add_fin, ha]
  · have e : a - (cd + r * T) = (a - (c + m)) + (c - cd) + (m - r * t) + r * (t - T) := by ring
    rw [e]
    have t1 := abs_add ((a - (c + m)) + (c - cd) + (m - r * t)) (r * (t - T))
    have t2 := abs_add ((a - (c + m)) + (c - cd)) (m - r * t)
    have t3 := abs_add (a - (c + m)) (c - cd)
    linarith

/-- The series in binary64 for `r` from 0 to `33/1024`: the inner Horner sum
`t1` is a finite number between `9/4` and `19/8`, the product `r * t1` is
within `r * 2^(-51)` of the polynomial of the series less its constant term,
and the value is `-1 + r * t1`, product and sum rounded. -/
theorem series_f64_err (fexp flog : ℝ → ℝ) (r : ℝ) (h0 : 0 ≤ r) (h1 : r ≤ 33 / 1024) :
    ∃ t, 9 / 4 ≤ t ∧ t ≤ 19 / 8 ∧ |r * t - (seriesPoly r + 1)| ≤ r / 2 ^ 51 ∧
      seriesEval (f64ArithWith fexp flog) (Ext.fin r) =
        (f64ArithWith fexp flog).add (Ext.fin (-1))
          ((f64ArithWith fexp flog).mul (Ext.fin r) (Ext.fin t)) := by
  have hb11 : |(950999969414097 / 35184372088832 : ℝ)| ≤ (3542751 / 131072 : ℝ) := by
    rw [abs_le]
    constructor <;> norm_num
  have he11 : |(950999969414097 / 35184372088832 : ℝ) - (540580895980211233 / 20000000000000000 :
      ℝ)| ≤ (1992857 / 1180591620717411303424 : ℝ) := by
    rw [abs_le]
    constructor <;> norm_num
  obtain ⟨a10, ha10, hb10, he10⟩ := horner_err_step fexp flog r (950999969414097 / 35184372088832 :
      ℝ)
    (540580895980211233 / 20000000000000000 : ℝ)
    (-5094893270032321 / 281474976710656 : ℝ) (-3620139402494488551 / 200000000000000000 : ℝ) (33 /
        1024)
    (3542751 / 131072 : ℝ) (1992857 / 1180591620717411303424 : ℝ) (3868999 / 2361183241434822606848
        : ℝ)
    (1 / 18014398509481984 : ℝ) (1 / 562949953421312 : ℝ) (9946661 / 524288 : ℝ)
    (4161411 / 1180591620717411303424 : ℝ) (-1) (4) h0 h1 hb11 he11
    (by rw [abs_le]; constructor <;> norm_num) (by norm_num) (by norm_num) (by norm_num)
    (by norm_num) (by norm_num) (by norm_num) (by norm_num [abs_of_nonneg, abs_of_neg])
    (by norm_num) (by norm_num [abs_of_nonneg, abs_of_neg])
    (by norm_num)
  obtain ⟨a9, ha9, hb9, he9⟩ := horner_err_step fexp flog r a10
    ((-3620139402494488551 / 200000000000000000 : ℝ) + r * (540580895980211233 / 20000000000000000
        : ℝ))
    (3448280556470475 / 281474976710656 : ℝ) (1531344187664307553 / 125000000000000000 : ℝ) (33 /
        1024)
    (9946661 / 524288 : ℝ) (4161411 / 1180591620717411303424 : ℝ) (13188803 /
        18889465931478580854784 : ℝ)
    (1 / 18014398509481984 : ℝ) (1 / 1125899906842624 : ℝ) (3371735 / 262144 : ℝ)
    (2072521 / 1180591620717411303424 : ℝ) (-1) (3) h0 h1 hb10 he10
    (by rw [abs_le]; constructor <;> norm_num) (by norm_num) (by norm_num) (by norm_num)
    (by norm_num) (by norm_num) (by norm_num) (by norm_num [abs_of_nonneg, abs_of_neg])
    (by norm_num) (by norm_num [abs_of_nonneg, abs_of_neg])
    (by norm_num)
  obtain ⟨a8, ha8, hb8, he8⟩ := horner_err_step fexp flog r a9
    ((1531344187664307553 / 125000000000000000 : ℝ) + r * ((-3620139402494488551 /
        200000000000000000 : ℝ) + r * (540580895980211233 / 20000000000000000 : ℝ)))
    (-4729360695546065 / 562949953421312 : ℝ) (-4200516108761988685492080844257 /
        500000000000000000000000000000 : ℝ) (33 / 1024)
    (3371735 / 262144 : ℝ) (2072521 / 1180591620717411303424 : ℝ) (32011059 /
        37778931862957161709568 : ℝ)
    (1 / 36028797018963968 : ℝ) (1 / 1125899906842624 : ℝ) (9243759 / 1048576 : ℝ)
    (16785 / 9223372036854775808 : ℝ) (-2) (3) h0 h1 hb9 he9
    (by rw [abs_le]; constructor <;> norm_num) (by norm_num) (by norm_num) (by norm_num)
    (by norm_num) (by norm_num) (by norm_num) (by norm_num [abs_of_nonneg, abs_of_neg])
    (by norm_num) (by norm_num [abs_of_nonneg, abs_of_neg])
    (by norm_num)
  obtain ⟨a7, ha7, hb7, he7⟩ := horner_err_step fexp flog r a8
    ((-4200516108761988685492080844257 / 500000000000000000000000000000 : ℝ) + r *
        ((1531344187664307553 / 125000000000000000 : ℝ) + r * ((-3620139402494488551 /
        200000000000000000 : ℝ) + r * (540580895980211233 / 20000000000000000 : ℝ))))
    (6595548371747889 / 1125899906842624 : ℝ) (5858023729874774148815053846119 /
        1000000000000000000000000000000 : ℝ) (33 / 1024)
    (9243759 / 1048576 : ℝ) (16785 / 9223372036854775808 : ℝ) (225349 / 37778931862957161709568 : ℝ)
    (1 / 36028797018963968 : ℝ) (1 / 2251799813685248 : ℝ) (3220239 / 524288 : ℝ)
    (633337 / 1180591620717411303424 : ℝ) (-2) (2) h0 h1 hb8 he8
    (by rw [abs_le]; constructor <;> norm_num) (by norm_num) (by norm_num) (by norm_num)
    (by norm_num) (by norm_num) (by norm_num) (by norm_num [abs_of_nonneg, abs_of_neg])
    (by norm_num) (by norm_num [abs_of_nonneg, abs_of_neg])
    (by norm_num)
  obtain ⟨a6, ha6, hb6, he6⟩ := horner_err_step fexp flog r a7
    ((5858023729874774148815053846119 / 1000000000000000000000000000000 : ℝ) + r *
        ((-4200516108761988685492080844257 / 500000000000000000000000000000 : ℝ) + r *
        ((1531344187664307553 / 125000000000000000 : ℝ) + r * ((-3620139402494488551 /
        200000000000000000 : ℝ) + r * (540580895980211233 / 20000000000000000 : ℝ)))))
    (-4701009963367373 / 1125899906842624 : ℝ) (-208766780012908856942749208873 /
        50000000000000000000000000000 : ℝ) (33 / 1024)
    (3220239 / 524288 : ℝ) (633337 / 1180591620717411303424 : ℝ) (1687789 / 9444732965739290427392
        : ℝ)
    (1 / 72057594037927936 : ℝ) (1 / 2251799813685248 : ℝ) (286607 / 65536 : ℝ)
    (96507 / 147573952589676412928 : ℝ) (-3) (2) h0 h1 hb7 he7
    (by rw [abs_le]; constructor <;> norm_num) (by norm_num) (by norm_num) (by norm_num)
    (by norm_num) (by norm_num) (by norm_num) (by norm_num [abs_of_nonneg, abs_of_neg])
    (by norm_num) (by norm_num [abs_of_nonneg, abs_of_neg])
    (by norm_num)
  obtain ⟨a5, ha5, hb5, he5⟩ := horner_err_step fexp flog r a6
    ((-208766780012908856942749208873 / 50000000000000000000000000000 : ℝ) + r *
        ((5858023729874774148815053846119 / 1000000000000000000000000000000 : ℝ) + r *
        ((-4200516108761988685492080844257 / 500000000000000000000000000000 : ℝ) + r *
        ((1531344187664307553 / 125000000000000000 : ℝ) + r * ((-3620139402494488551 /
        200000000000000000 : ℝ) + r * (540580895980211233 / 20000000000000000 : ℝ))))))
    (6905952301984757 / 2251799813685248 : ℝ) (191678681315664494555821807669 /
        62500000000000000000000000000 : ℝ) (33 / 1024)
    (286607 / 65536 : ℝ) (96507 / 147573952589676412928 : ℝ) (6261455 / 37778931862957161709568 : ℝ)
    (1 / 72057594037927936 : ℝ) (1 / 4503599627370496 : ℝ) (3363617 / 1048576 : ℝ)
    (62385 / 147573952589676412928 : ℝ) (-3) (1) h0 h1 hb6 he6
    (by rw [abs_le]; constructor <;> norm_num) (by norm_num) (by norm_num) (by norm_num)
    (by norm_num) (by norm_num) (by norm_num) (by norm_num [abs_of_nonneg, abs_of_neg])
    (by norm_num) (by norm_num [abs_of_nonneg, abs_of_neg])
    (by norm_num)
  obtain ⟨a4, ha4, hb4, he4⟩ := horner_err_step fexp flog r a5
    ((191678681315664494555821807669 / 62500000000000000000000000000 : ℝ) + r *
        ((-208766780012908856942749208873 / 50000000000000000000000000000 : ℝ) + r *
        ((5858023729874774148815053846119 / 1000000000000000000000000000000 : ℝ) + r *
        ((-4200516108761988685492080844257 / 500000000000000000000000000000 : ℝ) + r *
        ((1531344187664307553 / 125000000000000000 : ℝ) + r * ((-3620139402494488551 /
        200000000000000000 : ℝ) + r * (540580895980211233 / 20000000000000000 : ℝ)))))))
    (-5299726157895711 / 2251799813685248 : ℝ) (-588387800470403629205385890379 /
        250000000000000000000000000000 : ℝ) (33 / 1024)
    (3363617 / 1048576 : ℝ) (62385 / 147573952589676412928 : ℝ) (298231 / 9444732965739290427392 :
        ℝ)
    (1 / 144115188075855872 : ℝ) (1 / 4503599627370496 : ℝ) (644069 / 262144 : ℝ)
    (323699 / 1180591620717411303424 : ℝ) (-4) (1) h0 h1 hb5 he5
    (by rw [abs_le]; constructor <;> norm_num) (by norm_num) (by norm_num) (by norm_num)
    (by norm_num) (by norm_num) (by norm_num) (by norm_num [abs_of_nonneg, abs_of_neg])
    (by norm_num) (by norm_num [abs_of_nonneg, abs_of_neg])
    (by norm_num)
  obtain ⟨a3, ha3, hb3, he3⟩ := horner_err_step fexp flog r a4
    ((-588387800470403629205385890379 / 250000000000000000000000000000 : ℝ) + r *
        ((191678681315664494555821807669 / 62500000000000000000000000000 : ℝ) + r *
        ((-208766780012908856942749208873 / 50000000000000000000000000000 : ℝ) + r *
        ((5858023729874774148815053846119 / 1000000000000000000000000000000 : ℝ) + r *
        ((-4200516108761988685492080844257 / 500000000000000000000000000000 : ℝ) + r *
        ((1531344187664307553 / 125000000000000000 : ℝ) + r * ((-3620139402494488551 /
        200000000000000000 : ℝ) + r * (540580895980211233 / 20000000000000000 : ℝ))))))))
    (2180452791395475 / 1125899906842624 : ℝ) (484157778623089938840819364417 /
        250000000000000000000000000000 : ℝ) (33 / 1024)
    (644069 / 262144 : ℝ) (323699 / 1180591620717411303424 : ℝ) (964695 / 18889465931478580854784 :
        ℝ)
    (1 / 144115188075855872 : ℝ) (1 / 4503599627370496 : ℝ) (1056865 / 524288 : ℝ)
    (170531 / 590295810358705651712 : ℝ) (-4) (1) h0 h1 hb4 he4
    (by rw [abs_le]; constructor <;> norm_num) (by norm_num) (by norm_num) (by norm_num)
    (by norm_num) (by norm_num) (by norm_num) (by norm_num [abs_of_nonneg, abs_of_neg])
    (by norm_num) (by norm_num [abs_of_nonneg, abs_of_neg])
    (by norm_num)
  obtain ⟨a2, ha2, hb2, he2⟩ := horner_err_step fexp flog r a3
    ((484157778623089938840819364417 / 250000000000000000000000000000 : ℝ) + r *
        ((-588387800470403629205385890379 / 250000000000000000000000000000 : ℝ) + r *
        ((191678681315664494555821807669 / 62500000000000000000000000000 : ℝ) + r *
        ((-208766780012908856942749208873 / 50000000000000000000000000000 : ℝ) + r *
        ((5858023729874774148815053846119 / 1000000000000000000000000000000 : ℝ) + r *
        ((-4200516108761988685492080844257 / 500000000000000000000000000000 : ℝ) + r *
        ((1531344187664307553 / 125000000000000000 : ℝ) + r * ((-3620139402494488551 /
        200000000000000000 : ℝ) + r * (540580895980211233 / 20000000000000000 : ℝ)))))))))
    (-2040342171622691 / 1125899906842624 : ℝ) (-113261742852460218140011977973 /
        62500000000000000000000000000 : ℝ) (33 / 1024)
    (1056865 / 524288 : ℝ) (170531 / 590295810358705651712 : ℝ) (455125 / 4722366482869645213696 :
        ℝ)
    (1 / 144115188075855872 : ℝ) (1 / 9007199254740992 : ℝ) (1968335 / 1048576 : ℝ)
    (264037 / 1180591620717411303424 : ℝ) (-4) (0) h0 h1 hb3 he3
    (by rw [abs_le]; constructor <;> norm_num) (by norm_num) (by norm_num) (by norm_num)
    (by norm_num) (by norm_num) (by norm_num) (by norm_num [abs_of_nonneg, abs_of_neg])
    (by norm_num) (by norm_num [abs_of_nonneg, abs_of_neg])
    (by norm_num)
  obtain ⟨a1, ha1, hb1, he1⟩ := horner_err_step fexp flog r a2
    ((-113261742852460218140011977973 / 62500000000000000000000000000 : ℝ) + r *
        ((484157778623089938840819364417 / 250000000000000000000000000000 : ℝ) + r *
        ((-588387800470403629205385890379 / 250000000000000000000000000000 : ℝ) + r *
        ((191678681315664494555821807669 / 62500000000000000000000000000 : ℝ) + r *
        ((-208766780012908856942749208873 / 50000000000000000000000000000 : ℝ) + r *
        ((5858023729874774148815053846119 / 1000000000000000000000000000000 : ℝ) + r *
        ((-4200516108761988685492080844257 / 500000000000000000000000000000 : ℝ) + r *
        ((1531344187664307553 / 125000000000000000 : ℝ) + r * ((-3620139402494488551 /
        200000000000000000 : ℝ) + r * (540580895980211233 / 20000000000000000 : ℝ))))))))))
    (2625197741670367 / 1125899906842624 : ℝ) (291455497699640525420442007771 /
        125000000000000000000000000000 : ℝ) (33 / 1024)
    (1968335 / 1048576 : ℝ) (264037 / 1180591620717411303424 : ℝ) (102313 / 2361183241434822606848
        : ℝ)
    (1 / 288230376151711744 : ℝ) (1 / 4503599627370496 : ℝ) (2508339 / 1048576 : ℝ)
    (162953 / 590295810358705651712 : ℝ) (-5) (1) h0 h1 hb2 he2
    (by rw [abs_le]; constructor <;> norm_num) (by norm_num) (by norm_num) (by norm_num)
    (by norm_num) (by norm_num) (by norm_num) (by norm_num [abs_of_nonneg, abs_of_neg])
    (by norm_num) (by norm_num [abs_of_nonneg, abs_of_neg])
    (by norm_num)
  have hT3 : |((484157778623089938840819364417 / 250000000000000000000000000000 : ℝ) + r *
      ((-588387800470403629205385890379 / 250000000000000000000000000000 : ℝ) + r *
      ((191678681315664494555821807669 / 62500000000000000000000000000 : ℝ) + r *
      ((-208766780012908856942749208873 / 50000000000000000000000000000 : ℝ) + r *
      ((5858023729874774148815053846119 / 1000000000000000000000000000000 : ℝ) + r *
      ((-4200516108761988685492080844257 / 500000000000000000000000000000 : ℝ) + r *
      ((1531344187664307553 / 125000000000000000 : ℝ) + r * ((-3620139402494488551 /
      200000000000000000 : ℝ) + r * (540580895980211233 / 20000000000000000 : ℝ)))))))))| ≤
      (2113731 / 1048576 : ℝ) := by
    have := abs_sub_abs_le_abs_sub ((484157778623089938840819364417 /
        250000000000000000000000000000 : ℝ) + r * ((-588387800470403629205385890379 /
        250000000000000000000000000000 : ℝ) + r * ((191678681315664494555821807669 /
        62500000000000000000000000000 : ℝ) + r * ((-208766780012908856942749208873 /
        50000000000000000000000000000 : ℝ) + r * ((5858023729874774148815053846119 /
        1000000000000000000000000000000 : ℝ) + r * ((-4200516108761988685492080844257 /
        500000000000000000000000000000 : ℝ) + r * ((1531344187664307553 / 125000000000000000 : ℝ) +
        r * ((-3620139402494488551 / 200000000000000000 : ℝ) + r * (540580895980211233 /
        20000000000000000 : ℝ))))))))) a3
    rw [abs_sub_comm] at this
    linarith only [this, hb3, he3]
  have hrT3 : |r * ((484157778623089938840819364417 / 250000000000000000000000000000 : ℝ) + r *
      ((-588387800470403629205385890379 / 250000000000000000000000000000 : ℝ) + r *
      ((191678681315664494555821807669 / 62500000000000000000000000000 : ℝ) + r *
      ((-208766780012908856942749208873 / 50000000000000000000000000000 : ℝ) + r *
      ((5858023729874774148815053846119 / 1000000000000000000000000000000 : ℝ) + r *
      ((-4200516108761988685492080844257 / 500000000000000000000000000000 : ℝ) + r *
      ((1531344187664307553 / 125000000000000000 : ℝ) + r * ((-3620139402494488551 /
      200000000000000000 : ℝ) + r * (540580895980211233 / 20000000000000000 : ℝ)))))))))| ≤ 33 /
      1024 * (2113731 / 1048576 : ℝ) := by
    rw [abs_mul, abs_of_nonneg h0]
    exact mul_le_mul h1 hT3 (abs_nonneg _) (by norm_num)
  have hT2l : (-2 : ℝ) ≤ ((-113261742852460218140011977973 / 62500000000000000000000000000 : ℝ) + r
      * ((484157778623089938840819364417 / 250000000000000000000000000000 : ℝ) + r *
      ((-588387800470403629205385890379 / 250000000000000000000000000000 : ℝ) + r *
      ((191678681315664494555821807669 / 62500000000000000000000000000 : ℝ) + r *
      ((-208766780012908856942749208873 / 50000000000000000000000000000 : ℝ) + r *
      ((5858023729874774148815053846119 / 1000000000000000000000000000000 : ℝ) + r *
      ((-4200516108761988685492080844257 / 500000000000000000000000000000 : ℝ) + r *
      ((1531344187664307553 / 125000000000000000 : ℝ) + r * ((-3620139402494488551 /
      200000000000000000 : ℝ) + r * (540580895980211233 / 20000000000000000 : ℝ)))))))))) := by
    linarith only [(abs_le.mp hrT3).1]
  have hT2u : ((-113261742852460218140011977973 / 62500000000000000000000000000 : ℝ) + r *
      ((484157778623089938840819364417 / 250000000000000000000000000000 : ℝ) + r *
      ((-588387800470403629205385890379 / 250000000000000000000000000000 : ℝ) + r *
      ((191678681315664494555821807669 / 62500000000000000000000000000 : ℝ) + r *
      ((-208766780012908856942749208873 / 50000000000000000000000000000 : ℝ) + r *
      ((5858023729874774148815053846119 / 1000000000000000000000000000000 : ℝ) + r *
      ((-4200516108761988685492080844257 / 500000000000000000000000000000 : ℝ) + r *
      ((1531344187664307553 / 125000000000000000 : ℝ) + r * ((-3620139402494488551 /
      200000000000000000 : ℝ) + r * (540580895980211233 / 20000000000000000 : ℝ)))))))))) ≤ 0 := by
    linarith only [(abs_le.mp hrT3).2]
  have hT1l : (145059 / 64000 : ℝ) ≤ ((291455497699640525420442007771 /
      125000000000000000000000000000 : ℝ) + r * ((-113261742852460218140011977973 /
      62500000000000000000000000000 : ℝ) + r * ((484157778623089938840819364417 /
      250000000000000000000000000000 : ℝ) + r * ((-588387800470403629205385890379 /
      250000000000000000000000000000 : ℝ) + r * ((191678681315664494555821807669 /
      62500000000000000000000000000 : ℝ) + r * ((-208766780012908856942749208873 /
      50000000000000000000000000000 : ℝ) + r * ((5858023729874774148815053846119 /
      1000000000000000000000000000000 : ℝ) + r * ((-4200516108761988685492080844257 /
      500000000000000000000000000000 : ℝ) + r * ((1531344187664307553 / 125000000000000000 : ℝ) + r
      * ((-3620139402494488551 / 200000000000000000 : ℝ) + r * (540580895980211233 /
      20000000000000000 : ℝ))))))))))) := by
    nlinarith only [hT2l, h0, h1]
  have hT1u : ((291455497699640525420442007771 / 125000000000000000000000000000 : ℝ) + r *
      ((-113261742852460218140011977973 / 62500000000000000000000000000 : ℝ) + r *
      ((484157778623089938840819364417 / 250000000000000000000000000000 : ℝ) + r *
      ((-588387800470403629205385890379 / 250000000000000000000000000000 : ℝ) + r *
      ((191678681315664494555821807669 / 62500000000000000000000000000 : ℝ) + r *
      ((-208766780012908856942749208873 / 50000000000000000000000000000 : ℝ) + r *
      ((5858023729874774148815053846119 / 1000000000000000000000000000000 : ℝ) + r *
      ((-4200516108761988685492080844257 / 500000000000000000000000000000 : ℝ) + r *
      ((1531344187664307553 / 125000000000000000 : ℝ) + r * ((-3620139402494488551 /
      200000000000000000 : ℝ) + r * (540580895980211233 / 20000000000000000 : ℝ))))))))))) ≤ (583 /
      250 : ℝ) := by
    nlinarith only [hT2u, h0, h1]
  have hpoly : seriesPoly r + 1 = r * ((291455497699640525420442007771 /
      125000000000000000000000000000 : ℝ) + r * ((-113261742852460218140011977973 /
      62500000000000000000000000000 : ℝ) + r * ((484157778623089938840819364417 /
      250000000000000000000000000000 : ℝ) + r * ((-588387800470403629205385890379 /
      250000000000000000000000000000 : ℝ) + r * ((191678681315664494555821807669 /
      62500000000000000000000000000 : ℝ) + r * ((-208766780012908856942749208873 /
      50000000000000000000000000000 : ℝ) + r * ((5858023729874774148815053846119 /
      1000000000000000000000000000000 : ℝ) + r * ((-4200516108761988685492080844257 /
      500000000000000000000000000000 : ℝ) + r * ((1531344187664307553 / 125000000000000000 : ℝ) + r
      * ((-3620139402494488551 / 200000000000000000 : ℝ) + r * (540580895980211233 /
      20000000000000000 : ℝ))))))))))) := by
    simp only [seriesPoly, Finset.sum_range_succ, Finset.sum_range_zero, seriesCoeff]
    push_cast
    ring
  refine ⟨a1, by linarith only [hT1l, (abs_le.mp he1).1], by linarith only [hT1u, (abs_le.mp
      he1).2],
    ?_, ?_⟩
  · rw [hpoly, ← mul_sub, abs_mul, abs_of_nonneg h0]
    calc r * |a1 - ((291455497699640525420442007771 / 125000000000000000000000000000 : ℝ) + r *
        ((-113261742852460218140011977973 / 62500000000000000000000000000 : ℝ) + r *
        ((484157778623089938840819364417 / 250000000000000000000000000000 : ℝ) + r *
        ((-588387800470403629205385890379 / 250000000000000000000000000000 : ℝ) + r *
        ((191678681315664494555821807669 / 62500000000000000000000000000 : ℝ) + r *
        ((-208766780012908856942749208873 / 50000000000000000000000000000 : ℝ) + r *
        ((5858023729874774148815053846119 / 1000000000000000000000000000000 : ℝ) + r *
        ((-4200516108761988685492080844257 / 500000000000000000000000000000 : ℝ) + r *
        ((1531344187664307553 / 125000000000000000 : ℝ) + r * ((-3620139402494488551 /
        200000000000000000 : ℝ) + r * (540580895980211233 / 20000000000000000 : ℝ)))))))))))|
        ≤ r * (162953 / 590295810358705651712 : ℝ) := mul_le_mul_of_nonneg_left he1 h0
      _ ≤ r / 2 ^ 51 := by
          rw [div_eq_mul_inv]
          exact mul_le_mul_of_nonneg_left (by norm_num) h0
  · simp only [seriesEval]
    rw [f64_coeff_0, f64_coeff_1, f64_coeff_2, f64_coeff_3, f64_coeff_4, f64_coeff_5, f64_coeff_6,
      f64_coeff_7, f64_coeff_8, f64_coeff_9, f64_coeff_10, f64_coeff_11, ha10, ha9, ha8, ha7, ha6,
      ha5, ha4, ha3, ha2, ha1]

/-- The series exit in binary64, step by step: for a binary64 number `x` with
`0 <= q < 1.0e-03` the sum `q = x + oneOverE` is exact and a multiple of
`2^(-54)`, and the value is `-1 + r * t1`, product and sum rounded, with
`r = sqrt(q)` rounded, `r * t1` within `r * 2^(-51)` of the polynomial of
the series less its constant term, the rounded product at most `5/64` and the
value between `-1` and `-59/64`. -/
theorem series_exit_f64_err (fexp flog : ℝ → ℝ) (x : ℝ) (hrep : round64 x = Ext.fin x)
    (hq0 : (f64ArithWith fexp flog).lt
      ((f64ArithWith fexp flog).add (Ext.fin x) (oneOverE (f64ArithWith fexp flog)))
      ((f64ArithWith fexp flog).lit 0) = false)
    (hq1 : (f64ArithWith fexp flog).lt
      ((f64ArithWith fexp flog).add (Ext.fin x) (oneOverE (f64ArithWith fexp flog)))
      ((f64ArithWith fexp flog).lit 1.0e-03) = true) :
    ∃ (N : ℤ) (ρ t m v : ℝ), 0 ≤ N ∧
      x + 828390857088487 / 2251799813685248 = (N : ℝ) / 18014398509481984 ∧
      x + 828390857088487 / 2251799813685248 < 1152921504606847 / 1152921504606846976 ∧
      round64 (Real.sqrt (x + 828390857088487 / 2251799813685248)) = Ext.fin ρ ∧
      0 ≤ ρ ∧ ρ ≤ 33 / 1024 ∧ 9 / 4 ≤ t ∧ t ≤ 19 / 8 ∧
      |ρ * t - (seriesPoly ρ + 1)| ≤ ρ / 2 ^ 51 ∧
      round64 (ρ * t) = Ext.fin m ∧ 0 ≤ m ∧ m ≤ 5 / 64 ∧ round64 (-1 + m) = Ext.fin v ∧
      (GslSfLambertW0E (f64ArithWith fexp flog) (Ext.fin x)).Val = Ext.fin v ∧
      -1 ≤ v ∧ v ≤ -59 / 64 := by
  have hq0' := hq0
  have hq1' := hq1
  rw [f64_oneOverE, f64_add_fin, f64_lit_zero] at hq0
  rw [f64_oneOverE, f64_add_fin, f64_milli] at hq1
  cases hqv : round64 (x + 828390857088487 / 2251799813685248) with
  | nan =>
    rw [hqv] at hq1
    simp [f64ArithWith, Ext.lt] at hq1
  | pinf =>
    rw [hqv] at hq1
    simp [f64ArithWith, Ext.lt] at hq1
  | ninf =>
    rw [hqv] at hq0
    simp [f64ArithWith, Ext.lt] at hq0
  | fin qv =>
    rw [hqv, f64_lt_fin, decide_eq_false_iff_not, not_lt] at hq0
    rw [hqv, f64_lt_fin, decide_eq_true_eq] at hq1
    have hy1 : x + 828390857088487 / 2251799813685248 < (2 : ℝ) ^ (-9 : ℤ) := by
      by_contra hge
      have := round64_fin_ge_pow _ _ (-9) (by norm_num) (not_lt.mp hge) hqv
      norm_num at this
      linarith
    have hy2 : -(2 : ℝ) ^ (-9 : ℤ) < x + 828390857088487 / 2251799813685248 := by
      by_contra hge
      have := round64_fin_le_neg_pow _ _ (-9) (by norm_num) (not_lt.mp hge) hqv
      norm_num at this
      linarith
    norm_num at hy1 hy2
    have hrneg : x < 0 := by linarith
    obtain ⟨N, hN⟩ := round64_grid x hrep (-2) (by norm_num)
      (by rw [abs_of_neg hrneg]; norm_num; linarith)
      (by rw [abs_of_neg hrneg]; norm_num; linarith)
    have hgrid : x + 828390857088487 / 2251799813685248 =
        ((N + 6627126856707896 : ℤ) : ℝ) * (2 : ℝ) ^ (-54 : ℤ) := by
      rw [hN]
      push_cast
      norm_num
      ring
    have hexact := round64_exact _ (-54) _ (by norm_num) (by norm_num) hgrid
      (by rw [abs_lt]; norm_num; constructor <;> linarith)
    rw [hqv] at hexact
    injection hexact with hexact
    have hx : (f64ArithWith fexp flog).eq (Ext.fin x) ((f64ArithWith fexp flog).lit 0) =
        false := by
      rw [f64_lit_zero, f64_eq_fin, decide_eq_false_iff_not]
      linarith
    have hNnn : (0 : ℤ) ≤ N + 6627126856707896 := by
      have h1 : (0 : ℝ) ≤ ((N + 6627126856707896 : ℤ) : ℝ) * (2 : ℝ) ^ (-54 : ℤ) := by
        rw [← hgrid, ← hexact]
        exact hq0
      have h2 : (0 : ℝ) ≤ ((N + 6627126856707896 : ℤ) : ℝ) := by
        by_contra hn
        have := mul_neg_of_neg_of_pos (not_le.mp hn)
          (show (0 : ℝ) < (2 : ℝ) ^ (-54 : ℤ) by positivity)
        linarith
      exact_mod_cast h2
    obtain ⟨ρ, hρ, hρl, hρu⟩ := round64_mem (Real.sqrt qv) 0 (33 / 1024)
      (-57) 0 4644337115725824 (by norm_num) (by norm_num) (by norm_num)
      (by norm_num) (by norm_num) (by norm_num) (Real.sqrt_nonneg _)
      ((Real.sqrt_le_left (by norm_num)).mpr (by norm_num; linarith))
    obtain ⟨t, htl, htu, hte, ht⟩ := series_f64_err fexp flog ρ hρl hρu
    obtain ⟨m, hm, hml, hmu⟩ := round64_mem (ρ * t) 0 (5 / 64)
      (-56) 0 5629499534213120 (by norm_num) (by norm_num) (by norm_num)
      (by norm_num) (by norm_num) (by norm_num)
      (by nlinarith) (by nlinarith)
    obtain ⟨v, hv, hvl, hvu⟩ := round64_mem (-1 + m) (-1) (-59 / 64)
      (-52) (-4503599627370496) (-4151755906482176) (by norm_num) (by norm_num) (by norm_num)
      (by norm_num) (by norm_num) (by norm_num)
      (by linarith) (by linarith)
    refine ⟨N + 6627126856707896, ρ, t, m, v, hNnn, ?_, ?_, ?_, hρl, hρu, htl, htu, hte, hm, hml,
      hmu, hv, ?_, hvl, hvu⟩
    · rw [hgrid]
      norm_num
      ring
    · rw [← hexact]
      exact hq1
    · rw [← hexact]
      exact hρ
    · rw [series_exit_val _ _ hx hq0' hq1', f64_oneOverE, f64_add_fin, hqv,
        f64_sqrt_fin _ _ _ hq0, hρ, ht, f64_mul_fin, hm, f64_add_fin, hv]

/-! ## The series exit in binary64 is monotone -/

/-- The polynomial of the series rises at least twice as fast as its argument
on `[0, 33/1024]`. -/
theorem seriesPoly_slope (r s : ℝ) (hr : 0 ≤ r) (hrs : r ≤ s) (hs : s ≤ 33 / 1024) :
    2 * (s - r) ≤ seriesPoly s - seriesPoly r := by
  have n3 : 0 ≤ s ^ 3 - r ^ 3 := sub_nonneg.mpr (pow_le_pow_left₀ hr hrs 3)
  have n5 : 0 ≤ s ^ 5 - r ^ 5 := sub_nonneg.mpr (pow_le_pow_left₀ hr hrs 5)
  have n7 : 0 ≤ s ^ 7 - r ^ 7 := sub_nonneg.mpr (pow_le_pow_left₀ hr hrs 7)
  have n9 : 0 ≤ s ^ 9 - r ^ 9 := sub_nonneg.mpr (pow_le_pow_left₀ hr hrs 9)
  have n11 : 0 ≤ s ^ 11 - r ^ 11 := sub_nonneg.mpr (pow_le_pow_left₀ hr hrs 11)
  have u2 := pow_succ_sub_le (33 / 1024) r s hr hrs hs 1
  have u4 := pow_succ_sub_le (33 / 1024) r s hr hrs hs 3
  have u6 := pow_succ_sub_le (33 / 1024) r s hr hrs hs 5
  have u8 := pow_succ_sub_le (33 / 1024) r s hr hrs hs 7
  have u10 := pow_succ_sub_le (33 / 1024) r s hr hrs hs 9
  norm_num at u2 u4 u6 u8 u10
  simp only [seriesPoly, Finset.sum_range_succ, Finset.sum_range_zero, seriesCoeff]
  push_cast
  norm_num
  linarith [n3, n5, n7, n9, n11, u2, u4, u6, u8, u10, hrs]

set_option maxHeartbeats 400000 in
/-- The series exit in binary64 is monotone: of two binary64 numbers
`x1 < x2` that both take the series exit, the second has the larger or equal
value.  The sums `q` are exact multiples of `2^(-54)`, so the rounded roots
differ by at least `2^(-51)`, more than the rounding of the Horner scheme can
undo. -/
theorem series_exit_f64_mono (fexp flog : ℝ → ℝ) (x1 x2 : ℝ)
    (hrep1 : round64 x1 = Ext.fin x1) (hrep2 : round64 x2 = Ext.fin x2) (hlt : x1 < x2)
    (ha0 : (f64ArithWith fexp flog).lt
      ((f64ArithWith fexp flog).add (Ext.fin x1) (oneOverE (f64ArithWith fexp flog)))
      ((f64ArithWith fexp flog).lit 0) = false)
    (ha1 : (f64ArithWith fexp flog).lt
      ((f64ArithWith fexp flog).add (Ext.fin x1) (oneOverE (f64ArithWith fexp flog)))
      ((f64ArithWith fexp flog).lit 1.0e-03) = true)
    (hb0 : (f64ArithWith fexp flog).lt
      ((f64ArithWith fexp flog).add (Ext.fin x2) (oneOverE (f64ArithWith fexp flog)))
      ((f64ArithWith fexp flog).lit 0) = false)
    (hb1 : (f64ArithWith fexp flog).lt
      ((f64ArithWith fexp flog).add (Ext.fin x2) (oneOverE (f64ArithWith fexp flog)))
      ((f64ArithWith fexp flog).lit 1.0e-03) = true) :
    ∃ v1 v2, (GslSfLambertW0E (f64ArithWith fexp flog) (Ext.fin x1)).Val = Ext.fin v1 ∧
      (GslSfLambertW0E (f64ArithWith fexp flog) (Ext.fin x2)).Val = Ext.fin v2 ∧ v1 ≤ v2 := by
  obtain ⟨N1, ρ1, t1, m1, v1, hN1, hq1, hqu1, hρ1, hρl1, hρu1, htl1, htu1, hte1, hm1, hml1, hmu1,
    hv1, hV1, hvl1, hvu1⟩ := series_exit_f64_err fexp flog x1 hrep1 ha0 ha1
  obtain ⟨N2, ρ2, t2, m2, v2, hN2, hq2, hqu2, hρ2, hρl2, hρu2, htl2, htu2, hte2, hm2, hml2, hmu2,
    hv2, hV2, hvl2, hvu2⟩ := series_exit_f64_err fexp flog x2 hrep2 hb0 hb1
  refine ⟨v1, v2, hV1, hV2, ?_⟩
  -- the rounded products are in order
  have hm : m1 ≤ m2 := by
    rcases eq_or_lt_of_le hN1 with hz | hpos
    · -- `q1 = 0`: the first product is zero
      rw [← hz] at hq1
      norm_num at hq1
      rw [hq1, Real.sqrt_zero, round64_zero] at hρ1
      injection hρ1 with hρ1
      rw [← hρ1, zero_mul, round64_zero] at hm1
      injection hm1 with hm1
      rw [← hm1]
      exact hml2
    · -- `q1 >= 2^(-54)`
      have hN1' : (1 : ℝ) ≤ (N1 : ℝ) := by exact_mod_cast hpos
      have hN12 : (N1 : ℝ) + 1 ≤ (N2 : ℝ) := by
        have h : (N1 : ℝ) < (N2 : ℝ) := by
          have : (N1 : ℝ) / 18014398509481984 < (N2 : ℝ) / 18014398509481984 := by
            rw [← hq1, ← hq2]
            linarith
          rwa [div_lt_div_iff_of_pos_right (by norm_num)] at this
        have : N1 < N2 := by exact_mod_cast h
        exact_mod_cast this
      have hqa : (1 / 18014398509481984 : ℝ) ≤ x1 + 828390857088487 / 2251799813685248 := by
        rw [hq1]
        exact div_le_div_of_nonneg_right hN1' (by norm_num)
      have hqd : (1 / 18014398509481984 : ℝ) ≤
          (x2 + 828390857088487 / 2251799813685248) -
            (x1 + 828390857088487 / 2251799813685248) := by
        rw [hq1, hq2, ← sub_div]
        exact div_le_div_of_nonneg_right (by linarith) (by norm_num)
      have hqb : (1 / 18014398509481984 : ℝ) ≤ x2 + 828390857088487 / 2251799813685248 := by
        linarith
      -- the exact roots
      have hs1l : (1 / 134217728 : ℝ) ≤ Real.sqrt (x1 + 828390857088487 / 2251799813685248) :=
        Real.le_sqrt_of_sq_le (by norm_num; linarith)
      have hs2l : (1 / 134217728 : ℝ) ≤ Real.sqrt (x2 + 828390857088487 / 2251799813685248) :=
        Real.le_sqrt_of_sq_le (by norm_num; linarith)
      have hs1u : Real.sqrt (x1 + 828390857088487 / 2251799813685248) ≤ 33 / 1024 :=
        (Real.sqrt_le_left (by norm_num)).mpr (by norm_num; linarith)
      have hs2u : Real.sqrt (x2 + 828390857088487 / 2251799813685248) ≤ 33 / 1024 :=
        (Real.sqrt_le_left (by norm_num)).mpr (by norm_num; linarith)
      have hsq1 := Real.mul_self_sqrt (show (0 : ℝ) ≤ x1 + 828390857088487 / 2251799813685248 by
        linarith)
      have hsq2 := Real.mul_self_sqrt (show (0 : ℝ) ≤ x2 + 828390857088487 / 2251799813685248 by
        linarith)
      have hs12 : Real.sqrt (x1 + 828390857088487 / 2251799813685248) ≤
          Real.sqrt (x2 + 828390857088487 / 2251799813685248) :=
        Real.sqrt_le_sqrt (by linarith)
      generalize Real.sqrt (x1 + 828390857088487 / 2251799813685248) = s1 at *
      generalize Real.sqrt (x2 + 828390857088487 / 2251799813685248) = s2 at *
      have hgap : (1 / 18014398509481984 : ℝ) ≤ (s2 - s1) * (33 / 512) := by
        have h1 : (s2 - s1) * (s2 + s1) ≤ (s2 - s1) * (33 / 512) :=
          mul_le_mul_of_nonneg_left (by linarith) (by linarith)
        have h2 : (s2 - s1) * (s2 + s1) = s2 * s2 - s1 * s1 := by ring
        linarith
      -- the rounded roots
      have hs1pos : 0 < s1 := by linarith
      have hs2pos : 0 < s2 := by linarith
      obtain ⟨c1, hc1, he1⟩ := round64_rel s1
        (by rw [abs_of_pos hs1pos]; exact le_trans (by norm_num) hs1l)
        (by rw [abs_of_pos hs1pos]; exact lt_of_le_of_lt hs1u (by norm_num))
      obtain ⟨c2, hc2, he2⟩ := round64_rel s2
        (by rw [abs_of_pos hs2pos]; exact le_trans (by norm_num) hs2l)
        (by rw [abs_of_pos hs2pos]; exact lt_of_le_of_lt hs2u (by norm_num))
      rw [hρ1] at hc1
      rw [hρ2] at hc2
      injection hc1 with hc1
      injection hc2 with hc2
      rw [← hc1, abs_of_pos hs1pos] at he1
      rw [← hc2, abs_of_pos hs2pos] at he2
      have he1' : |ρ1 - s1| ≤ 33 / 1024 / 2 ^ 53 :=
        le_trans he1 (div_le_div_of_nonneg_right hs1u (by norm_num))
      have he2' : |ρ2 - s2| ≤ 33 / 1024 / 2 ^ 53 :=
        le_trans he2 (div_le_div_of_nonneg_right hs2u (by norm_num))
      have hD : (1 / 2251799813685248 : ℝ) ≤ ρ2 - ρ1 := by
        have a1 := (abs_le.mp he1').2
        have a2 := (abs_le.mp he2').1
        norm_num at a1 a2
        linarith only [a1, a2, hgap]
      have hρ1pos : (1 / 134217728 : ℝ) ≤ ρ1 := by
        have := round64_fin_ge_pow s1 ρ1 (-27) (by norm_num) (by norm_num; linarith) hρ1
        norm_num at this
        linarith
      have hslope := seriesPoly_slope ρ1 ρ2 hρl1 (by linarith) hρu2
      have hprod : ρ1 * t1 ≤ ρ2 * t2 := by
        have b1 := (abs_le.mp hte1).2
        have b2 := (abs_le.mp hte2).1
        have d1 : ρ1 / 2 ^ 51 ≤ 33 / 1024 / 2 ^ 51 :=
          div_le_div_of_nonneg_right hρu1 (by norm_num)
        have d2 : ρ2 / 2 ^ 51 ≤ 33 / 1024 / 2 ^ 51 :=
          div_le_div_of_nonneg_right hρu2 (by norm_num)
        norm_num at d1 d2
        linarith only [b1, b2, d1, d2, hslope, hD]
      have hprod0 : (2 : ℝ) ^ (-1022 : ℤ) ≤ ρ1 * t1 := by
        have h1 : (1 / 134217728 : ℝ) * (9 / 4) ≤ ρ1 * t1 :=
          mul_le_mul hρ1pos htl1 (by norm_num) (by linarith)
        have h2 : (2 : ℝ) ^ (-1022 : ℤ) ≤ (2 : ℝ) ^ (-27 : ℤ) :=
          zpow_le_zpow_right₀ (by norm_num) (by norm_num)
        have h3 : (2 : ℝ) ^ (-27 : ℤ) = 1 / 134217728 := by norm_num
        rw [h3] at h2
        exact le_trans h2 (le_trans (by norm_num) h1)
      exact round64_mono _ _ _ _ hprod0 hprod hm1 hm2
  -- and so are the rounded sums
  refine round64_mono_neg _ _ _ _ ?_ (by linarith) hv1 hv2
  have h2 : (2 : ℝ) ^ (-1022 : ℤ) ≤ (2 : ℝ) ^ (-1 : ℤ) :=
    zpow_le_zpow_right₀ (by norm_num) (by norm_num)
  have h3 : (2 : ℝ) ^ (-1 : ℤ) = 1 / 2 := by norm_num
  rw [h3] at h2
  have h4 : -1 + m2 ≤ -(1 / 2) := by linarith only [hmu2]
  exact le_trans h4 (neg_le_neg h2)

/-! ## The function `w * exp(w)` on `[-1, ∞)` -/

/-- The function `w * exp(w)` is strictly increasing on `[-1, ∞)`. -/
theorem mul_exp_lt (a b : ℝ) (ha : -1 ≤ a) (hab : a < b) :
    a * Real.exp a < b * Real.exp b := by
  have hea : 0 < Real.exp a := Real.exp_pos a
  have heb : 0 < Real.exp b := Real.exp_pos b
  by_cases hb : 0 ≤ b
  · by_cases ha0 : 0 ≤ a
    · have h1 : Real.exp a < Real.exp b := Real.exp_lt_exp.mpr hab
      have hb0 : 0 < b := lt_of_le_of_lt ha0 hab
      calc a * Real.exp a ≤ b * Real.exp a := mul_le_mul_of_nonneg_right hab.le hea.le
        _ < b * Real.exp b := mul_lt_mul_of_pos_left h1 hb0
    · have h1 : a * Real.exp a < 0 := mul_neg_of_neg_of_pos (not_le.mp ha0) hea
      have h2 : 0 ≤ b * Real.exp b := mul_nonneg hb heb.le
      linarith
  · -- both below zero: compare `a * exp(a - b)` with `b`
    have hb0 : b < 0 := not_le.mp hb
    have ha0 : a < 0 := lt_trans hab hb0
    have hd : a - b ≠ 0 := by linarith
    have h1 : a - b + 1 < Real.exp (a - b) := Real.add_one_lt_exp hd
    have h2 : a * Real.exp (a - b) < a * (a - b + 1) := mul_lt_mul_of_neg_left h1 ha0
    have h3 : a * (a - b + 1) ≤ b := by nlinarith
    have h4 : Real.exp a = Real.exp (a - b) * Real.exp b := by
      rw [← Real.exp_add]
      congr 1
      ring
    rw [h4]
    calc a * (Real.exp (a - b) * Real.exp b) = (a * Real.exp (a - b)) * Real.exp b := by ring
      _ < b * Real.exp b := mul_lt_mul_of_pos_right (lt_of_lt_of_le h2 h3) heb

/-- The principal branch is well defined: for every real `x ≥ -1/e` there is
exactly one real `w ≥ -1` with `w * exp(w) = x`. -/
theorem exists_unique_W0 (x : ℝ) (hx : -Real.exp (-1) ≤ x) :
    ∃! w : ℝ, -1 ≤ w ∧ w * Real.exp w = x := by
  have hcont : ContinuousOn (fun w : ℝ => w * Real.exp w) (Set.Icc (-1) (Max.max x 0)) :=
    (continuous_id.mul Real.continuous_exp).continuousOn
  have hle : (-1 : ℝ) ≤ Max.max x 0 := le_trans (by norm_num) (le_max_right x 0)
  have hmem : x ∈ Set.Icc ((fun w : ℝ => w * Real.exp w) (-1))
      ((fun w : ℝ => w * Real.exp w) (Max.max x 0)) := by
    constructor
    · show -1 * Real.exp (-1) ≤ x
      linarith
    · show x ≤ Max.max x 0 * Real.exp (Max.max x 0)
      have h0 : 0 ≤ Max.max x 0 := le_max_right x 0
      have h1 : 1 ≤ Real.exp (Max.max x 0) := Real.one_le_exp h0
      calc x ≤ Max.max x 0 := le_max_left x 0
        _ = Max.max x 0 * 1 := (mul_one _).symm
        _ ≤ Max.max x 0 * Real.exp (Max.max x 0) := mul_le_mul_of_nonneg_left h1 h0
  obtain ⟨w, hw, hfw⟩ := intermediate_value_Icc hle hcont hmem
  refine ⟨w, ⟨hw.1, hfw⟩, fun w2 hw2 => ?_⟩
  by_contra hne
  rcases lt_or_gt_of_ne hne with h | h
  · have := mul_exp_lt w2 w hw2.1 h
    rw [hw2.2] at this
    simp only [] at hfw
    linarith
  · have := mul_exp_lt w w2 hw.1 h
    rw [hw2.2] at this
    simp only [] at hfw
    linarith

/-! ## The series exit next to the branch point -/

/-- The series at `r = 2^(-27)` in binary64. -/
theorem seriesEval_f64_near_branch (fexp flog : ℝ → ℝ) :
    seriesEval (f64ArithWith fexp flog) (Ext.fin (1 / 134217728 : ℝ)) =
      Ext.fin (-4503599549133507 / 4503599627370496 : ℝ) := by
  have hm10 : (f64ArithWith fexp flog).mul (Ext.fin (1 / 134217728 : ℝ))
      (Ext.fin (950999969414097 / 35184372088832 : ℝ)) =
      Ext.fin (950999969414097 / 4722366482869645213696 : ℝ) :=
    round64_of_pos _ _ (-23) 7607999755312776 (by norm_num) (by norm_num) (by norm_num)
      (by norm_num) (by norm_num) (by norm_num) (by norm_num)
  have ha10 : (f64ArithWith fexp flog).add (Ext.fin (-5094893270032321 / 281474976710656 : ℝ))
      (Ext.fin (950999969414097 / 4722366482869645213696 : ℝ)) =
      Ext.fin (-2547446606674153 / 140737488355328 : ℝ) :=
    round64_of_neg _ _ 4 (-5094893213348306) (by norm_num) (by norm_num) (by norm_num)
      (by norm_num) (by norm_num) (by norm_num) (by norm_num)
  have hm9 : (f64ArithWith fexp flog).mul (Ext.fin (1 / 134217728 : ℝ))
      (Ext.fin (-2547446606674153 / 140737488355328 : ℝ)) =
      Ext.fin (-2547446606674153 / 18889465931478580854784 : ℝ) :=
    round64_of_neg _ _ (-23) (-5094893213348306) (by norm_num) (by norm_num) (by norm_num)
      (by norm_num) (by norm_num) (by norm_num) (by norm_num)
  have ha9 : (f64ArithWith fexp flog).add (Ext.fin (3448280556470475 / 281474976710656 : ℝ))
      (Ext.fin (-2547446606674153 / 18889465931478580854784 : ℝ)) =
      Ext.fin (6896561037021125 / 562949953421312 : ℝ) :=
    round64_of_pos _ _ 3 6896561037021125 (by norm_num) (by norm_num) (by norm_num)
      (by norm_num) (by norm_num) (by norm_num) (by norm_num)
  have hm8 : (f64ArithWith fexp flog).mul (Ext.fin (1 / 134217728 : ℝ))
      (Ext.fin (6896561037021125 / 562949953421312 : ℝ)) =
      Ext.fin (6896561037021125 / 75557863725914323419136 : ℝ) :=
    round64_of_pos _ _ (-24) 6896561037021125 (by norm_num) (by norm_num) (by norm_num)
      (by norm_num) (by norm_num) (by norm_num) (by norm_num)
  have ha8 : (f64ArithWith fexp flog).add (Ext.fin (-4729360695546065 / 562949953421312 : ℝ))
      (Ext.fin (6896561037021125 / 75557863725914323419136 : ℝ)) =
      Ext.fin (-4729360644162681 / 562949953421312 : ℝ) :=
    round64_of_neg _ _ 3 (-4729360644162681) (by norm_num) (by norm_num) (by norm_num)
      (by norm_num) (by norm_num) (by norm_num) (by norm_num)
  have hm7 : (f64ArithWith fexp flog).mul (Ext.fin (1 / 134217728 : ℝ))
      (Ext.fin (-4729360644162681 / 562949953421312 : ℝ)) =
      Ext.fin (-4729360644162681 / 75557863725914323419136 : ℝ) :=
    round64_of_neg _ _ (-24) (-4729360644162681) (by norm_num) (by norm_num) (by norm_num)
      (by norm_num) (by norm_num) (by norm_num) (by norm_num)
  have ha7 : (f64ArithWith fexp flog).add (Ext.fin (6595548371747889 / 1125899906842624 : ℝ))
      (Ext.fin (-4729360644162681 / 75557863725914323419136 : ℝ)) =
      Ext.fin (1648887075318731 / 281474976710656 : ℝ) :=
    round64_of_pos _ _ 2 6595548301274924 (by norm_num) (by norm_num) (by norm_num)
      (by norm_num) (by norm_num) (by norm_num) (by norm_num)
  have hm6 : (f64ArithWith fexp flog).mul (Ext.fin (1 / 134217728 : ℝ))
      (Ext.fin (1648887075318731 / 281474976710656 : ℝ)) =
      Ext.fin (1648887075318731 / 37778931862957161709568 : ℝ) :=
    round64_of_pos _ _ (-25) 6595548301274924 (by norm_num) (by norm_num) (by norm_num)
      (by norm_num) (by norm_num) (by norm_num) (by norm_num)
  have ha6 : (f64ArithWith fexp flog).add (Ext.fin (-4701009963367373 / 1125899906842624 : ℝ))
      (Ext.fin (1648887075318731 / 37778931862957161709568 : ℝ)) =
      Ext.fin (-4701009914226709 / 1125899906842624 : ℝ) :=
    round64_of_neg _ _ 2 (-4701009914226709) (by norm_num) (by norm_num) (by norm_num)
      (by norm_num) (by norm_num) (by norm_num) (by norm_num)
  have hm5 : (f64ArithWith fexp flog).mul (Ext.fin (1 / 134217728 : ℝ))
      (Ext.fin (-4701009914226709 / 1125899906842624 : ℝ)) =
      Ext.fin (-4701009914226709 / 151115727451828646838272 : ℝ) :=
    round64_of_neg _ _ (-25) (-4701009914226709) (by norm_num) (by norm_num) (by norm_num)
      (by norm_num) (by norm_num) (by norm_num) (by norm_num)
  have ha5 : (f64ArithWith fexp flog).add (Ext.fin (6905952301984757 / 2251799813685248 : ℝ))
      (Ext.fin (-4701009914226709 / 151115727451828646838272 : ℝ)) =
      Ext.fin (3452976115967125 / 1125899906842624 : ℝ) :=
    round64_of_pos _ _ 1 6905952231934250 (by norm_num) (by norm_num) (by norm_num)
      (by norm_num) (by norm_num) (by norm_num) (by norm_num)
  have hm4 : (f64ArithWith fexp flog).mul (Ext.fin (1 / 134217728 : ℝ))
      (Ext.fin (3452976115967125 / 1125899906842624 : ℝ)) =
      Ext.fin (3452976115967125 / 151115727451828646838272 : ℝ) :=
    round64_of_pos _ _ (-26) 6905952231934250 (by norm_num) (by norm_num) (by norm_num)
      (by norm_num) (by norm_num) (by norm_num) (by norm_num)
  have ha4 : (f64ArithWith fexp flog).add (Ext.fin (-5299726157895711 / 2251799813685248 : ℝ))
      (Ext.fin (3452976115967125 / 151115727451828646838272 : ℝ)) =
      Ext.fin (-5299726106442357 / 2251799813685248 : ℝ) :=
    round64_of_neg _ _ 1 (-5299726106442357) (by norm_num) (by norm_num) (by norm_num)
      (by norm_num) (by norm_num) (by norm_num) (by norm_num)
  have hm3 : (f64ArithWith fexp flog).mul (Ext.fin (1 / 134217728 : ℝ))
      (Ext.fin (-5299726106442357 / 2251799813685248 : ℝ)) =
      Ext.fin (-5299726106442357 / 302231454903657293676544 : ℝ) :=
    round64_of_neg _ _ (-26) (-5299726106442357) (by norm_num) (by norm_num) (by norm_num)
      (by norm_num) (by norm_num) (by norm_num) (by norm_num)
  have ha3 : (f64ArithWith fexp flog).add (Ext.fin (2180452791395475 / 1125899906842624 : ℝ))
      (Ext.fin (-5299726106442357 / 302231454903657293676544 : ℝ)) =
      Ext.fin (8721811086609827 / 4503599627370496 : ℝ) :=
    round64_of_pos _ _ 0 8721811086609827 (by norm_num) (by norm_num) (by norm_num)
      (by norm_num) (by norm_num) (by norm_num) (by norm_num)
  have hm2 : (f64ArithWith fexp flog).mul (Ext.fin (1 / 134217728 : ℝ))
      (Ext.fin (8721811086609827 / 4503599627370496 : ℝ)) =
      Ext.fin (8721811086609827 / 604462909807314587353088 : ℝ) :=
    round64_of_pos _ _ (-27) 8721811086609827 (by norm_num) (by norm_num) (by norm_num)
      (by norm_num) (by norm_num) (by norm_num) (by norm_num)
  have ha2 : (f64ArithWith fexp flog).add (Ext.fin (-2040342171622691 / 1125899906842624 : ℝ))
      (Ext.fin (8721811086609827 / 604462909807314587353088 : ℝ)) =
      Ext.fin (-510085538844263 / 281474976710656 : ℝ) :=
    round64_of_neg _ _ 0 (-8161368621508208) (by norm_num) (by norm_num) (by norm_num)
      (by norm_num) (by norm_num) (by norm_num) (by norm_num)
  have hm1 : (f64ArithWith fexp flog).mul (Ext.fin (1 / 134217728 : ℝ))
      (Ext.fin (-510085538844263 / 281474976710656 : ℝ)) =
      Ext.fin (-510085538844263 / 37778931862957161709568 : ℝ) :=
    round64_of_neg _ _ (-27) (-8161368621508208) (by norm_num) (by norm_num) (by norm_num)
      (by norm_num) (by norm_num) (by norm_num) (by norm_num)
  have ha1 : (f64ArithWith fexp flog).add (Ext.fin (2625197741670367 / 1125899906842624 : ℝ))
      (Ext.fin (-510085538844263 / 37778931862957161709568 : ℝ)) =
      Ext.fin (5250395452937267 / 2251799813685248 : ℝ) :=
    round64_of_pos _ _ 1 5250395452937267 (by norm_num) (by norm_num) (by norm_num)
      (by norm_num) (by norm_num) (by norm_num) (by norm_num)
  have hm0 : (f64ArithWith fexp flog).mul (Ext.fin (1 / 134217728 : ℝ))
      (Ext.fin (5250395452937267 / 2251799813685248 : ℝ)) =
      Ext.fin (5250395452937267 / 302231454903657293676544 : ℝ) :=
    round64_of_pos _ _ (-26) 5250395452937267 (by norm_num) (by norm_num) (by norm_num)
      (by norm_num) (by norm_num) (by norm_num) (by norm_num)
  have ha0 : (f64ArithWith fexp flog).add (Ext.fin (-1 : ℝ))
      (Ext.fin (5250395452937267 / 302231454903657293676544 : ℝ)) =
      Ext.fin (-4503599549133507 / 4503599627370496 : ℝ) :=
    round64_of_neg _ _ (-1) (-9007199098267014) (by norm_num) (by norm_num) (by norm_num)
      (by norm_num) (by norm_num) (by norm_num) (by norm_num)
  simp only [seriesEval]
  rw [f64_coeff_0, f64_coeff_1, f64_coeff_2, f64_coeff_3, f64_coeff_4, f64_coeff_5, f64_coeff_6,
    f64_coeff_7, f64_coeff_8, f64_coeff_9, f64_coeff_10, f64_coeff_11, hm10, ha10, hm9, ha9, hm8,
    ha8, hm7, ha7, hm6, ha6, hm5, ha5, hm4, ha4, hm3, ha3, hm2, ha2, hm1, ha1, hm0, ha0]

/-- Just above the branch point the function `w * exp(w)` passes the binary64
number `x = -oneOverE + 2^(-54)` before `w = -1 + 9 * 2^(-29)`. -/
theorem mul_exp_near_branch :
    (-6627126856707895 / 18014398509481984 : ℝ) <
      (-1 + 9 / 536870912) * Real.exp (-1 + 9 / 536870912) := by
  have he := abs_sub_le_iff.1 Real.exp_one_near_20
  have he1 : (363916618873 / 133877442384 : ℝ) - 1 / 10 ^ 20 ≤ Real.exp 1 := by linarith [he.2]
  have hs := Real.exp_bound' (x := (9 / 536870912 : ℝ)) (by norm_num) (by norm_num)
    (n := 3) (by norm_num)
  have hs2 : Real.exp (9 / 536870912) ≤
      1 + 9 / 536870912 + (9 / 536870912) ^ 2 / 2 + (9 / 536870912) ^ 3 * (2 / 9) := by
    have : (∑ m ∈ Finset.range 3, (9 / 536870912 : ℝ) ^ m / (m.factorial : ℝ)) +
        (9 / 536870912 : ℝ) ^ 3 * ((3 : ℕ) + 1) / ((Nat.factorial 3 : ℕ) * (3 : ℕ)) =
        1 + 9 / 536870912 + (9 / 536870912) ^ 2 / 2 + (9 / 536870912) ^ 3 * (2 / 9) := by
      simp [Finset.sum_range_succ, Nat.factorial]
      ring
    linarith
  have hpos1 : 0 < Real.exp 1 := Real.exp_pos 1
  have hsplit : Real.exp (-1 + 9 / 536870912) = Real.exp (9 / 536870912) / Real.exp 1 := by
    rw [show (-1 + 9 / 536870912 : ℝ) = 9 / 536870912 - 1 by ring, Real.exp_sub]
  rw [hsplit, ← mul_div_assoc, lt_div_iff₀ hpos1]
  have hc : (0 : ℝ) < 6627126856707895 / 18014398509481984 := by norm_num
  have h1 : (1 - 9 / 536870912 : ℝ) * Real.exp (9 / 536870912) <
      6627126856707895 / 18014398509481984 * Real.exp 1 := by
    calc (1 - 9 / 536870912 : ℝ) * Real.exp (9 / 536870912)
        ≤ (1 - 9 / 536870912) * (1 + 9 / 536870912 + (9 / 536870912) ^ 2 / 2 +
            (9 / 536870912) ^ 3 * (2 / 9)) :=
          mul_le_mul_of_nonneg_left hs2 (by norm_num)
      _ < 6627126856707895 / 18014398509481984 *
            (363916618873 / 133877442384 - 1 / 10 ^ 20) := by norm_num
      _ ≤ 6627126856707895 / 18014398509481984 * Real.exp 1 :=
          mul_le_mul_of_nonneg_left he1 hc.le
  linarith

/-- The binary64 number `x = -oneOverE + 2^(-54)` is in the domain of the
principal branch. -/
theorem near_branch_in_domain :
    -Real.exp (-1) ≤ (-6627126856707895 / 18014398509481984 : ℝ) := by
  have he := abs_sub_le_iff.1 Real.exp_one_near_20
  have he1 : Real.exp 1 ≤ (363916618873 / 133877442384 : ℝ) + 1 / 10 ^ 20 := by linarith [he.1]
  have hpos1 : 0 < Real.exp 1 := Real.exp_pos 1
  rw [Real.exp_neg, neg_le, ← one_div, le_div_iff₀ hpos1]
  have : (6627126856707895 / 18014398509481984 : ℝ) * Real.exp 1 ≤
      6627126856707895 / 18014398509481984 * (363916618873 / 133877442384 + 1 / 10 ^ 20) :=
    mul_le_mul_of_nonneg_left he1 (by norm_num)
  have h2 : (6627126856707895 / 18014398509481984 : ℝ) *
      (363916618873 / 133877442384 + 1 / 10 ^ 20) ≤ 1 := by norm_num
  linarith

/-- The run of `GslSfLambertW0E` in binary64 at `x = -oneOverE + 2^(-54)`, the
binary64 number next above `-oneOverE`: the series exit with `q = 2^(-54)`
and `r = 2^(-27)`, both exact. -/
theorem GslSfLambertW0E_f64_near_branch (fexp flog : ℝ → ℝ) :
    GslSfLambertW0E (f64ArithWith fexp flog)
        (Ext.fin (-6627126856707895 / 18014398509481984 : ℝ)) =
      { Val := Ext.fin (-4503599549133507 / 4503599627370496 : ℝ),
        err := Ext.fin (4503599549133507 / 10141204801825835211973625643008 : ℝ),
        iters := 0, success := true } := by
  have hx : (f64ArithWith fexp flog).eq (Ext.fin (-6627126856707895 / 18014398509481984 : ℝ))
      ((f64ArithWith fexp flog).lit 0) = false := by
    rw [f64_lit_zero, f64_eq_fin, decide_eq_false_iff_not]
    norm_num
  have hq : (f64ArithWith fexp flog).add (Ext.fin (-6627126856707895 / 18014398509481984 : ℝ))
      (oneOverE (f64ArithWith fexp flog)) = Ext.fin (1 / 18014398509481984 : ℝ) := by
    rw [f64_oneOverE, f64_add_fin]
    exact round64_of_pos _ _ (-54) 4503599627370496 (by norm_num) (by norm_num) (by norm_num)
      (by norm_num) (by norm_num) (by norm_num) (by norm_num)
  have hq0 : (f64ArithWith fexp flog).lt (Ext.fin (1 / 18014398509481984 : ℝ))
      ((f64ArithWith fexp flog).lit 0) = false := by
    rw [f64_lit_zero, f64_lt_fin, decide_eq_false_iff_not]
    norm_num
  have hq1 : (f64ArithWith fexp flog).lt (Ext.fin (1 / 18014398509481984 : ℝ))
      ((f64ArithWith fexp flog).lit 1.0e-03) = true := by
    rw [f64_milli, f64_lt_fin, decide_eq_true_eq]
    norm_num
  have hsq : Real.sqrt (1 / 18014398509481984 : ℝ) = 1 / 134217728 := by
    rw [show (1 / 18014398509481984 : ℝ) = (1 / 134217728) ^ 2 by norm_num]
    exact Real.sqrt_sq (by norm_num)
  have hr : (f64ArithWith fexp flog).sqrt (Ext.fin (1 / 18014398509481984 : ℝ)) =
      Ext.fin (1 / 134217728 : ℝ) := by
    rw [f64_sqrt_fin _ _ _ (by norm_num), hsq]
    exact round64_of_pos _ _ (-27) 4503599627370496 (by norm_num) (by norm_num) (by norm_num)
      (by norm_num) (by norm_num) (by norm_num) (by norm_num)
  have habs : (f64ArithWith fexp flog).abs (Ext.fin (-4503599549133507 / 4503599627370496 : ℝ)) =
      Ext.fin (4503599549133507 / 4503599627370496 : ℝ) := by
    show Ext.fin |(-4503599549133507 / 4503599627370496 : ℝ)| = _
    rw [abs_of_neg (by norm_num)]
    norm_num
  have herr : (f64ArithWith fexp flog).mul (Ext.fin (1 / 2251799813685248 : ℝ))
      (Ext.fin (4503599549133507 / 4503599627370496 : ℝ)) =
      Ext.fin (4503599549133507 / 10141204801825835211973625643008 : ℝ) := by
    rw [f64_mul_fin]
    exact round64_of_pos _ _ (-52) 9007199098267014 (by norm_num) (by norm_num) (by norm_num)
      (by norm_num) (by norm_num) (by norm_num) (by norm_num)
  simp only [GslSfLambertW0E, hx, hq, hq0, hq1, hr, seriesEval_f64_near_branch, f64_two_epsilon,
    habs, herr, if_true, if_false, Bool.false_eq_true]

/-! ## The series inverts the function at the branch point -/

/-- A polynomial in Horner form is bounded on `[0, R]` by the Horner form of
the absolute values of its coefficients at `R`. -/
theorem horner_abs_le (l : List ℝ) (ρ R : ℝ) (h0 : 0 ≤ ρ) (h1 : ρ ≤ R) :
    |l.foldr (fun b acc => b + ρ * acc) 0| ≤ l.foldr (fun b acc => |b| + R * acc) 0 := by
  induction l with
  | nil => simp
  | cons b l ih =>
    simp only [List.foldr_cons]
    have h2 := abs_add b (ρ * l.foldr (fun b acc => b + ρ * acc) 0)
    rw [abs_mul, abs_of_nonneg h0] at h2
    have h3 : ρ * |l.foldr (fun b acc => b + ρ * acc) 0| ≤
        R * l.foldr (fun b acc => |b| + R * acc) 0 :=
      mul_le_mul h1 ih (abs_nonneg _) (le_trans h0 h1)
    linarith

/-- The polynomial of the series less its constant term, in Horner form. -/
theorem seriesPoly_add_one (ρ : ℝ) :
    seriesPoly ρ + 1 = ρ * ((291455497699640525420442007771 / 125000000000000000000000000000 : ℝ) +
      ρ * ((-113261742852460218140011977973 / 62500000000000000000000000000 : ℝ) + ρ *
      ((484157778623089938840819364417 / 250000000000000000000000000000 : ℝ) + ρ *
      ((-588387800470403629205385890379 / 250000000000000000000000000000 : ℝ) + ρ *
      ((191678681315664494555821807669 / 62500000000000000000000000000 : ℝ) + ρ *
      ((-208766780012908856942749208873 / 50000000000000000000000000000 : ℝ) + ρ *
      ((5858023729874774148815053846119 / 1000000000000000000000000000000 : ℝ) + ρ *
      ((-4200516108761988685492080844257 / 500000000000000000000000000000 : ℝ) + ρ *
      ((1531344187664307553 / 125000000000000000 : ℝ) + ρ * ((-3620139402494488551 /
      200000000000000000 : ℝ) + ρ * (540580895980211233 / 20000000000000000 : ℝ))))))))))) := by
  simp only [seriesPoly, Finset.sum_range_succ, Finset.sum_range_zero, seriesCoeff]
  push_cast
  ring

set_option maxHeartbeats 4000000 in
/-- The polynomial of the series inverts `w * exp(w)` at the branch point to
the sixth order: with `u = seriesPoly(r) + 1`, the first terms
`u^2/2 + u^3/3 + u^4/8 + u^5/30 + u^6/144` of `1 - (1 - u) * exp(u)` are within
`r^2 * 2^(-25)` of `e * r^2` on `[0, 33/1024]`, where `e` is taken as the
fraction `363916618873/133877442384`. -/
theorem series_inverts (ρ : ℝ) (h0 : 0 ≤ ρ) (h1 : ρ ≤ 33 / 1024) :
    |((seriesPoly ρ + 1) ^ 2 / 2 + (seriesPoly ρ + 1) ^ 3 / 3 + (seriesPoly ρ + 1) ^ 4 / 8 +
      (seriesPoly ρ + 1) ^ 5 / 30 + (seriesPoly ρ + 1) ^ 6 / 144) - 363916618873 / 133877442384 * ρ
      ^ 2| ≤ ρ ^ 2 / 2 ^ 25 := by
  obtain ⟨l, hl⟩ : ∃ l : List ℝ, l = [(1165244975718727947866497350966216358311950817709 /
      261479379656250000000000000000000000000000000000000000000000000000000 : ℝ),
      (-2479222856260793121239796400458504359635154981797955424989 /
      5859375000000000000000000000000000000000000000000000000000000000000000000000000000000000 :
      ℝ), (1519861958770498463539143955655510875359140498230980227551486598419212582429863254410481
      /
      1953125000000000000000000000000000000000000000000000000000000000000000000000000000000000000000000000000000000000000000
          : ℝ),
          (-349330966592599085755944817211917816851446890308350113692901261415938091227126686477977832244307963184156197374152149
          / 915527343750000000000000000000000000000000000000000000000000000000000000000000000000000000000000000000000000000000000000000000000000000000000000000
          : ℝ),
          (1037749881302426572282333952459732183753754971445316930838670846298774730661917335168125410002764030474903253017261834569141334203300687375605650121
          / 549316406250000000000000000000000000000000000000000000000000000000000000000000000000000000000000000000000000000000000000000000000000000000000000000000000000000000000000000000000
          : ℝ),
          (-6805757255059719275476539079791304252748880720419907992133643008658292346199768027456927754298564364923911443830106539981126863032093926461488687033542367016316762291553795341
          / 15258789062500000000000000000000000000000000000000000000000000000000000000000000000000000000000000000000000000000000000000000000000000000000000000000000000000000000000000000000
          : ℝ),
          (416550827279237663864976968405527718793076349807622023248777870871026488002718007816086006954105921797961913589367692969907630188071255971215848070406321850971540921838218690847
          / 183105468750000000000000000000000000000000000000000000000000000000000000000000000000000000000000000000000000000000000000000000000000000000000000000000000000000000000000000000000
          : ℝ),
          (-4039159303447518631160771389598178657427042652122637459444403393867324488192700411779611176499007700805101025912203073889755098689137720866524726358047727923657614054631447867137
          / 549316406250000000000000000000000000000000000000000000000000000000000000000000000000000000000000000000000000000000000000000000000000000000000000000000000000000000000000000000000
          : ℝ),
          (14137845695399708089963834111682276904672772553505709717510811454933239213063977139159228175366648064341910305476435000094795044729481085853843060824125986177503548334480178580829
          / 732421875000000000000000000000000000000000000000000000000000000000000000000000000000000000000000000000000000000000000000000000000000000000000000000000000000000000000000000000000
          : ℝ),
          (-16474566603724801876074758526626340746158855914236250398336219332925394425145979132976967588918664606984918180050905888096761848188250064586256796582473522001512273841332566653649
          / 366210937500000000000000000000000000000000000000000000000000000000000000000000000000000000000000000000000000000000000000000000000000000000000000000000000000000000000000000000000
          : ℝ),
          (53362837043236012486006223074555542808345338067562581606070191835466134479261059865897275603595202052727165917086458589730071284304636177393248275003556861862584166749679830450709
          / 549316406250000000000000000000000000000000000000000000000000000000000000000000000000000000000000000000000000000000000000000000000000000000000000000000000000000000000000000000000
          : ℝ),
          (-6354661089936188394296574402214806724096731833692356231196904244995950030277578775646467670146837683907365658199119123872757717054114940190674977656130083959898836689754004330051
          / 61035156250000000000000000000000000000000000000000000000000000000000000000000000000000000000000000000000000000000000000000000000000000000000000000000000000000000000000000000000
          : ℝ),
          (1160686369495028960118554952674423040067296079922535468832673229546095278013952304334812314506182589949440510158196306272567951555290633104239679951637941256044473201750387132656019
          / 2929687500000000000000000000000000000000000000000000000000000000000000000000000000000000000000000000000000000000000000000000000000000000000000000000000000000000000000000000000000
          : ℝ),
          (-3357521572979190789275797738868641295633764497812848137135487754018511439352488502828241055440124812873493436591853383479184818896016673788017498316889349740761334658316739744400469
          / 4394531250000000000000000000000000000000000000000000000000000000000000000000000000000000000000000000000000000000000000000000000000000000000000000000000000000000000000000000000000
          : ℝ),
          (4194627546740128762092373954563064472641436709746299740272372501694943192001478570590855796692168741298154302159790653192423017702544314828332895531727037157690164746713712892196887
          / 2929687500000000000000000000000000000000000000000000000000000000000000000000000000000000000000000000000000000000000000000000000000000000000000000000000000000000000000000000000000
          : ℝ),
          (-7717947098699009663837809312722674377170720623600075021701787082132943080491802144850337134224854887253905632999696717334105171304021709163945624223933336442095854314571905207864353
          / 2929687500000000000000000000000000000000000000000000000000000000000000000000000000000000000000000000000000000000000000000000000000000000000000000000000000000000000000000000000000
          : ℝ),
          (20766772302210561263937781355955239437437071904617042486871023385773467371219755970370930729461157982623902002363252202102525789292561194889995845094345351803257613636955766227555457
          / 4394531250000000000000000000000000000000000000000000000000000000000000000000000000000000000000000000000000000000000000000000000000000000000000000000000000000000000000000000000000
          : ℝ),
          (-48404961802838508726592042925838492323035402210925175442382786766154100475981759099418797971518096714155035417944194679081572282417431721741702942197859056882142797667990332655915673
          / 5859375000000000000000000000000000000000000000000000000000000000000000000000000000000000000000000000000000000000000000000000000000000000000000000000000000000000000000000000000000
          : ℝ),
          (20669239263537715443944001396360332024310936784483915299748379084943306414572329784584659014684655870973857088542383038801648503871540690757310362677035611071279284804279785606953993
          / 1464843750000000000000000000000000000000000000000000000000000000000000000000000000000000000000000000000000000000000000000000000000000000000000000000000000000000000000000000000000
          : ℝ),
          (-5765952699244191520417771268724451224985427786534606429680401623932229179491643487939840087657929479036358192988244180513268282857134561976616462319060506399172033053644310115790547
          / 244140625000000000000000000000000000000000000000000000000000000000000000000000000000000000000000000000000000000000000000000000000000000000000000000000000000000000000000000000000
          : ℝ),
          (11377659403605527925813106991845272098849429618579148281612719966656090349452301829557847061005931264658579966075735901195072390004952902631553669698794948913911154413791611406241491
          / 292968750000000000000000000000000000000000000000000000000000000000000000000000000000000000000000000000000000000000000000000000000000000000000000000000000000000000000000000000000
          : ℝ),
          (-294642472806209244714957964285117637269566863988022318923303704758087688094989009195738772038626282472615264990146956655760016805800603338133935598079829425706401022909351881645508017
          / 4687500000000000000000000000000000000000000000000000000000000000000000000000000000000000000000000000000000000000000000000000000000000000000000000000000000000000000000000000000000
          : ℝ),
          (7107965659525503768810584027931899992131804469657995643714696725701541757829026131145588465832069635735487527000874181708996952200959198479642715443071351466080570951659225053973979617
          / 70312500000000000000000000000000000000000000000000000000000000000000000000000000000000000000000000000000000000000000000000000000000000000000000000000000000000000000000000000000000
          : ℝ),
          (-458083605529535912204762919597654545217132916803371007917820654340141934455489393939747441651442461761038764834380733281458407557818792794927644563682120959157790187665216308593294087
          / 2929687500000000000000000000000000000000000000000000000000000000000000000000000000000000000000000000000000000000000000000000000000000000000000000000000000000000000000000000000000
          : ℝ),
          (45452943264933776139190836436228021583959422649212113043543826473763960702141389364689872286415960826056006217133156029134970558022788367584561824187738212557659726652400283356417148209
          / 187500000000000000000000000000000000000000000000000000000000000000000000000000000000000000000000000000000000000000000000000000000000000000000000000000000000000000000000000000000000
          : ℝ),
          (-52119896969589638073491289178207793622447610320621049284637110842412847582476467971277907418522989868650480404406603474010520029462502178797290257953239030467923214991798434217891086269
          / 140625000000000000000000000000000000000000000000000000000000000000000000000000000000000000000000000000000000000000000000000000000000000000000000000000000000000000000000000000000000
          : ℝ),
          (26146836651746635021107004850067099618041556351417807198283051493440060094040476093936373675117418521484579350780425298725696698688626149857348081495831435581133740196517135567334840153
          / 46875000000000000000000000000000000000000000000000000000000000000000000000000000000000000000000000000000000000000000000000000000000000000000000000000000000000000000000000000000000
          : ℝ),
          (-3231261826119489359152535476529365095045878064092975013157137624143778510081705387024471756528968306725529038456521992769782382010732059654913272653787518938247577425781427534397588461
          / 3906250000000000000000000000000000000000000000000000000000000000000000000000000000000000000000000000000000000000000000000000000000000000000000000000000000000000000000000000000000
          : ℝ),
          (302556592178131512137687097602951945563540239092473003514369260004712864490584414934829385848960353359589085315391409901218996942996085935817186014929541618420661882919709730992641666191
          / 250000000000000000000000000000000000000000000000000000000000000000000000000000000000000000000000000000000000000000000000000000000000000000000000000000000000000000000000000000000000
          : ℝ),
          (-2731710150783101250508778026341447346095789911885052288764637041178499412088784519426125597433082443037674987245078479423434847898258338160764721651533980778681266387835299431245328163
          / 1562500000000000000000000000000000000000000000000000000000000000000000000000000000000000000000000000000000000000000000000000000000000000000000000000000000000000000000000000000000
          : ℝ),
          (623727979602849144488307958772128140455713652864352117126941511493390553189510162805069870984675148058282431406419473525655200233242546479090148949450565501523940655466332590099439856581
          / 250000000000000000000000000000000000000000000000000000000000000000000000000000000000000000000000000000000000000000000000000000000000000000000000000000000000000000000000000000000000
          : ℝ),
          (-2638129792819483495090577868737626308770288118202142377304779505651796033587886857480794350202108416867705992383395985780538872299818938984997396257980957620267179749685136676957128241703
          / 750000000000000000000000000000000000000000000000000000000000000000000000000000000000000000000000000000000000000000000000000000000000000000000000000000000000000000000000000000000000
          : ℝ),
          (117567951387095974374241484374200456220966753823725172835469477593308268291999916555636236455079894932438237318499178990531950975164857382072313831601598164107790949495748016707268631761
          / 24000000000000000000000000000000000000000000000000000000000000000000000000000000000000000000000000000000000000000000000000000000000000000000000000000000000000000000000000000000000
          : ℝ),
          (-673629791158994378443563603489843360260797064052600505361856622146976246876760653588663733845698697305723014345346214166830111603497408105044050043692301795664689476160299856899688155359
          / 100000000000000000000000000000000000000000000000000000000000000000000000000000000000000000000000000000000000000000000000000000000000000000000000000000000000000000000000000000000000
          : ℝ),
          (41242647101120595793001182414392252091445370838507070001809206457202858387273585526536965711812655185870588738679228979999126754027721802309822648886232031287645699946540232922910236557811
          / 4500000000000000000000000000000000000000000000000000000000000000000000000000000000000000000000000000000000000000000000000000000000000000000000000000000000000000000000000000000000000
          : ℝ),
          (-6132981244282813962611093737399597385810898829651475672740657008779040375141179384628886589445147107050015978505113858624908717637445578913091821357339334422639237144591419936894629649489
          / 500000000000000000000000000000000000000000000000000000000000000000000000000000000000000000000000000000000000000000000000000000000000000000000000000000000000000000000000000000000000
          : ℝ),
          (97139000172024260397031126195138451694943307412348227526266900012999347823264155729197555909509417961917120133663434933780345732431427070596467723380702358879861501811471123226981916769723
          / 6000000000000000000000000000000000000000000000000000000000000000000000000000000000000000000000000000000000000000000000000000000000000000000000000000000000000000000000000000000000000
          : ℝ),
          (-379797844518123557727002038390921258540948506565093126573813863220597414126668677895200472950594240015055456056254112106286498252330404082920707830096334808254844411816600555891129627497813
          / 18000000000000000000000000000000000000000000000000000000000000000000000000000000000000000000000000000000000000000000000000000000000000000000000000000000000000000000000000000000000000
          : ℝ),
          (40741264745400839531363421249774041577754795933731601959564628589076720129542314072822348827599664120076142434124786791479221754483655015923059637466822409909523458943814186811290903079171
          / 1500000000000000000000000000000000000000000000000000000000000000000000000000000000000000000000000000000000000000000000000000000000000000000000000000000000000000000000000000000000000
          : ℝ),
          (-69048295692412079525312195848609899537843106350076026387144869989778672107352509711511033016368779122672864501963822444101097298067107687440569889675640546870813968454399408139428564366521
          / 2000000000000000000000000000000000000000000000000000000000000000000000000000000000000000000000000000000000000000000000000000000000000000000000000000000000000000000000000000000000000
          : ℝ),
          (6236225687756256424738429749126607260526200293300682336316683089011749505066069111911352342467515180196948481346671724750106216698282000390572007748074842579605954430071572407205076161078273
          / 144000000000000000000000000000000000000000000000000000000000000000000000000000000000000000000000000000000000000000000000000000000000000000000000000000000000000000000000000000000000000
          : ℝ),
          (-214268689923286940542970261522275631361644947903171682798418054297782364096410550164268980590593072750872507340680048385925498670471995264202112681594167154249351367145844628080145866455933
          / 4000000000000000000000000000000000000000000000000000000000000000000000000000000000000000000000000000000000000000000000000000000000000000000000000000000000000000000000000000000000000
          : ℝ),
          (783293406149262121808589111268703158566663725207239253008507858082847699539541588933380959736228615732663227597403095621943722988382539857033576952301374817529851401778101633225579466113477
          / 12000000000000000000000000000000000000000000000000000000000000000000000000000000000000000000000000000000000000000000000000000000000000000000000000000000000000000000000000000000000000
          : ℝ),
          (-352305643568117090089268599666003533867976945725698906570257697558013532756359397344672120283575457348588364808113753804367228651723289690578238618482417729600195353425633309664402577539303
          / 4500000000000000000000000000000000000000000000000000000000000000000000000000000000000000000000000000000000000000000000000000000000000000000000000000000000000000000000000000000000000
          : ℝ),
          (18472160059827627562121584392591414746492634166997664367983252255038885459375278849135027545991153674957199593320268480951714111391019402934099709070706183022976770309703422720015603873579
          / 200000000000000000000000000000000000000000000000000000000000000000000000000000000000000000000000000000000000000000000000000000000000000000000000000000000000000000000000000000000000
          : ℝ),
          (-80353343360984979726126456705793887742523155110681143808902778189668069389518824817776290106063224093731626521167978769403443481650408878396504046513063459335578002449290168519635793675783
          / 750000000000000000000000000000000000000000000000000000000000000000000000000000000000000000000000000000000000000000000000000000000000000000000000000000000000000000000000000000000000
          : ℝ),
          (275751886333695726551103168250018640601345426312306694728469482200901960986322333755942797513380312231632940384919535416561020804884237119514598268214936144687134929885033119689787648163649
          / 2250000000000000000000000000000000000000000000000000000000000000000000000000000000000000000000000000000000000000000000000000000000000000000000000000000000000000000000000000000000000
          : ℝ),
          (-207171837510749040138557364925547751413977503879522317895579832226977379524700602052169024263697424769233502784464600120964058741528392687497149577573417296808664370267071738811
          / 1500000000000000000000000000000000000000000000000000000000000000000000000000000000000000000000000000000000000000000000000000000000000000000000000000000000000000000000000
          : ℝ),
          (3826850858241061182568705620564262726307816421092843112646135465735407827072449602086881033300408397154382390060048529716533036380485249068270329778342744440805929062534733097
          / 25000000000000000000000000000000000000000000000000000000000000000000000000000000000000000000000000000000000000000000000000000000000000000000000000000000000000000000000
          : ℝ),
          (-7493007528210161941977393450147897017617104186828374711585145064618603580670243884531537424560669154841138711148568613926796507493689299317749600164972892211782335014997107843
          / 45000000000000000000000000000000000000000000000000000000000000000000000000000000000000000000000000000000000000000000000000000000000000000000000000000000000000000000000
          : ℝ),
          (1419171329354433085519846883711981186324900871980010935415386492946955814854037225056130276591775011589432624269748266819971330291671566323236457291931042833099653
          / 8000000000000000000000000000000000000000000000000000000000000000000000000000000000000000000000000000000000000000000000000000000000000000000000000000000000
          : ℝ),
          (-221674136017509957706792689220883084828480570508078974103838665307090445425939642852053397563064977450910300017699867580717911031973575299619467291396113637379213
          / 1200000000000000000000000000000000000000000000000000000000000000000000000000000000000000000000000000000000000000000000000000000000000000000000000000000000
          : ℝ),
          (135163674133001806720673499303938497949245270083283113898489921342521334639109840200747563069094246294693701998256000786557786859610066294093722326413666298233667
          / 720000000000000000000000000000000000000000000000000000000000000000000000000000000000000000000000000000000000000000000000000000000000000000000000000000000
          : ℝ),
          (-71442284906116396872732744915259823182829400247857866345452957646146820278413934161044371698204820259129263390576245460544442236672702020209763681
          / 384000000000000000000000000000000000000000000000000000000000000000000000000000000000000000000000000000000000000000000000000000000000000000
          : ℝ),
          (719674105973981385884487210049406058682431435018969240039836779179107378753200997827300746739339715566963021915903202648530846585625791685079276327
          / 4000000000000000000000000000000000000000000000000000000000000000000000000000000000000000000000000000000000000000000000000000000000000000000
          : ℝ),
          (-408080776187730448118184978027635846048495109756590011783427238236556376665788183719407277229372935511435054703067745882804859143893028464438283947
          / 2400000000000000000000000000000000000000000000000000000000000000000000000000000000000000000000000000000000000000000000000000000000000000000
          : ℝ),
          (6026908838372994827366304827073597902488442064775520571356317628710119672159991644611550308522045680908329766297389676955034000828039527
          / 38400000000000000000000000000000000000000000000000000000000000000000000000000000000000000000000000000000000000000000000000000000
          : ℝ),
          (-268523511963347364238612870935106275901318936746716794246635289998367084034087296325010915791259222880379379472599151803185093046885041
          / 1920000000000000000000000000000000000000000000000000000000000000000000000000000000000000000000000000000000000000000000000000000
          : ℝ),
          (136981237744136511336007860570335653206760403426762924723412728157944601659917886979553223621932439655957012253826890407259923876923587
          / 1152000000000000000000000000000000000000000000000000000000000000000000000000000000000000000000000000000000000000000000000000000
          : ℝ),
          (-72995240538983830239671215940740404552914909730601933866731718415603976033763523382485203759117802948604345673019395500719
          / 768000000000000000000000000000000000000000000000000000000000000000000000000000000000000000000000000000000000000000
          : ℝ),
          (2686745981651161452076755155183871437634302830760955429574093722471964496166868944106002152570761334901911299257503316007
          / 38400000000000000000000000000000000000000000000000000000000000000000000000000000000000000000000000000000000000000
          : ℝ),
          (-588434615969275522793165897537434251416942620685954817923291073232036235647127524346628167417854665797719778082111706667
          / 12800000000000000000000000000000000000000000000000000000000000000000000000000000000000000000000000000000000000000
          : ℝ),
          (7857990587861107487731030216562798629498154130365724776808235205126388359044375530620299326905323524102418133
          / 307200000000000000000000000000000000000000000000000000000000000000000000000000000000000000000000000000
          : ℝ),
          (-55706709796931273387321470773804660462322952876078700798147824544282208965767811986536633208306854449187181
          / 5120000000000000000000000000000000000000000000000000000000000000000000000000000000000000000000000000
          : ℝ),
          (24955378574690590647547146815082413695018308645648110373963048838365082510351783157376482977063041375077569
          / 9216000000000000000000000000000000000000000000000000000000000000000000000000000000000000000000000000
          : ℝ)] := ⟨_, rfl⟩
  have hid : ((seriesPoly ρ + 1) ^ 2 / 2 + (seriesPoly ρ + 1) ^ 3 / 3 + (seriesPoly ρ + 1) ^ 4 / 8
      + (seriesPoly ρ + 1) ^ 5 / 30 + (seriesPoly ρ + 1) ^ 6 / 144) - 363916618873 / 133877442384 *
      ρ ^ 2 =
      ρ ^ 2 * List.foldr (fun b acc => b + ρ * acc) 0 l := by
    rw [seriesPoly_add_one, hl]
    simp only [List.foldr_cons, List.foldr_nil]
    ring
  have hb := horner_abs_le l ρ (33 / 1024) h0 h1
  have hk : List.foldr (fun b acc => |b| + (33 / 1024 : ℝ) * acc) 0 l ≤ 1 / 2 ^ 25 := by
    rw [hl]
    simp only [List.foldr_cons, List.foldr_nil]
    norm_num [abs_of_nonneg, abs_of_neg]
  rw [hid, abs_mul, abs_of_nonneg (pow_nonneg h0 2), div_eq_mul_inv, ← one_div]
  exact mul_le_mul_of_nonneg_left (le_trans hb hk) (pow_nonneg h0 2)

/-- An upper bound of `(1 - z) * exp z` on `[0, 1]` by the terms of its series up
to the sixth power. -/
theorem one_sub_mul_exp_le (z : ℝ) (h0 : 0 ≤ z) (h1 : z ≤ 1) :
    (1 - z) * Real.exp z ≤
      1 - (z ^ 2 / 2 + z ^ 3 / 3 + z ^ 4 / 8 + z ^ 5 / 30 + z ^ 6 / 144) := by
  have hs := Real.exp_bound' h0 h1 (n := 7) (by norm_num)
  have hs2 : Real.exp z ≤ 1 + z + z ^ 2 / 2 + z ^ 3 / 6 + z ^ 4 / 24 + z ^ 5 / 120 +
      z ^ 6 / 720 + z ^ 7 * (8 / 35280) := by
    have e : (∑ m ∈ Finset.range 7, z ^ m / (m.factorial : ℝ)) +
        z ^ 7 * ((7 : ℕ) + 1) / ((Nat.factorial 7 : ℕ) * (7 : ℕ)) =
        1 + z + z ^ 2 / 2 + z ^ 3 / 6 + z ^ 4 / 24 + z ^ 5 / 120 +
          z ^ 6 / 720 + z ^ 7 * (8 / 35280) := by
      simp [Finset.sum_range_succ, Nat.factorial]
      ring
    linarith
  have hm := mul_le_mul_of_nonneg_left hs2 (sub_nonneg.mpr h1)
  have p7 : 0 ≤ z ^ 7 := pow_nonneg h0 7
  have p8 : 0 ≤ z ^ 8 := pow_nonneg h0 8
  have e2 : (1 - z) * (1 + z + z ^ 2 / 2 + z ^ 3 / 6 + z ^ 4 / 24 + z ^ 5 / 120 +
      z ^ 6 / 720 + z ^ 7 * (8 / 35280)) =
      1 - (z ^ 2 / 2 + z ^ 3 / 3 + z ^ 4 / 8 + z ^ 5 / 30 + z ^ 6 / 144) -
        z ^ 7 * (41 / 35280) - z ^ 8 * (8 / 35280) := by ring
  rw [e2] at hm
  linarith only [hm, p7, p8]

/-- A lower bound of `(1 - z) * exp z` on `[0, 1]` by the terms of its series up
to the seventh power. -/
theorem le_one_sub_mul_exp (z : ℝ) (h0 : 0 ≤ z) (h1 : z ≤ 1) :
    1 - (z ^ 2 / 2 + z ^ 3 / 3 + z ^ 4 / 8 + z ^ 5 / 30 + z ^ 6 / 144) - z ^ 7 / 720 ≤
      (1 - z) * Real.exp z := by
  have hs := Real.sum_le_exp_of_nonneg h0 7
  have hs2 : 1 + z + z ^ 2 / 2 + z ^ 3 / 6 + z ^ 4 / 24 + z ^ 5 / 120 + z ^ 6 / 720 ≤
      Real.exp z := by
    have e : (∑ m ∈ Finset.range 7, z ^ m / (m.factorial : ℝ)) =
        1 + z + z ^ 2 / 2 + z ^ 3 / 6 + z ^ 4 / 24 + z ^ 5 / 120 + z ^ 6 / 720 := by
      simp [Finset.sum_range_succ, Nat.factorial]
    linarith
  have hm := mul_le_mul_of_nonneg_left hs2 (sub_nonneg.mpr h1)
  have e2 : (1 - z) * (1 + z + z ^ 2 / 2 + z ^ 3 / 6 + z ^ 4 / 24 + z ^ 5 / 120 +
      z ^ 6 / 720) =
      1 - (z ^ 2 / 2 + z ^ 3 / 3 + z ^ 4 / 8 + z ^ 5 / 30 + z ^ 6 / 144) - z ^ 7 / 720 := by
    ring
  rw [e2] at hm
  exact hm

/-- The first terms of the series of `1 - (1 - z) * exp z` grow at least by
`h * u` from `u` to `z >= u + h`. -/
theorem gp_add_le (u z h : ℝ) (hu : 0 ≤ u) (hh : 0 ≤ h) (hz : u + h ≤ z) :
    u ^ 2 / 2 + u ^ 3 / 3 + u ^ 4 / 8 + u ^ 5 / 30 + u ^ 6 / 144 + h * u ≤
      z ^ 2 / 2 + z ^ 3 / 3 + z ^ 4 / 8 + z ^ 5 / 30 + z ^ 6 / 144 := by
  have huz : u ≤ z := by linarith
  have p2 : (u + h) ^ 2 ≤ z ^ 2 := pow_le_pow_left₀ (by linarith) hz 2
  have p3 : u ^ 3 ≤ z ^ 3 := pow_le_pow_left₀ hu huz 3
  have p4 : u ^ 4 ≤ z ^ 4 := pow_le_pow_left₀ hu huz 4
  have p5 : u ^ 5 ≤ z ^ 5 := pow_le_pow_left₀ hu huz 5
  have p6 : u ^ 6 ≤ z ^ 6 := pow_le_pow_left₀ hu huz 6
  have e : (u + h) ^ 2 = u ^ 2 + 2 * (h * u) + h ^ 2 := by ring
  have hh2 : 0 ≤ h ^ 2 := sq_nonneg h
  rw [e] at p2
  linarith only [p2, p3, p4, p5, p6, hh2]

/-- The first terms of the series of `1 - (1 - z) * exp z` fall at least by
`h * u - h^2 / 2` from `u` to `z <= u - h`. -/
theorem gp_sub_le (u z h : ℝ) (hz0 : 0 ≤ z) (hh : 0 ≤ h) (hz : z ≤ u - h) :
    z ^ 2 / 2 + z ^ 3 / 3 + z ^ 4 / 8 + z ^ 5 / 30 + z ^ 6 / 144 ≤
      u ^ 2 / 2 + u ^ 3 / 3 + u ^ 4 / 8 + u ^ 5 / 30 + u ^ 6 / 144 - h * u + h ^ 2 / 2 := by
  have huz : z ≤ u := by linarith
  have p2 : z ^ 2 ≤ (u - h) ^ 2 := pow_le_pow_left₀ hz0 hz 2
  have p3 : z ^ 3 ≤ u ^ 3 := pow_le_pow_left₀ hz0 huz 3
  have p4 : z ^ 4 ≤ u ^ 4 := pow_le_pow_left₀ hz0 huz 4
  have p5 : z ^ 5 ≤ u ^ 5 := pow_le_pow_left₀ hz0 huz 5
  have p6 : z ^ 6 ≤ u ^ 6 := pow_le_pow_left₀ hz0 huz 6
  have e : (u - h) ^ 2 = u ^ 2 - 2 * (h * u) + h ^ 2 := by ring
  rw [e] at p2
  linarith only [p2, p3, p4, p5, p6]

/-- The function `w * exp(w)` at `z - 1`, in terms of `(1 - z) * exp z`. -/
theorem mul_exp_sub_one (z : ℝ) :
    (z - 1) * Real.exp (z - 1) * Real.exp 1 = -((1 - z) * Real.exp z) := by
  rw [Real.exp_sub]
  field_simp
  ring

set_option maxHeartbeats 400000 in
/-- The error of the series near the branch point, over the reals: when `q`
is within the fraction `2^(-50)` of `r^2`, `r` between `2^(-27)` and `33/1024`,
and `v` within `2^(-53)` of `seriesPoly(r)`, every `w >= -1` with
`w * exp(w) = q - c`, `c` the binary64 number `oneOverE`, is within `2^(-28)`
of `v`. -/
theorem branch_series_error (ρ q v w : ℝ) (hρ1 : 1 / 134217728 ≤ ρ) (hρ2 : ρ ≤ 33 / 1024)
    (hq1 : q ≤ ρ ^ 2 * (1 + 1 / 2 ^ 50)) (hq2 : ρ ^ 2 * (1 - 1 / 2 ^ 50) ≤ q)
    (hU1 : (9 / 4 - 1 / 2 ^ 51) * ρ ≤ seriesPoly ρ + 1) (hU2 : seriesPoly ρ + 1 ≤ 5 / 2 * ρ)
    (hv : |v + 1 - (seriesPoly ρ + 1)| ≤ 1 / 2 ^ 53)
    (hw1 : -1 ≤ w) (hw2 : w * Real.exp w = q - 828390857088487 / 2251799813685248) :
    |w - v| ≤ 1 / 2 ^ 28 := by
  have hρ0 : 0 ≤ ρ := le_trans (by norm_num) hρ1
  have hK := abs_le.mp (series_inverts ρ hρ0 hρ2)
  obtain ⟨hK1, hK2⟩ := hK
  obtain ⟨hv1, hv2⟩ := abs_le.mp hv
  generalize seriesPoly ρ + 1 = U at hU1 hU2 hv1 hv2 hK1 hK2
  have he := abs_sub_le_iff.1 Real.exp_one_near_20
  have hE1 : (363916618873 / 133877442384 : ℝ) - 1 / 10 ^ 20 ≤ Real.exp 1 := by
    linarith only [he.2]
  have hE2 : Real.exp 1 ≤ (363916618873 / 133877442384 : ℝ) + 1 / 10 ^ 20 := by
    linarith only [he.1]
  have hEpos : 0 < Real.exp 1 := Real.exp_pos 1
  have hρsq : ρ ^ 2 ≤ 33 / 1024 * ρ := by
    rw [pow_two]
    exact mul_le_mul_of_nonneg_right hρ2 hρ0
  have hρsq0 : 0 ≤ ρ ^ 2 := sq_nonneg ρ
  have hq0 : 0 ≤ q := by
    have : 0 ≤ ρ ^ 2 * (1 - 1 / 2 ^ 50) := mul_nonneg hρsq0 (by norm_num)
    linarith only [this, hq2]
  have hqE1 : q * ((363916618873 / 133877442384 : ℝ) - 1 / 10 ^ 20) ≤ q * Real.exp 1 :=
    mul_le_mul_of_nonneg_left hE1 hq0
  have hqE2 : q * Real.exp 1 ≤ q * ((363916618873 / 133877442384 : ℝ) + 1 / 10 ^ 20) :=
    mul_le_mul_of_nonneg_left hE2 hq0
  have hU0 : 0 ≤ U := by
    have : 0 ≤ (9 / 4 - 1 / 2 ^ 51 : ℝ) * ρ := mul_nonneg (by norm_num) hρ0
    linarith only [this, hU1]
  have hUmax : U ≤ 165 / 2048 := by linarith only [hU2, hρ2]
  rw [abs_le]
  constructor
  · -- `v - 2^(-28) <= w`
    by_contra hcon
    have hlt : w < v - 1 / 2 ^ 28 := by linarith only [not_le.mp hcon]
    have hf := mul_exp_lt w (v - 1 / 2 ^ 28) hw1 hlt
    obtain ⟨z, hz⟩ : ∃ z : ℝ, z = v - 1 / 2 ^ 28 + 1 := ⟨_, rfl⟩
    have hz1 : v - 1 / 2 ^ 28 = z - 1 := by rw [hz]; ring
    rw [hz1, hw2] at hf
    have hz0 : 0 ≤ z := by linarith only [hz, hlt, hw1]
    have hzU : z ≤ U - (1 / 2 ^ 28 - 1 / 2 ^ 53) := by linarith only [hz, hv2]
    have hzU' : z ≤ U := by
      norm_num at hzU
      linarith only [hzU]
    have hzle : z ≤ 1 := by linarith only [hzU', hUmax]
    have hf2 := mul_lt_mul_of_pos_right hf hEpos
    rw [mul_exp_sub_one] at hf2
    have hlow := le_one_sub_mul_exp z hz0 hzle
    have hg := gp_sub_le U z (1 / 2 ^ 28 - 1 / 2 ^ 53) hz0 (by norm_num) hzU
    have hz7 : z ^ 7 ≤ U ^ 7 := pow_le_pow_left₀ hz0 hzU' 7
    have hU7 : U ^ 7 ≤ (5 / 2) ^ 2 * (165 / 2048) ^ 5 * ρ ^ 2 := by
      have h5 : U ^ 5 ≤ (165 / 2048) ^ 5 := pow_le_pow_left₀ hU0 hUmax 5
      have h2 : U ^ 2 ≤ (5 / 2 * ρ) ^ 2 := pow_le_pow_left₀ hU0 hU2 2
      have h2' : 0 ≤ U ^ 2 := sq_nonneg U
      calc U ^ 7 = U ^ 2 * U ^ 5 := by ring
        _ ≤ (5 / 2 * ρ) ^ 2 * (165 / 2048) ^ 5 :=
            mul_le_mul h2 h5 (pow_nonneg hU0 5) (sq_nonneg _)
        _ = (5 / 2) ^ 2 * (165 / 2048) ^ 5 * ρ ^ 2 := by ring
    have hcE : 828390857088487 / 2251799813685248 * Real.exp 1 ≤
        828390857088487 / 2251799813685248 *
          ((363916618873 / 133877442384 : ℝ) + 1 / 10 ^ 20) :=
      mul_le_mul_of_nonneg_left hE2 (by norm_num)
    have hsplit : (q - 828390857088487 / 2251799813685248) * Real.exp 1 =
        q * Real.exp 1 - 828390857088487 / 2251799813685248 * Real.exp 1 := by ring
    rw [hsplit] at hf2
    norm_num at hU7 hg hcE hqE1 hq2 hK2 hU1 hρsq
    nlinarith only [hf2, hlow, hg, hz7, hU7, hcE, hqE1, hq2, hK2, hU1, hρsq, hρ1]
  · -- `w <= v + 2^(-28)`
    by_contra hcon
    have hlt : v + 1 / 2 ^ 28 < w := by linarith only [not_le.mp hcon]
    have hU1' : (1 / 67108864 : ℝ) ≤ U := by
      have : (9 / 4 - 1 / 2 ^ 51 : ℝ) * (1 / 134217728) ≤ (9 / 4 - 1 / 2 ^ 51) * ρ :=
        mul_le_mul_of_nonneg_left hρ1 (by norm_num)
      norm_num at this hU1 ⊢
      linarith only [this, hU1]
    have hvlo : -1 ≤ v + 1 / 2 ^ 28 := by
      norm_num at hv1 ⊢
      linarith only [hv1, hU1']
    have hf := mul_exp_lt (v + 1 / 2 ^ 28) w hvlo hlt
    obtain ⟨z, hz⟩ : ∃ z : ℝ, z = v + 1 / 2 ^ 28 + 1 := ⟨_, rfl⟩
    have hz1 : v + 1 / 2 ^ 28 = z - 1 := by rw [hz]; ring
    rw [hz1, hw2] at hf
    have hzU : U + (1 / 2 ^ 28 - 1 / 2 ^ 53) ≤ z := by linarith only [hz, hv1]
    have hz0 : 0 ≤ z := by
      norm_num at hzU
      linarith only [hzU, hU0]
    have hzle : z ≤ 1 := by
      norm_num at hv2
      linarith only [hz, hv2, hUmax]
    have hf2 := mul_lt_mul_of_pos_right hf hEpos
    rw [mul_exp_sub_one] at hf2
    have hup := one_sub_mul_exp_le z hz0 hzle
    have hg := gp_add_le U z (1 / 2 ^ 28 - 1 / 2 ^ 53) hU0 (by norm_num) hzU
    have hcE : 828390857088487 / 2251799813685248 *
          ((363916618873 / 133877442384 : ℝ) - 1 / 10 ^ 20) ≤
        828390857088487 / 2251799813685248 * Real.exp 1 :=
      mul_le_mul_of_nonneg_left hE1 (by norm_num)
    have hsplit : (q - 828390857088487 / 2251799813685248) * Real.exp 1 =
        q * Real.exp 1 - 828390857088487 / 2251799813685248 * Real.exp 1 := by ring
    rw [hsplit] at hf2
    norm_num at hg hcE hqE2 hq1 hK1 hU1 hρsq
    nlinarith only [hf2, hup, hg, hcE, hqE2, hq1, hK1, hU1, hρsq, hρ1]

/-- The function `w * exp(w)` is at least `-exp(-1)` from `w = -1` up. -/
theorem mul_exp_ge (w : ℝ) (hw : -1 ≤ w) : -Real.exp (-1) ≤ w * Real.exp w := by
  rcases eq_or_lt_of_le hw with h | h
  · rw [← h]
    simp
  · have := mul_exp_lt (-1) w (le_refl _) h
    linarith

set_option maxHeartbeats 400000 in
/-- The error of the series exit in binary64: for a binary64 number `x` with
`0 <= q < 1.0e-03` and a real `w >= -1` with `w * exp(w) = x`, the value
returned is within `2^(-28)` of `w`. -/
theorem series_exit_f64_error (fexp flog : ℝ → ℝ) (x w : ℝ) (hrep : round64 x = Ext.fin x)
    (hq0 : (f64ArithWith fexp flog).lt
      ((f64ArithWith fexp flog).add (Ext.fin x) (oneOverE (f64ArithWith fexp flog)))
      ((f64ArithWith fexp flog).lit 0) = false)
    (hq1 : (f64ArithWith fexp flog).lt
      ((f64ArithWith fexp flog).add (Ext.fin x) (oneOverE (f64ArithWith fexp flog)))
      ((f64ArithWith fexp flog).lit 1.0e-03) = true)
    (hw1 : -1 ≤ w) (hw2 : w * Real.exp w = x) :
    ∃ v, (GslSfLambertW0E (f64ArithWith fexp flog) (Ext.fin x)).Val = Ext.fin v ∧
      |w - v| ≤ 1 / 2 ^ 28 := by
  obtain ⟨N, ρ, t, m, v, hN, hq, hqu, hρ, hρl, hρu, htl, htu, hte, hm, hml, hmu, hv, hV, hvl, hvu⟩
      :=
    series_exit_f64_err fexp flog x hrep hq0 hq1
  refine ⟨v, hV, ?_⟩
  -- `x >= -exp(-1)`, and `oneOverE` is above `exp(-1)`, so `q > 0`
  have hxlo := mul_exp_ge w hw1
  rw [hw2] at hxlo
  have he := abs_sub_le_iff.1 Real.exp_one_near_20
  have hE1 : (363916618873 / 133877442384 : ℝ) - 1 / 10 ^ 20 ≤ Real.exp 1 := by
    linarith only [he.2]
  have hEpos : 0 < Real.exp 1 := Real.exp_pos 1
  have hinv : Real.exp (-1) < 828390857088487 / 2251799813685248 := by
    rw [Real.exp_neg, ← one_div, div_lt_iff₀ hEpos]
    have h1 : (828390857088487 / 2251799813685248 : ℝ) *
        ((363916618873 / 133877442384 : ℝ) - 1 / 10 ^ 20) ≤
        828390857088487 / 2251799813685248 * Real.exp 1 :=
      mul_le_mul_of_nonneg_left hE1 (by norm_num)
    have h2 : (1 : ℝ) < 828390857088487 / 2251799813685248 *
        ((363916618873 / 133877442384 : ℝ) - 1 / 10 ^ 20) := by norm_num
    linarith only [h1, h2]
  have hqpos : 0 < x + 828390857088487 / 2251799813685248 := by linarith only [hxlo, hinv]
  have hNpos : (1 : ℝ) ≤ (N : ℝ) := by
    have h1 : (0 : ℝ) < (N : ℝ) := by
      rw [hq] at hqpos
      by_contra hn
      have := div_nonpos_of_nonpos_of_nonneg (not_lt.mp hn)
        (show (0 : ℝ) ≤ 18014398509481984 by norm_num)
      linarith only [this, hqpos]
    have h2 : (0 : ℤ) < N := by exact_mod_cast h1
    have h3 : (1 : ℤ) ≤ N := h2
    exact_mod_cast h3
  have hqlo : (1 / 18014398509481984 : ℝ) ≤ x + 828390857088487 / 2251799813685248 := by
    rw [hq]
    exact div_le_div_of_nonneg_right hNpos (by norm_num)
  -- the exact root and the rounded root
  have hsl : (1 / 134217728 : ℝ) ≤ Real.sqrt (x + 828390857088487 / 2251799813685248) :=
    Real.le_sqrt_of_sq_le (by norm_num; linarith only [hqlo])
  have hsu : Real.sqrt (x + 828390857088487 / 2251799813685248) ≤ 33 / 1024 :=
    (Real.sqrt_le_left (by norm_num)).mpr (by norm_num; linarith only [hqu])
  have hsq := Real.sq_sqrt (show (0 : ℝ) ≤ x + 828390857088487 / 2251799813685248 from
    hqpos.le)
  have hρ1 : (1 / 134217728 : ℝ) ≤ ρ := by
    have := round64_fin_ge_pow _ ρ (-27) (by norm_num)
      (by norm_num; linarith only [hsl]) hρ
    norm_num at this
    linarith only [this]
  have hw3 : w * Real.exp w = x + 828390857088487 / 2251799813685248 -
      828390857088487 / 2251799813685248 := by
    rw [hw2]
    ring
  generalize x + 828390857088487 / 2251799813685248 = q at hw3 hsl hsu hsq hρ hqlo hqu
  generalize hs : Real.sqrt q = s at hsl hsu hsq hρ
  have hspos : 0 < s := lt_of_lt_of_le (by norm_num) hsl
  have hpl27 : (2 : ℝ) ^ (-1022 : ℤ) ≤ (2 : ℝ) ^ (-27 : ℤ) :=
    zpow_le_zpow_right₀ (by norm_num) (by norm_num)
  have hpu0 : (2 : ℝ) ^ (0 : ℤ) ≤ (2 : ℝ) ^ (1023 : ℤ) :=
    zpow_le_zpow_right₀ (by norm_num) (by norm_num)
  have e27 : (2 : ℝ) ^ (-27 : ℤ) = 1 / 134217728 := by norm_num
  rw [e27] at hpl27
  rw [zpow_zero] at hpu0
  obtain ⟨c1, hc1, he1⟩ := round64_rel s
    (by rw [abs_of_pos hspos]; exact le_trans hpl27 hsl)
    (by rw [abs_of_pos hspos]; exact lt_of_lt_of_le (by linarith only [hsu]) hpu0)
  rw [hρ] at hc1
  injection hc1 with hc1
  rw [← hc1, abs_of_pos hspos] at he1
  obtain ⟨hea, heb⟩ := abs_le.mp he1
  have hlo : (1 - 1 / 2 ^ 53) * s ≤ ρ := by linarith only [hea]
  have hhi : ρ ≤ (1 + 1 / 2 ^ 53) * s := by linarith only [heb]
  have hρ0 : 0 ≤ ρ := hρl
  have hqa : q ≤ ρ ^ 2 * (1 + 1 / 2 ^ 50) := by
    have h1 : ((1 - 1 / 2 ^ 53) * s) ^ 2 ≤ ρ ^ 2 :=
      pow_le_pow_left₀ (mul_nonneg (by norm_num) hspos.le) hlo 2
    rw [mul_pow, hsq] at h1
    have h2 : 0 ≤ q := le_trans (by norm_num) hqlo
    have h3 : q ≤ (1 + 1 / 2 ^ 50) * ((1 - 1 / 2 ^ 53) ^ 2 * q) := by
      have : (1 : ℝ) ≤ (1 + 1 / 2 ^ 50) * (1 - 1 / 2 ^ 53) ^ 2 := by norm_num
      nlinarith only [this, h2]
    have h4 : (1 + 1 / 2 ^ 50) * ((1 - 1 / 2 ^ 53) ^ 2 * q) ≤ (1 + 1 / 2 ^ 50 : ℝ) * ρ ^ 2 :=
      mul_le_mul_of_nonneg_left h1 (by norm_num)
    linarith only [h3, h4]
  have hqb : ρ ^ 2 * (1 - 1 / 2 ^ 50) ≤ q := by
    have h1 : ρ ^ 2 ≤ ((1 + 1 / 2 ^ 53) * s) ^ 2 := pow_le_pow_left₀ hρ0 hhi 2
    rw [mul_pow, hsq] at h1
    have h2 : 0 ≤ q := le_trans (by norm_num) hqlo
    have h3 : (1 - 1 / 2 ^ 50) * ((1 + 1 / 2 ^ 53) ^ 2 * q) ≤ q := by
      have : (1 - 1 / 2 ^ 50) * (1 + 1 / 2 ^ 53) ^ 2 ≤ (1 : ℝ) := by norm_num
      nlinarith only [this, h2]
    have h4 : (1 - 1 / 2 ^ 50 : ℝ) * ρ ^ 2 ≤ (1 - 1 / 2 ^ 50) * ((1 + 1 / 2 ^ 53) ^ 2 * q) :=
      mul_le_mul_of_nonneg_left h1 (by norm_num)
    linarith only [h3, h4]
  -- the polynomial against the product
  obtain ⟨hta, htb⟩ := abs_le.mp hte
  have hpl : 9 / 4 * ρ ≤ ρ * t := by
    rw [mul_comm]
    exact mul_le_mul_of_nonneg_left htl hρ0
  have hpu : ρ * t ≤ 19 / 8 * ρ := by
    rw [mul_comm (19 / 8 : ℝ)]
    exact mul_le_mul_of_nonneg_left htu hρ0
  have hU1 : (9 / 4 - 1 / 2 ^ 51) * ρ ≤ seriesPoly ρ + 1 := by linarith only [htb, hpl]
  have hU2 : seriesPoly ρ + 1 ≤ 5 / 2 * ρ := by
    norm_num at hta
    linarith only [hta, hpu, hρ0]
  -- the rounded product and the rounded sum
  obtain ⟨c2, hc2, he2⟩ := round64_err (ρ * t) (1 / 2 ^ 57) (-4) (by norm_num) (by norm_num)
    (by
      rw [abs_of_nonneg (le_trans (mul_nonneg (by norm_num) hρ0) hpl)]
      norm_num
      linarith only [hpu, hρu])
    (by norm_num)
  rw [hm] at hc2
  injection hc2 with hc2
  rw [← hc2] at he2
  have hmpos : (1 / 67108864 : ℝ) ≤ m := by
    have := round64_fin_ge_pow (ρ * t) m (-26) (by norm_num)
      (by norm_num; linarith only [hpl, hρ1]) hm
    norm_num at this
    linarith only [this]
  obtain ⟨c3, hc3, he3⟩ := round64_err (-1 + m) (1 / 2 ^ 54) (-1) (by norm_num) (by norm_num)
    (by
      rw [abs_of_neg (by linarith only [hmu])]
      norm_num
      linarith only [hmpos])
    (by norm_num)
  rw [hv] at hc3
  injection hc3 with hc3
  rw [← hc3] at he3
  have hvU : |v + 1 - (seriesPoly ρ + 1)| ≤ 1 / 2 ^ 53 := by
    obtain ⟨a1, a2⟩ := abs_le.mp he2
    obtain ⟨b1, b2⟩ := abs_le.mp he3
    have d1 : ρ / 2 ^ 51 ≤ 33 / 1024 / 2 ^ 51 := div_le_div_of_nonneg_right hρu (by norm_num)
    rw [abs_le]
    norm_num at a1 a2 b1 b2 d1 hta htb ⊢
    constructor
    · linarith only [a1, b1, hta, htb, d1]
    · linarith only [a2, b2, hta, htb, d1]
  exact branch_series_error ρ q v w hρ1 hρu hqa hqb hU1 hU2 hvU hw1 hw3

/-! ## Inputs of the direct exits and the input at infinity -/

/-- The binary64 number `-oneOverE + 2^(-54)`, next above `-oneOverE`, takes
the series exit in binary64. -/
theorem near_branch_dispatch (fexp flog : ℝ → ℝ) :
    round64 (-6627126856707895 / 18014398509481984 : ℝ) =
      Ext.fin (-6627126856707895 / 18014398509481984 : ℝ) ∧
    (f64ArithWith fexp flog).lt
      ((f64ArithWith fexp flog).add (Ext.fin (-6627126856707895 / 18014398509481984 : ℝ))
        (oneOverE (f64ArithWith fexp flog)))
      ((f64ArithWith fexp flog).lit 0) = false ∧
    (f64ArithWith fexp flog).lt
      ((f64ArithWith fexp flog).add (Ext.fin (-6627126856707895 / 18014398509481984 : ℝ))
        (oneOverE (f64ArithWith fexp flog)))
      ((f64ArithWith fexp flog).lit 1.0e-03) = true := by
  have hq : (f64ArithWith fexp flog).add (Ext.fin (-6627126856707895 / 18014398509481984 : ℝ))
      (oneOverE (f64ArithWith fexp flog)) = Ext.fin (1 / 18014398509481984 : ℝ) := by
    rw [f64_oneOverE, f64_add_fin]
    exact round64_of_pos _ _ (-54) 4503599627370496 (by norm_num) (by norm_num) (by norm_num)
      (by norm_num) (by norm_num) (by norm_num) (by norm_num)
  refine ⟨?_, ?_, ?_⟩
  · exact round64_of_neg _ _ (-2) (-6627126856707895) (by norm_num) (by norm_num)
      (by norm_num) (by norm_num) (by norm_num) (by norm_num) (by norm_num)
  · rw [hq, f64_lit_zero, f64_lt_fin, decide_eq_false_iff_not]
    norm_num
  · rw [hq, f64_milli, f64_lt_fin, decide_eq_true_eq]
    norm_num

/-- The binary64 number `-oneOverE + 2^(-53)` takes the series exit in
binary64. -/
theorem near_branch_dispatch_next (fexp flog : ℝ → ℝ) :
    round64 (-3313563428353947 / 9007199254740992 : ℝ) =
      Ext.fin (-3313563428353947 / 9007199254740992 : ℝ) ∧
    (f64ArithWith fexp flog).lt
      ((f64ArithWith fexp flog).add (Ext.fin (-3313563428353947 / 9007199254740992 : ℝ))
        (oneOverE (f64ArithWith fexp flog)))
      ((f64ArithWith fexp flog).lit 0) = false ∧
    (f64ArithWith fexp flog).lt
      ((f64ArithWith fexp flog).add (Ext.fin (-3313563428353947 / 9007199254740992 : ℝ))
        (oneOverE (f64ArithWith fexp flog)))
      ((f64ArithWith fexp flog).lit 1.0e-03) = true := by
  have hq : (f64ArithWith fexp flog).add (Ext.fin (-3313563428353947 / 9007199254740992 : ℝ))
      (oneOverE (f64ArithWith fexp flog)) = Ext.fin (1 / 9007199254740992 : ℝ) := by
    rw [f64_oneOverE, f64_add_fin]
    exact round64_of_pos _ _ (-53) 4503599627370496 (by norm_num) (by norm_num) (by norm_num)
      (by norm_num) (by norm_num) (by norm_num) (by norm_num)
  refine ⟨?_, ?_, ?_⟩
  · exact round64_of_neg _ _ (-2) (-6627126856707894) (by norm_num) (by norm_num)
      (by norm_num) (by norm_num) (by norm_num) (by norm_num) (by norm_num)
  · rw [hq, f64_lit_zero, f64_lt_fin, decide_eq_false_iff_not]
    norm_num
  · rw [hq, f64_milli, f64_lt_fin, decide_eq_true_eq]
    norm_num

/-- The run of `GslSfLambertW0E` in binary64 at `+Inf`: the initial guess is
`ln(+Inf) - ln(ln(+Inf)) = NaN`, no pass meets the convergence test, and the
fallback returns `Val = NaN` with `success = true`. -/
theorem GslSfLambertW0E_f64_pinf (fexp flog : ℝ → ℝ) :
    GslSfLambertW0E (f64ArithWith fexp flog) Ext.pinf =
      { Val := Ext.nan, err := Ext.nan, iters := 101, success := true } := by
  have hq : (f64ArithWith fexp flog).add Ext.pinf (oneOverE (f64ArithWith fexp flog)) =
      Ext.pinf := by
    rw [f64_oneOverE]
    rfl
  have hx : (f64ArithWith fexp flog).eq Ext.pinf ((f64ArithWith fexp flog).lit 0) = false := by
    rw [f64_lit_zero]
    rfl
  have hq0 : (f64ArithWith fexp flog).lt
      ((f64ArithWith fexp flog).add Ext.pinf (oneOverE (f64ArithWith fexp flog)))
      ((f64ArithWith fexp flog).lit 0) = false := by
    rw [hq, f64_lit_zero]
    rfl
  have hq1 : (f64ArithWith fexp flog).lt
      ((f64ArithWith fexp flog).add Ext.pinf (oneOverE (f64ArithWith fexp flog)))
      ((f64ArithWith fexp flog).lit 1.0e-03) = false := by
    rw [hq, f64_milli]
    rfl
  have hg : initialGuess (f64ArithWith fexp flog) Ext.pinf
      ((f64ArithWith fexp flog).add Ext.pinf (oneOverE (f64ArithWith fexp flog))) = Ext.nan := by
    have h1 : (f64ArithWith fexp flog).lt Ext.pinf ((f64ArithWith fexp flog).lit 1) = false := by
      rw [f64_lit_one]
      rfl
    have h3 : (f64ArithWith fexp flog).lt ((f64ArithWith fexp flog).lit 3) Ext.pinf = true := by
      rw [f64_lit_three]
      rfl
    have hl : (f64ArithWith fexp flog).log Ext.pinf = Ext.pinf := rfl
    have hs : (f64ArithWith fexp flog).sub Ext.pinf Ext.pinf = Ext.nan := rfl
    simp only [initialGuess, h1, h3, hl, hs, if_true, if_false, Bool.false_eq_true]
  rw [GslSfLambertW0E_refine _ _ hx hq0 hq1, hg]
  have hfail : ∀ k, k < 100 →
      (f64ArithWith fexp flog).lt
        ((f64ArithWith fexp flog).abs
          (halleyStep (f64ArithWith fexp flog) Ext.pinf
            (halleyIterate (f64ArithWith fexp flog) Ext.pinf k Ext.nan)).t)
        (halleyStep (f64ArithWith fexp flog) Ext.pinf
          (halleyIterate (f64ArithWith fexp flog) Ext.pinf k Ext.nan)).tol = false := by
    intro k _
    rw [halleyIterate_f64_nan, halleyStep_f64_nan]
    rfl
  unfold halleyInteration
  rw [show (100 : Int).toNat = 100 from rfl, halleyLoop_exhausted _ _ 100 1 _ hfail,
    halleyIterate_f64_nan]
  rfl

/-- Two reals from `-1` up with the same `w * exp(w)` are equal. -/
theorem mul_exp_inj (a b : ℝ) (ha : -1 ≤ a) (hb : -1 ≤ b)
    (h : a * Real.exp a = b * Real.exp b) : a = b := by
  rcases lt_trichotomy a b with h1 | h1 | h1
  · exact absurd h (ne_of_lt (mul_exp_lt a b ha h1))
  · exact h1
  · exact absurd h.symm (ne_of_lt (mul_exp_lt b a hb h1))

/-! ## A run of the refiner in binary64 with one failed pass -/

/-- The exponential of `-2^(-50)` rounds to `1 - 2^(-50)` in binary64. -/
theorem round64_exp_neg_pow :
    round64 (Real.exp (-1 / 1125899906842624)) =
      Ext.fin (1125899906842623 / 1125899906842624 : ℝ) := by
  have h1 : (-1 / 1125899906842624 : ℝ) + 1 ≤ Real.exp (-1 / 1125899906842624) :=
    Real.add_one_le_exp _
  have h2 : Real.exp (-1 / 1125899906842624) ≤ 1 / (1 + 1 / 1125899906842624) := by
    have h3 : (1 / 1125899906842624 : ℝ) + 1 ≤ Real.exp (1 / 1125899906842624) :=
      Real.add_one_le_exp _
    rw [show (-1 / 1125899906842624 : ℝ) = -(1 / 1125899906842624) by ring, Real.exp_neg,
      ← one_div]
    exact one_div_le_one_div_of_le (by norm_num) (by linarith only [h3])
  norm_num at h1 h2
  exact round64_of_pos _ _ (-1) 9007199254740984 (by norm_num)
    (by norm_num; linarith only [h1]) (by norm_num)
    (by norm_num; linarith only [h1]) (by norm_num; linarith only [h2]) (by norm_num)
    (by norm_num)

/-- The first pass of the refiner in binary64 for `x = 0` from `w = -2^(-50)`,
every operation evaluated: the correction is `-2^(-50)`, the new iterate 0
and the tolerance `2^(-52) * (1 + 2^(-49))`. -/
theorem halleyStep_f64_first_pass :
    halleyStep (f64ArithWith Real.exp Real.log) (Ext.fin 0)
        (Ext.fin (-1 / 1125899906842624 : ℝ)) =
      { t := Ext.fin (-1 / 1125899906842624 : ℝ), w := Ext.fin 0,
        tol := Ext.fin (562949953421313 / 2535301200456458802993406410752 : ℝ) } := by
  have hexp : (f64ArithWith Real.exp Real.log).exp (Ext.fin (-1 / 1125899906842624 : ℝ)) =
      Ext.fin (1125899906842623 / 1125899906842624 : ℝ) := by
    rw [f64_exp_fin, round64_exp_neg_pow]
  have hp : (f64ArithWith Real.exp Real.log).add (Ext.fin (-1 / 1125899906842624 : ℝ))
      (Ext.fin 1) = Ext.fin (1125899906842623 / 1125899906842624 : ℝ) :=
    round64_of_pos _ _ (-1) 9007199254740984 (by norm_num) (by norm_num) (by norm_num)
      (by norm_num) (by norm_num) (by norm_num) (by norm_num)
  have hwe : (f64ArithWith Real.exp Real.log).mul (Ext.fin (-1 / 1125899906842624 : ℝ))
      (Ext.fin (1125899906842623 / 1125899906842624 : ℝ)) =
      Ext.fin (-1125899906842623 / 1267650600228229401496703205376 : ℝ) :=
    round64_of_neg _ _ (-51) (-9007199254740984) (by norm_num) (by norm_num) (by norm_num)
      (by norm_num) (by norm_num) (by norm_num) (by norm_num)
  have ht0 : (f64ArithWith Real.exp Real.log).sub
      (Ext.fin (-1125899906842623 / 1267650600228229401496703205376 : ℝ)) (Ext.fin 0) =
      Ext.fin (-1125899906842623 / 1267650600228229401496703205376 : ℝ) :=
    round64_of_neg _ _ (-51) (-9007199254740984) (by norm_num) (by norm_num) (by norm_num)
      (by norm_num) (by norm_num) (by norm_num) (by norm_num)
  have hlt : (f64ArithWith Real.exp Real.log).lt (Ext.fin 0)
      (Ext.fin (-1 / 1125899906842624 : ℝ)) = false := by
    rw [f64_lt_fin, decide_eq_false_iff_not]
    norm_num
  have hep : (f64ArithWith Real.exp Real.log).mul
      (Ext.fin (1125899906842623 / 1125899906842624 : ℝ))
      (Ext.fin (1125899906842623 / 1125899906842624 : ℝ)) =
      Ext.fin (562949953421311 / 562949953421312 : ℝ) :=
    round64_of_pos _ _ (-1) 9007199254740976 (by norm_num) (by norm_num) (by norm_num)
      (by norm_num) (by norm_num) (by norm_num) (by norm_num)
  have hp1 : (f64ArithWith Real.exp Real.log).add
      (Ext.fin (1125899906842623 / 1125899906842624 : ℝ)) (Ext.fin 1) =
      Ext.fin (2251799813685247 / 1125899906842624 : ℝ) :=
    round64_of_pos _ _ 0 9007199254740988 (by norm_num) (by norm_num) (by norm_num)
      (by norm_num) (by norm_num) (by norm_num) (by norm_num)
  have hh : (f64ArithWith Real.exp Real.log).mul (Ext.fin (1 / 2))
      (Ext.fin (2251799813685247 / 1125899906842624 : ℝ)) =
      Ext.fin (2251799813685247 / 2251799813685248 : ℝ) :=
    round64_of_pos _ _ (-1) 9007199254740988 (by norm_num) (by norm_num) (by norm_num)
      (by norm_num) (by norm_num) (by norm_num) (by norm_num)
  have hht : (f64ArithWith Real.exp Real.log).mul
      (Ext.fin (2251799813685247 / 2251799813685248 : ℝ))
      (Ext.fin (-1125899906842623 / 1267650600228229401496703205376 : ℝ)) =
      Ext.fin (-2251799813685245 / 2535301200456458802993406410752 : ℝ) :=
    round64_of_neg _ _ (-51) (-9007199254740980) (by norm_num) (by norm_num) (by norm_num)
      (by norm_num) (by norm_num) (by norm_num) (by norm_num)
  have hhtp : (f64ArithWith Real.exp Real.log).div
      (Ext.fin (-2251799813685245 / 2535301200456458802993406410752 : ℝ))
      (Ext.fin (1125899906842623 / 1125899906842624 : ℝ)) =
      Ext.fin (-2251799813685247 / 2535301200456458802993406410752 : ℝ) := by
    rw [f64_div_fin _ _ _ _ (by norm_num)]
    exact round64_of_neg _ _ (-51) (-9007199254740988) (by norm_num) (by norm_num)
      (by norm_num) (by norm_num) (by norm_num) (by norm_num) (by norm_num)
  have hd : (f64ArithWith Real.exp Real.log).sub
      (Ext.fin (562949953421311 / 562949953421312 : ℝ))
      (Ext.fin (-2251799813685247 / 2535301200456458802993406410752 : ℝ)) =
      Ext.fin (1125899906842623 / 1125899906842624 : ℝ) :=
    round64_of_pos _ _ (-1) 9007199254740984 (by norm_num) (by norm_num) (by norm_num)
      (by norm_num) (by norm_num) (by norm_num) (by norm_num)
  have ht : (f64ArithWith Real.exp Real.log).div
      (Ext.fin (-1125899906842623 / 1267650600228229401496703205376 : ℝ))
      (Ext.fin (1125899906842623 / 1125899906842624 : ℝ)) =
      Ext.fin (-1 / 1125899906842624 : ℝ) := by
    rw [f64_div_fin _ _ _ _ (by norm_num)]
    exact round64_of_neg _ _ (-50) (-4503599627370496) (by norm_num) (by norm_num)
      (by norm_num) (by norm_num) (by norm_num) (by norm_num) (by norm_num)
  have hw : (f64ArithWith Real.exp Real.log).sub (Ext.fin (-1 / 1125899906842624 : ℝ))
      (Ext.fin (-1 / 1125899906842624 : ℝ)) = Ext.fin 0 := f64_sub_self _ _ _
  have habsw : (f64ArithWith Real.exp Real.log).abs (Ext.fin 0) = Ext.fin 0 := by
    show Ext.fin |(0 : ℝ)| = _
    rw [abs_zero]
  have habsp : (f64ArithWith Real.exp Real.log).abs
      (Ext.fin (1125899906842623 / 1125899906842624 : ℝ)) =
      Ext.fin (1125899906842623 / 1125899906842624 : ℝ) := by
    show Ext.fin |(1125899906842623 / 1125899906842624 : ℝ)| = _
    rw [abs_of_pos (by norm_num)]
  have hinv : (f64ArithWith Real.exp Real.log).div (Ext.fin 1)
      (Ext.fin (562949953421311 / 562949953421312 : ℝ)) =
      Ext.fin (562949953421313 / 562949953421312 : ℝ) := by
    rw [f64_div_fin _ _ _ _ (by norm_num)]
    exact round64_of_pos _ _ 0 4503599627370504 (by norm_num) (by norm_num)
      (by norm_num) (by norm_num) (by norm_num) (by norm_num) (by norm_num)
  have hmax : (f64ArithWith Real.exp Real.log).max (Ext.fin 0)
      (Ext.fin (562949953421313 / 562949953421312 : ℝ)) =
      Ext.fin (562949953421313 / 562949953421312 : ℝ) := by
    show Ext.fin (Max.max (0 : ℝ) (562949953421313 / 562949953421312)) = _
    rw [max_eq_right (by norm_num)]
  have htol : (f64ArithWith Real.exp Real.log).mul (Ext.fin (1 / 4503599627370496))
      (Ext.fin (562949953421313 / 562949953421312 : ℝ)) =
      Ext.fin (562949953421313 / 2535301200456458802993406410752 : ℝ) :=
    round64_of_pos _ _ (-52) 4503599627370504 (by norm_num) (by norm_num) (by norm_num)
      (by norm_num) (by norm_num) (by norm_num) (by norm_num)
  simp only [halleyStep]
  rw [f64_lit_zero, f64_lit_one, f64_lit_half, f64_epsilon, hexp, hp, hwe, ht0, hlt,
    if_neg (by simp), hep, hp1, hh, hht, hhtp, hd, ht, hw, habsw, habsp, hep, hinv, hmax, htol]

/-- The pass of the refiner in binary64 for `x = 0` from `w = 0`, every
operation evaluated: correction 0, new iterate 0, tolerance `2^(-52)`. -/
theorem halleyStep_f64_second_pass :
    halleyStep (f64ArithWith Real.exp Real.log) (Ext.fin 0) (Ext.fin 0) =
      { t := Ext.fin 0, w := Ext.fin 0, tol := Ext.fin (1 / 4503599627370496 : ℝ) } := by
  have hone : round64 (1 : ℝ) = Ext.fin 1 :=
    round64_of_pos _ _ 0 4503599627370496 (by norm_num) (by norm_num) (by norm_num)
      (by norm_num) (by norm_num) (by norm_num) (by norm_num)
  have hexp : (f64ArithWith Real.exp Real.log).exp (Ext.fin 0) = Ext.fin 1 := by
    rw [f64_exp_fin, Real.exp_zero, hone]
  have hp : (f64ArithWith Real.exp Real.log).add (Ext.fin 0) (Ext.fin 1) = Ext.fin 1 := by
    rw [f64_add_fin, zero_add, hone]
  have hwe : (f64ArithWith Real.exp Real.log).mul (Ext.fin 0) (Ext.fin 1) = Ext.fin 0 := by
    rw [f64_mul_fin, zero_mul, round64_zero]
  have ht0 : (f64ArithWith Real.exp Real.log).sub (Ext.fin 0) (Ext.fin 0) = Ext.fin 0 :=
    f64_sub_self _ _ _
  have hlt : (f64ArithWith Real.exp Real.log).lt (Ext.fin 0) (Ext.fin 0) = false := by
    rw [f64_lt_fin, decide_eq_false_iff_not]
    norm_num
  have hep : (f64ArithWith Real.exp Real.log).mul (Ext.fin 1) (Ext.fin 1) = Ext.fin 1 := by
    rw [f64_mul_fin, one_mul, hone]
  have hp1 : (f64ArithWith Real.exp Real.log).add (Ext.fin 1) (Ext.fin 1) = Ext.fin 2 := by
    rw [f64_add_fin]
    exact round64_of_pos _ _ 1 4503599627370496 (by norm_num) (by norm_num) (by norm_num)
      (by norm_num) (by norm_num) (by norm_num) (by norm_num)
  have hh : (f64ArithWith Real.exp Real.log).mul (Ext.fin (1 / 2)) (Ext.fin 2) = Ext.fin 1 := by
    rw [f64_mul_fin, show (1 / 2 : ℝ) * 2 = 1 by norm_num, hone]
  have hht : (f64ArithWith Real.exp Real.log).mul (Ext.fin 1) (Ext.fin 0) = Ext.fin 0 := by
    rw [f64_mul_fin, mul_zero, round64_zero]
  have hhtp : (f64ArithWith Real.exp Real.log).div (Ext.fin 0) (Ext.fin 1) = Ext.fin 0 :=
    f64_zero_div _ _ _ (by norm_num)
  have hd : (f64ArithWith Real.exp Real.log).sub (Ext.fin 1) (Ext.fin 0) = Ext.fin 1 :=
    f64_sub_zero _ _ _ hone
  have habs : (f64ArithWith Real.exp Real.log).abs (Ext.fin 0) = Ext.fin 0 := by
    show Ext.fin |(0 : ℝ)| = _
    rw [abs_zero]
  have habsp : (f64ArithWith Real.exp Real.log).abs (Ext.fin 1) = Ext.fin 1 := by
    show Ext.fin |(1 : ℝ)| = _
    rw [abs_one]
  have hinv : (f64ArithWith Real.exp Real.log).div (Ext.fin 1) (Ext.fin 1) = Ext.fin 1 := by
    rw [f64_div_fin _ _ _ _ (by norm_num), div_one, hone]
  have hmax : (f64ArithWith Real.exp Real.log).max (Ext.fin 0) (Ext.fin 1) = Ext.fin 1 := by
    show Ext.fin (Max.max (0 : ℝ) 1) = _
    rw [max_eq_right (by norm_num)]
  have htol : (f64ArithWith Real.exp Real.log).mul (Ext.fin (1 / 4503599627370496))
      (Ext.fin 1) = Ext.fin (1 / 4503599627370496 : ℝ) := by
    rw [f64_mul_fin, mul_one]
    exact round64_of_pos _ _ (-52) 4503599627370496 (by norm_num) (by norm_num) (by norm_num)
      (by norm_num) (by norm_num) (by norm_num) (by norm_num)
  simp only [halleyStep]
  rw [f64_lit_zero, f64_lit_one, f64_lit_half, f64_epsilon, hexp, hp, hwe, ht0, hlt,
    if_neg (by simp), hep, hp1, hh, hht, hhtp, hd, hhtp, ht0, habs, habsp, hep, hinv, hmax,
    htol]

/-! ## Claims -/

/-- C1.  The flag `success` is false exactly when `q = x + 1/e` tests below
zero; every other exit (the `x == 0` exit, the series, both exits of the
refiner) reports success.  The arithmetic is only asked that an input equal to
zero does not have `q < 0`. -/
theorem GslSfLambertW0E_success_eq_false_iff {F : Type} (A : Arith F)
    (h0 : ∀ x, A.eq x (A.lit 0) = true → A.lt (A.add x (oneOverE A)) (A.lit 0) = false)
    (x : F) :
    (GslSfLambertW0E A x).success = false ↔
      A.lt (A.add x (oneOverE A)) (A.lit 0) = true := by
  unfold GslSfLambertW0E
  by_cases hx : A.eq x (A.lit 0) = true
  · simp [hx, h0 x hx]
  · by_cases hq : A.lt (A.add x (oneOverE A)) (A.lit 0) = true
    · simp [hx, hq]
    · by_cases hs : A.lt (A.add x (oneOverE A)) (A.lit 1.0e-03) = true
      · simp [hx, hq, hs]
      · simp [hx, hq, hs, halleyInteration_success]

/-- C1 at concrete inputs of exact real arithmetic: `x = -1` fails, `x = 1`
succeeds. -/
theorem GslSfLambertW0E_success_eq_false_iff_witness :
    ((GslSfLambertW0E realArith (-1)).success = false ↔
      realArith.lt (realArith.add (-1) (oneOverE realArith)) (realArith.lit 0) = true) ∧
    (GslSfLambertW0E realArith (-1)).success = false ∧
    (GslSfLambertW0E realArith 1).success = true := by
  have h := GslSfLambertW0E_success_eq_false_iff realArith realArith_zero_not_neg
  refine ⟨h (-1), (h (-1)).2 ?_, ?_⟩
  · simp only [realArith, oneOverE, mathE, decide_eq_true_eq]
    norm_num
  · have h1 : ¬ (GslSfLambertW0E realArith 1).success = false := by
      rw [h 1]
      simp only [realArith, oneOverE, mathE, decide_eq_true_eq]
      norm_num
    simpa using h1

/-- C2.  When `q = x + 1/e` tests below zero the function returns the record
`Val = -1`, `err = sqrt(-q)`, `iters = 0`, `success = false`.  The arithmetic
is only asked that an input equal to zero does not have `q < 0`. -/
theorem GslSfLambertW0E_domain_error {F : Type} (A : Arith F)
    (h0 : ∀ x, A.eq x (A.lit 0) = true → A.lt (A.add x (oneOverE A)) (A.lit 0) = false)
    (x : F) (hq : A.lt (A.add x (oneOverE A)) (A.lit 0) = true) :
    GslSfLambertW0E A x =
      { Val := A.lit (-1), err := A.sqrt (A.neg (A.add x (oneOverE A))),
        iters := 0, success := false } := by
  have hx : ¬ A.eq x (A.lit 0) = true := fun h => by
    rw [h0 x h] at hq
    exact Bool.false_ne_true hq
  simp [GslSfLambertW0E, hx, hq]

/-- C2 at the input `x = -1` of exact real arithmetic, where `q = -1 + 1/e` is
below zero. -/
theorem GslSfLambertW0E_domain_error_witness :
    realArith.lt (realArith.add (-1) (oneOverE realArith)) (realArith.lit 0) = true ∧
    GslSfLambertW0E realArith (-1) =
      { Val := realArith.lit (-1),
        err := realArith.sqrt (realArith.neg (realArith.add (-1) (oneOverE realArith))),
        iters := 0, success := false } := by
  have hq : realArith.lt (realArith.add (-1) (oneOverE realArith)) (realArith.lit 0) = true := by
    simp only [realArith, oneOverE, mathE, decide_eq_true_eq]
    norm_num
  exact ⟨hq, GslSfLambertW0E_domain_error realArith realArith_zero_not_neg (-1) hq⟩

/-- C3.  At the input zero the function returns exactly the record `Val = 0`,
`err = 0`, `iters = 0`, `success = true`.  The arithmetic is only asked that
zero compares equal to itself. -/
theorem GslSfLambertW0E_zero {F : Type} (A : Arith F)
    (h0 : A.eq (A.lit 0) (A.lit 0) = true) :
    GslSfLambertW0E A (A.lit 0) =
      { Val := A.lit 0, err := A.lit 0, iters := 0, success := true } := by
  simp [GslSfLambertW0E, h0]

/-- C3 in exact real arithmetic. -/
theorem GslSfLambertW0E_zero_witness :
    GslSfLambertW0E realArith 0 = { Val := 0, err := 0, iters := 0, success := true } := by
  have h := GslSfLambertW0E_zero realArith (by simp [realArith])
  simpa [realArith] using h

/-- C4 (as stated, refuted).  The input `x = -0.3` does not take the
domain-error exit: its `success` flag is not false. -/
theorem neg_three_tenths_not_domain_error :
    ¬ (GslSfLambertW0E realArith (realArith.lit (-0.3))).success = false := by
  obtain ⟨hx, hq, hs⟩ := realArith_neg_three_tenths_dispatch
  rw [GslSfLambertW0E_refine realArith _ hx hq hs, halleyInteration_success]
  exact Bool.noConfusion

/-- C4 (amended).  For `x = -0.3` the shifted input `q = x + 1/e` is about
0.0679, above the series threshold, so the input goes to the refiner (seeded
with the initial guess, capped at 100 passes) and `success` is true. -/
theorem GslSfLambertW0E_neg_three_tenths :
    ((0.0678 : ℝ) < realArith.add (realArith.lit (-0.3)) (oneOverE realArith) ∧
      realArith.add (realArith.lit (-0.3)) (oneOverE realArith) < (0.0679 : ℝ)) ∧
    GslSfLambertW0E realArith (realArith.lit (-0.3)) =
      halleyInteration realArith (realArith.lit (-0.3))
        (initialGuess realArith (realArith.lit (-0.3))
          (realArith.add (realArith.lit (-0.3)) (oneOverE realArith))) 100 ∧
    (GslSfLambertW0E realArith (realArith.lit (-0.3))).success = true := by
  obtain ⟨hx, hq, hs⟩ := realArith_neg_three_tenths_dispatch
  refine ⟨realArith_q_neg_three_tenths, GslSfLambertW0E_refine realArith _ hx hq hs, ?_⟩
  rw [GslSfLambertW0E_refine realArith _ hx hq hs]
  exact halleyInteration_success _ _ _ _

/-- C5 (what the code does).  When `halleyInteration` makes all `maxIters`
passes and the convergence test passes in none of them, it returns the last
iterate as `Val`, its absolute value as `err`, `success = true`, and as
`iters` the loop counter after the loop, which is `maxIters + 1`: one more
than the number of passes made. -/
theorem halleyInteration_exhausted {F : Type} (A : Arith F) (x w : F) (maxIters : Nat)
    (h : ∀ k, k < maxIters →
      A.lt (A.abs (halleyStep A x (halleyIterate A x k w)).t)
        (halleyStep A x (halleyIterate A x k w)).tol = false) :
    halleyInteration A x w (maxIters : Int) =
      { Val := halleyIterate A x maxIters w, err := A.abs (halleyIterate A x maxIters w),
        iters := (maxIters : Int) + 1, success := true } := by
  unfold halleyInteration
  rw [Int.toNat_ofNat, halleyLoop_exhausted A x maxIters 1 w h, add_comm (1 : Int)]

/-- C5 at a NaN input: none of the 100 passes meets the convergence test and
the counter returned is 101, by `halleyInteration` and by `GslSfLambertW0E`. -/
theorem halleyInteration_exhausted_witness :
    (∀ k, k < 100 →
      (withNaN realArith).lt
        ((withNaN realArith).abs
          (halleyStep (withNaN realArith) none (halleyIterate (withNaN realArith) none k none)).t)
        (halleyStep (withNaN realArith) none (halleyIterate (withNaN realArith) none k none)).tol
        = false) ∧
    halleyInteration (withNaN realArith) none none 100 =
      { Val := none, err := none, iters := 101, success := true } ∧
    (GslSfLambertW0E (withNaN realArith) none).iters = 101 := by
  have hn : ∀ k, k < 100 →
      (withNaN realArith).lt
        ((withNaN realArith).abs
          (halleyStep (withNaN realArith) none (halleyIterate (withNaN realArith) none k none)).t)
        (halleyStep (withNaN realArith) none (halleyIterate (withNaN realArith) none k none)).tol
        = false :=
    fun k _ => halleyStep_nan_not_converged realArith none k
  refine ⟨hn, ?_, by rw [GslSfLambertW0E_nan]⟩
  have h := halleyInteration_exhausted (withNaN realArith) none none 100 hn
  rw [halleyIterate_nan] at h
  simpa [withNaN] using h

/-- C6.  When `q = x + 1/e` passes the test `q < 1.0e-03` and not the test
`q < 0`, the function returns `Val = seriesEval(sqrt(q))`,
`err = 2 * EPS * |Val|`, `iters = 0`, `success = true`; the refiner is not
called.  The arithmetic is only asked that an input equal to zero does not
have `q < 1.0e-03`. -/
theorem GslSfLambertW0E_series {F : Type} (A : Arith F)
    (h0 : ∀ x, A.eq x (A.lit 0) = true →
      A.lt (A.add x (oneOverE A)) (A.lit 1.0e-03) = false)
    (x : F) (hq0 : A.lt (A.add x (oneOverE A)) (A.lit 0) = false)
    (hq1 : A.lt (A.add x (oneOverE A)) (A.lit 1.0e-03) = true) :
    GslSfLambertW0E A x =
      { Val := seriesEval A (A.sqrt (A.add x (oneOverE A))),
        err := A.mul (A.mul (A.lit 2) (gslDblEpsilon A))
          (A.abs (seriesEval A (A.sqrt (A.add x (oneOverE A))))),
        iters := 0, success := true } := by
  have hx : ¬ A.eq x (A.lit 0) = true := fun h => by
    rw [h0 x h] at hq1
    exact Bool.false_ne_true hq1
  simp [GslSfLambertW0E, hx, hq0, hq1]

/-- C6 at the input `x = -0.3675` of exact real arithmetic, where
`q = x + 1/e` is about 0.00038. -/
theorem GslSfLambertW0E_series_witness :
    (realArith.lt (realArith.add (realArith.lit (-0.3675)) (oneOverE realArith))
        (realArith.lit 0) = false ∧
      realArith.lt (realArith.add (realArith.lit (-0.3675)) (oneOverE realArith))
        (realArith.lit 1.0e-03) = true) ∧
    GslSfLambertW0E realArith (realArith.lit (-0.3675)) =
      { Val := seriesEval realArith
          (realArith.sqrt (realArith.add (realArith.lit (-0.3675)) (oneOverE realArith))),
        err := realArith.mul (realArith.mul (realArith.lit 2) (gslDblEpsilon realArith))
          (realArith.abs (seriesEval realArith
            (realArith.sqrt (realArith.add (realArith.lit (-0.3675)) (oneOverE realArith))))),
        iters := 0, success := true } := by
  have hq0 : realArith.lt (realArith.add (realArith.lit (-0.3675)) (oneOverE realArith))
      (realArith.lit 0) = false := by
    simp only [realArith, oneOverE, mathE, decide_eq_false_iff_not]
    norm_num
  have hq1 : realArith.lt (realArith.add (realArith.lit (-0.3675)) (oneOverE realArith))
      (realArith.lit 1.0e-03) = true := by
    simp only [realArith, oneOverE, mathE, decide_eq_true_eq]
    norm_num
  exact ⟨⟨hq0, hq1⟩,
    GslSfLambertW0E_series realArith realArith_zero_not_small _ hq0 hq1⟩

/-- C7 (as stated, refuted).  The binary64 number `x = -oneOverE + 2^(-54)`,
next above `-oneOverE`, is at least `-1/e`, so `W0(x)` exists; in binary64 the
function takes the series exit with `q = 2^(-54)` and returns
`Val = -1 + 78236989 * 2^(-52)` (about `-1 + 1.74e-8`) with
`err = 2 * EPS * |Val|` (about `4.4e-16`), while every real `w >= -1` with
`w * exp(w) = x` is below `-1 + 9 * 2^(-29)` (about `-1 + 1.68e-8`): the error
`|W0(x) - Val|` exceeds `err`. -/
theorem near_branch_error_exceeds_estimate :
    -Real.exp (-1) ≤ (-6627126856707895 / 18014398509481984 : ℝ) ∧
    GslSfLambertW0E f64Arith (Ext.fin (-6627126856707895 / 18014398509481984 : ℝ)) =
      { Val := Ext.fin (-4503599549133507 / 4503599627370496 : ℝ),
        err := Ext.fin (4503599549133507 / 10141204801825835211973625643008 : ℝ),
        iters := 0, success := true } ∧
    (∃ w : ℝ, -1 ≤ w ∧ w * Real.exp w = -6627126856707895 / 18014398509481984) ∧
    ∀ w : ℝ, -1 ≤ w → w * Real.exp w = -6627126856707895 / 18014398509481984 →
      (4503599549133507 / 10141204801825835211973625643008 : ℝ) <
        |w - -4503599549133507 / 4503599627370496| := by
  refine ⟨near_branch_in_domain, GslSfLambertW0E_f64_near_branch Real.exp Real.log,
    (exists_unique_W0 _ near_branch_in_domain).exists, ?_⟩
  intro w hw1 hw2
  have hlt : w < -1 + 9 / 536870912 := by
    by_contra hge
    have h1 := mul_exp_near_branch
    rcases eq_or_lt_of_le (not_lt.mp hge) with h | h
    · rw [h, hw2] at h1
      exact lt_irrefl _ h1
    · have h2 := mul_exp_lt (-1 + 9 / 536870912) w (by norm_num) h
      rw [hw2] at h2
      exact lt_irrefl _ (lt_trans h1 h2)
  rw [abs_of_neg (by linarith only [hlt])]
  linarith only [hlt]

/-- C7 (amended).  In binary64, for every binary64 number `x` that takes a
direct exit with success (`x == 0`, or the series exit `0 <= q < 1.0e-03`) and
every real `w >= -1` with `w * exp(w) = x`: `w` is the only such real, that is
`W0(x)`, and the value returned is a finite number within `2^(-28)` of it; at
`x == 0` the value is `W0(0)` itself and `err` is 0, so there the bound
`|W0(x) - Val| <= err` holds. -/
theorem GslSfLambertW0E_direct_error (fexp flog : ℝ → ℝ) (x w : ℝ)
    (hrep : round64 x = Ext.fin x) (hw1 : -1 ≤ w) (hw2 : w * Real.exp w = x)
    (hd : (f64ArithWith fexp flog).eq (Ext.fin x) ((f64ArithWith fexp flog).lit 0) = true ∨
      ((f64ArithWith fexp flog).lt
          ((f64ArithWith fexp flog).add (Ext.fin x) (oneOverE (f64ArithWith fexp flog)))
          ((f64ArithWith fexp flog).lit 0) = false ∧
        (f64ArithWith fexp flog).lt
          ((f64ArithWith fexp flog).add (Ext.fin x) (oneOverE (f64ArithWith fexp flog)))
          ((f64ArithWith fexp flog).lit 1.0e-03) = true)) :
    (∀ w2 : ℝ, -1 ≤ w2 → w2 * Real.exp w2 = x → w2 = w) ∧
    ∃ v, (GslSfLambertW0E (f64ArithWith fexp flog) (Ext.fin x)).Val = Ext.fin v ∧
      |w - v| ≤ 1 / 2 ^ 28 ∧
      ((f64ArithWith fexp flog).eq (Ext.fin x) ((f64ArithWith fexp flog).lit 0) = true →
        v = w ∧ (GslSfLambertW0E (f64ArithWith fexp flog) (Ext.fin x)).err = Ext.fin 0) := by
  refine ⟨fun w2 h1 h2 => mul_exp_inj w2 w h1 hw1 (by rw [h2, hw2]), ?_⟩
  by_cases hx : (f64ArithWith fexp flog).eq (Ext.fin x) ((f64ArithWith fexp flog).lit 0) = true
  · have hx0 : x = 0 := by
      have h := hx
      rw [f64_lit_zero, f64_eq_fin, decide_eq_true_eq] at h
      exact h
    have hw0 : w = 0 := by
      rw [hx0] at hw2
      rcases mul_eq_zero.mp hw2 with h | h
      · exact h
      · exact absurd h (Real.exp_pos w).ne'
    have hres : GslSfLambertW0E (f64ArithWith fexp flog) (Ext.fin x) =
        { Val := Ext.fin 0, err := Ext.fin 0, iters := 0, success := true } := by
      simp only [GslSfLambertW0E, hx, if_true]
      rw [f64_lit_zero]
    refine ⟨0, by rw [hres], by rw [hw0]; norm_num, fun _ => ⟨hw0.symm, by rw [hres]⟩⟩
  · rcases hd with h | ⟨hq0, hq1⟩
    · exact absurd h hx
    · obtain ⟨v, hv, he⟩ := series_exit_f64_error fexp flog x w hrep hq0 hq1 hw1 hw2
      exact ⟨v, hv, he, fun h => absurd h hx⟩

/-- C7 (amended), witnesses: the input 0, where `W0(0) = 0`, and the input
`-oneOverE + 2^(-54)` of the series exit, at which the bound by `err` fails. -/
theorem GslSfLambertW0E_direct_error_witness :
    (round64 (0 : ℝ) = Ext.fin 0 ∧ (-1 : ℝ) ≤ 0 ∧ (0 : ℝ) * Real.exp 0 = 0 ∧
      f64Arith.eq (Ext.fin 0) (f64Arith.lit 0) = true ∧
      ∃ v, (GslSfLambertW0E f64Arith (Ext.fin 0)).Val = Ext.fin v ∧ |(0 : ℝ) - v| ≤ 1 / 2 ^ 28 ∧
        (f64Arith.eq (Ext.fin 0) (f64Arith.lit 0) = true →
          v = 0 ∧ (GslSfLambertW0E f64Arith (Ext.fin 0)).err = Ext.fin 0)) ∧
    ∃ w : ℝ, -1 ≤ w ∧ w * Real.exp w = -6627126856707895 / 18014398509481984 ∧
      ∃ v, (GslSfLambertW0E f64Arith
          (Ext.fin (-6627126856707895 / 18014398509481984 : ℝ))).Val = Ext.fin v ∧
        |w - v| ≤ 1 / 2 ^ 28 := by
  have hz : (f64ArithWith Real.exp Real.log).eq (Ext.fin 0)
      ((f64ArithWith Real.exp Real.log).lit 0) = true := by
    rw [f64_lit_zero, f64_eq_fin]
    simp
  constructor
  · exact ⟨round64_zero, by norm_num, by simp, hz,
      (GslSfLambertW0E_direct_error Real.exp Real.log 0 0 round64_zero (by norm_num) (by simp)
        (Or.inl hz)).2⟩
  · obtain ⟨w, hw1, hw2⟩ := (exists_unique_W0 _ near_branch_in_domain).exists
    obtain ⟨hrep, hq0, hq1⟩ := near_branch_dispatch Real.exp Real.log
    obtain ⟨v, hv, he, _⟩ := (GslSfLambertW0E_direct_error Real.exp Real.log _ w hrep hw1 hw2
      (Or.inr ⟨hq0, hq1⟩)).2
    exact ⟨w, hw1, hw2, v, hv, he⟩

/-- C8 (as stated, refuted).  In binary64 the inputs `x1 = 1 < x2 = +Inf` both
have `x + 1/e >= 0`, yet the value returned at `+Inf` is NaN, so the comparison
`value(x1) <= value(x2)` is false. -/
theorem pinf_input_value_not_ge :
    f64Arith.lt (Ext.fin 1) Ext.pinf = true ∧
    f64Arith.ge (f64Arith.add (Ext.fin 1) (oneOverE f64Arith)) (f64Arith.lit 0) = true ∧
    f64Arith.ge (f64Arith.add Ext.pinf (oneOverE f64Arith)) (f64Arith.lit 0) = true ∧
    (GslSfLambertW0E f64Arith Ext.pinf).Val = Ext.nan ∧
    f64Arith.ge (GslSfLambertW0E f64Arith Ext.pinf).Val
      (GslSfLambertW0E f64Arith (Ext.fin 1)).Val = false := by
  unfold f64Arith
  have hq1 : (f64ArithWith Real.exp Real.log).ge
      ((f64ArithWith Real.exp Real.log).add (Ext.fin 1)
        (oneOverE (f64ArithWith Real.exp Real.log)))
      ((f64ArithWith Real.exp Real.log).lit 0) = true := by
    obtain ⟨c, hc, hcl, _⟩ := round64_mem (1 + 828390857088487 / 2251799813685248) 1 2
      (-20) 1048576 2097152 (by norm_num) (by norm_num) (by norm_num) (by norm_num)
      (by norm_num) (by norm_num) (by norm_num) (by norm_num)
    rw [f64_oneOverE, f64_add_fin, hc, f64_lit_zero, f64_ge_fin, decide_eq_true_eq]
    linarith only [hcl]
  have hq2 : (f64ArithWith Real.exp Real.log).ge
      ((f64ArithWith Real.exp Real.log).add Ext.pinf
        (oneOverE (f64ArithWith Real.exp Real.log)))
      ((f64ArithWith Real.exp Real.log).lit 0) = true := by
    rw [f64_oneOverE, f64_lit_zero]
    rfl
  refine ⟨rfl, hq1, hq2, by rw [GslSfLambertW0E_f64_pinf], ?_⟩
  rw [GslSfLambertW0E_f64_pinf]
  simp only [Arith.ge, f64_lt_nan_right, Bool.false_or]
  rfl

/-- C8 (amended).  In binary64, for all binary64 numbers `x1 < x2` that both
take a direct exit with success (`x == 0`, or the series exit
`0 <= q < 1.0e-03`), the value returned for `x1` is at most the value returned
for `x2`: the test `value(x2) >= value(x1)` is true, within the series exit
and across the `x == 0` special case. -/
theorem GslSfLambertW0E_direct_mono (fexp flog : ℝ → ℝ) (x1 x2 : ℝ)
    (hrep1 : round64 x1 = Ext.fin x1) (hrep2 : round64 x2 = Ext.fin x2)
    (hlt : (f64ArithWith fexp flog).lt (Ext.fin x1) (Ext.fin x2) = true)
    (hd1 : (f64ArithWith fexp flog).eq (Ext.fin x1) ((f64ArithWith fexp flog).lit 0) = true ∨
      ((f64ArithWith fexp flog).lt
          ((f64ArithWith fexp flog).add (Ext.fin x1) (oneOverE (f64ArithWith fexp flog)))
          ((f64ArithWith fexp flog).lit 0) = false ∧
        (f64ArithWith fexp flog).lt
          ((f64ArithWith fexp flog).add (Ext.fin x1) (oneOverE (f64ArithWith fexp flog)))
          ((f64ArithWith fexp flog).lit 1.0e-03) = true))
    (hd2 : (f64ArithWith fexp flog).eq (Ext.fin x2) ((f64ArithWith fexp flog).lit 0) = true ∨
      ((f64ArithWith fexp flog).lt
          ((f64ArithWith fexp flog).add (Ext.fin x2) (oneOverE (f64ArithWith fexp flog)))
          ((f64ArithWith fexp flog).lit 0) = false ∧
        (f64ArithWith fexp flog).lt
          ((f64ArithWith fexp flog).add (Ext.fin x2) (oneOverE (f64ArithWith fexp flog)))
          ((f64ArithWith fexp flog).lit 1.0e-03) = true)) :
    (f64ArithWith fexp flog).ge (GslSfLambertW0E (f64ArithWith fexp flog) (Ext.fin x2)).Val
      (GslSfLambertW0E (f64ArithWith fexp flog) (Ext.fin x1)).Val = true := by
  have hlt' : x1 < x2 := by
    rw [f64_lt_fin, decide_eq_true_eq] at hlt
    exact hlt
  have hzero : ∀ x : ℝ,
      (f64ArithWith fexp flog).eq (Ext.fin x) ((f64ArithWith fexp flog).lit 0) = true →
      x = 0 ∧ (GslSfLambertW0E (f64ArithWith fexp flog) (Ext.fin x)).Val = Ext.fin 0 := by
    intro x hx
    refine ⟨?_, ?_⟩
    · have h := hx
      rw [f64_lit_zero, f64_eq_fin, decide_eq_true_eq] at h
      exact h
    · simp only [GslSfLambertW0E, hx, if_true]
      rw [f64_lit_zero]
  have hseries : ∀ x : ℝ, round64 x = Ext.fin x →
      (f64ArithWith fexp flog).lt
        ((f64ArithWith fexp flog).add (Ext.fin x) (oneOverE (f64ArithWith fexp flog)))
        ((f64ArithWith fexp flog).lit 0) = false →
      (f64ArithWith fexp flog).lt
        ((f64ArithWith fexp flog).add (Ext.fin x) (oneOverE (f64ArithWith fexp flog)))
        ((f64ArithWith fexp flog).lit 1.0e-03) = true →
      x < 0 ∧ ∃ v, (GslSfLambertW0E (f64ArithWith fexp flog) (Ext.fin x)).Val = Ext.fin v ∧
        v ≤ 0 := by
    intro x hrep hq0 hq1
    obtain ⟨N, ρ, t, m, v, hN, hq, hqu, hρ, hρl, hρu, htl, htu, hte, hm, hml, hmu, hv, hV, hvl,
      hvu⟩ := series_exit_f64_err fexp flog x hrep hq0 hq1
    exact ⟨by linarith only [hqu], v, hV, by linarith only [hvu]⟩
  rcases hd1 with h1 | ⟨ha0, ha1⟩
  · obtain ⟨hx1, _⟩ := hzero x1 h1
    rcases hd2 with h2 | ⟨hb0, hb1⟩
    · obtain ⟨hx2, _⟩ := hzero x2 h2
      rw [hx1, hx2] at hlt'
      exact absurd hlt' (lt_irrefl _)
    · obtain ⟨hx2, _⟩ := hseries x2 hrep2 hb0 hb1
      rw [hx1] at hlt'
      exact absurd hlt' (not_lt.mpr hx2.le)
  · rcases hd2 with h2 | ⟨hb0, hb1⟩
    · obtain ⟨_, v1, hv1, hle⟩ := hseries x1 hrep1 ha0 ha1
      obtain ⟨_, hv2⟩ := hzero x2 h2
      rw [hv1, hv2, f64_ge_fin, decide_eq_true_eq]
      exact hle
    · obtain ⟨v1, v2, hv1, hv2, hle⟩ :=
        series_exit_f64_mono fexp flog x1 x2 hrep1 hrep2 hlt' ha0 ha1 hb0 hb1
      rw [hv1, hv2, f64_ge_fin, decide_eq_true_eq]
      exact hle

/-- C8 (amended), witness: the two binary64 numbers next above `-oneOverE`,
`-oneOverE + 2^(-54) < -oneOverE + 2^(-53)`, both of the series exit. -/
theorem GslSfLambertW0E_direct_mono_witness :
    f64Arith.lt (Ext.fin (-6627126856707895 / 18014398509481984 : ℝ))
      (Ext.fin (-3313563428353947 / 9007199254740992 : ℝ)) = true ∧
    f64Arith.lt (f64Arith.add (Ext.fin (-6627126856707895 / 18014398509481984 : ℝ))
      (oneOverE f64Arith)) (f64Arith.lit 1.0e-03) = true ∧
    f64Arith.lt (f64Arith.add (Ext.fin (-3313563428353947 / 9007199254740992 : ℝ))
      (oneOverE f64Arith)) (f64Arith.lit 1.0e-03) = true ∧
    f64Arith.ge
      (GslSfLambertW0E f64Arith (Ext.fin (-3313563428353947 / 9007199254740992 : ℝ))).Val
      (GslSfLambertW0E f64Arith (Ext.fin (-6627126856707895 / 18014398509481984 : ℝ))).Val =
      true := by
  obtain ⟨hrep1, ha0, ha1⟩ := near_branch_dispatch Real.exp Real.log
  obtain ⟨hrep2, hb0, hb1⟩ := near_branch_dispatch_next Real.exp Real.log
  have hlt : (f64ArithWith Real.exp Real.log).lt
      (Ext.fin (-6627126856707895 / 18014398509481984 : ℝ))
      (Ext.fin (-3313563428353947 / 9007199254740992 : ℝ)) = true := by
    rw [f64_lt_fin, decide_eq_true_eq]
    norm_num
  exact ⟨hlt, ha1, hb1, GslSfLambertW0E_direct_mono Real.exp Real.log _ _ hrep1 hrep2 hlt
    (Or.inr ⟨ha0, ha1⟩) (Or.inr ⟨hb0, hb1⟩)⟩

/-- C9 (as stated, refuted).  At a NaN input the function reports success
with a NaN error estimate, and NaN does not pass the test `err >= 0`. -/
theorem nan_input_err_not_nonneg :
    (GslSfLambertW0E (withNaN realArith) none).success = true ∧
    (withNaN realArith).nonneg (GslSfLambertW0E (withNaN realArith) none).err = false := by
  rw [GslSfLambertW0E_nan]
  simp [Arith.nonneg, withNaN]

/-- C9 (amended).  Whenever the function reports success its error estimate
is never below zero: the test `err < 0` fails on the `x == 0` exit, the
series exit and both exits of the refiner, in every arithmetic that satisfies
the sign laws. -/
theorem GslSfLambertW0E_err_not_neg {F : Type} (A : Arith F) (hA : A.SignLaws) (x : F)
    (hs : (GslSfLambertW0E A x).success = true) :
    A.lt (GslSfLambertW0E A x).err (A.lit 0) = false := by
  unfold GslSfLambertW0E at hs ⊢
  by_cases hx : A.eq x (A.lit 0) = true
  · simp only [hx, if_true]
    exact hA.lit_not_neg 0 (le_refl 0)
  · by_cases hq : A.lt (A.add x (oneOverE A)) (A.lit 0) = true
    · simp [hx, hq] at hs
    · by_cases hsm : A.lt (A.add x (oneOverE A)) (A.lit 1.0e-03) = true
      · simp only [hx, hq, hsm, if_true, if_false]
        exact hA.mul_not_neg _ _
          (hA.mul_not_neg _ _ (hA.lit_not_neg 2 (by norm_num))
            (hA.lit_not_neg _ (by norm_num)))
          (hA.abs_not_neg _)
      · simp only [hx, hq, hsm, if_false]
        exact halleyLoop_err_not_neg A hA x _ _ _

/-- C9 (amended) at the input `x = 1` of exact real arithmetic and at the NaN
input of the same arithmetic with a NaN adjoined. -/
theorem GslSfLambertW0E_err_not_neg_witness :
    ((GslSfLambertW0E realArith 1).success = true ∧
      realArith.lt (GslSfLambertW0E realArith 1).err (realArith.lit 0) = false) ∧
    ((GslSfLambertW0E (withNaN realArith) none).success = true ∧
      (withNaN realArith).lt (GslSfLambertW0E (withNaN realArith) none).err
        ((withNaN realArith).lit 0) = false) := by
  obtain ⟨hx, hq, hs⟩ := realArith_one_dispatch
  have hsucc : (GslSfLambertW0E realArith 1).success = true := by
    rw [GslSfLambertW0E_refine realArith 1 hx hq hs]
    exact halleyInteration_success _ _ _ _
  have hnan : (GslSfLambertW0E (withNaN realArith) none).success = true := by
    rw [GslSfLambertW0E_nan]
  exact ⟨⟨hsucc, GslSfLambertW0E_err_not_neg realArith realArith_signLaws 1 hsucc⟩,
    hnan, GslSfLambertW0E_err_not_neg (withNaN realArith)
      (withNaN_signLaws realArith realArith_signLaws) none hnan⟩

/-- C10.  The counter `iters` is 0 exactly on the direct exits, that is when
`x == 0` or `q = x + 1/e` passes the test `q < 1.0e-03` (which covers the
domain error and the series); when neither holds the refiner runs and `iters`
is at least 1.  The arithmetic is only asked that a value below zero is below
`1.0e-03`. -/
theorem GslSfLambertW0E_iters {F : Type} (A : Arith F)
    (hneg : ∀ y, A.lt y (A.lit 0) = true → A.lt y (A.lit 1.0e-03) = true) (x : F) :
    ((GslSfLambertW0E A x).iters = 0 ↔
      (A.eq x (A.lit 0) = true ∨ A.lt (A.add x (oneOverE A)) (A.lit 1.0e-03) = true)) ∧
    ((A.eq x (A.lit 0) = false ∧ A.lt (A.add x (oneOverE A)) (A.lit 1.0e-03) = false) →
      1 ≤ (GslSfLambertW0E A x).iters) := by
  by_cases hx : A.eq x (A.lit 0) = true
  · simp [GslSfLambertW0E, hx]
  · by_cases hq : A.lt (A.add x (oneOverE A)) (A.lit 0) = true
    · simp [GslSfLambertW0E, hx, hq, hneg _ hq]
    · by_cases hsm : A.lt (A.add x (oneOverE A)) (A.lit 1.0e-03) = true
      · simp [GslSfLambertW0E, hx, hq, hsm]
      · have hpos := halleyInteration_iters_pos A x
          (initialGuess A x (A.add x (oneOverE A))) 100
        rw [Bool.not_eq_true] at hx hq hsm
        rw [GslSfLambertW0E_refine A x hx hq hsm]
        refine ⟨⟨fun h => ?_, fun h => ?_⟩, fun _ => hpos⟩
        · omega
        · rcases h with h | h
          · rw [hx] at h
            exact absurd h Bool.false_ne_true
          · rw [hsm] at h
            exact absurd h Bool.false_ne_true

/-- C10 at the inputs `x = 1` (refiner, at least one pass counted) and `x = 0`
(direct exit, counter 0) of exact real arithmetic. -/
theorem GslSfLambertW0E_iters_witness :
    1 ≤ (GslSfLambertW0E realArith 1).iters ∧
    (GslSfLambertW0E realArith 0).iters = 0 := by
  have hneg : ∀ y, realArith.lt y (realArith.lit 0) = true →
      realArith.lt y (realArith.lit 1.0e-03) = true := by
    intro y
    simp only [realArith, decide_eq_true_eq]
    intro hy
    have : (0 : ℝ) < ((1.0e-03 : ℚ) : ℝ) := by norm_num
    push_cast at hy
    linarith
  obtain ⟨hx, _, hs⟩ := realArith_one_dispatch
  refine ⟨(GslSfLambertW0E_iters realArith hneg 1).2 ⟨hx, hs⟩, ?_⟩
  exact (GslSfLambertW0E_iters realArith hneg 0).1.2 (Or.inl (by simp [realArith]))

/-- C11.  An input that is not zero and whose `q = x + 1/e` does not pass the
test `q < 1.0e-03` is handed to `halleyInteration` with the cap 100 and the
seed `-1 + p*(1 + p*(-1/3 + p*11/72))`, `p = sqrt(2*e*q)`, when `x < 1`; the
seed `ln(x)` when neither `x < 1` nor `x > 3`; the seed `ln(x) - ln(ln(x))`
when `x > 3`.  The arithmetic is only asked that a value below zero is below
`1.0e-03` and that a value above 3 is not below 1. -/
theorem GslSfLambertW0E_seed {F : Type} (A : Arith F)
    (hneg : ∀ y, A.lt y (A.lit 0) = true → A.lt y (A.lit 1.0e-03) = true)
    (h31 : ∀ y, A.lt (A.lit 3) y = true → A.lt y (A.lit 1) = false)
    (x : F) (hx : A.eq x (A.lit 0) = false)
    (hq : A.lt (A.add x (oneOverE A)) (A.lit 1.0e-03) = false) :
    (A.lt x (A.lit 1) = true →
      GslSfLambertW0E A x = halleyInteration A x
        (A.add (A.lit (-1))
          (A.mul (A.sqrt (A.mul (A.lit (2 * mathE)) (A.add x (oneOverE A))))
            (A.add (A.lit 1)
              (A.mul (A.sqrt (A.mul (A.lit (2 * mathE)) (A.add x (oneOverE A))))
                (A.add (A.lit (-1 / 3))
                  (A.div
                    (A.mul (A.sqrt (A.mul (A.lit (2 * mathE)) (A.add x (oneOverE A))))
                      (A.lit 11))
                    (A.lit 72))))))) 100) ∧
    (A.lt x (A.lit 1) = false → A.lt (A.lit 3) x = false →
      GslSfLambertW0E A x = halleyInteration A x (A.log x) 100) ∧
    (A.lt (A.lit 3) x = true →
      GslSfLambertW0E A x = halleyInteration A x (A.sub (A.log x) (A.log (A.log x))) 100) := by
  have hq0 : A.lt (A.add x (oneOverE A)) (A.lit 0) = false := by
    cases h : A.lt (A.add x (oneOverE A)) (A.lit 0)
    · rfl
    · rw [hneg _ h] at hq
      exact absurd hq (by decide)
  rw [GslSfLambertW0E_refine A x hx hq0 hq]
  refine ⟨fun h1 => ?_, fun h1 h3 => ?_, fun h3 => ?_⟩
  · simp [initialGuess, h1]
  · simp [initialGuess, h1, h3]
  · simp [initialGuess, h31 x h3, h3]

/-- C11 at the inputs `x = 1/2` (cubic seed), `x = 2` (seed `ln 2`) and
`x = 10` (seed `ln 10 - ln (ln 10)`) of exact real arithmetic. -/
theorem GslSfLambertW0E_seed_witness :
    GslSfLambertW0E realArith (realArith.lit 10) =
      halleyInteration realArith (realArith.lit 10)
        (realArith.sub (realArith.log (realArith.lit 10))
          (realArith.log (realArith.log (realArith.lit 10)))) 100 ∧
    GslSfLambertW0E realArith (realArith.lit 2) =
      halleyInteration realArith (realArith.lit 2) (realArith.log (realArith.lit 2)) 100 ∧
    (GslSfLambertW0E realArith (realArith.lit (1 / 2))).success = true := by
  have h10 := realArith_lit_dispatch 10 (by norm_num) (by norm_num [mathE])
  have h2 := realArith_lit_dispatch 2 (by norm_num) (by norm_num [mathE])
  have hh := realArith_lit_dispatch (1 / 2) (by norm_num) (by norm_num [mathE])
  refine ⟨?_, ?_, ?_⟩
  · exact (GslSfLambertW0E_seed realArith realArith_neg_lt_small
      realArith_three_lt_not_lt_one _ h10.1 h10.2).2.2
      (by simp only [realArith, decide_eq_true_eq]; norm_num)
  · exact (GslSfLambertW0E_seed realArith realArith_neg_lt_small
      realArith_three_lt_not_lt_one _ h2.1 h2.2).2.1
      (by simp only [realArith, decide_eq_false_iff_not]; norm_num)
      (by simp only [realArith, decide_eq_false_iff_not]; norm_num)
  · rw [(GslSfLambertW0E_seed realArith realArith_neg_lt_small
      realArith_three_lt_not_lt_one _ hh.1 hh.2).1
      (by simp only [realArith, decide_eq_true_eq]; norm_num)]
    exact halleyInteration_success _ _ _ _

/-- C12.  Over the reals the nested evaluation of `seriesEval` (stages `t8`,
`t5`, `t1`) equals the polynomial of degree 11 with the twelve coefficients of
the source, the sum of `c[k] * r^k` over `k = 0 .. 11`. -/
theorem seriesEval_eq_seriesPoly (r : ℝ) : seriesEval realArith r = seriesPoly r := by
  simp only [seriesEval, realArith, seriesPoly, Finset.sum_range_succ, Finset.sum_range_zero,
    seriesCoeff]
  push_cast
  ring

/-- C13.  At the branch point, the input `x = -oneOverE` for which `q = 0`,
exact real arithmetic returns `Val = -1`, `err = 2 * EPS`, `iters = 0`,
`success = true`. -/
theorem GslSfLambertW0E_branch_point :
    GslSfLambertW0E realArith (realArith.neg (oneOverE realArith)) =
      { Val := realArith.lit (-1),
        err := realArith.mul (realArith.lit 2) (gslDblEpsilon realArith),
        iters := 0, success := true } := by
  have hq : realArith.add (realArith.neg (oneOverE realArith)) (oneOverE realArith) = 0 := by
    simp [realArith]
  have hx : ¬ realArith.eq (realArith.neg (oneOverE realArith)) (realArith.lit 0) = true := by
    simp only [realArith, oneOverE, mathE, decide_eq_true_eq]
    norm_num
  have h0 : ¬ realArith.lt (0 : ℝ) (realArith.lit 0) = true := by
    simp [realArith]
  have h1 : realArith.lt (0 : ℝ) (realArith.lit 1.0e-03) = true := by
    simp only [realArith, decide_eq_true_eq]
    norm_num
  have hs : seriesEval realArith (realArith.sqrt 0) = -1 := by
    simp [seriesEval, realArith]
  simp only [GslSfLambertW0E, hq, hx, h0, h1, if_true, if_false, hs]
  simp [realArith]

/-- C14.  For `1 ≤ k ≤ maxIters`, `halleyInteration` returns the counter `k`
exactly when the convergence test `|t| < tol` fails at each of the passes
`1 .. k-1` and passes at pass `k`; it then returns as `Val` the `k`-th iterate
from the initial guess, as `err` twice the tolerance of pass `k`, and
success; this in every arithmetic.  In exact real arithmetic the pass is the
one the specification words: `t` the Newton correction when `w > 0` and the
Halley correction otherwise, `w := w - t`,
`tol = EPS * max(|w_new|, 1/(|w_old + 1| * e^w_old))`. -/
theorem halleyInteration_converged {F : Type} (A : Arith F) (x w0 : F) (maxIters k : Int)
    (hk1 : 1 ≤ k) (hk2 : k ≤ maxIters) :
    ((halleyInteration A x w0 maxIters).iters = k ↔
      ((∀ j, j + 1 < k.toNat →
          A.lt (A.abs (halleyStep A x (halleyIterate A x j w0)).t)
            (halleyStep A x (halleyIterate A x j w0)).tol = false) ∧
        A.lt (A.abs (halleyStep A x (halleyIterate A x (k.toNat - 1) w0)).t)
          (halleyStep A x (halleyIterate A x (k.toNat - 1) w0)).tol = true)) ∧
    ((halleyInteration A x w0 maxIters).iters = k →
      halleyInteration A x w0 maxIters =
        { Val := halleyIterate A x k.toNat w0,
          err := A.mul (A.lit 2) (halleyStep A x (halleyIterate A x (k.toNat - 1) w0)).tol,
          iters := k, success := true }) ∧
    (∀ y w : ℝ, halleyStep realArith y w =
      { t := specCorrection y w,
        w := w - specCorrection y w,
        tol := gslDblEpsilon realArith *
          Max.max |w - specCorrection y w| (1 / (|w + 1| * Real.exp w)) }) := by
  refine ⟨?_, ?_, halleyStep_realArith⟩
  · unfold halleyInteration
    rcases halleyLoop_cases A x maxIters.toNat 1 w0 with ⟨m, hm, hfail, hpass, hres⟩ | ⟨hfail, hres⟩
    · rw [hres]
      simp only
      constructor
      · intro h
        have hkm : k.toNat = m + 1 := by omega
        rw [hkm]
        exact ⟨fun j hj => hfail j (by omega), by simpa using hpass⟩
      · rintro ⟨hf, hp⟩
        have h1 : ¬ m < k.toNat - 1 := fun hlt => by
          have := hf m (by omega)
          rw [hpass] at this
          exact Bool.noConfusion this
        have h2 : ¬ k.toNat - 1 < m := fun hlt => by
          have := hfail (k.toNat - 1) hlt
          rw [hp] at this
          exact Bool.noConfusion this
        omega
    · rw [hres]
      simp only
      constructor
      · intro h
        omega
      · rintro ⟨_, hp⟩
        have := hfail (k.toNat - 1) (by omega)
        rw [hp] at this
        exact Bool.noConfusion this
  · intro h
    unfold halleyInteration at h ⊢
    rcases halleyLoop_cases A x maxIters.toNat 1 w0 with ⟨m, hm, hfail, hpass, hres⟩ | ⟨_, hres⟩
    · rw [hres] at h ⊢
      simp only at h
      have hkm : k.toNat = m + 1 := by omega
      rw [hkm]
      simp only [Nat.add_sub_cancel, result.mk.injEq, true_and, and_true]
      omega
    · rw [hres] at h
      simp only at h
      omega

/-- C14 on a run of binary64 with one failed pass: for `x = 0` from
`w0 = -2^(-50)` the first pass has correction `-2^(-50)`, not below its
tolerance `2^(-52) * (1 + 2^(-49))`, and leaves the iterate 0; the second
pass has correction 0, below its tolerance `2^(-52)`; so the counter returned
is 2, `Val` is the second iterate, 0, and `err` twice the tolerance of pass 2,
`2^(-51)`. -/
theorem halleyInteration_converged_witness :
    f64Arith.lt (f64Arith.abs (halleyStep f64Arith (Ext.fin 0)
        (Ext.fin (-1 / 1125899906842624 : ℝ))).t)
      (halleyStep f64Arith (Ext.fin 0) (Ext.fin (-1 / 1125899906842624 : ℝ))).tol = false ∧
    f64Arith.lt
      (f64Arith.abs (halleyStep f64Arith (Ext.fin 0)
        (halleyIterate f64Arith (Ext.fin 0) 1 (Ext.fin (-1 / 1125899906842624 : ℝ)))).t)
      (halleyStep f64Arith (Ext.fin 0)
        (halleyIterate f64Arith (Ext.fin 0) 1 (Ext.fin (-1 / 1125899906842624 : ℝ)))).tol =
      true ∧
    halleyInteration f64Arith (Ext.fin 0) (Ext.fin (-1 / 1125899906842624 : ℝ)) 100 =
      { Val := halleyIterate f64Arith (Ext.fin 0) 2 (Ext.fin (-1 / 1125899906842624 : ℝ)),
        err := f64Arith.mul (f64Arith.lit 2)
          (halleyStep f64Arith (Ext.fin 0)
            (halleyIterate f64Arith (Ext.fin 0) 1 (Ext.fin (-1 / 1125899906842624 : ℝ)))).tol,
        iters := 2, success := true } ∧
    halleyInteration f64Arith (Ext.fin 0) (Ext.fin (-1 / 1125899906842624 : ℝ)) 100 =
      { Val := Ext.fin 0, err := Ext.fin (1 / 2251799813685248 : ℝ), iters := 2,
        success := true } := by
  unfold f64Arith
  have hit1 : halleyIterate (f64ArithWith Real.exp Real.log) (Ext.fin 0) 1
      (Ext.fin (-1 / 1125899906842624 : ℝ)) = Ext.fin 0 := by
    simp only [halleyIterate, halleyStep_f64_first_pass]
  have hit2 : halleyIterate (f64ArithWith Real.exp Real.log) (Ext.fin 0) 2
      (Ext.fin (-1 / 1125899906842624 : ℝ)) = Ext.fin 0 := by
    simp only [halleyIterate, halleyStep_f64_first_pass, halleyStep_f64_second_pass]
  have h0 : (f64ArithWith Real.exp Real.log).lt
      ((f64ArithWith Real.exp Real.log).abs (halleyStep (f64ArithWith Real.exp Real.log)
        (Ext.fin 0) (Ext.fin (-1 / 1125899906842624 : ℝ))).t)
      (halleyStep (f64ArithWith Real.exp Real.log) (Ext.fin 0)
        (Ext.fin (-1 / 1125899906842624 : ℝ))).tol = false := by
    rw [halleyStep_f64_first_pass]
    show decide (|(-1 / 1125899906842624 : ℝ)| <
      562949953421313 / 2535301200456458802993406410752) = false
    rw [decide_eq_false_iff_not, abs_of_neg (by norm_num)]
    norm_num
  have h1 : (f64ArithWith Real.exp Real.log).lt
      ((f64ArithWith Real.exp Real.log).abs (halleyStep (f64ArithWith Real.exp Real.log)
        (Ext.fin 0) (halleyIterate (f64ArithWith Real.exp Real.log) (Ext.fin 0) 1
          (Ext.fin (-1 / 1125899906842624 : ℝ)))).t)
      (halleyStep (f64ArithWith Real.exp Real.log) (Ext.fin 0)
        (halleyIterate (f64ArithWith Real.exp Real.log) (Ext.fin 0) 1
          (Ext.fin (-1 / 1125899906842624 : ℝ)))).tol = true := by
    rw [hit1, halleyStep_f64_second_pass]
    show decide (|(0 : ℝ)| < 1 / 4503599627370496) = true
    rw [decide_eq_true_eq, abs_zero]
    norm_num
  have hthm := halleyInteration_converged (f64ArithWith Real.exp Real.log) (Ext.fin 0)
    (Ext.fin (-1 / 1125899906842624 : ℝ)) 100 2 (by norm_num) (by norm_num)
  have hiff : (halleyInteration (f64ArithWith Real.exp Real.log) (Ext.fin 0)
      (Ext.fin (-1 / 1125899906842624 : ℝ)) 100).iters = 2 :=
    hthm.1.2 ⟨fun j hj => by
      have hj0 : j = 0 := by
        have : j + 1 < 2 := hj
        omega
      subst hj0
      exact h0, h1⟩
  have hrec := hthm.2.1 hiff
  refine ⟨h0, h1, hrec, ?_⟩
  rw [hrec]
  have e2 : (2 : Int).toNat = 2 := rfl
  simp only [e2, hit2, Nat.add_one_sub_one, hit1, halleyStep_f64_second_pass, f64_lit_two]
  have herr : (f64ArithWith Real.exp Real.log).mul (Ext.fin 2)
      (Ext.fin (1 / 4503599627370496 : ℝ)) = Ext.fin (1 / 2251799813685248 : ℝ) :=
    round64_of_pos _ _ (-51) 4503599627370496 (by norm_num) (by norm_num) (by norm_num)
      (by norm_num) (by norm_num) (by norm_num) (by norm_num)
  rw [herr]

/-- C15 (as stated, refuted).  In binary64 the binary64 number `w = 710` is
above `-1` and satisfies `w * exp(w) == x` for `x = +Inf`, since `exp(710)`
overflows; yet the refiner, called with the cap 100, does not converge on the
first pass: the correction is `+Inf - +Inf = NaN`, and the run ends at the cap
with `Val = NaN` and `iters = 101`. -/
theorem pinf_input_not_fixed_point :
    f64Arith.lt (f64Arith.lit (-1)) (Ext.fin 710) = true ∧
    f64Arith.eq (f64Arith.mul (Ext.fin 710) (f64Arith.exp (Ext.fin 710))) Ext.pinf = true ∧
    halleyInteration f64Arith Ext.pinf (Ext.fin 710) 100 =
      { Val := Ext.nan, err := Ext.nan, iters := 101, success := true } := by
  unfold f64Arith
  have hexp : (f64ArithWith Real.exp Real.log).exp (Ext.fin 710) = Ext.pinf := by
    rw [f64_exp_fin, round64_exp_710]
  have hmul : (f64ArithWith Real.exp Real.log).mul (Ext.fin 710) Ext.pinf = Ext.pinf :=
    f64_mul_pos_pinf _ _ _ (by norm_num)
  have hstep : halleyStep (f64ArithWith Real.exp Real.log) Ext.pinf (Ext.fin 710) =
      { t := Ext.nan, w := Ext.nan, tol := Ext.nan } := by
    have hsub : (f64ArithWith Real.exp Real.log).sub Ext.pinf Ext.pinf = Ext.nan := rfl
    have hlt : (f64ArithWith Real.exp Real.log).lt (Ext.fin 0) (Ext.fin 710) = true := by
      rw [f64_lt_fin]
      simp
    have hsubn : (f64ArithWith Real.exp Real.log).sub (Ext.fin 710) Ext.nan = Ext.nan := rfl
    have habs : (f64ArithWith Real.exp Real.log).abs Ext.nan = Ext.nan := rfl
    have hmax : ∀ b : ℝ, (f64ArithWith Real.exp Real.log).max Ext.nan (Ext.fin b) =
        Ext.nan := fun _ => rfl
    have hmaxp : (f64ArithWith Real.exp Real.log).max Ext.nan Ext.pinf = Ext.pinf := rfl
    have hmuln : (f64ArithWith Real.exp Real.log).mul (Ext.fin (1 / 4503599627370496))
        Ext.nan = Ext.nan := rfl
    have hdivp : (f64ArithWith Real.exp Real.log).div (Ext.fin 1) Ext.pinf = Ext.fin 0 := by
      show round64 0 = Ext.fin 0
      exact round64_zero
    have hp : ∃ p : ℝ, (f64ArithWith Real.exp Real.log).add (Ext.fin 710) (Ext.fin 1) =
        Ext.fin p ∧ 0 < p := by
      obtain ⟨p, hp, hpl, _⟩ := round64_mem (710 + 1) 711 711 (-20) 745537536 745537536
        (by norm_num) (by norm_num) (by norm_num) (by norm_num) (by norm_num) (by norm_num)
        (by norm_num) (by norm_num)
      exact ⟨p, hp, by linarith⟩
    obtain ⟨p, hp, hp0⟩ := hp
    have habsp : (f64ArithWith Real.exp Real.log).abs (Ext.fin p) = Ext.fin |p| := rfl
    have hmulp : (f64ArithWith Real.exp Real.log).mul (Ext.fin |p|) Ext.pinf = Ext.pinf :=
      f64_mul_pos_pinf _ _ _ (abs_pos.mpr hp0.ne')
    simp only [halleyStep]
    rw [f64_lit_zero, f64_lit_one, f64_epsilon, hexp, hmul, hsub, hlt, if_pos rfl,
      f64_div_nan_left, f64_div_nan_left, hsubn, habs, hp, habsp, hmulp, hdivp, hmax, hmuln]
  refine ⟨?_, ?_, ?_⟩
  · rw [f64_lit_neg_one, f64_lt_fin]
    simp
    norm_num
  · rw [hexp, hmul]
    rfl
  · have hfail : ∀ k, k < 100 →
        (f64ArithWith Real.exp Real.log).lt
          ((f64ArithWith Real.exp Real.log).abs
            (halleyStep (f64ArithWith Real.exp Real.log) Ext.pinf
              (halleyIterate (f64ArithWith Real.exp Real.log) Ext.pinf k (Ext.fin 710))).t)
          (halleyStep (f64ArithWith Real.exp Real.log) Ext.pinf
            (halleyIterate (f64ArithWith Real.exp Real.log) Ext.pinf k (Ext.fin 710))).tol =
          false := by
      intro k _
      cases k with
      | zero =>
        rw [halleyIterate, hstep]
        rfl
      | succ k =>
        rw [halleyIterate, hstep, halleyIterate_f64_nan, halleyStep_f64_nan]
        rfl
    unfold halleyInteration
    rw [show (100 : Int).toNat = 100 from rfl,
      halleyLoop_exhausted _ _ 100 1 _ hfail]
    have hlast : halleyIterate (f64ArithWith Real.exp Real.log) Ext.pinf 100 (Ext.fin 710) =
        Ext.nan := by
      rw [show (100 : Nat) = 99 + 1 from rfl, halleyIterate, hstep, halleyIterate_f64_nan]
    rw [hlast]
    rfl

/-- C15 (amended).  In binary64, with an accurate `math.Exp`: for every finite
`x`, every binary64 number `w > -1` with `w * exp(w) == x` and every
`maxIters ≥ 1`, the first pass of the refiner has correction `t == 0` and a
tolerance above zero, so the refiner returns `Val = w`, `iters = 1`,
`success = true` (and `err` twice that tolerance). -/
theorem halleyInteration_fixed_point (fexp flog : ℝ → ℝ) (hexp : ExpAccurate fexp) (r : ℝ)
    (w : Ext) (maxIters : Int) (hm : 1 ≤ maxIters) (hrep : w.round = w)
    (hw : (f64ArithWith fexp flog).lt ((f64ArithWith fexp flog).lit (-1)) w = true)
    (hx : (f64ArithWith fexp flog).eq
      ((f64ArithWith fexp flog).mul w ((f64ArithWith fexp flog).exp w)) (Ext.fin r) = true) :
    (f64ArithWith fexp flog).eq (halleyStep (f64ArithWith fexp flog) (Ext.fin r) w).t
      ((f64ArithWith fexp flog).lit 0) = true ∧
    (f64ArithWith fexp flog).lt ((f64ArithWith fexp flog).lit 0)
      (halleyStep (f64ArithWith fexp flog) (Ext.fin r) w).tol = true ∧
    halleyInteration (f64ArithWith fexp flog) (Ext.fin r) w maxIters =
      { Val := w,
        err := (f64ArithWith fexp flog).mul ((f64ArithWith fexp flog).lit 2)
          (halleyStep (f64ArithWith fexp flog) (Ext.fin r) w).tol,
        iters := 1, success := true } := by
  rw [f64_lit_neg_one] at hw
  cases w with
  | nan => exact absurd hw (by simp [f64ArithWith, Ext.lt])
  | ninf => exact absurd hw (by simp [f64ArithWith, Ext.lt])
  | pinf =>
    have h1 : (f64ArithWith fexp flog).exp Ext.pinf = Ext.pinf := rfl
    have h2 : (f64ArithWith fexp flog).mul Ext.pinf Ext.pinf = Ext.pinf := rfl
    rw [h1, h2] at hx
    exact absurd hx (by simp [f64ArithWith, Ext.eq])
  | fin ω =>
    rw [f64_lt_fin, decide_eq_true_eq] at hw
    obtain ⟨ht, hwv, htol⟩ := halleyStep_f64_fixed fexp flog hexp r ω hrep hw hx
    have hpass : (f64ArithWith fexp flog).lt
        ((f64ArithWith fexp flog).abs
          (halleyStep (f64ArithWith fexp flog) (Ext.fin r) (Ext.fin ω)).t)
        (halleyStep (f64ArithWith fexp flog) (Ext.fin r) (Ext.fin ω)).tol = true := by
      rw [ht]
      have : (f64ArithWith fexp flog).abs (Ext.fin 0) = Ext.fin 0 := by
        show Ext.fin |(0 : ℝ)| = Ext.fin 0
        rw [abs_zero]
      rw [this]
      exact htol
    obtain ⟨n, hn⟩ : ∃ n, maxIters.toNat = n + 1 := ⟨maxIters.toNat - 1, by omega⟩
    refine ⟨?_, ?_, ?_⟩
    · rw [ht, f64_lit_zero, f64_eq_fin]
      simp
    · rw [f64_lit_zero]
      exact htol
    · unfold halleyInteration
      rw [hn, halleyLoop_first_pass _ _ n 1 _ hpass, hwv]

/-- C15 (amended) at the binary64 numbers `w = 1` and
`x = 2.718281828459045 = 1 * exp(1)` of binary64 with the correctly rounded
exponential, with the cap 100. -/
theorem halleyInteration_fixed_point_witness :
    halleyInteration f64Arith (Ext.fin (6121026514868073 / 2251799813685248)) (Ext.fin 1) 100 =
      { Val := Ext.fin 1,
        err := f64Arith.mul (f64Arith.lit 2)
          (halleyStep f64Arith (Ext.fin (6121026514868073 / 2251799813685248)) (Ext.fin 1)).tol,
        iters := 1, success := true } := by
  have hone : round64 1 = Ext.fin 1 :=
    round64_of_pos _ _ 0 4503599627370496 (by norm_num) (by norm_num) (by norm_num)
      (by norm_num) (by norm_num) (by norm_num) (by norm_num)
  have hx : (f64ArithWith Real.exp Real.log).eq
      ((f64ArithWith Real.exp Real.log).mul (Ext.fin 1)
        ((f64ArithWith Real.exp Real.log).exp (Ext.fin 1)))
      (Ext.fin (6121026514868073 / 2251799813685248)) = true := by
    rw [f64_exp_fin, round64_exp_one, f64_mul_fin, one_mul,
      round64_idem _ _ round64_exp_one, f64_eq_fin]
    simp
  exact (halleyInteration_fixed_point Real.exp Real.log expAccurate_exp _ (Ext.fin 1) 100
    (by norm_num) hone (by rw [f64_lit_neg_one, f64_lt_fin]; simp) hx).2.2

/-- C16 (as stated, refuted).  The input `+Inf` is not zero and has
`q = x + 1/e >= 1.0e-03`, yet the initial guess handed to the refiner is NaN,
which is not above `-1`. -/
theorem pinf_input_guess_not_gt_neg_one :
    extArith.eq Ext.pinf (extArith.lit 0) = false ∧
    extArith.ge (extArith.add Ext.pinf (oneOverE extArith)) (extArith.lit 1.0e-03) = true ∧
    GslSfLambertW0E extArith Ext.pinf = halleyInteration extArith Ext.pinf Ext.nan 100 ∧
    extArith.lt (extArith.lit (-1))
      (initialGuess extArith Ext.pinf (extArith.add Ext.pinf (oneOverE extArith))) = false := by
  refine ⟨rfl, ?_, ?_, ?_⟩
  · simp [Arith.ge, extArith, Ext.add, Ext.lt, oneOverE]
  · rw [GslSfLambertW0E_refine extArith Ext.pinf rfl
      (by simp [extArith, Ext.add, Ext.lt, oneOverE])
      (by simp [extArith, Ext.add, Ext.lt, oneOverE]), initialGuess_pinf]
  · rw [initialGuess_pinf]
    rfl

/-- C16 (amended).  In binary64, with an accurate `math.Log`: for every finite
`x` that is not zero and has `q = x + 1/e >= 1.0e-03`, the function hands to
the refiner an initial guess above `-1`, so the divisor `p = w + 1` of the
first pass is above zero; when `x < 1` fails the argument `x` of the first
logarithm is above zero and the guess is at least 0, and when `x > 3` the
argument `ln(x)` of the second logarithm is above zero and the guess is at
least 1. -/
theorem initialGuess_gt_neg_one (fexp flog : ℝ → ℝ) (hlog : LogAccurate flog) (r : ℝ)
    (hr : |r| < (2 : ℝ) ^ (1024 : ℤ))
    (hx : (f64ArithWith fexp flog).eq (Ext.fin r) ((f64ArithWith fexp flog).lit 0) = false)
    (hq : (f64ArithWith fexp flog).ge
      ((f64ArithWith fexp flog).add (Ext.fin r) (oneOverE (f64ArithWith fexp flog)))
      ((f64ArithWith fexp flog).lit 1.0e-03) = true) :
    GslSfLambertW0E (f64ArithWith fexp flog) (Ext.fin r) =
      halleyInteration (f64ArithWith fexp flog) (Ext.fin r)
        (initialGuess (f64ArithWith fexp flog) (Ext.fin r)
          ((f64ArithWith fexp flog).add (Ext.fin r) (oneOverE (f64ArithWith fexp flog)))) 100 ∧
    (f64ArithWith fexp flog).lt ((f64ArithWith fexp flog).lit (-1))
      (initialGuess (f64ArithWith fexp flog) (Ext.fin r)
        ((f64ArithWith fexp flog).add (Ext.fin r) (oneOverE (f64ArithWith fexp flog)))) = true ∧
    (f64ArithWith fexp flog).lt ((f64ArithWith fexp flog).lit 0)
      ((f64ArithWith fexp flog).add
        (initialGuess (f64ArithWith fexp flog) (Ext.fin r)
          ((f64ArithWith fexp flog).add (Ext.fin r) (oneOverE (f64ArithWith fexp flog))))
        ((f64ArithWith fexp flog).lit 1)) = true ∧
    ((f64ArithWith fexp flog).lt (Ext.fin r) ((f64ArithWith fexp flog).lit 1) = false →
      (f64ArithWith fexp flog).lt ((f64ArithWith fexp flog).lit 0) (Ext.fin r) = true ∧
      (f64ArithWith fexp flog).ge
        (initialGuess (f64ArithWith fexp flog) (Ext.fin r)
          ((f64ArithWith fexp flog).add (Ext.fin r) (oneOverE (f64ArithWith fexp flog))))
        ((f64ArithWith fexp flog).lit 0) = true) ∧
    ((f64ArithWith fexp flog).lt ((f64ArithWith fexp flog).lit 3) (Ext.fin r) = true →
      (f64ArithWith fexp flog).lt ((f64ArithWith fexp flog).lit 0)
        ((f64ArithWith fexp flog).log (Ext.fin r)) = true ∧
      (f64ArithWith fexp flog).ge
        (initialGuess (f64ArithWith fexp flog) (Ext.fin r)
          ((f64ArithWith fexp flog).add (Ext.fin r) (oneOverE (f64ArithWith fexp flog))))
        ((f64ArithWith fexp flog).lit 1) = true) := by
  obtain ⟨hq0, hsm⟩ := f64_dispatch_of_ge fexp flog _ hq
  obtain ⟨g, hg, hg1, hg2, hg3, hg4, hg5⟩ := seed_f64 fexp flog hlog r hr hq
  obtain ⟨p, hp, hpl, _⟩ := round64_mem (g + 1) (1 / 128) 712 (-20) 8192 746586112
    (by norm_num) (by norm_num) (by norm_num) (by norm_num) (by norm_num) (by norm_num)
    (by linarith) (by linarith)
  refine ⟨GslSfLambertW0E_refine _ _ hx hq0 hsm, ?_, ?_, fun h1 => ?_, fun h3 => ?_⟩
  · rw [hg, f64_lit_neg_one, f64_lt_fin, decide_eq_true_eq]
    linarith
  · rw [hg, f64_lit_one, f64_add_fin, hp, f64_lit_zero, f64_lt_fin, decide_eq_true_eq]
    linarith
  · rw [f64_lit_one, f64_lt_fin, decide_eq_false_iff_not] at h1
    rw [hg, f64_lit_zero, f64_lt_fin, f64_ge_fin, decide_eq_true_eq, decide_eq_true_eq]
    exact ⟨by linarith [not_lt.mp h1], hg3 h1⟩
  · rw [f64_lit_three, f64_lt_fin, decide_eq_true_eq] at h3
    obtain ⟨w, hw, hw0⟩ := hg5 (by linarith)
    rw [hg, hw, f64_lit_zero, f64_lit_one, f64_lt_fin, f64_ge_fin, decide_eq_true_eq,
      decide_eq_true_eq]
    exact ⟨hw0 h3, hg4 h3⟩

/-- C16 (amended) at the input `x = 10` of binary64 with the correctly rounded
logarithm: the guess is above `-1` and, as `x > 3`, at least 1. -/
theorem initialGuess_gt_neg_one_witness :
    f64Arith.lt (f64Arith.lit (-1))
      (initialGuess f64Arith (Ext.fin 10) (f64Arith.add (Ext.fin 10) (oneOverE f64Arith))) =
        true ∧
    f64Arith.ge
      (initialGuess f64Arith (Ext.fin 10) (f64Arith.add (Ext.fin 10) (oneOverE f64Arith)))
      (f64Arith.lit 1) = true := by
  have hq : (f64ArithWith Real.exp Real.log).ge
      ((f64ArithWith Real.exp Real.log).add (Ext.fin 10)
        (oneOverE (f64ArithWith Real.exp Real.log)))
      ((f64ArithWith Real.exp Real.log).lit 1.0e-03) = true := by
    obtain ⟨c, hc, hcl, _⟩ := round64_mem (10 + 828390857088487 / 2251799813685248) 10 11
      (-20) 10485760 11534336 (by norm_num) (by norm_num) (by norm_num) (by norm_num)
      (by norm_num) (by norm_num) (by norm_num) (by norm_num)
    rw [f64_oneOverE, f64_add_fin, hc, f64_milli, f64_ge_fin, decide_eq_true_eq]
    linarith
  have h := initialGuess_gt_neg_one Real.exp Real.log logAccurate_log 10 (by norm_num)
    (by rw [f64_lit_zero, f64_eq_fin]; simp) hq
  exact ⟨h.2.1, (h.2.2.2.2 (by rw [f64_lit_three, f64_lt_fin]; simp; norm_num)).2⟩

/-- C17 (as stated, refuted).  In binary64 the series is not increasing: the
adjacent binary64 numbers `r1 = 0x1.eb851eb8526b2p-6` and
`r2 = 0x1.eb851eb8526b3p-6` satisfy `0 <= r1 < r2 <= sqrt(1.0e-03)`, yet
`seriesEval(r2) < seriesEval(r1)`. -/
theorem seriesEval_f64_not_increasing :
    round64 (4323455642276697 / 144115188075855872) =
      Ext.fin (4323455642276697 / 144115188075855872) ∧
    round64 (8646911284553395 / 288230376151711744) =
      Ext.fin (8646911284553395 / 288230376151711744) ∧
    (0 : ℝ) ≤ 4323455642276697 / 144115188075855872 ∧
    (4323455642276697 / 144115188075855872 : ℝ) < 8646911284553395 / 288230376151711744 ∧
    (8646911284553395 / 288230376151711744 : ℝ) ≤ Real.sqrt 1.0e-03 ∧
    f64Arith.lt (Ext.fin (4323455642276697 / 144115188075855872))
      (Ext.fin (8646911284553395 / 288230376151711744)) = true ∧
    f64Arith.lt (seriesEval f64Arith (Ext.fin (8646911284553395 / 288230376151711744)))
      (seriesEval f64Arith (Ext.fin (4323455642276697 / 144115188075855872))) = true := by
  refine ⟨?_, ?_, by norm_num, by norm_num, ?_, ?_, ?_⟩
  · exact round64_of_pos _ _ (-6) 8646911284553394 (by norm_num) (by norm_num) (by norm_num)
      (by norm_num) (by norm_num) (by norm_num) (by norm_num)
  · exact round64_of_pos _ _ (-6) 8646911284553395 (by norm_num) (by norm_num) (by norm_num)
      (by norm_num) (by norm_num) (by norm_num) (by norm_num)
  · apply Real.le_sqrt_of_sq_le
    norm_num
  · simp only [f64Arith, f64ArithWith, Ext.lt, decide_eq_true_eq]
    norm_num
  · unfold f64Arith
    rw [seriesEval_f64_lower, seriesEval_f64_upper]
    simp only [f64ArithWith, Ext.lt, decide_eq_true_eq]
    norm_num

/-- C17 (amended).  Over the reals `seriesEval` is strictly increasing on
`[0, sqrt(1.0e-03)]`, and for every real `x` with `0 ≤ x + 1/e < 1.0e-03` the
value returned in exact real arithmetic is at least `-1`, and equal to `-1`
only at the branch point `x = -oneOverE`.  In binary64, where the series is
not increasing, the consequence holds all the same: for every binary64 number
`x` with `0 <= q < 1.0e-03` the value returned is at least `-1`, and equal to
`-1` only when `x == -oneOverE`. -/
theorem seriesEval_strictMono :
    (∀ r1 r2 : ℝ, 0 ≤ r1 → r1 < r2 → r2 ≤ Real.sqrt 1.0e-03 →
      seriesEval realArith r1 < seriesEval realArith r2) ∧
    (∀ x : ℝ, 0 ≤ x + oneOverE realArith → x + oneOverE realArith < ((1.0e-03 : ℚ) : ℝ) →
      -1 ≤ (GslSfLambertW0E realArith x).Val ∧
      ((GslSfLambertW0E realArith x).Val = -1 ↔ x = -oneOverE realArith)) ∧
    (∀ (fexp flog : ℝ → ℝ) (r : ℝ), round64 r = Ext.fin r →
      (f64ArithWith fexp flog).lt
        ((f64ArithWith fexp flog).add (Ext.fin r) (oneOverE (f64ArithWith fexp flog)))
        ((f64ArithWith fexp flog).lit 0) = false →
      (f64ArithWith fexp flog).lt
        ((f64ArithWith fexp flog).add (Ext.fin r) (oneOverE (f64ArithWith fexp flog)))
        ((f64ArithWith fexp flog).lit 1.0e-03) = true →
      (f64ArithWith fexp flog).ge (GslSfLambertW0E (f64ArithWith fexp flog) (Ext.fin r)).Val
        ((f64ArithWith fexp flog).lit (-1)) = true ∧
      ((f64ArithWith fexp flog).eq (GslSfLambertW0E (f64ArithWith fexp flog) (Ext.fin r)).Val
          ((f64ArithWith fexp flog).lit (-1)) = true ↔
        (f64ArithWith fexp flog).eq (Ext.fin r)
          ((f64ArithWith fexp flog).neg (oneOverE (f64ArithWith fexp flog))) = true)) := by
  have hmono : ∀ r1 r2 : ℝ, 0 ≤ r1 → r1 < r2 → r2 ≤ Real.sqrt 1.0e-03 →
      seriesEval realArith r1 < seriesEval realArith r2 := by
    intro r1 r2 h0 h12 h2
    rw [seriesEval_poly, seriesEval_poly]
    exact seriesPoly_lt r1 r2 h0 h12 (le_trans h2 sqrt_small_le)
  refine ⟨hmono, fun x hq0 hq1 => ?_, fun fexp flog r hrep hq0 hq1 => ?_⟩
  swap
  · obtain ⟨v, hv, hv1, hv2⟩ := series_exit_f64 fexp flog r hrep hq0 hq1
    have hneg : (f64ArithWith fexp flog).neg (oneOverE (f64ArithWith fexp flog)) =
        Ext.fin (-(828390857088487 / 2251799813685248)) := by
      rw [f64_oneOverE]
      rfl
    rw [hv, hneg, f64_lit_neg_one, f64_ge_fin, f64_eq_fin, f64_eq_fin, decide_eq_true_eq,
      decide_eq_true_eq, decide_eq_true_eq]
    exact ⟨hv1, hv2⟩
  have hx : realArith.eq x (realArith.lit 0) = false := by
    simp only [realArith, decide_eq_false_iff_not, Rat.cast_zero]
    intro h
    rw [h] at hq1
    simp only [oneOverE, realArith, mathE] at hq1
    norm_num at hq1
  have hval := series_exit_val realArith x hx
    (by simp only [realArith, decide_eq_false_iff_not, not_lt, Rat.cast_zero]; exact hq0)
    (by simp only [realArith, decide_eq_true_eq]; exact hq1)
  rw [hval]
  show -1 ≤ seriesEval realArith (Real.sqrt (x + oneOverE realArith)) ∧
    (seriesEval realArith (Real.sqrt (x + oneOverE realArith)) = -1 ↔
      x = -oneOverE realArith)
  have hzero : seriesEval realArith 0 = -1 := by simp [seriesEval, realArith]
  have hsq0 : 0 ≤ Real.sqrt (x + oneOverE realArith) := Real.sqrt_nonneg _
  have hsq1 : Real.sqrt (x + oneOverE realArith) ≤ Real.sqrt 1.0e-03 :=
    Real.sqrt_le_sqrt (by
      have : ((1.0e-03 : ℚ) : ℝ) = 1.0e-03 := by norm_num
      linarith)
  rcases eq_or_lt_of_le hsq0 with h | h
  · rw [← h, hzero]
    refine ⟨le_refl _, fun _ => ?_, fun _ => rfl⟩
    have := (Real.sqrt_eq_zero hq0).mp h.symm
    linarith
  · have hlt := hmono 0 _ (le_refl 0) h hsq1
    rw [hzero] at hlt
    refine ⟨hlt.le, fun he => absurd he (ne_of_gt hlt), fun he => ?_⟩
    rw [he] at h
    simp at h

/-- C18 (as stated, refuted).  At a NaN input the function reports success
with a NaN error estimate, and NaN does not pass the test
`err >= 2 * EPS * |Val|`. -/
theorem nan_input_err_not_ge :
    (GslSfLambertW0E (withNaN realArith) none).success = true ∧
    (withNaN realArith).ge (GslSfLambertW0E (withNaN realArith) none).err
      ((withNaN realArith).mul
        ((withNaN realArith).mul ((withNaN realArith).lit 2) (gslDblEpsilon (withNaN realArith)))
        ((withNaN realArith).abs (GslSfLambertW0E (withNaN realArith) none).Val)) = false := by
  rw [GslSfLambertW0E_nan]
  simp [Arith.ge, withNaN]

/-- C18 (amended).  In binary64, with an accurate `math.Exp`: for every `x`
(NaN and the infinities included) on which the function reports success, the
comparison `err < 2 * EPS * |Val|` is false, and on the direct exits
(`iters = 0`: the `x == 0` exit and the series) `err == 2 * EPS * |Val|`. -/
theorem GslSfLambertW0E_err_not_below (fexp flog : ℝ → ℝ) (hexp : ExpAccurate fexp) (x : Ext)
    (hs : (GslSfLambertW0E (f64ArithWith fexp flog) x).success = true) :
    (f64ArithWith fexp flog).lt (GslSfLambertW0E (f64ArithWith fexp flog) x).err
      ((f64ArithWith fexp flog).mul
        ((f64ArithWith fexp flog).mul ((f64ArithWith fexp flog).lit 2)
          (gslDblEpsilon (f64ArithWith fexp flog)))
        ((f64ArithWith fexp flog).abs (GslSfLambertW0E (f64ArithWith fexp flog) x).Val)) =
      false ∧
    ((GslSfLambertW0E (f64ArithWith fexp flog) x).iters = 0 →
      (f64ArithWith fexp flog).eq (GslSfLambertW0E (f64ArithWith fexp flog) x).err
        ((f64ArithWith fexp flog).mul
          ((f64ArithWith fexp flog).mul ((f64ArithWith fexp flog).lit 2)
            (gslDblEpsilon (f64ArithWith fexp flog)))
          ((f64ArithWith fexp flog).abs (GslSfLambertW0E (f64ArithWith fexp flog) x).Val)) =
        true) := by
  by_cases hx : (f64ArithWith fexp flog).eq x ((f64ArithWith fexp flog).lit 0) = true
  · have h : GslSfLambertW0E (f64ArithWith fexp flog) x =
        { Val := (f64ArithWith fexp flog).lit 0, err := (f64ArithWith fexp flog).lit 0,
          iters := 0, success := true } := by
      simp [GslSfLambertW0E, hx]
    have hT : (f64ArithWith fexp flog).mul (Ext.fin (1 / 2251799813685248))
        ((f64ArithWith fexp flog).abs (Ext.fin 0)) = Ext.fin 0 := by
      show round64 (1 / 2251799813685248 * |(0 : ℝ)|) = Ext.fin 0
      rw [abs_zero, mul_zero, round64_zero]
    rw [h]
    simp only []
    rw [f64_two_epsilon, f64_lit_zero, hT, f64_lt_fin, f64_eq_fin]
    simp
  · by_cases hq : (f64ArithWith fexp flog).lt
        ((f64ArithWith fexp flog).add x (oneOverE (f64ArithWith fexp flog)))
        ((f64ArithWith fexp flog).lit 0) = true
    · simp [GslSfLambertW0E, hx, hq] at hs
    · by_cases hsm : (f64ArithWith fexp flog).lt
          ((f64ArithWith fexp flog).add x (oneOverE (f64ArithWith fexp flog)))
          ((f64ArithWith fexp flog).lit 1.0e-03) = true
      · rw [Bool.not_eq_true] at hq
        obtain ⟨v, hv, _, _⟩ := series_f64_fin fexp flog _ hq hsm
        have h : GslSfLambertW0E (f64ArithWith fexp flog) x =
            { Val := Ext.fin v,
              err := (f64ArithWith fexp flog).mul
                ((f64ArithWith fexp flog).mul ((f64ArithWith fexp flog).lit 2)
                  (gslDblEpsilon (f64ArithWith fexp flog)))
                ((f64ArithWith fexp flog).abs (Ext.fin v)),
              iters := 0, success := true } := by
          simp [GslSfLambertW0E, hx, hq, hsm, hv]
        rw [h]
        simp only []
        refine ⟨f64_lt_irrefl fexp flog _, fun _ => f64_eq_self fexp flog _ ?_⟩
        rw [f64_two_epsilon]
        exact round64_ne_nan _
      · rw [Bool.not_eq_true] at hx hq hsm
        rw [GslSfLambertW0E_refine _ x hx hq hsm]
        refine ⟨?_, fun h0 => ?_⟩
        · unfold halleyInteration
          exact halleyLoop_err_f64 fexp flog hexp x _ _ _
            (fun a ha => initialGuess_fin_lt fexp flog _ _ a ha)
        · have := halleyInteration_iters_pos (f64ArithWith fexp flog) x
            (initialGuess (f64ArithWith fexp flog) x
              ((f64ArithWith fexp flog).add x (oneOverE (f64ArithWith fexp flog)))) 100
          omega

/-- C18 (amended) at the inputs `x = 1` (refiner) and `x = 0` (direct exit) of
binary64 with the correctly rounded exponential. -/
theorem GslSfLambertW0E_err_not_below_witness :
    f64Arith.lt (GslSfLambertW0E f64Arith (Ext.fin 1)).err
      (f64Arith.mul (f64Arith.mul (f64Arith.lit 2) (gslDblEpsilon f64Arith))
        (f64Arith.abs (GslSfLambertW0E f64Arith (Ext.fin 1)).Val)) = false ∧
    f64Arith.eq (GslSfLambertW0E f64Arith (Ext.fin 0)).err
      (f64Arith.mul (f64Arith.mul (f64Arith.lit 2) (gslDblEpsilon f64Arith))
        (f64Arith.abs (GslSfLambertW0E f64Arith (Ext.fin 0)).Val)) = true := by
  have hx1 : (f64ArithWith Real.exp Real.log).eq (Ext.fin 1)
      ((f64ArithWith Real.exp Real.log).lit 0) = false := by
    rw [f64_lit_zero, f64_eq_fin]
    simp
  have hq : (f64ArithWith Real.exp Real.log).ge
      ((f64ArithWith Real.exp Real.log).add (Ext.fin 1)
        (oneOverE (f64ArithWith Real.exp Real.log)))
      ((f64ArithWith Real.exp Real.log).lit 1.0e-03) = true := by
    obtain ⟨c, hc, hcl, _⟩ := round64_mem (1 + 828390857088487 / 2251799813685248) 1 2
      (-20) 1048576 2097152 (by norm_num) (by norm_num) (by norm_num) (by norm_num)
      (by norm_num) (by norm_num) (by norm_num) (by norm_num)
    rw [f64_oneOverE, f64_add_fin, hc, f64_milli, f64_ge_fin, decide_eq_true_eq]
    linarith
  obtain ⟨hq0, hsm⟩ := f64_dispatch_of_ge Real.exp Real.log _ hq
  have hs1 : (GslSfLambertW0E (f64ArithWith Real.exp Real.log) (Ext.fin 1)).success = true := by
    rw [GslSfLambertW0E_refine _ _ hx1 hq0 hsm]
    exact halleyInteration_success _ _ _ _
  have hzero : GslSfLambertW0E (f64ArithWith Real.exp Real.log) (Ext.fin 0) =
      { Val := (f64ArithWith Real.exp Real.log).lit 0,
        err := (f64ArithWith Real.exp Real.log).lit 0, iters := 0, success := true } := by
    have : (f64ArithWith Real.exp Real.log).eq (Ext.fin 0)
        ((f64ArithWith Real.exp Real.log).lit 0) = true := by
      rw [f64_lit_zero, f64_eq_fin]
      simp
    simp [GslSfLambertW0E, this]
  exact ⟨(GslSfLambertW0E_err_not_below Real.exp Real.log expAccurate_exp (Ext.fin 1) hs1).1,
    (GslSfLambertW0E_err_not_below Real.exp Real.log expAccurate_exp (Ext.fin 0)
      (by rw [hzero])).2 (by rw [hzero])⟩

end Lambert
